import Mathlib

/-!
# ism_WEave chaincode: validation and authorization engine

A shallow embedding of the two Hyperledger Fabric contracts of the repository
(`chaincode/admin-channel` and `chaincode/production-channel`) together with
theorems about their specification functions (`SPEC_*`), their weight
reconciliation and their mutating operations.

Conventions of the embedding

* Go `string` is `String`; `strings.HasPrefix` compares the character lists.
* Go `time.Time` is an instant on the integer time line (`Time := Int`);
  `t.After(u)` is `u < t`.
* Go `float32` is the type `F32` below: IEEE 754 binary32 with
  round-to-nearest-even, infinities, NaN and signed zeros.
* A ledger value is a JSON object (`Record`); the world state (`Ledger`) is the
  key-ordered list of its entries, which is the order `GetStateByRange("", "")`
  iterates in.
* `GetState`, `GetStateByRange`, `PutState` and `GetMSPID` are the external
  collaborators; they are taken to work (they return no error of their own).
* A Go `error` is a value of `Err`, one constructor per `fmt.Errorf` format.
* `encoding/json` is taken to be lossless on ledger values: decoding a stored
  value into `map[string]interface{}` and encoding it again gives back every
  member that was not assigned (Go passes numbers through `float64` there, which
  would round an integer beyond 2^53).
-/

namespace Weave

/-! ## float32 arithmetic -/

/-- Values of Go's `float32`: NaN, the two infinities and the finite values
`(-1)^neg * m * 2^e`.  The values produced by the operations below are in IEEE
form: `m < 2^24`, `-149 ≤ e ≤ 104`, and `2^23 ≤ m` unless `e = -149`. -/
inductive F32 where
  | nan
  | inf (neg : Bool)
  | fin (neg : Bool) (m : Nat) (e : Int)
deriving DecidableEq, Repr

namespace F32

/-- Number of binary digits of `n`, computed with `fuel` halvings (`fuel = n`
is always enough). -/
def bitLen : Nat → Nat → Nat
  | 0, _ => 0
  | fuel + 1, n => if n = 0 then 0 else bitLen fuel (n / 2) + 1

/-- Largest `E` with `2^E ≤ a / b`, for positive `a` and `b`. -/
def floorLog2 (a b : Nat) : Int :=
  let d : Int := (bitLen a a : Int) - (bitLen b b : Int)
  if 0 ≤ d then (if b * 2 ^ d.toNat ≤ a then d else d - 1)
  else (if b ≤ a * 2 ^ (-d).toNat then d else d - 1)

/-- Round the exact value `(-1)^neg * a / b` (with `b ≠ 0`) to the nearest
binary32 value, ties to even; overflow gives an infinity. -/
def round (neg : Bool) (a b : Nat) : F32 :=
  if a = 0 then .fin neg 0 (-149) else
  let E := floorLog2 a b
  let q : Int := max (E - 23) (-149)
  let num := if 0 ≤ q then a else a * 2 ^ (-q).toNat
  let den := if 0 ≤ q then b * 2 ^ q.toNat else b
  let n := num / den
  let r := num % den
  let n1 := if den < 2 * r ∨ (2 * r = den ∧ n % 2 = 1) then n + 1 else n
  let m := if n1 = 2 ^ 24 then 2 ^ 23 else n1
  let e := if n1 = 2 ^ 24 then q + 1 else q
  if 104 < e then .inf neg else .fin neg m e

/-- Conversion of an integer constant or value to `float32`. -/
def ofInt (n : Int) : F32 := round (decide (n < 0)) n.natAbs 1

/-- Conversion of a natural-number constant to `float32`. -/
def ofNat (n : Nat) : F32 := round false n 1

instance (n : Nat) : OfNat F32 n := ⟨ofNat n⟩

/-- Unary minus. -/
def neg : F32 → F32
  | .nan => .nan
  | .inf s => .inf (!s)
  | .fin s m e => .fin (!s) m e

/-- Addition on `float32`. -/
def add : F32 → F32 → F32
  | .nan, _ => .nan
  | _, .nan => .nan
  | .inf s, .inf t => if s = t then .inf s else .nan
  | .inf s, .fin _ _ _ => .inf s
  | .fin _ _ _, .inf t => .inf t
  | .fin s m e, .fin t n f =>
    let e0 : Int := min e f
    let x : Int := (m * 2 ^ (e - e0).toNat : Nat)
    let y : Int := (n * 2 ^ (f - e0).toNat : Nat)
    let z : Int := (if s then -x else x) + (if t then -y else y)
    if z = 0 then .fin (s && t) 0 (-149)
    else if 0 ≤ e0 then round (decide (z < 0)) (z.natAbs * 2 ^ e0.toNat) 1
    else round (decide (z < 0)) z.natAbs (2 ^ (-e0).toNat)

/-- Subtraction on `float32`. -/
def sub (x y : F32) : F32 := add x (neg y)

/-- Multiplication on `float32`. -/
def mul : F32 → F32 → F32
  | .nan, _ => .nan
  | _, .nan => .nan
  | .inf s, .inf t => .inf (xor s t)
  | .inf s, .fin t n _ => if n = 0 then .nan else .inf (xor s t)
  | .fin s m _, .inf t => if m = 0 then .nan else .inf (xor s t)
  | .fin s m e, .fin t n f =>
    let g : Int := e + f
    if 0 ≤ g then round (xor s t) (m * n * 2 ^ g.toNat) 1
    else round (xor s t) (m * n) (2 ^ (-g).toNat)

/-- Division on `float32`. -/
def div : F32 → F32 → F32
  | .nan, _ => .nan
  | _, .nan => .nan
  | .inf _, .inf _ => .nan
  | .inf s, .fin t _ _ => .inf (xor s t)
  | .fin s _ _, .inf t => .fin (xor s t) 0 (-149)
  | .fin s m e, .fin t n f =>
    if n = 0 then (if m = 0 then .nan else .inf (xor s t))
    else round (xor s t) (m * 2 ^ (e - f).toNat) (n * 2 ^ (f - e).toNat)

instance : Add F32 := ⟨add⟩
instance : Sub F32 := ⟨sub⟩
instance : Mul F32 := ⟨mul⟩
instance : Div F32 := ⟨div⟩
instance : Neg F32 := ⟨neg⟩

/-- Go's `x == y` on `float32`: NaN equals nothing, the two zeros are equal. -/
def eq : F32 → F32 → Bool
  | .nan, _ => false
  | _, .nan => false
  | .inf s, .inf t => s == t
  | .inf _, .fin _ _ _ => false
  | .fin _ _ _, .inf _ => false
  | .fin s m e, .fin t n f =>
    (m == 0 && n == 0) ||
    (s == t && m * 2 ^ (e - min e f).toNat == n * 2 ^ (f - min e f).toNat)

/-- Finite values: the ones `encoding/json` can marshal. -/
def isFinite : F32 → Bool
  | .fin _ _ _ => true
  | _ => false

end F32

/-! ## Weight reconciliation (`production_audit_functions.go`) -/

/-- `GetPercentageDifference(original, new float32) float32`. -/
def GetPercentageDifference (original new : F32) : F32 :=
  if F32.eq original 0 then 0
  else ((new - original) / original) * 100

/-! ## Errors, time, JSON values and the world state -/

/-- Instants of `time.Time`, counted from Go's zero time. -/
abbrev Time := Int

/-- The `error` values the chaincode returns, one constructor per message
format; `json` is an error of `encoding/json` (a field of the wrong JSON kind
on `Unmarshal`, an unsupported float value on `Marshal`) and `wrap msg e` is
`fmt.Errorf(msg + ": %v", e)`; `typeAssertion` is the run-time panic of a failed
type assertion `x.(T)`. -/
inductive Err where
  | json
  | wrap (msg : String) (inner : Err)
  | alreadyExists (id : String)
  | notExist (id : String)
  | idPrefix (id pre : String)
  | flagReasonRequired
  | flagReasonForbidden
  | isFlaggedMissing (id : String)
  | flagged (id : String)
  | chronology (date previous : Time)
  | notAllowedOrg (client : String) (allowed : List String)
  | emptyContent
  | wrongPrefix (asset pre : String)
  | contentAccess (asset : String) (inner : Err)
  | alreadyStored (asset lot other : String)
  | lotNotExist (lot : String)
  | contentNotArray (lot : String)
  | lotWrongPrefix (asset lot pre : String)
  | duplicate (asset : String)
  | assetMissing (asset : String)
  | approvalMissing (asset : String)
  | approvalFalse (asset : String)
  | ownerNotAllowed (newOwner : String) (allowed : List String)
  | invalidTotalWeight (asset : String)
  | orderNotExist (id : String)
  | planNotExist (id : String)
  | factoryNotExist (id : String)
  | notReady (condition : Nat)
  | badStatus (newStatus : String)
  | invalidRecordType (recordType : String)
  | typeAssertion
deriving DecidableEq, Repr

deriving instance DecidableEq for Except

/-- A Go `[]string`; `none` is the nil slice, which marshals to `null`. -/
abbrev Slice := Option (List String)

/-- The elements a `range` loop over the slice visits. -/
def Slice.elems : Slice → List String
  | none => []
  | some l => l

/-- JSON values as they occur in ledger records.  A JSON string that is the
RFC 3339 text of an instant is `time`, any other string is `str`; a number
written from an integer field is `int`, any other number is `num`. -/
inductive JVal where
  | null
  | bool (b : Bool)
  | num (x : F32)
  | int (n : Int)
  | str (s : String)
  | time (t : Time)
  | strs (l : List String)
deriving DecidableEq, Repr

/-- JSON objects, the values of the ledger: the list of their members. -/
abbrev Record := List (String × JVal)

/-- The world state: its entries in key order. -/
abbrev Ledger := List (String × Record)

/-- The byte-wise lexical order of Go strings, which on UTF-8 text is the
lexical order of the code points. -/
def keyLt : List Char → List Char → Bool
  | _, [] => false
  | [], _ :: _ => true
  | a :: s, b :: t => decide (a.toNat < b.toNat) || (a.toNat == b.toNat && keyLt s t)

/-- Insert or replace the entry of key `k` in a key-ordered list. -/
def putEntry {α : Type} (k : String) (v : α) : List (String × α) → List (String × α)
  | [] => [(k, v)]
  | (k1, v1) :: t =>
    if keyLt k.data k1.data then (k, v) :: (k1, v1) :: t
    else if k = k1 then (k, v) :: t
    else (k1, v1) :: putEntry k v t

/-- Member `k` of a JSON object (`asset[k]` on the unmarshalled map; `none`
is the missing key). -/
def Record.get (r : Record) (k : String) : Option JVal := r.lookup k

/-- Assignment `asset[k] = v` on the unmarshalled map; `json.Marshal` writes
the members of a map in key order. -/
def Record.set (r : Record) (k : String) (v : JVal) : Record := putEntry k v r

/-- `ctx.GetStub().GetState(key)`; `none` is the nil result. -/
def GetState (st : Ledger) (key : String) : Option Record := st.lookup key

/-- `ctx.GetStub().PutState(key, value)`. -/
def PutState (st : Ledger) (key : String) (value : Record) : Ledger := putEntry key value st

/-- `json.Marshal` of a record: it fails on a float that is NaN or infinite. -/
def Marshal (r : Record) : Except Err Record :=
  if r.all (fun kv => match kv.2 with | .num x => x.isFinite | _ => true) then .ok r
  else .error .json

/-- The transaction context: the committed world state the stub reads, the
MSP ID of the invoking client and the reading of `time.Now()`. -/
structure Ctx where
  state : Ledger
  mspid : String
  now : Time

/-- What an invocation leaves behind: the returned `error` (`none` is `nil`)
and the world state. -/
structure Result where
  err : Option Err
  state : Ledger
deriving DecidableEq, Repr

/-- The tail of every mutating operation: each `return err` before the final
statement leaves the world state as it was, and the final statement is the
only `PutState`. -/
def finish (ctx : Ctx) (key : String) (r : Except Err Record) : Result :=
  match r with
  | .error e => ⟨some e, ctx.state⟩
  | .ok value => ⟨none, PutState ctx.state key value⟩

/-- A `for _, x := range l` loop whose body returns on the first error. -/
def forEach {α : Type} (l : List α) (f : α → Except Err Unit) : Except Err Unit :=
  match l with
  | [] => .ok ()
  | a :: t =>
    match f a with
    | .error e => .error e
    | .ok _ => forEach t f

/-! ## Specification functions shared by both contracts
(`admin_spec_functions.go`, `production_spec_functions.go`) -/

/-- `strings.HasPrefix(s, pre)`. -/
def HasPrefix (s pre : String) : Bool := pre.data.isPrefixOf s.data

/-- `SPEC_IsNewAsset` ensures that the asset does not already exist. -/
def SPEC_IsNewAsset (ctx : Ctx) (id : String) : Except Err Unit :=
  match GetState ctx.state id with
  | some _ => .error (.alreadyExists id)
  | none => .ok ()

/-- `SPEC_AssetExists` ensures that the asset exists. -/
def SPEC_AssetExists (ctx : Ctx) (assetID : String) : Except Err Unit :=
  match GetState ctx.state assetID with
  | none => .error (.notExist assetID)
  | some _ => .ok ()

/-- `SPEC_IDPrefix` ensures that the id starts with the correct prefix. -/
def SPEC_IDPrefix (id pre : String) : Except Err Unit :=
  if !HasPrefix id pre then .error (.idPrefix id pre) else .ok ()

/-- `SPEC_IsValidFlag`: the flag reason is provided if `isFlagged` is true and
is empty or `N/A` if it is false. -/
def SPEC_IsValidFlag (isFlagged : Bool) (flagReason : String) : Except Err Unit :=
  if isFlagged && (flagReason.length == 0 || flagReason == "N/A") then
    .error .flagReasonRequired
  else if !isFlagged && (flagReason.length != 0 && flagReason != "N/A") then
    .error .flagReasonForbidden
  else .ok ()

/-- `SPEC_Chronology(dates ...time.Time)`: the loop `for i := 1; i < len(dates)`
compares each date with its predecessor. -/
def SPEC_Chronology : List Time → Except Err Unit
  | [] => .ok ()
  | [_] => .ok ()
  | a :: b :: rest =>
    if !(a < b) then .error (.chronology b a) else SPEC_Chronology (b :: rest)

/-- `SPEC_IsInvokedByAllowedOrg` checks that the client MSP ID is one of the
allowed ones. -/
def SPEC_IsInvokedByAllowedOrg (ctx : Ctx) (allowedOrgMSPIDs : List String) :
    Except Err Unit :=
  if ctx.mspid ∈ allowedOrgMSPIDs then .ok ()
  else .error (.notAllowedOrg ctx.mspid allowedOrgMSPIDs)

/-! ## Decoding of JSON members into typed struct fields

`json.Unmarshal` into a struct leaves a field at its zero value when the member
is missing or `null`, and fails when the member has another JSON kind than the
field. -/

/-- Decoding into a `string` field. -/
def fieldString (r : Record) (k : String) : Except Err String :=
  match r.get k with
  | none => .ok ""
  | some .null => .ok ""
  | some (.str s) => .ok s
  | some _ => .error .json

/-- Decoding into a `bool` field. -/
def fieldBool (r : Record) (k : String) : Except Err Bool :=
  match r.get k with
  | none => .ok false
  | some .null => .ok false
  | some (.bool b) => .ok b
  | some _ => .error .json

/-- Decoding into a `float32` field; a number out of the `float32` range is
rejected. -/
def fieldFloat32 (r : Record) (k : String) : Except Err F32 :=
  match r.get k with
  | none => .ok 0
  | some .null => .ok 0
  | some (.num x) => .ok x
  | some (.int n) => if (F32.ofInt n).isFinite then .ok (F32.ofInt n) else .error .json
  | some _ => .error .json

/-- Decoding into an `int` field. -/
def fieldInt (r : Record) (k : String) : Except Err Int :=
  match r.get k with
  | none => .ok 0
  | some .null => .ok 0
  | some (.int n) => .ok n
  | some _ => .error .json

/-- Decoding into a `time.Time` field. -/
def fieldTime (r : Record) (k : String) : Except Err Time :=
  match r.get k with
  | none => .ok 0
  | some .null => .ok 0
  | some (.time t) => .ok t
  | some _ => .error .json

/-- Decoding into a `[]string` field. -/
def fieldSlice (r : Record) (k : String) : Except Err Slice :=
  match r.get k with
  | none => .ok none
  | some .null => .ok none
  | some (.strs l) => .ok (some l)
  | some _ => .error .json

/-- Encoding of a `[]string` field. -/
def Slice.toJSON : Slice → JVal
  | none => .null
  | some l => .strs l

/-! ## Production channel: assets (`production_assets.go`) -/

/-- Asset: CottonBale. -/
structure CottonBale where
  Approval : Bool
  AssemblyDate : Time
  CreatorID : String
  FlagReason : String
  ID : String
  IsFlagged : Bool
  Notes : String
  Origin : String
  QualityGrade : String
  TotalWeight : F32
  UpdatedAt : Time

/-- Asset: Lot. -/
structure Lot where
  AllAssetsApproved : Bool
  AssemblyDate : Time
  AssetIDPrefix : String
  Content : Slice
  ContentWeight : F32
  CreatorID : String
  Destination : String
  FlagReason : String
  ID : String
  IsFlagged : Bool
  Notes : String
  Origin : String
  Owner : String
  PreviousOwner : String
  Quantity : Int
  TotalWeight : F32
  UpdatedAt : Time
  WeightDifference : F32

/-- Asset: CottonYarn. -/
structure CottonYarn where
  Approval : Bool
  AssemblyDate : Time
  Content : Slice
  ContentWeight : F32
  CreatorID : String
  FlagReason : String
  ID : String
  IsFlagged : Bool
  Notes : String
  Origin : String
  TotalWeight : F32
  UpdatedAt : Time
  WeightDifference : F32
  YarnCount : Int

/-- Asset: UnfinishedFabric. -/
structure UnfinishedFabric where
  Approval : Bool
  AssemblyDate : Time
  Content : Slice
  ContentWeight : F32
  CreatorID : String
  FlagReason : String
  ID : String
  IsFlagged : Bool
  Length : F32
  Notes : String
  Origin : String
  TotalWeight : F32
  UpdatedAt : Time
  WeightDifference : F32
  Width : F32

/-- Asset: FinishedFabric. -/
structure FinishedFabric where
  Approval : Bool
  AssemblyDate : Time
  Content : Slice
  ContentWeight : F32
  CreatorID : String
  FlagReason : String
  ID : String
  IsFlagged : Bool
  Length : F32
  Notes : String
  Origin : String
  TotalWeight : F32
  UpdatedAt : Time
  WeightDifference : F32
  Width : F32

/-- Asset: CutPart. -/
structure CutPart where
  Approval : Bool
  AssemblyDate : Time
  Content : Slice
  ContentWeight : F32
  CreatorID : String
  FlagReason : String
  ID : String
  IsFlagged : Bool
  Notes : String
  Origin : String
  PatternPiece : String
  TotalWeight : F32
  UpdatedAt : Time
  WeightDifference : F32

/-- Asset: Button. -/
structure Button where
  Approval : Bool
  AssemblyDate : Time
  CreatorID : String
  FlagReason : String
  ID : String
  IsFlagged : Bool
  Notes : String
  Origin : String
  TotalWeight : F32
  UpdatedAt : Time

/-- Asset: AssembledGarment. -/
structure AssembledGarment where
  Approval : Bool
  AssemblyDate : Time
  Buttons : Slice
  ContentWeight : F32
  CreatorID : String
  CutParts : Slice
  FlagReason : String
  ID : String
  IsFlagged : Bool
  Notes : String
  Origin : String
  TotalWeight : F32
  UpdatedAt : Time
  WeightDifference : F32

/-- Asset: Carton. -/
structure Carton where
  AllAssetsApproved : Bool
  AssemblyDate : Time
  Content : Slice
  ContentWeight : F32
  CreatorID : String
  CustomerID : String
  FlagReason : String
  ID : String
  IsFlagged : Bool
  Notes : String
  Origin : String
  Owner : String
  PreviousOwner : String
  Quantity : Int
  TotalWeight : F32
  UpdatedAt : Time
  WeightDifference : F32

/-- Asset: Container. -/
structure Container where
  AssetType : String
  Content : Slice
  ContentWeight : F32
  CreatorID : String
  DestinationPort : String
  FlagReason : String
  ID : String
  IsFlagged : Bool
  LoadedAt : Time
  OriginPort : String
  TotalWeight : F32
  UpdatedAt : Time
  Vessel : String
  WeightDifference : F32

/-! ### `json.Marshal` of the production assets: the members in field order -/

/-- The JSON object of a `CottonBale`. -/
def CottonBale.toJSON (a : CottonBale) : Record :=
  [("Approval", .bool a.Approval),
   ("AssemblyDate", .time a.AssemblyDate),
   ("CreatorID", .str a.CreatorID),
   ("FlagReason", .str a.FlagReason),
   ("ID", .str a.ID),
   ("IsFlagged", .bool a.IsFlagged),
   ("Notes", .str a.Notes),
   ("Origin", .str a.Origin),
   ("QualityGrade", .str a.QualityGrade),
   ("TotalWeight", .num a.TotalWeight),
   ("UpdatedAt", .time a.UpdatedAt)]

/-- The JSON object of a `Lot`. -/
def Lot.toJSON (a : Lot) : Record :=
  [("AllAssetsApproved", .bool a.AllAssetsApproved),
   ("AssemblyDate", .time a.AssemblyDate),
   ("AssetIDPrefix", .str a.AssetIDPrefix),
   ("Content", a.Content.toJSON),
   ("ContentWeight", .num a.ContentWeight),
   ("CreatorID", .str a.CreatorID),
   ("Destination", .str a.Destination),
   ("FlagReason", .str a.FlagReason),
   ("ID", .str a.ID),
   ("IsFlagged", .bool a.IsFlagged),
   ("Notes", .str a.Notes),
   ("Origin", .str a.Origin),
   ("Owner", .str a.Owner),
   ("PreviousOwner", .str a.PreviousOwner),
   ("Quantity", .int a.Quantity),
   ("TotalWeight", .num a.TotalWeight),
   ("UpdatedAt", .time a.UpdatedAt),
   ("WeightDifference", .num a.WeightDifference)]

/-- The JSON object of a `CottonYarn`. -/
def CottonYarn.toJSON (a : CottonYarn) : Record :=
  [("Approval", .bool a.Approval),
   ("AssemblyDate", .time a.AssemblyDate),
   ("Content", a.Content.toJSON),
   ("ContentWeight", .num a.ContentWeight),
   ("CreatorID", .str a.CreatorID),
   ("FlagReason", .str a.FlagReason),
   ("ID", .str a.ID),
   ("IsFlagged", .bool a.IsFlagged),
   ("Notes", .str a.Notes),
   ("Origin", .str a.Origin),
   ("TotalWeight", .num a.TotalWeight),
   ("UpdatedAt", .time a.UpdatedAt),
   ("WeightDifference", .num a.WeightDifference),
   ("YarnCount", .int a.YarnCount)]

/-- The JSON object of a `UnfinishedFabric`. -/
def UnfinishedFabric.toJSON (a : UnfinishedFabric) : Record :=
  [("Approval", .bool a.Approval),
   ("AssemblyDate", .time a.AssemblyDate),
   ("Content", a.Content.toJSON),
   ("ContentWeight", .num a.ContentWeight),
   ("CreatorID", .str a.CreatorID),
   ("FlagReason", .str a.FlagReason),
   ("ID", .str a.ID),
   ("IsFlagged", .bool a.IsFlagged),
   ("Length", .num a.Length),
   ("Notes", .str a.Notes),
   ("Origin", .str a.Origin),
   ("TotalWeight", .num a.TotalWeight),
   ("UpdatedAt", .time a.UpdatedAt),
   ("WeightDifference", .num a.WeightDifference),
   ("Width", .num a.Width)]

/-- The JSON object of a `FinishedFabric`. -/
def FinishedFabric.toJSON (a : FinishedFabric) : Record :=
  [("Approval", .bool a.Approval),
   ("AssemblyDate", .time a.AssemblyDate),
   ("Content", a.Content.toJSON),
   ("ContentWeight", .num a.ContentWeight),
   ("CreatorID", .str a.CreatorID),
   ("FlagReason", .str a.FlagReason),
   ("ID", .str a.ID),
   ("IsFlagged", .bool a.IsFlagged),
   ("Length", .num a.Length),
   ("Notes", .str a.Notes),
   ("Origin", .str a.Origin),
   ("TotalWeight", .num a.TotalWeight),
   ("UpdatedAt", .time a.UpdatedAt),
   ("WeightDifference", .num a.WeightDifference),
   ("Width", .num a.Width)]

/-- The JSON object of a `CutPart`. -/
def CutPart.toJSON (a : CutPart) : Record :=
  [("Approval", .bool a.Approval),
   ("AssemblyDate", .time a.AssemblyDate),
   ("Content", a.Content.toJSON),
   ("ContentWeight", .num a.ContentWeight),
   ("CreatorID", .str a.CreatorID),
   ("FlagReason", .str a.FlagReason),
   ("ID", .str a.ID),
   ("IsFlagged", .bool a.IsFlagged),
   ("Notes", .str a.Notes),
   ("Origin", .str a.Origin),
   ("PatternPiece", .str a.PatternPiece),
   ("TotalWeight", .num a.TotalWeight),
   ("UpdatedAt", .time a.UpdatedAt),
   ("WeightDifference", .num a.WeightDifference)]

/-- The JSON object of a `Button`. -/
def Button.toJSON (a : Button) : Record :=
  [("Approval", .bool a.Approval),
   ("AssemblyDate", .time a.AssemblyDate),
   ("CreatorID", .str a.CreatorID),
   ("FlagReason", .str a.FlagReason),
   ("ID", .str a.ID),
   ("IsFlagged", .bool a.IsFlagged),
   ("Notes", .str a.Notes),
   ("Origin", .str a.Origin),
   ("TotalWeight", .num a.TotalWeight),
   ("UpdatedAt", .time a.UpdatedAt)]

/-- The JSON object of a `AssembledGarment`. -/
def AssembledGarment.toJSON (a : AssembledGarment) : Record :=
  [("Approval", .bool a.Approval),
   ("AssemblyDate", .time a.AssemblyDate),
   ("Buttons", a.Buttons.toJSON),
   ("ContentWeight", .num a.ContentWeight),
   ("CreatorID", .str a.CreatorID),
   ("CutParts", a.CutParts.toJSON),
   ("FlagReason", .str a.FlagReason),
   ("ID", .str a.ID),
   ("IsFlagged", .bool a.IsFlagged),
   ("Notes", .str a.Notes),
   ("Origin", .str a.Origin),
   ("TotalWeight", .num a.TotalWeight),
   ("UpdatedAt", .time a.UpdatedAt),
   ("WeightDifference", .num a.WeightDifference)]

/-- The JSON object of a `Carton`. -/
def Carton.toJSON (a : Carton) : Record :=
  [("AllAssetsApproved", .bool a.AllAssetsApproved),
   ("AssemblyDate", .time a.AssemblyDate),
   ("Content", a.Content.toJSON),
   ("ContentWeight", .num a.ContentWeight),
   ("CreatorID", .str a.CreatorID),
   ("CustomerID", .str a.CustomerID),
   ("FlagReason", .str a.FlagReason),
   ("ID", .str a.ID),
   ("IsFlagged", .bool a.IsFlagged),
   ("Notes", .str a.Notes),
   ("Origin", .str a.Origin),
   ("Owner", .str a.Owner),
   ("PreviousOwner", .str a.PreviousOwner),
   ("Quantity", .int a.Quantity),
   ("TotalWeight", .num a.TotalWeight),
   ("UpdatedAt", .time a.UpdatedAt),
   ("WeightDifference", .num a.WeightDifference)]

/-- The JSON object of a `Container`. -/
def Container.toJSON (a : Container) : Record :=
  [("AssetType", .str a.AssetType),
   ("Content", a.Content.toJSON),
   ("ContentWeight", .num a.ContentWeight),
   ("CreatorID", .str a.CreatorID),
   ("DestinationPort", .str a.DestinationPort),
   ("FlagReason", .str a.FlagReason),
   ("ID", .str a.ID),
   ("IsFlagged", .bool a.IsFlagged),
   ("LoadedAt", .time a.LoadedAt),
   ("OriginPort", .str a.OriginPort),
   ("TotalWeight", .num a.TotalWeight),
   ("UpdatedAt", .time a.UpdatedAt),
   ("Vessel", .str a.Vessel),
   ("WeightDifference", .num a.WeightDifference)]

/-- `json.Unmarshal(value, &checkLot)` with `checkLot` a zero `Lot`. -/
def UnmarshalLot (r : Record) : Except Err Lot := do
  let vAllAssetsApproved ← fieldBool r "AllAssetsApproved"
  let vAssemblyDate ← fieldTime r "AssemblyDate"
  let vAssetIDPrefix ← fieldString r "AssetIDPrefix"
  let vContent ← fieldSlice r "Content"
  let vContentWeight ← fieldFloat32 r "ContentWeight"
  let vCreatorID ← fieldString r "CreatorID"
  let vDestination ← fieldString r "Destination"
  let vFlagReason ← fieldString r "FlagReason"
  let vID ← fieldString r "ID"
  let vIsFlagged ← fieldBool r "IsFlagged"
  let vNotes ← fieldString r "Notes"
  let vOrigin ← fieldString r "Origin"
  let vOwner ← fieldString r "Owner"
  let vPreviousOwner ← fieldString r "PreviousOwner"
  let vQuantity ← fieldInt r "Quantity"
  let vTotalWeight ← fieldFloat32 r "TotalWeight"
  let vUpdatedAt ← fieldTime r "UpdatedAt"
  let vWeightDifference ← fieldFloat32 r "WeightDifference"
  pure
    { AllAssetsApproved := vAllAssetsApproved,
      AssemblyDate := vAssemblyDate,
      AssetIDPrefix := vAssetIDPrefix,
      Content := vContent,
      ContentWeight := vContentWeight,
      CreatorID := vCreatorID,
      Destination := vDestination,
      FlagReason := vFlagReason,
      ID := vID,
      IsFlagged := vIsFlagged,
      Notes := vNotes,
      Origin := vOrigin,
      Owner := vOwner,
      PreviousOwner := vPreviousOwner,
      Quantity := vQuantity,
      TotalWeight := vTotalWeight,
      UpdatedAt := vUpdatedAt,
      WeightDifference := vWeightDifference }

/-! ## Production channel: specification functions
(`production_spec_functions.go`) -/

/-- `SPEC_IsNotFlagged` ensures that the asset is not flagged. -/
def SPEC_IsNotFlagged (ctx : Ctx) (assetID : String) : Except Err Unit :=
  match GetState ctx.state assetID with
  | none => .error (.notExist assetID)
  | some asset =>
    match asset.get "IsFlagged" with
    | some (.bool isFlagged) => if isFlagged then .error (.flagged assetID) else .ok ()
    | _ => .error (.isFlaggedMissing assetID)

/-- The loop of `SPEC_LotConsistency` over the content list. -/
def SPEC_LotConsistency.loop (ctx : Ctx) (assetIDPrefix : String) :
    List String → Except Err Unit
  | [] => .ok ()
  | assetID :: rest =>
    if !HasPrefix assetID assetIDPrefix then .error (.wrongPrefix assetID assetIDPrefix)
    else
      match SPEC_AssetExists ctx assetID with
      | .error e => .error (.contentAccess assetID e)
      | .ok _ => SPEC_LotConsistency.loop ctx assetIDPrefix rest

/-- `SPEC_LotConsistency` ensures that the content list is not empty, that each
asset in it has the correct prefix and that each asset exists in the ledger. -/
def SPEC_LotConsistency (ctx : Ctx) (content : Slice) (assetIDPrefix : String) :
    Except Err Unit :=
  if content.elems.length == 0 then .error .emptyContent
  else SPEC_LotConsistency.loop ctx assetIDPrefix content.elems

/-- The loop of `SPEC_NoDuplicateAssetInState` over the range iterator: every
value is unmarshalled as a `Lot`, the entry whose `ID` is the current lot is
skipped, and the first listed asset found in the `Content` of another entry is
reported. -/
def SPEC_NoDuplicateAssetInState.scan (currentLotID : String) (content : List String) :
    Ledger → Except Err Unit
  | [] => .ok ()
  | (_, value) :: rest =>
    match UnmarshalLot value with
    | .error e => .error (.wrap "failed to unmarshal lot" e)
    | .ok checkLot =>
      if checkLot.ID = currentLotID then
        SPEC_NoDuplicateAssetInState.scan currentLotID content rest
      else
        match content.find? (fun assetID => checkLot.Content.elems.contains assetID) with
        | some assetID => .error (.alreadyStored assetID currentLotID checkLot.ID)
        | none => SPEC_NoDuplicateAssetInState.scan currentLotID content rest

/-- `SPEC_NoDuplicateAssetInState` ensures that each asset in the given lot is
not stored in the contents of any other entry of the state. -/
def SPEC_NoDuplicateAssetInState (ctx : Ctx) (currentLotID : String) (content : Slice) :
    Except Err Unit :=
  SPEC_NoDuplicateAssetInState.scan currentLotID content.elems ctx.state

/-- The loop of `SPEC_CheckLotAssetType` over the `Content` array of the lot. -/
def SPEC_CheckLotAssetType.loop (lotID pre : String) : List String → Except Err Unit
  | [] => .ok ()
  | assetID :: rest =>
    if !HasPrefix assetID pre then .error (.lotWrongPrefix assetID lotID pre)
    else SPEC_CheckLotAssetType.loop lotID pre rest

/-- `SPEC_CheckLotAssetType`: the entry `lotID` exists, its `Content` member is
an array, and every element of it has the given prefix. -/
def SPEC_CheckLotAssetType (ctx : Ctx) (lotID pre : String) : Except Err Unit :=
  match GetState ctx.state lotID with
  | none => .error (.lotNotExist lotID)
  | some lotMap =>
    match lotMap.get "Content" with
    | some (.strs content) => SPEC_CheckLotAssetType.loop lotID pre content
    | _ => .error (.contentNotArray lotID)

/-- The loop of `SPEC_NoDuplicateAssetInThisLot`; `seen` holds the keys of
`assetMap`. -/
def SPEC_NoDuplicateAssetInThisLot.loop : List String → List String → Except Err Unit
  | _, [] => .ok ()
  | seen, assetID :: rest =>
    if assetID ∈ seen then .error (.duplicate assetID)
    else SPEC_NoDuplicateAssetInThisLot.loop (assetID :: seen) rest

/-- `SPEC_NoDuplicateAssetInThisLot` ensures that there are no duplicate asset
IDs in the content list. -/
def SPEC_NoDuplicateAssetInThisLot (content : Slice) : Except Err Unit :=
  SPEC_NoDuplicateAssetInThisLot.loop [] content.elems

/-- The body of the loop of `SPEC_CheckAssetsApproval`. -/
def SPEC_CheckAssetsApproval.body (ctx : Ctx) (assetID : String) : Except Err Unit :=
  match GetState ctx.state assetID with
  | none => .error (.assetMissing assetID)
  | some assetMap =>
    match assetMap.get "Approval" with
    | some (.bool approval) => if !approval then .error (.approvalFalse assetID) else .ok ()
    | _ => .error (.approvalMissing assetID)

/-- `SPEC_CheckAssetsApproval` checks that all assets in the content list have
their approval field set to true. -/
def SPEC_CheckAssetsApproval (ctx : Ctx) (content : Slice) : Except Err Unit :=
  forEach content.elems (SPEC_CheckAssetsApproval.body ctx)

/-- `SPEC_IsAllowedToOwn` checks that the new owner is one of the allowed
organizations. -/
def SPEC_IsAllowedToOwn (newOwner : String) (allowedOrgMSPIDs : List String) :
    Except Err Unit :=
  if newOwner ∈ allowedOrgMSPIDs then .ok ()
  else .error (.ownerNotAllowed newOwner allowedOrgMSPIDs)

/-! ## Production channel: audit functions (`production_audit_functions.go`) -/

/-- The loop of `GetContentWeight`; `contentWeight` is the running sum.  The
member `TotalWeight` must be a JSON number. -/
def GetContentWeight.loop (ctx : Ctx) : List String → F32 → Except Err F32
  | [], contentWeight => .ok contentWeight
  | assetID :: rest, contentWeight =>
    match GetState ctx.state assetID with
    | none => .error (.assetMissing assetID)
    | some assetMap =>
      match assetMap.get "TotalWeight" with
      | some (.num totalWeight) => GetContentWeight.loop ctx rest (contentWeight + totalWeight)
      | some (.int n) => GetContentWeight.loop ctx rest (contentWeight + F32.ofInt n)
      | _ => .error (.invalidTotalWeight assetID)

/-- `GetContentWeight` retrieves the `TotalWeight` of each asset ID in content
and sums them up. -/
def GetContentWeight (ctx : Ctx) (content : Slice) : Except Err F32 :=
  GetContentWeight.loop ctx content.elems 0

/-- `SetFlag` sets the `IsFlagged` and `FlagReason` members of the asset. -/
def SetFlag (ctx : Ctx) (id : String) (isFlagged : Bool) (flagReason : String) : Result :=
  finish ctx id (
    match GetState ctx.state id with
    | none => .error (.notExist id)
    | some asset0 => do
      let asset := (asset0.set "IsFlagged" (.bool isFlagged)).set "FlagReason" (.str flagReason)
      SPEC_IsValidFlag isFlagged flagReason
      let asset := asset.set "UpdatedAt" (.time ctx.now)
      match Marshal asset with
      | .error e => .error (.wrap "failed to marshal JSON" e)
      | .ok updatedAssetJSON => pure updatedAssetJSON)

/-- `SetNotes` sets the `Notes` member of the asset. -/
def SetNotes (ctx : Ctx) (id : String) (notes : String) : Result :=
  finish ctx id (
    match GetState ctx.state id with
    | none => .error (.notExist id)
    | some asset0 =>
      let asset := (asset0.set "Notes" (.str notes)).set "UpdatedAt" (.time ctx.now)
      match Marshal asset with
      | .error e => .error (.wrap "failed to marshal JSON" e)
      | .ok updatedAssetJSON => pure updatedAssetJSON)

/-! ## Production channel: mutating operations (`production_smartcontract.go`)

The parameters are those of the Go methods, in the same order. -/

/-- `CreateCottonBale` issues a new cotton bale. -/
def CreateCottonBale (ctx : Ctx) (approval : Bool) (assemblyDate : Time) (flagReason : String)
    (cottonBaleID : String) (isFlagged : Bool) (notes origin qualityGrade : String)
    (totalWeight : F32) : Result :=
  finish ctx cottonBaleID do
    SPEC_IDPrefix cottonBaleID "cottonbale_"
    SPEC_IsNewAsset ctx cottonBaleID
    SPEC_IsInvokedByAllowedOrg ctx ["Org4MSP"]
    SPEC_IsValidFlag isFlagged flagReason
    let clientMSPID := ctx.mspid
    let cottonBale : CottonBale :=
      { Approval := approval, AssemblyDate := assemblyDate, CreatorID := clientMSPID,
        FlagReason := flagReason, ID := cottonBaleID, IsFlagged := isFlagged, Notes := notes,
        Origin := origin, QualityGrade := qualityGrade, TotalWeight := totalWeight,
        UpdatedAt := ctx.now }
    SPEC_Chronology [cottonBale.AssemblyDate, cottonBale.UpdatedAt]
    Marshal cottonBale.toJSON

/-- The `switch assetIDPrefix` of `CreateLot`: the organizations allowed to
create a lot of the given content type; a prefix outside the seven cases runs
no check. -/
def CreateLot.checkOrg (ctx : Ctx) (assetIDPrefix : String) : Except Err Unit :=
  if assetIDPrefix = "cottonbale_" then
    SPEC_IsInvokedByAllowedOrg ctx ["Org1MSP", "Org2MSP", "Org4MSP"]
  else if assetIDPrefix = "cottonyarn_" then
    SPEC_IsInvokedByAllowedOrg ctx ["Org1MSP", "Org2MSP", "Org4MSP"]
  else if assetIDPrefix = "unfinishedfabric_" then
    SPEC_IsInvokedByAllowedOrg ctx ["Org1MSP", "Org2MSP", "Org5MSP"]
  else if assetIDPrefix = "finishedfabric_" then
    SPEC_IsInvokedByAllowedOrg ctx ["Org1MSP", "Org2MSP", "Org5MSP"]
  else if assetIDPrefix = "cutpart_" then
    SPEC_IsInvokedByAllowedOrg ctx ["Org1MSP", "Org2MSP", "Org6MSP"]
  else if assetIDPrefix = "button_" then
    SPEC_IsInvokedByAllowedOrg ctx ["Org1MSP", "Org2MSP", "Org6MSP"]
  else if assetIDPrefix = "assembledgarment_" then
    SPEC_IsInvokedByAllowedOrg ctx ["Org1MSP", "Org2MSP", "Org6MSP"]
  else .ok ()

/-- `CreateLot` issues a new lot. -/
def CreateLot (ctx : Ctx) (assemblyDate : Time) (assetIDPrefix : String) (content : Slice)
    (destination flagReason lotID : String) (isFlagged : Bool) (notes origin owner : String)
    (totalWeight : F32) : Result :=
  finish ctx lotID do
    SPEC_IDPrefix lotID "lot_"
    SPEC_IsNewAsset ctx lotID
    CreateLot.checkOrg ctx assetIDPrefix
    SPEC_IsValidFlag isFlagged flagReason
    forEach content.elems (SPEC_IsNotFlagged ctx)
    SPEC_NoDuplicateAssetInThisLot content
    SPEC_LotConsistency ctx content assetIDPrefix
    SPEC_NoDuplicateAssetInState ctx lotID content
    SPEC_CheckAssetsApproval ctx content
    let contentWeight ← GetContentWeight ctx content
    let weightDifference := GetPercentageDifference contentWeight totalWeight
    let clientMSPID := ctx.mspid
    let _ := owner
    let lot : Lot :=
      { AllAssetsApproved := true, AssemblyDate := assemblyDate,
        AssetIDPrefix := assetIDPrefix, Content := content, ContentWeight := contentWeight,
        CreatorID := clientMSPID, Destination := destination, FlagReason := flagReason,
        ID := lotID, IsFlagged := isFlagged, Notes := notes, Origin := origin,
        Owner := clientMSPID, PreviousOwner := "Updated when ownership changes",
        Quantity := content.elems.length, TotalWeight := totalWeight, UpdatedAt := ctx.now,
        WeightDifference := weightDifference }
    SPEC_Chronology [lot.AssemblyDate, lot.UpdatedAt]
    Marshal lot.toJSON

/-- `CreateCottonYarn` issues a new cotton yarn made of lots of cotton bales. -/
def CreateCottonYarn (ctx : Ctx) (approval : Bool) (assemblyDate : Time) (content : Slice)
    (flagReason cottonYarnID : String) (isFlagged : Bool) (notes origin : String)
    (totalWeight : F32) (yarnCount : Int) : Result :=
  finish ctx cottonYarnID do
    SPEC_IDPrefix cottonYarnID "cottonyarn_"
    SPEC_IsNewAsset ctx cottonYarnID
    SPEC_IsInvokedByAllowedOrg ctx ["Org4MSP"]
    SPEC_IsValidFlag isFlagged flagReason
    SPEC_NoDuplicateAssetInThisLot content
    forEach content.elems (fun lotID => SPEC_CheckLotAssetType ctx lotID "cottonbale_")
    let contentWeight ← GetContentWeight ctx content
    let weightDifference := GetPercentageDifference contentWeight totalWeight
    let clientMSPID := ctx.mspid
    let cottonYarn : CottonYarn :=
      { Approval := approval, AssemblyDate := assemblyDate, Content := content,
        ContentWeight := contentWeight, CreatorID := clientMSPID, FlagReason := flagReason,
        ID := cottonYarnID, IsFlagged := isFlagged, Notes := notes, Origin := origin,
        TotalWeight := totalWeight, UpdatedAt := ctx.now,
        WeightDifference := weightDifference, YarnCount := yarnCount }
    SPEC_Chronology [cottonYarn.AssemblyDate, cottonYarn.UpdatedAt]
    Marshal cottonYarn.toJSON

/-- `CreateUnfinishedFabric` issues a new unfinished fabric made of lots of
cotton yarn. -/
def CreateUnfinishedFabric (ctx : Ctx) (approval : Bool) (assemblyDate : Time)
    (content : Slice) (flagReason unfinishedFabricID : String) (isFlagged : Bool)
    (notes origin : String) (length totalWeight width : F32) : Result :=
  finish ctx unfinishedFabricID do
    SPEC_IDPrefix unfinishedFabricID "unfinishedfabric_"
    SPEC_IsNewAsset ctx unfinishedFabricID
    SPEC_IsInvokedByAllowedOrg ctx ["Org5MSP"]
    SPEC_IsValidFlag isFlagged flagReason
    SPEC_NoDuplicateAssetInThisLot content
    forEach content.elems (fun lotID => SPEC_CheckLotAssetType ctx lotID "cottonyarn_")
    let contentWeight ← GetContentWeight ctx content
    let weightDifference := GetPercentageDifference contentWeight totalWeight
    let clientMSPID := ctx.mspid
    let unfinishedFabric : UnfinishedFabric :=
      { Approval := approval, AssemblyDate := assemblyDate, Content := content,
        ContentWeight := contentWeight, CreatorID := clientMSPID, FlagReason := flagReason,
        ID := unfinishedFabricID, IsFlagged := isFlagged, Length := length, Notes := notes,
        Origin := origin, TotalWeight := totalWeight, UpdatedAt := ctx.now,
        WeightDifference := weightDifference, Width := width }
    SPEC_Chronology [unfinishedFabric.AssemblyDate, unfinishedFabric.UpdatedAt]
    Marshal unfinishedFabric.toJSON

/-- `CreateFinishedFabric` issues a new finished fabric made of lots of
unfinished fabric. -/
def CreateFinishedFabric (ctx : Ctx) (approval : Bool) (assemblyDate : Time)
    (content : Slice) (finishedFabricID flagReason : String) (isFlagged : Bool)
    (length : F32) (notes origin : String) (totalWeight width : F32) : Result :=
  finish ctx finishedFabricID do
    SPEC_IDPrefix finishedFabricID "finishedfabric_"
    SPEC_IsNewAsset ctx finishedFabricID
    SPEC_IsInvokedByAllowedOrg ctx ["Org5MSP"]
    SPEC_IsValidFlag isFlagged flagReason
    SPEC_NoDuplicateAssetInThisLot content
    forEach content.elems (fun lotID => SPEC_CheckLotAssetType ctx lotID "unfinishedfabric_")
    let contentWeight ← GetContentWeight ctx content
    let weightDifference := GetPercentageDifference contentWeight totalWeight
    let clientMSPID := ctx.mspid
    let finishedFabric : FinishedFabric :=
      { Approval := approval, AssemblyDate := assemblyDate, Content := content,
        ContentWeight := contentWeight, CreatorID := clientMSPID, FlagReason := flagReason,
        ID := finishedFabricID, IsFlagged := isFlagged, Length := length, Notes := notes,
        Origin := origin, TotalWeight := totalWeight, UpdatedAt := ctx.now,
        WeightDifference := weightDifference, Width := width }
    SPEC_Chronology [finishedFabric.AssemblyDate, finishedFabric.UpdatedAt]
    Marshal finishedFabric.toJSON

/-- `CreateCutPart` issues a new cut part made of lots of finished fabric. -/
def CreateCutPart (ctx : Ctx) (approval : Bool) (assemblyDate : Time) (content : Slice)
    (flagReason cutPartID : String) (isFlagged : Bool) (notes origin patternPiece : String)
    (totalWeight : F32) : Result :=
  finish ctx cutPartID do
    SPEC_IDPrefix cutPartID "cutpart_"
    SPEC_IsNewAsset ctx cutPartID
    SPEC_IsInvokedByAllowedOrg ctx ["Org6MSP"]
    SPEC_IsValidFlag isFlagged flagReason
    SPEC_NoDuplicateAssetInThisLot content
    forEach content.elems (fun lotID => SPEC_CheckLotAssetType ctx lotID "finishedfabric_")
    let contentWeight ← GetContentWeight ctx content
    let weightDifference := GetPercentageDifference contentWeight totalWeight
    let clientMSPID := ctx.mspid
    let cutPart : CutPart :=
      { Approval := approval, AssemblyDate := assemblyDate, Content := content,
        ContentWeight := contentWeight, CreatorID := clientMSPID, FlagReason := flagReason,
        ID := cutPartID, IsFlagged := isFlagged, Notes := notes, Origin := origin,
        PatternPiece := patternPiece, TotalWeight := totalWeight, UpdatedAt := ctx.now,
        WeightDifference := weightDifference }
    SPEC_Chronology [cutPart.AssemblyDate, cutPart.UpdatedAt]
    Marshal cutPart.toJSON

/-- `CreateButton` issues a new button. -/
def CreateButton (ctx : Ctx) (approval : Bool) (assemblyDate : Time)
    (flagReason buttonID : String) (isFlagged : Bool) (notes origin : String)
    (totalWeight : F32) : Result :=
  finish ctx buttonID do
    SPEC_IDPrefix buttonID "button_"
    SPEC_IsNewAsset ctx buttonID
    SPEC_IsInvokedByAllowedOrg ctx ["Org6MSP"]
    SPEC_IsValidFlag isFlagged flagReason
    let clientMSPID := ctx.mspid
    let button : Button :=
      { Approval := approval, AssemblyDate := assemblyDate, CreatorID := clientMSPID,
        FlagReason := flagReason, ID := buttonID, IsFlagged := isFlagged, Notes := notes,
        Origin := origin, TotalWeight := totalWeight, UpdatedAt := ctx.now }
    SPEC_Chronology [button.AssemblyDate, button.UpdatedAt]
    Marshal button.toJSON

/-- `CreateAssembledGarment` issues a new garment made of buttons and cut
parts. -/
def CreateAssembledGarment (ctx : Ctx) (approval : Bool) (assemblyDate : Time)
    (buttons cutParts : Slice) (flagReason assembledGarmentID : String) (isFlagged : Bool)
    (notes origin : String) (totalWeight : F32) : Result :=
  finish ctx assembledGarmentID do
    SPEC_IDPrefix assembledGarmentID "assembledgarment_"
    SPEC_IsNewAsset ctx assembledGarmentID
    SPEC_IsInvokedByAllowedOrg ctx ["Org6MSP"]
    SPEC_IsValidFlag isFlagged flagReason
    SPEC_NoDuplicateAssetInThisLot buttons
    SPEC_NoDuplicateAssetInThisLot cutParts
    SPEC_LotConsistency ctx buttons "button_"
    SPEC_LotConsistency ctx cutParts "cutpart_"
    let buttonsWeight ← GetContentWeight ctx buttons
    let cutPartsWeight ← GetContentWeight ctx cutParts
    let contentWeight := buttonsWeight + cutPartsWeight
    let weightDifference := GetPercentageDifference contentWeight totalWeight
    let clientMSPID := ctx.mspid
    let assembledGarment : AssembledGarment :=
      { Approval := approval, AssemblyDate := assemblyDate, Buttons := buttons,
        ContentWeight := contentWeight, CreatorID := clientMSPID, CutParts := cutParts,
        FlagReason := flagReason, ID := assembledGarmentID, IsFlagged := isFlagged,
        Notes := notes, Origin := origin, TotalWeight := totalWeight, UpdatedAt := ctx.now,
        WeightDifference := weightDifference }
    SPEC_Chronology [assembledGarment.AssemblyDate, assembledGarment.UpdatedAt]
    Marshal assembledGarment.toJSON

/-- `CreateCarton` issues a new carton of assembled garments. -/
def CreateCarton (ctx : Ctx) (allAssetsApproved : Bool) (assemblyDate : Time)
    (content : Slice) (customerID flagReason cartonID : String) (isFlagged : Bool)
    (notes origin owner : String) (totalWeight : F32) : Result :=
  finish ctx cartonID do
    SPEC_IDPrefix cartonID "carton_"
    SPEC_IsNewAsset ctx cartonID
    SPEC_IsInvokedByAllowedOrg ctx ["Org6MSP"]
    SPEC_IsValidFlag isFlagged flagReason
    SPEC_NoDuplicateAssetInThisLot content
    SPEC_LotConsistency ctx content "assembledgarment_"
    let contentWeight ← GetContentWeight ctx content
    let weightDifference := GetPercentageDifference contentWeight totalWeight
    let clientMSPID := ctx.mspid
    let carton : Carton :=
      { AllAssetsApproved := allAssetsApproved, AssemblyDate := assemblyDate,
        Content := content, ContentWeight := contentWeight, CreatorID := clientMSPID,
        CustomerID := customerID, FlagReason := flagReason, ID := cartonID,
        IsFlagged := isFlagged, Notes := notes, Origin := origin, Owner := owner,
        PreviousOwner := "Updated when ownership changes",
        Quantity := content.elems.length, TotalWeight := totalWeight, UpdatedAt := ctx.now,
        WeightDifference := weightDifference }
    SPEC_Chronology [carton.AssemblyDate, carton.UpdatedAt]
    Marshal carton.toJSON

/-- `CreateContainer` issues a new container of cartons. -/
def CreateContainer (ctx : Ctx) (content : Slice)
    (destinationPort flagReason containerID : String) (isFlagged : Bool) (loadedAt : Time)
    (originPort : String) (totalWeight : F32) (vessel : String) : Result :=
  finish ctx containerID do
    SPEC_IDPrefix containerID "container_"
    SPEC_IsNewAsset ctx containerID
    SPEC_IsInvokedByAllowedOrg ctx ["Org6MSP"]
    SPEC_IsValidFlag isFlagged flagReason
    SPEC_NoDuplicateAssetInThisLot content
    SPEC_LotConsistency ctx content "carton_"
    let contentWeight ← GetContentWeight ctx content
    let weightDifference := GetPercentageDifference contentWeight totalWeight
    let clientMSPID := ctx.mspid
    let container : Container :=
      { AssetType := "carton", Content := content, ContentWeight := contentWeight,
        CreatorID := clientMSPID, DestinationPort := destinationPort,
        FlagReason := flagReason, ID := containerID, IsFlagged := isFlagged,
        LoadedAt := loadedAt, OriginPort := originPort, TotalWeight := totalWeight,
        UpdatedAt := ctx.now, Vessel := vessel, WeightDifference := weightDifference }
    SPEC_Chronology [container.LoadedAt, container.UpdatedAt]
    Marshal container.toJSON

/-- The `switch asset["AssetIDPrefix"]` of `UpdateLotOwner`: for each of the
seven cases the same list of organizations is used for the invoker and for the
new owner; any other value of the member runs no check. -/
def UpdateLotOwner.checkOrgs (ctx : Ctx) (assetIDPrefix : Option JVal) (newOwner : String) :
    Except Err Unit :=
  let both (orgs : List String) : Except Err Unit := do
    SPEC_IsInvokedByAllowedOrg ctx orgs
    SPEC_IsAllowedToOwn newOwner orgs
  if assetIDPrefix = some (.str "cottonbale_") then both ["Org1MSP", "Org2MSP", "Org4MSP"]
  else if assetIDPrefix = some (.str "cottonyarn_") then
    both ["Org1MSP", "Org2MSP", "Org4MSP", "Org5MSP"]
  else if assetIDPrefix = some (.str "unfinishedfabric_") then
    both ["Org1MSP", "Org2MSP", "Org5MSP"]
  else if assetIDPrefix = some (.str "finishedfabric_") then
    both ["Org1MSP", "Org2MSP", "Org5MSP", "Org6MSP"]
  else if assetIDPrefix = some (.str "cutpart_") then both ["Org1MSP", "Org2MSP", "Org6MSP"]
  else if assetIDPrefix = some (.str "button_") then both ["Org1MSP", "Org2MSP", "Org6MSP"]
  else if assetIDPrefix = some (.str "assembledgarment_") then
    both ["Org1MSP", "Org2MSP", "Org6MSP"]
  else .ok ()

/-- `UpdateLotOwner` updates the owner member of an asset; `asset["Owner"]` of a
missing key is `nil`, which marshals to `null`. -/
def UpdateLotOwner (ctx : Ctx) (lotID newOwner : String) : Result :=
  finish ctx lotID (
    match GetState ctx.state lotID with
    | none => .error (.notExist lotID)
    | some asset0 => do
      UpdateLotOwner.checkOrgs ctx (asset0.get "AssetIDPrefix") newOwner
      let asset := asset0.set "PreviousOwner" ((asset0.get "Owner").getD .null)
      let asset := asset.set "Owner" (.str newOwner)
      let asset := asset.set "UpdatedAt" (.time ctx.now)
      match Marshal asset with
      | .error e => .error (.wrap "failed to marshal JSON" e)
      | .ok updatedAssetJSON => pure updatedAssetJSON)

/-! ## Admin channel: assets (`admin_assets.go`) -/

/-- Asset: Order. -/
structure Order where
  CreatedAt : Time
  CreatorID : String
  DeliveryDate : Time
  FlagReason : String
  ID : String
  IsAccepted : Bool
  IsFlagged : Bool
  Notes : String
  PaymentTerms : String
  PlanID : String
  ProductDetails : String
  ReceiverID : String
  Status : String
  TotalOrderValue : F32
  UpdatedAt : Time

/-- Asset: Plan. -/
structure Plan where
  AllFactoriesApproved : Bool
  CreatedAt : Time
  CreatorID : String
  Factories : Slice
  FlagReason : String
  ID : String
  IsAuditorApproved : Bool
  IsFlagged : Bool
  IsRetailerApproved : Bool
  Notes : String
  OrderID : String
  ProductionPlan : String
  Status : String
  UpdatedAt : Time

/-- Asset: Factory. -/
structure Factory where
  FactoryOwner : String
  FlagReason : String
  ID : String
  IsAuditorApproved : Bool
  IsFlagged : Bool
  IsRetailerApproved : Bool
  Location : String
  Name : String
  Notes : String
  PastFulfillment : Bool
  StartDate : Time
  Status : String
  UpdatedAt : Time

/-- The JSON object of a `Order`. -/
def Order.toJSON (a : Order) : Record :=
  [("CreatedAt", .time a.CreatedAt),
   ("CreatorID", .str a.CreatorID),
   ("DeliveryDate", .time a.DeliveryDate),
   ("FlagReason", .str a.FlagReason),
   ("ID", .str a.ID),
   ("IsAccepted", .bool a.IsAccepted),
   ("IsFlagged", .bool a.IsFlagged),
   ("Notes", .str a.Notes),
   ("PaymentTerms", .str a.PaymentTerms),
   ("PlanID", .str a.PlanID),
   ("ProductDetails", .str a.ProductDetails),
   ("ReceiverID", .str a.ReceiverID),
   ("Status", .str a.Status),
   ("TotalOrderValue", .num a.TotalOrderValue),
   ("UpdatedAt", .time a.UpdatedAt)]

/-- `json.Unmarshal(value, &order)` with `order` a zero `Order`. -/
def UnmarshalOrder (r : Record) : Except Err Order := do
  let vCreatedAt ← fieldTime r "CreatedAt"
  let vCreatorID ← fieldString r "CreatorID"
  let vDeliveryDate ← fieldTime r "DeliveryDate"
  let vFlagReason ← fieldString r "FlagReason"
  let vID ← fieldString r "ID"
  let vIsAccepted ← fieldBool r "IsAccepted"
  let vIsFlagged ← fieldBool r "IsFlagged"
  let vNotes ← fieldString r "Notes"
  let vPaymentTerms ← fieldString r "PaymentTerms"
  let vPlanID ← fieldString r "PlanID"
  let vProductDetails ← fieldString r "ProductDetails"
  let vReceiverID ← fieldString r "ReceiverID"
  let vStatus ← fieldString r "Status"
  let vTotalOrderValue ← fieldFloat32 r "TotalOrderValue"
  let vUpdatedAt ← fieldTime r "UpdatedAt"
  pure
    { CreatedAt := vCreatedAt,
      CreatorID := vCreatorID,
      DeliveryDate := vDeliveryDate,
      FlagReason := vFlagReason,
      ID := vID,
      IsAccepted := vIsAccepted,
      IsFlagged := vIsFlagged,
      Notes := vNotes,
      PaymentTerms := vPaymentTerms,
      PlanID := vPlanID,
      ProductDetails := vProductDetails,
      ReceiverID := vReceiverID,
      Status := vStatus,
      TotalOrderValue := vTotalOrderValue,
      UpdatedAt := vUpdatedAt }

/-- The JSON object of a `Plan`. -/
def Plan.toJSON (a : Plan) : Record :=
  [("AllFactoriesApproved", .bool a.AllFactoriesApproved),
   ("CreatedAt", .time a.CreatedAt),
   ("CreatorID", .str a.CreatorID),
   ("Factories", a.Factories.toJSON),
   ("FlagReason", .str a.FlagReason),
   ("ID", .str a.ID),
   ("IsAuditorApproved", .bool a.IsAuditorApproved),
   ("IsFlagged", .bool a.IsFlagged),
   ("IsRetailerApproved", .bool a.IsRetailerApproved),
   ("Notes", .str a.Notes),
   ("OrderID", .str a.OrderID),
   ("ProductionPlan", .str a.ProductionPlan),
   ("Status", .str a.Status),
   ("UpdatedAt", .time a.UpdatedAt)]

/-- `json.Unmarshal(value, &plan)` with `plan` a zero `Plan`. -/
def UnmarshalPlan (r : Record) : Except Err Plan := do
  let vAllFactoriesApproved ← fieldBool r "AllFactoriesApproved"
  let vCreatedAt ← fieldTime r "CreatedAt"
  let vCreatorID ← fieldString r "CreatorID"
  let vFactories ← fieldSlice r "Factories"
  let vFlagReason ← fieldString r "FlagReason"
  let vID ← fieldString r "ID"
  let vIsAuditorApproved ← fieldBool r "IsAuditorApproved"
  let vIsFlagged ← fieldBool r "IsFlagged"
  let vIsRetailerApproved ← fieldBool r "IsRetailerApproved"
  let vNotes ← fieldString r "Notes"
  let vOrderID ← fieldString r "OrderID"
  let vProductionPlan ← fieldString r "ProductionPlan"
  let vStatus ← fieldString r "Status"
  let vUpdatedAt ← fieldTime r "UpdatedAt"
  pure
    { AllFactoriesApproved := vAllFactoriesApproved,
      CreatedAt := vCreatedAt,
      CreatorID := vCreatorID,
      Factories := vFactories,
      FlagReason := vFlagReason,
      ID := vID,
      IsAuditorApproved := vIsAuditorApproved,
      IsFlagged := vIsFlagged,
      IsRetailerApproved := vIsRetailerApproved,
      Notes := vNotes,
      OrderID := vOrderID,
      ProductionPlan := vProductionPlan,
      Status := vStatus,
      UpdatedAt := vUpdatedAt }

/-- The JSON object of a `Factory`. -/
def Factory.toJSON (a : Factory) : Record :=
  [("FactoryOwner", .str a.FactoryOwner),
   ("FlagReason", .str a.FlagReason),
   ("ID", .str a.ID),
   ("IsAuditorApproved", .bool a.IsAuditorApproved),
   ("IsFlagged", .bool a.IsFlagged),
   ("IsRetailerApproved", .bool a.IsRetailerApproved),
   ("Location", .str a.Location),
   ("Name", .str a.Name),
   ("Notes", .str a.Notes),
   ("PastFulfillment", .bool a.PastFulfillment),
   ("StartDate", .time a.StartDate),
   ("Status", .str a.Status),
   ("UpdatedAt", .time a.UpdatedAt)]

/-- `json.Unmarshal(value, &factory)` with `factory` a zero `Factory`. -/
def UnmarshalFactory (r : Record) : Except Err Factory := do
  let vFactoryOwner ← fieldString r "FactoryOwner"
  let vFlagReason ← fieldString r "FlagReason"
  let vID ← fieldString r "ID"
  let vIsAuditorApproved ← fieldBool r "IsAuditorApproved"
  let vIsFlagged ← fieldBool r "IsFlagged"
  let vIsRetailerApproved ← fieldBool r "IsRetailerApproved"
  let vLocation ← fieldString r "Location"
  let vName ← fieldString r "Name"
  let vNotes ← fieldString r "Notes"
  let vPastFulfillment ← fieldBool r "PastFulfillment"
  let vStartDate ← fieldTime r "StartDate"
  let vStatus ← fieldString r "Status"
  let vUpdatedAt ← fieldTime r "UpdatedAt"
  pure
    { FactoryOwner := vFactoryOwner,
      FlagReason := vFlagReason,
      ID := vID,
      IsAuditorApproved := vIsAuditorApproved,
      IsFlagged := vIsFlagged,
      IsRetailerApproved := vIsRetailerApproved,
      Location := vLocation,
      Name := vName,
      Notes := vNotes,
      PastFulfillment := vPastFulfillment,
      StartDate := vStartDate,
      Status := vStatus,
      UpdatedAt := vUpdatedAt }

/-! ## Admin channel: specification functions and operations
(`admin_spec_functions.go`, `admin_smartcontract.go`)

`SPEC_IsNewAsset`, `SPEC_AssetExists`, `SPEC_IDPrefix`, `SPEC_IsValidFlag`,
`SPEC_Chronology` and `SPEC_IsInvokedByAllowedOrg` have the same text in both
contracts, and so have `SetFlag` and `SetNotes`; they are the definitions
above. -/

/-- The loop of `SPEC_IsReadyforApproval`; `i` is the index of the head. -/
def SPEC_IsReadyforApproval.loop : Nat → List Bool → Except Err Unit
  | _, [] => .ok ()
  | i, condition :: rest =>
    if !condition then .error (.notReady (i + 1))
    else SPEC_IsReadyforApproval.loop (i + 1) rest

/-- `SPEC_IsReadyforApproval` checks that all the conditions hold. -/
def SPEC_IsReadyforApproval (conditions : List Bool) : Except Err Unit :=
  SPEC_IsReadyforApproval.loop 0 conditions

/-- `CreateOrder` issues a new order. -/
def CreateOrder (ctx : Ctx) (createdAt deliveryDate : Time) (flagReason orderID : String)
    (isFlagged : Bool) (notes paymentTerms productDetails receiverID : String)
    (totalOrderValue : F32) : Result :=
  finish ctx orderID do
    SPEC_IDPrefix orderID "order_"
    SPEC_IsNewAsset ctx orderID
    SPEC_IsValidFlag isFlagged flagReason
    let clientMSPID := ctx.mspid
    let order : Order :=
      { CreatedAt := createdAt, CreatorID := clientMSPID, DeliveryDate := deliveryDate,
        FlagReason := flagReason, ID := orderID, IsAccepted := false, IsFlagged := isFlagged,
        Notes := notes, PaymentTerms := paymentTerms, PlanID := "",
        ProductDetails := productDetails, ReceiverID := receiverID, Status := "issued",
        TotalOrderValue := totalOrderValue, UpdatedAt := ctx.now }
    SPEC_Chronology [order.CreatedAt, order.UpdatedAt, order.DeliveryDate]
    Marshal order.toJSON

/-- `CreatePlan` issues a new plan. -/
def CreatePlan (ctx : Ctx) (createdAt : Time) (factoryIDs : Slice)
    (flagReason planID : String) (isFlagged : Bool) (notes orderID productionPlan : String) :
    Result :=
  finish ctx planID do
    SPEC_IDPrefix planID "plan_"
    SPEC_IsNewAsset ctx planID
    SPEC_AssetExists ctx orderID
    SPEC_IsValidFlag isFlagged flagReason
    forEach factoryIDs.elems (SPEC_AssetExists ctx)
    let clientMSPID := ctx.mspid
    let plan : Plan :=
      { AllFactoriesApproved := false, CreatedAt := createdAt, CreatorID := clientMSPID,
        Factories := factoryIDs, FlagReason := flagReason, ID := planID,
        IsAuditorApproved := false, IsFlagged := isFlagged, IsRetailerApproved := false,
        Notes := notes, OrderID := orderID, ProductionPlan := productionPlan,
        Status := "issued", UpdatedAt := ctx.now }
    SPEC_Chronology [plan.CreatedAt, plan.UpdatedAt]
    Marshal plan.toJSON

/-- `CreateFactory` issues a new factory. -/
def CreateFactory (ctx : Ctx) (factoryOwner flagReason factoryID : String) (isFlagged : Bool)
    (location name notes : String) (pastFulfillment : Bool) (startDate : Time) : Result :=
  finish ctx factoryID do
    SPEC_IDPrefix factoryID "factory_"
    SPEC_IsNewAsset ctx factoryID
    SPEC_IsValidFlag isFlagged flagReason
    let factory : Factory :=
      { FactoryOwner := factoryOwner, FlagReason := flagReason, ID := factoryID,
        IsAuditorApproved := false, IsRetailerApproved := false, IsFlagged := isFlagged,
        Location := location, Name := name, Notes := notes,
        PastFulfillment := pastFulfillment, StartDate := startDate, Status := "pending",
        UpdatedAt := ctx.now }
    SPEC_Chronology [factory.StartDate, factory.UpdatedAt]
    Marshal factory.toJSON

/-- `SetOrderAcceptance` updates the `PlanID` and `IsAccepted` fields of an
order. -/
def SetOrderAcceptance (ctx : Ctx) (orderID planID : String) (acceptance : Bool) : Result :=
  finish ctx orderID (
    match GetState ctx.state orderID with
    | none => .error (.orderNotExist orderID)
    | some orderJSON =>
      match UnmarshalOrder orderJSON with
      | .error e => .error (.wrap "failed to unmarshal order" e)
      | .ok order0 => do
        SPEC_IsInvokedByAllowedOrg ctx [order0.ReceiverID]
        SPEC_AssetExists ctx planID
        let order : Order :=
          { order0 with PlanID := planID, IsAccepted := acceptance, UpdatedAt := ctx.now }
        SPEC_Chronology [order.CreatedAt, order.UpdatedAt, order.DeliveryDate]
        match Marshal order.toJSON with
        | .error e => .error (.wrap "failed to marshal updated order" e)
        | .ok updatedOrderJSON => pure updatedOrderJSON)

/-- `SetOrderStatus` updates the `Status` field of an order. -/
def SetOrderStatus (ctx : Ctx) (orderID newStatus : String) : Result :=
  finish ctx orderID do
    SPEC_IsInvokedByAllowedOrg ctx ["Org1MSP", "Org2MSP"]
    match GetState ctx.state orderID with
    | none => .error (.orderNotExist orderID)
    | some orderJSON =>
      match UnmarshalOrder orderJSON with
      | .error e => .error (.wrap "failed to unmarshal order" e)
      | .ok order0 =>
        match GetState ctx.state order0.PlanID with
        | none => .error (.planNotExist order0.PlanID)
        | some planJSON =>
          match UnmarshalPlan planJSON with
          | .error e => .error (.wrap "failed to unmarshal plan" e)
          | .ok plan => do
            SPEC_IsReadyforApproval
              [order0.IsAccepted, !order0.IsFlagged, decide (plan.Status = "approved")]
            if newStatus ≠ "accepted" ∧ newStatus ≠ "cancelled" ∧ newStatus ≠ "rejected" then
              .error (.badStatus newStatus)
            let order : Order := { order0 with Status := newStatus, UpdatedAt := ctx.now }
            match Marshal order.toJSON with
            | .error e => .error (.wrap "failed to marshal updated order" e)
            | .ok updatedOrderJSON => pure updatedOrderJSON

/-- `SetPlanApproval` records the approval of the retailer (`Org1MSP`) or of the
auditor (`Org3MSP`) on a plan. -/
def SetPlanApproval (ctx : Ctx) (planID : String) (approval : Bool) : Result :=
  finish ctx planID do
    SPEC_IsInvokedByAllowedOrg ctx ["Org1MSP", "Org3MSP"]
    match GetState ctx.state planID with
    | none => .error (.planNotExist planID)
    | some planJSON =>
      match UnmarshalPlan planJSON with
      | .error e => .error (.wrap "failed to unmarshal plan" e)
      | .ok plan0 =>
        let clientMSPID := ctx.mspid
        let plan1 : Plan :=
          if clientMSPID = "Org1MSP" ∧ approval = true then
            { plan0 with IsRetailerApproved := true } else plan0
        let plan2 : Plan :=
          if clientMSPID = "Org3MSP" ∧ approval = true then
            { plan1 with IsAuditorApproved := true } else plan1
        let plan : Plan := { plan2 with UpdatedAt := ctx.now }
        match Marshal plan.toJSON with
        | .error e => .error (.wrap "failed to marshal updated plan" e)
        | .ok updatedPlanJSON => pure updatedPlanJSON

/-- The loop of `SetPlanStatus` over `plan.Factories`: `false` as soon as a
factory is not approved (the `break`), an error when a factory cannot be
read. -/
def SetPlanStatus.allFactoriesApproved (ctx : Ctx) : List String → Except Err Bool
  | [] => .ok true
  | factoryID :: rest =>
    match GetState ctx.state factoryID with
    | none => .error (.factoryNotExist factoryID)
    | some factoryJSON =>
      match UnmarshalFactory factoryJSON with
      | .error e => .error (.wrap ("failed to unmarshal factory " ++ factoryID) e)
      | .ok factory =>
        if factory.Status ≠ "approved" then .ok false
        else SetPlanStatus.allFactoriesApproved ctx rest

/-- `SetPlanStatus` sets the `Status` of a plan to approved. -/
def SetPlanStatus (ctx : Ctx) (planID : String) : Result :=
  finish ctx planID (
    match GetState ctx.state planID with
    | none => .error (.planNotExist planID)
    | some planJSON =>
      match UnmarshalPlan planJSON with
      | .error e => .error (.wrap "failed to unmarshal plan" e)
      | .ok plan0 => do
        let allFactoriesApproved ← SetPlanStatus.allFactoriesApproved ctx plan0.Factories.elems
        let plan1 : Plan := { plan0 with AllFactoriesApproved := allFactoriesApproved }
        SPEC_IsReadyforApproval
          [plan1.AllFactoriesApproved, plan1.IsAuditorApproved, plan1.IsRetailerApproved,
           !plan1.IsFlagged]
        let plan : Plan := { plan1 with Status := "approved", UpdatedAt := ctx.now }
        match Marshal plan.toJSON with
        | .error e => .error (.wrap "failed to marshal updated plan" e)
        | .ok updatedPlanJSON => pure updatedPlanJSON)

/-- `SetFactoryApproval` records the approval of the retailer (`Org1MSP`) or of
the auditor (`Org3MSP`) on a factory. -/
def SetFactoryApproval (ctx : Ctx) (factoryID : String) (approval : Bool) : Result :=
  finish ctx factoryID do
    SPEC_IsInvokedByAllowedOrg ctx ["Org1MSP", "Org3MSP"]
    match GetState ctx.state factoryID with
    | none => .error (.factoryNotExist factoryID)
    | some factoryJSON =>
      match UnmarshalFactory factoryJSON with
      | .error e => .error (.wrap "failed to unmarshal factory" e)
      | .ok factory0 =>
        let clientMSPID := ctx.mspid
        let factory1 : Factory :=
          if clientMSPID = "Org1MSP" ∧ approval = true then
            { factory0 with IsRetailerApproved := true } else factory0
        let factory2 : Factory :=
          if clientMSPID = "Org3MSP" ∧ approval = true then
            { factory1 with IsAuditorApproved := true } else factory1
        let factory : Factory := { factory2 with UpdatedAt := ctx.now }
        match Marshal factory.toJSON with
        | .error e => .error (.wrap "failed to marshal updated factory" e)
        | .ok updatedFactoryJSON => pure updatedFactoryJSON

/-- `SetFactoryStatus` sets the `Status` of a factory to approved. -/
def SetFactoryStatus (ctx : Ctx) (factoryID : String) : Result :=
  finish ctx factoryID (
    match GetState ctx.state factoryID with
    | none => .error (.factoryNotExist factoryID)
    | some factoryJSON =>
      match UnmarshalFactory factoryJSON with
      | .error e => .error (.wrap "failed to unmarshal factory" e)
      | .ok factory0 => do
        SPEC_IsReadyforApproval
          [factory0.IsAuditorApproved, factory0.IsRetailerApproved, !factory0.IsFlagged]
        let factory : Factory := { factory0 with Status := "approved", UpdatedAt := ctx.now }
        match Marshal factory.toJSON with
        | .error e => .error (.wrap "failed to marshal updated factory" e)
        | .ok updatedFactoryJSON => pure updatedFactoryJSON)

/-! ## Invocations and reachable world states -/

/-- The mutating invocations of the production-channel contract, each with the
arguments of its Go method. -/
inductive ProductionCall where
  | createCottonBale (approval : Bool) (assemblyDate : Time) (flagReason : String)
      (cottonBaleID : String) (isFlagged : Bool) (notes origin qualityGrade : String)
      (totalWeight : F32)
  | createLot (assemblyDate : Time) (assetIDPrefix : String) (content : Slice)
      (destination flagReason lotID : String) (isFlagged : Bool)
      (notes origin owner : String) (totalWeight : F32)
  | createCottonYarn (approval : Bool) (assemblyDate : Time) (content : Slice)
      (flagReason cottonYarnID : String) (isFlagged : Bool) (notes origin : String)
      (totalWeight : F32) (yarnCount : Int)
  | createUnfinishedFabric (approval : Bool) (assemblyDate : Time) (content : Slice)
      (flagReason unfinishedFabricID : String) (isFlagged : Bool) (notes origin : String)
      (length totalWeight width : F32)
  | createFinishedFabric (approval : Bool) (assemblyDate : Time) (content : Slice)
      (finishedFabricID flagReason : String) (isFlagged : Bool) (length : F32)
      (notes origin : String) (totalWeight width : F32)
  | createCutPart (approval : Bool) (assemblyDate : Time) (content : Slice)
      (flagReason cutPartID : String) (isFlagged : Bool)
      (notes origin patternPiece : String) (totalWeight : F32)
  | createButton (approval : Bool) (assemblyDate : Time) (flagReason buttonID : String)
      (isFlagged : Bool) (notes origin : String) (totalWeight : F32)
  | createAssembledGarment (approval : Bool) (assemblyDate : Time) (buttons cutParts : Slice)
      (flagReason assembledGarmentID : String) (isFlagged : Bool) (notes origin : String)
      (totalWeight : F32)
  | createCarton (allAssetsApproved : Bool) (assemblyDate : Time) (content : Slice)
      (customerID flagReason cartonID : String) (isFlagged : Bool)
      (notes origin owner : String) (totalWeight : F32)
  | createContainer (content : Slice) (destinationPort flagReason containerID : String)
      (isFlagged : Bool) (loadedAt : Time) (originPort : String) (totalWeight : F32)
      (vessel : String)
  | updateLotOwner (lotID newOwner : String)
  | setFlag (id : String) (isFlagged : Bool) (flagReason : String)
  | setNotes (id notes : String)

/-- Run an invocation of the production-channel contract. -/
def ProductionCall.invoke (ctx : Ctx) : ProductionCall → Result
  | .createCottonBale a b c d e f g h i => CreateCottonBale ctx a b c d e f g h i
  | .createLot a b c d e f g h i j k => CreateLot ctx a b c d e f g h i j k
  | .createCottonYarn a b c d e f g h i j => CreateCottonYarn ctx a b c d e f g h i j
  | .createUnfinishedFabric a b c d e f g h i j k =>
    CreateUnfinishedFabric ctx a b c d e f g h i j k
  | .createFinishedFabric a b c d e f g h i j k =>
    CreateFinishedFabric ctx a b c d e f g h i j k
  | .createCutPart a b c d e f g h i j => CreateCutPart ctx a b c d e f g h i j
  | .createButton a b c d e f g h => CreateButton ctx a b c d e f g h
  | .createAssembledGarment a b c d e f g h i j =>
    CreateAssembledGarment ctx a b c d e f g h i j
  | .createCarton a b c d e f g h i j k => CreateCarton ctx a b c d e f g h i j k
  | .createContainer a b c d e f g h i => CreateContainer ctx a b c d e f g h i
  | .updateLotOwner a b => UpdateLotOwner ctx a b
  | .setFlag a b c => SetFlag ctx a b c
  | .setNotes a b => SetNotes ctx a b

/-- The mutating invocations of the admin-channel contract. -/
inductive AdminCall where
  | createOrder (createdAt deliveryDate : Time) (flagReason orderID : String)
      (isFlagged : Bool) (notes paymentTerms productDetails receiverID : String)
      (totalOrderValue : F32)
  | createPlan (createdAt : Time) (factoryIDs : Slice) (flagReason planID : String)
      (isFlagged : Bool) (notes orderID productionPlan : String)
  | createFactory (factoryOwner flagReason factoryID : String) (isFlagged : Bool)
      (location name notes : String) (pastFulfillment : Bool) (startDate : Time)
  | setOrderAcceptance (orderID planID : String) (acceptance : Bool)
  | setOrderStatus (orderID newStatus : String)
  | setPlanApproval (planID : String) (approval : Bool)
  | setPlanStatus (planID : String)
  | setFactoryApproval (factoryID : String) (approval : Bool)
  | setFactoryStatus (factoryID : String)
  | setFlag (id : String) (isFlagged : Bool) (flagReason : String)
  | setNotes (id notes : String)

/-- Run an invocation of the admin-channel contract. -/
def AdminCall.invoke (ctx : Ctx) : AdminCall → Result
  | .createOrder a b c d e f g h i j => CreateOrder ctx a b c d e f g h i j
  | .createPlan a b c d e f g h => CreatePlan ctx a b c d e f g h
  | .createFactory a b c d e f g h i => CreateFactory ctx a b c d e f g h i
  | .setOrderAcceptance a b c => SetOrderAcceptance ctx a b c
  | .setOrderStatus a b => SetOrderStatus ctx a b
  | .setPlanApproval a b => SetPlanApproval ctx a b
  | .setPlanStatus a => SetPlanStatus ctx a
  | .setFactoryApproval a b => SetFactoryApproval ctx a b
  | .setFactoryStatus a => SetFactoryStatus ctx a
  | .setFlag a b c => SetFlag ctx a b c
  | .setNotes a b => SetNotes ctx a b

/-- A mutating invocation of either contract. -/
inductive Call where
  | production (call : ProductionCall)
  | admin (call : AdminCall)

/-- Run an invocation on the world state of its own channel. -/
def Call.invoke (ctx : Ctx) : Call → Result
  | .production call => call.invoke ctx
  | .admin call => call.invoke ctx

/-- The ID argument of a Create invocation, with the prefix that its method
passes to `SPEC_IDPrefix`; `none` for the other invocations. -/
def Call.created : Call → Option (String × String)
  | .production (.createCottonBale _ _ _ id _ _ _ _ _) => some (id, "cottonbale_")
  | .production (.createLot _ _ _ _ _ id _ _ _ _ _) => some (id, "lot_")
  | .production (.createCottonYarn _ _ _ _ id _ _ _ _ _) => some (id, "cottonyarn_")
  | .production (.createUnfinishedFabric _ _ _ _ id _ _ _ _ _ _) =>
    some (id, "unfinishedfabric_")
  | .production (.createFinishedFabric _ _ _ id _ _ _ _ _ _ _) => some (id, "finishedfabric_")
  | .production (.createCutPart _ _ _ _ id _ _ _ _ _) => some (id, "cutpart_")
  | .production (.createButton _ _ _ id _ _ _ _) => some (id, "button_")
  | .production (.createAssembledGarment _ _ _ _ _ id _ _ _ _) =>
    some (id, "assembledgarment_")
  | .production (.createCarton _ _ _ _ _ id _ _ _ _ _) => some (id, "carton_")
  | .production (.createContainer _ _ _ id _ _ _ _ _) => some (id, "container_")
  | .admin (.createOrder _ _ _ id _ _ _ _ _ _) => some (id, "order_")
  | .admin (.createPlan _ _ _ id _ _ _ _) => some (id, "plan_")
  | .admin (.createFactory _ _ id _ _ _ _ _ _) => some (id, "factory_")
  | _ => none

/-- The content lists an invocation passes to `SPEC_LotConsistency`. -/
def ProductionCall.consistencyChecked : ProductionCall → List Slice
  | .createLot _ _ content _ _ _ _ _ _ _ _ => [content]
  | .createAssembledGarment _ _ buttons cutParts _ _ _ _ _ _ => [buttons, cutParts]
  | .createCarton _ _ content _ _ _ _ _ _ _ _ => [content]
  | .createContainer content _ _ _ _ _ _ _ _ => [content]
  | _ => []

/-- The world states the production-channel contract can reach from the empty
ledger, whoever invokes it, whenever, and with whatever arguments. -/
inductive ProductionReachable : Ledger → Prop where
  | empty : ProductionReachable []
  | step (st : Ledger) (mspid : String) (now : Time) (call : ProductionCall) :
      ProductionReachable st → ProductionReachable (call.invoke ⟨st, mspid, now⟩).state

/-- The world states the admin-channel contract can reach from the empty
ledger. -/
inductive AdminReachable : Ledger → Prop where
  | empty : AdminReachable []
  | step (st : Ledger) (mspid : String) (now : Time) (call : AdminCall) :
      AdminReachable st → AdminReachable (call.invoke ⟨st, mspid, now⟩).state

/-! ## The scenario of the specification

A cotton bale of weight 50 created by `Org4MSP`, then a lot that holds it,
declared with weight 48. -/

/-- The world state after `CreateCottonBale` of `cottonbale_1` (weight 50,
approved) on the empty ledger. -/
def ledgerWithBale : Ledger :=
  (CreateCottonBale ⟨[], "Org4MSP", 10⟩ true 5 "" "cottonbale_1" false "" "Texas" "A" 50).state

/-- The world state after `CreateLot` of `lot_1` holding `cottonbale_1`,
declared with weight 48. -/
def ledgerWithLot : Ledger :=
  (CreateLot ⟨ledgerWithBale, "Org4MSP", 20⟩ 5 "cottonbale_" (some ["cottonbale_1"]) "Mill" ""
    "lot_1" false "" "Texas" "Org4MSP" 48).state

/-! ## Vocabulary of the weight claims -/

/-- The `TotalWeight` stored in a record, read as `GetContentWeight` reads it:
the member must be a JSON number. -/
def storedWeight (r : Record) : Option F32 :=
  match r.get "TotalWeight" with
  | some (.num x) => some x
  | some (.int n) => some (F32.ofInt n)
  | _ => none

/-- `ws` lists the stored `TotalWeight` of the assets `ids`, in order. -/
def StoredWeights (st : Ledger) (ids : List String) (ws : List F32) : Prop :=
  List.Forall₂ (fun id w => ∃ r, GetState st id = some r ∧ storedWeight r = some w) ids ws

/-- The float32 sum of a list of weights, accumulated from zero in list
order. -/
def sumWeights (ws : List F32) : F32 := ws.foldl (fun acc w => acc + w) 0

/-- The float32 sum of the sums of the content groups of a composite. -/
def combineWeights : List F32 → F32
  | [] => 0
  | [s] => s
  | s :: rest => s + combineWeights rest

/-- The ID, the content lists and the declared total weight of a
composite-creating invocation; `none` for the other invocations. -/
def ProductionCall.composite : ProductionCall → Option (String × List Slice × F32)
  | .createLot _ _ content _ _ id _ _ _ _ totalWeight => some (id, [content], totalWeight)
  | .createCottonYarn _ _ content _ id _ _ _ totalWeight _ =>
    some (id, [content], totalWeight)
  | .createUnfinishedFabric _ _ content _ id _ _ _ _ totalWeight _ =>
    some (id, [content], totalWeight)
  | .createFinishedFabric _ _ content id _ _ _ _ _ totalWeight _ =>
    some (id, [content], totalWeight)
  | .createCutPart _ _ content _ id _ _ _ _ totalWeight => some (id, [content], totalWeight)
  | .createAssembledGarment _ _ buttons cutParts _ id _ _ _ totalWeight =>
    some (id, [buttons, cutParts], totalWeight)
  | .createCarton _ _ content _ _ id _ _ _ _ totalWeight => some (id, [content], totalWeight)
  | .createContainer content _ _ id _ _ _ totalWeight _ => some (id, [content], totalWeight)
  | _ => none

/-- The `Content` list of a record; empty when the member is missing, `null`
or not an array of strings. -/
def Record.content (r : Record) : List String :=
  match r.get "Content" with
  | some (.strs l) => l
  | _ => []

/-- The scenario continued: a cotton yarn spun from `lot_1`. -/
def ledgerWithYarn : Ledger :=
  (CreateCottonYarn ⟨ledgerWithLot, "Org4MSP", 30⟩ true 25 (some ["lot_1"]) "" "cottonyarn_1"
    false "" "Texas" 45 30).state

/-- The scenario continued: a second cotton yarn that lists `lot_1` again. -/
def ledgerWithTwoYarns : Ledger :=
  (CreateCottonYarn ⟨ledgerWithYarn, "Org4MSP", 40⟩ true 35 (some ["lot_1"]) "" "cottonyarn_2"
    false "" "Texas" 45 30).state

/-- The scenario continued on another branch: a second bale and a second lot
that holds it. -/
def ledgerWithTwoLots : Ledger :=
  (CreateLot
    ⟨(CreateCottonBale ⟨ledgerWithLot, "Org4MSP", 30⟩ true 25 "" "cottonbale_2" false ""
        "Texas" "B" 60).state, "Org4MSP", 40⟩
    35 "cottonbale_" (some ["cottonbale_2"]) "Mill" "" "lot_2" false "" "Texas" "Org4MSP"
    60).state

/-- An admin-channel state: `order_1`, `factory_1` and then `plan_1`, created on
the empty ledger. -/
def adminLedgerWithPlan : Ledger :=
  (CreatePlan
    ⟨(CreateFactory
        ⟨(CreateOrder ⟨[], "Org1MSP", 10⟩ 5 100 "" "order_1" false "" "net30" "shirts"
            "Org2MSP" 1000).state, "Org2MSP", 20⟩
        "Org2MSP" "" "factory_1" false "Dhaka" "Mill One" "" true 15).state, "Org2MSP", 30⟩
    25 (some ["factory_1"]) "" "plan_1" false "" "order_1" "cut and sew").state

/-! ## Vocabulary of the authorization claims -/

/-- A JSON value has no NaN and no infinity: JSON text cannot hold them. -/
def JVal.isJSON : JVal → Bool
  | .num x => x.isFinite
  | _ => true

/-- A record all of whose numbers are finite: what a ledger value parsed from
JSON text always is. -/
def Record.isJSON (r : Record) : Bool := r.all (fun kv => kv.2.isJSON)

/-- The seven content types that the two `switch` statements on the lot type
recognise. -/
def recognisedTypes : List String :=
  ["cottonbale_", "cottonyarn_", "unfinishedfabric_", "finishedfabric_", "cutpart_", "button_",
   "assembledgarment_"]

/-- The allow-set the specification declares for creating a lot of the given
content type. -/
def lotAllowSet (contentType : String) : List String :=
  if contentType = "cottonbale_" ∨ contentType = "cottonyarn_" then
    ["Org1MSP", "Org2MSP", "Org4MSP"]
  else if contentType = "unfinishedfabric_" ∨ contentType = "finishedfabric_" then
    ["Org1MSP", "Org2MSP", "Org5MSP"]
  else if contentType = "cutpart_" ∨ contentType = "button_" ∨
      contentType = "assembledgarment_" then
    ["Org1MSP", "Org2MSP", "Org6MSP"]
  else []

/-- The allow-set the specification declares for transferring a lot of the
given content type, used for the invoker and for the new owner alike. -/
def transferAllowSet (contentType : String) : List String :=
  if contentType = "cottonbale_" then ["Org1MSP", "Org2MSP", "Org4MSP"]
  else if contentType = "cottonyarn_" then ["Org1MSP", "Org2MSP", "Org4MSP", "Org5MSP"]
  else if contentType = "unfinishedfabric_" then ["Org1MSP", "Org2MSP", "Org5MSP"]
  else if contentType = "finishedfabric_" then ["Org1MSP", "Org2MSP", "Org5MSP", "Org6MSP"]
  else if contentType = "cutpart_" ∨ contentType = "button_" ∨
      contentType = "assembledgarment_" then
    ["Org1MSP", "Org2MSP", "Org6MSP"]
  else []

/-! ## Further scenarios -/

/-- A production-channel state with one cotton bale that is not approved. -/
def ledgerWithUnapprovedBale : Ledger :=
  (CreateCottonBale ⟨[], "Org4MSP", 10⟩ false 5 "" "cottonbale_3" false "" "Texas" "C" 50).state

/-- The admin-channel scenario continued: `factory_1` approved by the retailer
(`Org1MSP`) and by the auditor (`Org3MSP`). -/
def adminLedgerFactoryEndorsed : Ledger :=
  (SetFactoryApproval
    ⟨(SetFactoryApproval ⟨adminLedgerWithPlan, "Org1MSP", 40⟩ "factory_1" true).state,
      "Org3MSP", 41⟩ "factory_1" true).state

/-- The admin-channel scenario continued: the status of `factory_1` set to
approved. -/
def adminLedgerFactoryApproved : Ledger :=
  (SetFactoryStatus ⟨adminLedgerFactoryEndorsed, "Org1MSP", 42⟩ "factory_1").state

/-- The admin-channel scenario continued: `plan_1` approved by the retailer and
by the auditor. -/
def adminLedgerPlanEndorsed : Ledger :=
  (SetPlanApproval
    ⟨(SetPlanApproval ⟨adminLedgerFactoryApproved, "Org1MSP", 43⟩ "plan_1" true).state,
      "Org3MSP", 44⟩ "plan_1" true).state

/-- The admin-channel scenario continued: the status of `plan_1` set to
approved. -/
def adminLedgerPlanApproved : Ledger :=
  (SetPlanStatus ⟨adminLedgerPlanEndorsed, "Org1MSP", 45⟩ "plan_1").state

/-- The admin-channel scenario continued: `order_1` accepted by its receiver
`Org2MSP` with `plan_1`. -/
def adminLedgerOrderAccepted : Ledger :=
  (SetOrderAcceptance ⟨adminLedgerPlanApproved, "Org2MSP", 46⟩ "order_1" "plan_1" true).state

/-! ## Vocabulary of the approval claims -/

/-- The `Status` a stored record shows when it is read as a `Factory`, the way
`SetPlanStatus` reads each entry of `plan.Factories`; `none` when the key is
missing or the record does not decode. -/
def storedFactoryStatus (st : Ledger) (factoryID : String) : Option String :=
  match GetState st factoryID with
  | none => none
  | some factoryJSON =>
    match UnmarshalFactory factoryJSON with
    | .error _ => none
    | .ok factory => some factory.Status

/-- The `Status` a stored record shows when it is read as a `Plan`, the way
`SetOrderStatus` reads the record under `order.PlanID`; `none` when the key is
missing or the record does not decode. -/
def storedPlanStatus (st : Ledger) (planID : String) : Option String :=
  match GetState st planID with
  | none => none
  | some planJSON =>
    match UnmarshalPlan planJSON with
    | .error _ => none
    | .ok plan => some plan.Status

deriving instance DecidableEq for Order
deriving instance DecidableEq for Plan
deriving instance DecidableEq for Factory

/-- The factory stored under `factory_1` in `adminLedgerFactoryEndorsed`. -/
def endorsedFactory : Factory :=
  { FactoryOwner := "Org2MSP", FlagReason := "", ID := "factory_1", IsAuditorApproved := true,
    IsFlagged := false, IsRetailerApproved := true, Location := "Dhaka", Name := "Mill One",
    Notes := "", PastFulfillment := true, StartDate := 15, Status := "pending",
    UpdatedAt := 41 }

/-- The plan stored under `plan_1` in `adminLedgerPlanEndorsed`. -/
def endorsedPlan : Plan :=
  { AllFactoriesApproved := false, CreatedAt := 25, CreatorID := "Org2MSP",
    Factories := some ["factory_1"], FlagReason := "", ID := "plan_1",
    IsAuditorApproved := true, IsFlagged := false, IsRetailerApproved := true, Notes := "",
    OrderID := "order_1", ProductionPlan := "cut and sew", Status := "issued",
    UpdatedAt := 44 }

/-- The order stored under `order_1` in `adminLedgerOrderAccepted`. -/
def acceptedOrder : Order :=
  { CreatedAt := 5, CreatorID := "Org1MSP", DeliveryDate := 100, FlagReason := "",
    ID := "order_1", IsAccepted := true, IsFlagged := false, Notes := "",
    PaymentTerms := "net30", PlanID := "plan_1", ProductDetails := "shirts",
    ReceiverID := "Org2MSP", Status := "issued", TotalOrderValue := 1000, UpdatedAt := 46 }

/-! ## Vocabulary of the invariants -/

/-- Flag consistency of a stored record: `IsFlagged` is a boolean, `FlagReason`
is a string, and the record is flagged exactly when the reason is neither empty
nor `N/A`. -/
def Record.flagConsistent (r : Record) : Bool :=
  match r.get "IsFlagged", r.get "FlagReason" with
  | some (.bool isFlagged), some (.str flagReason) =>
    isFlagged == (flagReason != "" && flagReason != "N/A")
  | _, _ => false

/-- The `Status` member of a stored record is a string of the given list. -/
def Record.statusIn (r : Record) (statuses : List String) : Bool :=
  match r.get "Status" with
  | some (.str s) => statuses.contains s
  | _ => false

/-- The values of `Order.Status` the specification names. -/
def orderStatuses : List String := ["issued", "accepted", "cancelled", "rejected"]

/-- The values of `Plan.Status` the specification names. -/
def planStatuses : List String := ["issued", "approved"]

/-- The values of `Factory.Status` the specification names. -/
def factoryStatuses : List String := ["pending", "approved"]

/-- The values of `Status` the admin-channel contract ever writes. -/
def adminStatuses : List String :=
  ["issued", "accepted", "cancelled", "rejected", "pending", "approved"]

/-- The prefixes the ten Create methods of the production-channel contract pass
to `SPEC_IDPrefix`. -/
def productionPrefixes : List String :=
  ["cottonbale_", "lot_", "cottonyarn_", "unfinishedfabric_", "finishedfabric_", "cutpart_",
   "button_", "assembledgarment_", "carton_", "container_"]

/-- The prefixes the three Create methods of the admin-channel contract pass to
`SPEC_IDPrefix`. -/
def adminPrefixes : List String := ["order_", "plan_", "factory_"]

/-- The thirteen reserved prefixes. -/
def reservedPrefixes : List String := productionPrefixes ++ adminPrefixes

/-- The type-specific update methods of the admin-channel contract name the
asset type they are meant for (`SetOrderStatus`, `SetPlanApproval`, ...); the
invocation is on its own type when the key it is given has the prefix of that
type. The Create methods and the generic `SetFlag` and `SetNotes` always
are. -/
def AdminCall.onOwnType : AdminCall → Bool
  | .setOrderAcceptance orderID _ _ => HasPrefix orderID "order_"
  | .setOrderStatus orderID _ => HasPrefix orderID "order_"
  | .setPlanApproval planID _ => HasPrefix planID "plan_"
  | .setPlanStatus planID => HasPrefix planID "plan_"
  | .setFactoryApproval factoryID _ => HasPrefix factoryID "factory_"
  | .setFactoryStatus factoryID => HasPrefix factoryID "factory_"
  | _ => true

/-- The world states the admin-channel contract reaches from the empty ledger
when every type-specific update is invoked on a key of its own type. -/
inductive AdminReachableOnOwnType : Ledger → Prop where
  | empty : AdminReachableOnOwnType []
  | step (st : Ledger) (mspid : String) (now : Time) (call : AdminCall) :
      call.onOwnType = true → AdminReachableOnOwnType st →
      AdminReachableOnOwnType (call.invoke ⟨st, mspid, now⟩).state

/-- The type-specific update methods that read and rewrite the record as a
`Factory`, the one admin asset type without a `CreatorID` field. -/
def Call.rewritesAsFactory : Call → Bool
  | .admin (.setFactoryApproval _ _) => true
  | .admin (.setFactoryStatus _) => true
  | _ => false

/-! ## Scenarios of the invariants -/

/-- The plan approvals and `SetPlanStatus` invoked on the key `order_1` of an
order: the retailer and the auditor approve it as if it were a plan. -/
def adminLedgerOrderAsPlan : Ledger :=
  (SetPlanStatus
    ⟨(SetPlanApproval
        ⟨(SetPlanApproval ⟨adminLedgerWithPlan, "Org1MSP", 40⟩ "order_1" true).state,
          "Org3MSP", 41⟩ "order_1" true).state, "Org1MSP", 42⟩ "order_1").state

/-- The order `order_1` of `adminLedgerOrderAccepted` once its status is
`accepted`. -/
def adminLedgerOrderDecided : Ledger :=
  (SetOrderStatus ⟨adminLedgerOrderAccepted, "Org1MSP", 47⟩ "order_1" "accepted").state

/-- A production-channel state with a carton: a button and a cut part, the
garment assembled from them and the carton that holds the garment, all created
by `Org6MSP`. -/
def ledgerWithCarton : Ledger :=
  (CreateCarton
    ⟨(CreateAssembledGarment
        ⟨(CreateCutPart
            ⟨(CreateButton ⟨[], "Org6MSP", 10⟩ true 5 "" "button_1" false "" "Dhaka" 1).state,
              "Org6MSP", 20⟩
            true 15 (some []) "" "cutpart_1" false "" "Dhaka" "sleeve" 2).state,
          "Org6MSP", 30⟩
        true 25 (some ["button_1"]) (some ["cutpart_1"]) "" "assembledgarment_1" false ""
        "Dhaka" 3).state, "Org6MSP", 40⟩
    true 35 (some ["assembledgarment_1"]) "Org1MSP" "" "carton_1" false "" "Dhaka"
    "Org6MSP" 3).state

/-- The scenario continued: the container that holds the carton. -/
def ledgerWithContainer : Ledger :=
  (CreateContainer ⟨ledgerWithCarton, "Org6MSP", 50⟩ (some ["carton_1"]) "Rotterdam" ""
    "container_1" false 45 "Chittagong" 3 "Ever Given").state

/-- The factory stored under `factory_1` in `adminLedgerFactoryApproved`. -/
def approvedFactory : Factory :=
  { endorsedFactory with Status := "approved", UpdatedAt := 42 }

/-- The plan stored under `plan_1` in `adminLedgerPlanApproved`. -/
def approvedPlan : Plan :=
  { endorsedPlan with AllFactoriesApproved := true, Status := "approved", UpdatedAt := 45 }

/-- The order stored under `order_1` in `adminLedgerOrderDecided`. -/
def decidedOrder : Order :=
  { acceptedOrder with Status := "accepted", UpdatedAt := 47 }

/-- The plan stored under `plan_1` in `adminLedgerWithPlan`. -/
def issuedPlan : Plan :=
  { AllFactoriesApproved := false, CreatedAt := 25, CreatorID := "Org2MSP",
    Factories := some ["factory_1"], FlagReason := "", ID := "plan_1",
    IsAuditorApproved := false, IsFlagged := false, IsRetailerApproved := false, Notes := "",
    OrderID := "order_1", ProductionPlan := "cut and sew", Status := "issued",
    UpdatedAt := 30 }

/-! ## Production channel: the typed listing functions
(`production_audit_functions.go`) -/

/-- `json.Unmarshal(queryResponse.Value, &cottonBale)` with `cottonBale` a zero `CottonBale`. -/
def UnmarshalCottonBale (r : Record) : Except Err CottonBale := do
  let vApproval ← fieldBool r "Approval"
  let vAssemblyDate ← fieldTime r "AssemblyDate"
  let vCreatorID ← fieldString r "CreatorID"
  let vFlagReason ← fieldString r "FlagReason"
  let vID ← fieldString r "ID"
  let vIsFlagged ← fieldBool r "IsFlagged"
  let vNotes ← fieldString r "Notes"
  let vOrigin ← fieldString r "Origin"
  let vQualityGrade ← fieldString r "QualityGrade"
  let vTotalWeight ← fieldFloat32 r "TotalWeight"
  let vUpdatedAt ← fieldTime r "UpdatedAt"
  pure
    { Approval := vApproval,
      AssemblyDate := vAssemblyDate,
      CreatorID := vCreatorID,
      FlagReason := vFlagReason,
      ID := vID,
      IsFlagged := vIsFlagged,
      Notes := vNotes,
      Origin := vOrigin,
      QualityGrade := vQualityGrade,
      TotalWeight := vTotalWeight,
      UpdatedAt := vUpdatedAt }

/-- `json.Unmarshal(queryResponse.Value, &cottonYarn)` with `cottonYarn` a zero `CottonYarn`. -/
def UnmarshalCottonYarn (r : Record) : Except Err CottonYarn := do
  let vApproval ← fieldBool r "Approval"
  let vAssemblyDate ← fieldTime r "AssemblyDate"
  let vContent ← fieldSlice r "Content"
  let vContentWeight ← fieldFloat32 r "ContentWeight"
  let vCreatorID ← fieldString r "CreatorID"
  let vFlagReason ← fieldString r "FlagReason"
  let vID ← fieldString r "ID"
  let vIsFlagged ← fieldBool r "IsFlagged"
  let vNotes ← fieldString r "Notes"
  let vOrigin ← fieldString r "Origin"
  let vTotalWeight ← fieldFloat32 r "TotalWeight"
  let vUpdatedAt ← fieldTime r "UpdatedAt"
  let vWeightDifference ← fieldFloat32 r "WeightDifference"
  let vYarnCount ← fieldInt r "YarnCount"
  pure
    { Approval := vApproval,
      AssemblyDate := vAssemblyDate,
      Content := vContent,
      ContentWeight := vContentWeight,
      CreatorID := vCreatorID,
      FlagReason := vFlagReason,
      ID := vID,
      IsFlagged := vIsFlagged,
      Notes := vNotes,
      Origin := vOrigin,
      TotalWeight := vTotalWeight,
      UpdatedAt := vUpdatedAt,
      WeightDifference := vWeightDifference,
      YarnCount := vYarnCount }

/-- `json.Unmarshal(queryResponse.Value, &unfinishedFabric)` with `unfinishedFabric` a zero `UnfinishedFabric`. -/
def UnmarshalUnfinishedFabric (r : Record) : Except Err UnfinishedFabric := do
  let vApproval ← fieldBool r "Approval"
  let vAssemblyDate ← fieldTime r "AssemblyDate"
  let vContent ← fieldSlice r "Content"
  let vContentWeight ← fieldFloat32 r "ContentWeight"
  let vCreatorID ← fieldString r "CreatorID"
  let vFlagReason ← fieldString r "FlagReason"
  let vID ← fieldString r "ID"
  let vIsFlagged ← fieldBool r "IsFlagged"
  let vLength ← fieldFloat32 r "Length"
  let vNotes ← fieldString r "Notes"
  let vOrigin ← fieldString r "Origin"
  let vTotalWeight ← fieldFloat32 r "TotalWeight"
  let vUpdatedAt ← fieldTime r "UpdatedAt"
  let vWeightDifference ← fieldFloat32 r "WeightDifference"
  let vWidth ← fieldFloat32 r "Width"
  pure
    { Approval := vApproval,
      AssemblyDate := vAssemblyDate,
      Content := vContent,
      ContentWeight := vContentWeight,
      CreatorID := vCreatorID,
      FlagReason := vFlagReason,
      ID := vID,
      IsFlagged := vIsFlagged,
      Length := vLength,
      Notes := vNotes,
      Origin := vOrigin,
      TotalWeight := vTotalWeight,
      UpdatedAt := vUpdatedAt,
      WeightDifference := vWeightDifference,
      Width := vWidth }

/-- `json.Unmarshal(queryResponse.Value, &finishedFabric)` with `finishedFabric` a zero `FinishedFabric`. -/
def UnmarshalFinishedFabric (r : Record) : Except Err FinishedFabric := do
  let vApproval ← fieldBool r "Approval"
  let vAssemblyDate ← fieldTime r "AssemblyDate"
  let vContent ← fieldSlice r "Content"
  let vContentWeight ← fieldFloat32 r "ContentWeight"
  let vCreatorID ← fieldString r "CreatorID"
  let vFlagReason ← fieldString r "FlagReason"
  let vID ← fieldString r "ID"
  let vIsFlagged ← fieldBool r "IsFlagged"
  let vLength ← fieldFloat32 r "Length"
  let vNotes ← fieldString r "Notes"
  let vOrigin ← fieldString r "Origin"
  let vTotalWeight ← fieldFloat32 r "TotalWeight"
  let vUpdatedAt ← fieldTime r "UpdatedAt"
  let vWeightDifference ← fieldFloat32 r "WeightDifference"
  let vWidth ← fieldFloat32 r "Width"
  pure
    { Approval := vApproval,
      AssemblyDate := vAssemblyDate,
      Content := vContent,
      ContentWeight := vContentWeight,
      CreatorID := vCreatorID,
      FlagReason := vFlagReason,
      ID := vID,
      IsFlagged := vIsFlagged,
      Length := vLength,
      Notes := vNotes,
      Origin := vOrigin,
      TotalWeight := vTotalWeight,
      UpdatedAt := vUpdatedAt,
      WeightDifference := vWeightDifference,
      Width := vWidth }

/-- `json.Unmarshal(queryResponse.Value, &cutPart)` with `cutPart` a zero `CutPart`. -/
def UnmarshalCutPart (r : Record) : Except Err CutPart := do
  let vApproval ← fieldBool r "Approval"
  let vAssemblyDate ← fieldTime r "AssemblyDate"
  let vContent ← fieldSlice r "Content"
  let vContentWeight ← fieldFloat32 r "ContentWeight"
  let vCreatorID ← fieldString r "CreatorID"
  let vFlagReason ← fieldString r "FlagReason"
  let vID ← fieldString r "ID"
  let vIsFlagged ← fieldBool r "IsFlagged"
  let vNotes ← fieldString r "Notes"
  let vOrigin ← fieldString r "Origin"
  let vPatternPiece ← fieldString r "PatternPiece"
  let vTotalWeight ← fieldFloat32 r "TotalWeight"
  let vUpdatedAt ← fieldTime r "UpdatedAt"
  let vWeightDifference ← fieldFloat32 r "WeightDifference"
  pure
    { Approval := vApproval,
      AssemblyDate := vAssemblyDate,
      Content := vContent,
      ContentWeight := vContentWeight,
      CreatorID := vCreatorID,
      FlagReason := vFlagReason,
      ID := vID,
      IsFlagged := vIsFlagged,
      Notes := vNotes,
      Origin := vOrigin,
      PatternPiece := vPatternPiece,
      TotalWeight := vTotalWeight,
      UpdatedAt := vUpdatedAt,
      WeightDifference := vWeightDifference }

/-- `json.Unmarshal(queryResponse.Value, &button)` with `button` a zero `Button`. -/
def UnmarshalButton (r : Record) : Except Err Button := do
  let vApproval ← fieldBool r "Approval"
  let vAssemblyDate ← fieldTime r "AssemblyDate"
  let vCreatorID ← fieldString r "CreatorID"
  let vFlagReason ← fieldString r "FlagReason"
  let vID ← fieldString r "ID"
  let vIsFlagged ← fieldBool r "IsFlagged"
  let vNotes ← fieldString r "Notes"
  let vOrigin ← fieldString r "Origin"
  let vTotalWeight ← fieldFloat32 r "TotalWeight"
  let vUpdatedAt ← fieldTime r "UpdatedAt"
  pure
    { Approval := vApproval,
      AssemblyDate := vAssemblyDate,
      CreatorID := vCreatorID,
      FlagReason := vFlagReason,
      ID := vID,
      IsFlagged := vIsFlagged,
      Notes := vNotes,
      Origin := vOrigin,
      TotalWeight := vTotalWeight,
      UpdatedAt := vUpdatedAt }

/-- `json.Unmarshal(queryResponse.Value, &assembledGarment)` with `assembledGarment` a zero `AssembledGarment`. -/
def UnmarshalAssembledGarment (r : Record) : Except Err AssembledGarment := do
  let vApproval ← fieldBool r "Approval"
  let vAssemblyDate ← fieldTime r "AssemblyDate"
  let vButtons ← fieldSlice r "Buttons"
  let vContentWeight ← fieldFloat32 r "ContentWeight"
  let vCreatorID ← fieldString r "CreatorID"
  let vCutParts ← fieldSlice r "CutParts"
  let vFlagReason ← fieldString r "FlagReason"
  let vID ← fieldString r "ID"
  let vIsFlagged ← fieldBool r "IsFlagged"
  let vNotes ← fieldString r "Notes"
  let vOrigin ← fieldString r "Origin"
  let vTotalWeight ← fieldFloat32 r "TotalWeight"
  let vUpdatedAt ← fieldTime r "UpdatedAt"
  let vWeightDifference ← fieldFloat32 r "WeightDifference"
  pure
    { Approval := vApproval,
      AssemblyDate := vAssemblyDate,
      Buttons := vButtons,
      ContentWeight := vContentWeight,
      CreatorID := vCreatorID,
      CutParts := vCutParts,
      FlagReason := vFlagReason,
      ID := vID,
      IsFlagged := vIsFlagged,
      Notes := vNotes,
      Origin := vOrigin,
      TotalWeight := vTotalWeight,
      UpdatedAt := vUpdatedAt,
      WeightDifference := vWeightDifference }

/-- `json.Unmarshal(queryResponse.Value, &carton)` with `carton` a zero `Carton`. -/
def UnmarshalCarton (r : Record) : Except Err Carton := do
  let vAllAssetsApproved ← fieldBool r "AllAssetsApproved"
  let vAssemblyDate ← fieldTime r "AssemblyDate"
  let vContent ← fieldSlice r "Content"
  let vContentWeight ← fieldFloat32 r "ContentWeight"
  let vCreatorID ← fieldString r "CreatorID"
  let vCustomerID ← fieldString r "CustomerID"
  let vFlagReason ← fieldString r "FlagReason"
  let vID ← fieldString r "ID"
  let vIsFlagged ← fieldBool r "IsFlagged"
  let vNotes ← fieldString r "Notes"
  let vOrigin ← fieldString r "Origin"
  let vOwner ← fieldString r "Owner"
  let vPreviousOwner ← fieldString r "PreviousOwner"
  let vQuantity ← fieldInt r "Quantity"
  let vTotalWeight ← fieldFloat32 r "TotalWeight"
  let vUpdatedAt ← fieldTime r "UpdatedAt"
  let vWeightDifference ← fieldFloat32 r "WeightDifference"
  pure
    { AllAssetsApproved := vAllAssetsApproved,
      AssemblyDate := vAssemblyDate,
      Content := vContent,
      ContentWeight := vContentWeight,
      CreatorID := vCreatorID,
      CustomerID := vCustomerID,
      FlagReason := vFlagReason,
      ID := vID,
      IsFlagged := vIsFlagged,
      Notes := vNotes,
      Origin := vOrigin,
      Owner := vOwner,
      PreviousOwner := vPreviousOwner,
      Quantity := vQuantity,
      TotalWeight := vTotalWeight,
      UpdatedAt := vUpdatedAt,
      WeightDifference := vWeightDifference }

/-- `json.Unmarshal(queryResponse.Value, &container)` with `container` a zero `Container`. -/
def UnmarshalContainer (r : Record) : Except Err Container := do
  let vAssetType ← fieldString r "AssetType"
  let vContent ← fieldSlice r "Content"
  let vContentWeight ← fieldFloat32 r "ContentWeight"
  let vCreatorID ← fieldString r "CreatorID"
  let vDestinationPort ← fieldString r "DestinationPort"
  let vFlagReason ← fieldString r "FlagReason"
  let vID ← fieldString r "ID"
  let vIsFlagged ← fieldBool r "IsFlagged"
  let vLoadedAt ← fieldTime r "LoadedAt"
  let vOriginPort ← fieldString r "OriginPort"
  let vTotalWeight ← fieldFloat32 r "TotalWeight"
  let vUpdatedAt ← fieldTime r "UpdatedAt"
  let vVessel ← fieldString r "Vessel"
  let vWeightDifference ← fieldFloat32 r "WeightDifference"
  pure
    { AssetType := vAssetType,
      Content := vContent,
      ContentWeight := vContentWeight,
      CreatorID := vCreatorID,
      DestinationPort := vDestinationPort,
      FlagReason := vFlagReason,
      ID := vID,
      IsFlagged := vIsFlagged,
      LoadedAt := vLoadedAt,
      OriginPort := vOriginPort,
      TotalWeight := vTotalWeight,
      UpdatedAt := vUpdatedAt,
      Vessel := vVessel,
      WeightDifference := vWeightDifference }

/-- The search of `strings.Contains` on the character lists: `sub` starts at
some position of `s`. -/
def containsChars (s sub : List Char) : Bool :=
  sub.isPrefixOf s ||
    match s with
    | [] => false
    | _ :: t => containsChars t sub

/-- `strings.Contains(s, substr)`. -/
def Contains (s substr : String) : Bool := containsChars s.data substr.data

/-- The ten slices `GetAllAssetsOfType` declares before its loop. -/
structure AssetLists where
  cottonBales : List CottonBale := []
  lots : List Lot := []
  cottonYarns : List CottonYarn := []
  unfinishedFabrics : List UnfinishedFabric := []
  finishedFabrics : List FinishedFabric := []
  cutParts : List CutPart := []
  buttons : List Button := []
  assembledGarments : List AssembledGarment := []
  cartons : List Carton := []
  containers : List Container := []

/-- The value `GetAllAssetsOfType` returns as `interface{}`: one of its ten
slices. -/
inductive Listing where
  | cottonBales (records : List CottonBale)
  | lots (records : List Lot)
  | cottonYarns (records : List CottonYarn)
  | unfinishedFabrics (records : List UnfinishedFabric)
  | finishedFabrics (records : List FinishedFabric)
  | cutParts (records : List CutPart)
  | buttons (records : List Button)
  | assembledGarments (records : List AssembledGarment)
  | cartons (records : List Carton)
  | containers (records : List Container)

/-- The loop of `GetAllAssetsOfType` over `GetStateByRange("", "")`: an entry
whose key does not contain `assetIDPrefix` is skipped; the others are decoded
by the case of the `switch assetIDPrefix` and appended to its slice. -/
def GetAllAssetsOfType.loop (assetIDPrefix : String) : Ledger → AssetLists → Except Err AssetLists
  | [], lists => .ok lists
  | (key, value) :: rest, lists =>
    if !Contains key assetIDPrefix then GetAllAssetsOfType.loop assetIDPrefix rest lists
    else if assetIDPrefix = "cottonBale_" then
      match UnmarshalCottonBale value with
      | .error err => .error err
      | .ok cottonBale =>
        GetAllAssetsOfType.loop assetIDPrefix rest
          { lists with cottonBales := lists.cottonBales ++ [cottonBale] }
    else if assetIDPrefix = "lot_" then
      match UnmarshalLot value with
      | .error err => .error err
      | .ok lot =>
        GetAllAssetsOfType.loop assetIDPrefix rest
          { lists with lots := lists.lots ++ [lot] }
    else if assetIDPrefix = "cottonYarn_" then
      match UnmarshalCottonYarn value with
      | .error err => .error err
      | .ok cottonYarn =>
        GetAllAssetsOfType.loop assetIDPrefix rest
          { lists with cottonYarns := lists.cottonYarns ++ [cottonYarn] }
    else if assetIDPrefix = "unfinishedFabric_" then
      match UnmarshalUnfinishedFabric value with
      | .error err => .error err
      | .ok unfinishedFabric =>
        GetAllAssetsOfType.loop assetIDPrefix rest
          { lists with unfinishedFabrics := lists.unfinishedFabrics ++ [unfinishedFabric] }
    else if assetIDPrefix = "finishedFabric_" then
      match UnmarshalFinishedFabric value with
      | .error err => .error err
      | .ok finishedFabric =>
        GetAllAssetsOfType.loop assetIDPrefix rest
          { lists with finishedFabrics := lists.finishedFabrics ++ [finishedFabric] }
    else if assetIDPrefix = "cutPart_" then
      match UnmarshalCutPart value with
      | .error err => .error err
      | .ok cutPart =>
        GetAllAssetsOfType.loop assetIDPrefix rest
          { lists with cutParts := lists.cutParts ++ [cutPart] }
    else if assetIDPrefix = "button_" then
      match UnmarshalButton value with
      | .error err => .error err
      | .ok button =>
        GetAllAssetsOfType.loop assetIDPrefix rest
          { lists with buttons := lists.buttons ++ [button] }
    else if assetIDPrefix = "assembledGarment_" then
      match UnmarshalAssembledGarment value with
      | .error err => .error err
      | .ok assembledGarment =>
        GetAllAssetsOfType.loop assetIDPrefix rest
          { lists with assembledGarments := lists.assembledGarments ++ [assembledGarment] }
    else if assetIDPrefix = "carton_" then
      match UnmarshalCarton value with
      | .error err => .error err
      | .ok carton =>
        GetAllAssetsOfType.loop assetIDPrefix rest
          { lists with cartons := lists.cartons ++ [carton] }
    else if assetIDPrefix = "container_" then
      match UnmarshalContainer value with
      | .error err => .error err
      | .ok container =>
        GetAllAssetsOfType.loop assetIDPrefix rest
          { lists with containers := lists.containers ++ [container] }
    else .error (.invalidRecordType assetIDPrefix)

/-- `GetAllAssetsOfType` retrieves all records whose key contains the given
substring; after the loop a second `switch assetIDPrefix` picks the slice to
return. -/
def GetAllAssetsOfType (ctx : Ctx) (assetIDPrefix : String) : Except Err Listing := do
  let lists ← GetAllAssetsOfType.loop assetIDPrefix ctx.state {}
  if assetIDPrefix = "cottonbale_" then .ok (.cottonBales lists.cottonBales)
  else if assetIDPrefix = "lot_" then .ok (.lots lists.lots)
  else if assetIDPrefix = "cottonyarn_" then .ok (.cottonYarns lists.cottonYarns)
  else if assetIDPrefix = "unfinishedfabric_" then .ok (.unfinishedFabrics lists.unfinishedFabrics)
  else if assetIDPrefix = "finishedfabric_" then .ok (.finishedFabrics lists.finishedFabrics)
  else if assetIDPrefix = "cutpart_" then .ok (.cutParts lists.cutParts)
  else if assetIDPrefix = "button_" then .ok (.buttons lists.buttons)
  else if assetIDPrefix = "assembledgarment_" then .ok (.assembledGarments lists.assembledGarments)
  else if assetIDPrefix = "carton_" then .ok (.cartons lists.cartons)
  else if assetIDPrefix = "container_" then .ok (.containers lists.containers)
  else .error (.invalidRecordType assetIDPrefix)

/-- `GetAllCottonBales` retrieves all cottonBales from the world state: the result of
`GetAllAssetsOfType(ctx, "cottonbale_")` asserted to be `[]*CottonBale`. -/
def GetAllCottonBales (ctx : Ctx) : Except Err (List CottonBale) :=
  match GetAllAssetsOfType ctx "cottonbale_" with
  | .error err => .error err
  | .ok (.cottonBales records) => .ok records
  | .ok _ => .error .typeAssertion

/-- `GetAllLots` retrieves all lots from the world state: the result of
`GetAllAssetsOfType(ctx, "lot_")` asserted to be `[]*Lot`. -/
def GetAllLots (ctx : Ctx) : Except Err (List Lot) :=
  match GetAllAssetsOfType ctx "lot_" with
  | .error err => .error err
  | .ok (.lots records) => .ok records
  | .ok _ => .error .typeAssertion

/-- `GetAllCottonYarns` retrieves all cottonYarns from the world state: the result of
`GetAllAssetsOfType(ctx, "cottonyarn_")` asserted to be `[]*CottonYarn`. -/
def GetAllCottonYarns (ctx : Ctx) : Except Err (List CottonYarn) :=
  match GetAllAssetsOfType ctx "cottonyarn_" with
  | .error err => .error err
  | .ok (.cottonYarns records) => .ok records
  | .ok _ => .error .typeAssertion

/-- `GetAllUnfinishedFabrics` retrieves all unfinishedFabrics from the world state: the result of
`GetAllAssetsOfType(ctx, "unfinishedfabric_")` asserted to be `[]*UnfinishedFabric`. -/
def GetAllUnfinishedFabrics (ctx : Ctx) : Except Err (List UnfinishedFabric) :=
  match GetAllAssetsOfType ctx "unfinishedfabric_" with
  | .error err => .error err
  | .ok (.unfinishedFabrics records) => .ok records
  | .ok _ => .error .typeAssertion

/-- `GetAllFinishedFabrics` retrieves all finishedFabrics from the world state: the result of
`GetAllAssetsOfType(ctx, "finishedfabric_")` asserted to be `[]*FinishedFabric`. -/
def GetAllFinishedFabrics (ctx : Ctx) : Except Err (List FinishedFabric) :=
  match GetAllAssetsOfType ctx "finishedfabric_" with
  | .error err => .error err
  | .ok (.finishedFabrics records) => .ok records
  | .ok _ => .error .typeAssertion

/-- `GetAllCutParts` retrieves all cutParts from the world state: the result of
`GetAllAssetsOfType(ctx, "cutpart_")` asserted to be `[]*CutPart`. -/
def GetAllCutParts (ctx : Ctx) : Except Err (List CutPart) :=
  match GetAllAssetsOfType ctx "cutpart_" with
  | .error err => .error err
  | .ok (.cutParts records) => .ok records
  | .ok _ => .error .typeAssertion

/-- `GetAllButtons` retrieves all buttons from the world state: the result of
`GetAllAssetsOfType(ctx, "button_")` asserted to be `[]*Button`. -/
def GetAllButtons (ctx : Ctx) : Except Err (List Button) :=
  match GetAllAssetsOfType ctx "button_" with
  | .error err => .error err
  | .ok (.buttons records) => .ok records
  | .ok _ => .error .typeAssertion

/-- `GetAllAssembledGarments` retrieves all assembledGarments from the world state: the result of
`GetAllAssetsOfType(ctx, "assembledgarment_")` asserted to be `[]*AssembledGarment`. -/
def GetAllAssembledGarments (ctx : Ctx) : Except Err (List AssembledGarment) :=
  match GetAllAssetsOfType ctx "assembledgarment_" with
  | .error err => .error err
  | .ok (.assembledGarments records) => .ok records
  | .ok _ => .error .typeAssertion

/-- `GetAllCartons` retrieves all cartons from the world state: the result of
`GetAllAssetsOfType(ctx, "carton_")` asserted to be `[]*Carton`. -/
def GetAllCartons (ctx : Ctx) : Except Err (List Carton) :=
  match GetAllAssetsOfType ctx "carton_" with
  | .error err => .error err
  | .ok (.cartons records) => .ok records
  | .ok _ => .error .typeAssertion

/-- `GetAllContainers` retrieves all containers from the world state: the result of
`GetAllAssetsOfType(ctx, "container_")` asserted to be `[]*Container`. -/
def GetAllContainers (ctx : Ctx) : Except Err (List Container) :=
  match GetAllAssetsOfType ctx "container_" with
  | .error err => .error err
  | .ok (.containers records) => .ok records
  | .ok _ => .error .typeAssertion

deriving instance DecidableEq for CottonBale
deriving instance DecidableEq for Lot
deriving instance DecidableEq for CottonYarn
deriving instance DecidableEq for UnfinishedFabric
deriving instance DecidableEq for FinishedFabric
deriving instance DecidableEq for CutPart
deriving instance DecidableEq for Button
deriving instance DecidableEq for AssembledGarment
deriving instance DecidableEq for Carton
deriving instance DecidableEq for Container

/-! ## Vocabulary of the frame and authorization claims -/

/-- The prefixes the six listing functions `GetAllCottonBales`,
`GetAllCottonYarns`, `GetAllUnfinishedFabrics`, `GetAllFinishedFabrics`,
`GetAllCutParts` and `GetAllAssembledGarments` pass to `GetAllAssetsOfType`. -/
def listedTypes : List String :=
  ["cottonbale_", "cottonyarn_", "unfinishedfabric_", "finishedfabric_", "cutpart_",
   "assembledgarment_"]

/-- The key an invocation passes to `PutState`: the ID argument of the asset it
creates or updates. -/
def Call.target : Call → String
  | .production (.createCottonBale _ _ _ id _ _ _ _ _) => id
  | .production (.createLot _ _ _ _ _ id _ _ _ _ _) => id
  | .production (.createCottonYarn _ _ _ _ id _ _ _ _ _) => id
  | .production (.createUnfinishedFabric _ _ _ _ id _ _ _ _ _ _) => id
  | .production (.createFinishedFabric _ _ _ id _ _ _ _ _ _ _) => id
  | .production (.createCutPart _ _ _ _ id _ _ _ _ _) => id
  | .production (.createButton _ _ _ id _ _ _ _) => id
  | .production (.createAssembledGarment _ _ _ _ _ id _ _ _ _) => id
  | .production (.createCarton _ _ _ _ _ id _ _ _ _ _) => id
  | .production (.createContainer _ _ _ id _ _ _ _ _) => id
  | .production (.updateLotOwner id _) => id
  | .production (.setFlag id _ _) => id
  | .production (.setNotes id _) => id
  | .admin (.createOrder _ _ _ id _ _ _ _ _ _) => id
  | .admin (.createPlan _ _ _ id _ _ _ _) => id
  | .admin (.createFactory _ _ id _ _ _ _ _ _) => id
  | .admin (.setOrderAcceptance id _ _) => id
  | .admin (.setOrderStatus id _) => id
  | .admin (.setPlanApproval id _) => id
  | .admin (.setPlanStatus id) => id
  | .admin (.setFactoryApproval id _) => id
  | .admin (.setFactoryStatus id) => id
  | .admin (.setFlag id _ _) => id
  | .admin (.setNotes id _) => id

/-- The list an invocation passes to `SPEC_IsInvokedByAllowedOrg` when that list
is written in the method (for `CreateLot`, in the case of the recognised
`assetIDPrefix`); `none` for the methods without the check and for
`SetOrderAcceptance` and `UpdateLotOwner`, whose list depends on the stored
record. -/
def Call.allowSet : Call → Option (List String)
  | .production (.createCottonBale _ _ _ _ _ _ _ _ _) => some ["Org4MSP"]
  | .production (.createLot _ assetIDPrefix _ _ _ _ _ _ _ _ _) =>
    if assetIDPrefix ∈ recognisedTypes then some (lotAllowSet assetIDPrefix) else none
  | .production (.createCottonYarn _ _ _ _ _ _ _ _ _ _) => some ["Org4MSP"]
  | .production (.createUnfinishedFabric _ _ _ _ _ _ _ _ _ _ _) => some ["Org5MSP"]
  | .production (.createFinishedFabric _ _ _ _ _ _ _ _ _ _ _) => some ["Org5MSP"]
  | .production (.createCutPart _ _ _ _ _ _ _ _ _ _) => some ["Org6MSP"]
  | .production (.createButton _ _ _ _ _ _ _ _) => some ["Org6MSP"]
  | .production (.createAssembledGarment _ _ _ _ _ _ _ _ _ _) => some ["Org6MSP"]
  | .production (.createCarton _ _ _ _ _ _ _ _ _ _ _) => some ["Org6MSP"]
  | .production (.createContainer _ _ _ _ _ _ _ _ _) => some ["Org6MSP"]
  | .admin (.setOrderStatus _ _) => some ["Org1MSP", "Org2MSP"]
  | .admin (.setPlanApproval _ _) => some ["Org1MSP", "Org3MSP"]
  | .admin (.setFactoryApproval _ _) => some ["Org1MSP", "Org3MSP"]
  | _ => none

/-- The world states the admin-channel contract reaches from the empty ledger
when every invoker has a non-empty MSP ID, as every member of a Fabric channel
has. -/
inductive AdminReachableByMembers : Ledger → Prop where
  | empty : AdminReachableByMembers []
  | step (st : Ledger) (mspid : String) (now : Time) (call : AdminCall) :
      mspid ≠ "" → AdminReachableByMembers st →
      AdminReachableByMembers (call.invoke ⟨st, mspid, now⟩).state

/-- The `Status` member of the record is the string `approved`. -/
def Record.isApproved (r : Record) : Bool := r.get "Status" == some (.str "approved")

/-- The boolean member `k` of the record is `true`. -/
def Record.isTrue (r : Record) (k : String) : Bool := r.get k == some (.bool true)

/-! ## Scenarios of the last claims -/

/-- `SetFactoryStatus` invoked on the key `plan_1` of a plan that the retailer
and the auditor have approved while its factory is still pending. -/
def adminLedgerPlanAsFactory : Ledger :=
  (SetFactoryStatus
    ⟨(SetPlanApproval
        ⟨(SetPlanApproval ⟨adminLedgerWithPlan, "Org1MSP", 40⟩ "plan_1" true).state,
          "Org3MSP", 41⟩ "plan_1" true).state, "Org1MSP", 42⟩ "plan_1").state

/-- A production-channel state with a cotton yarn spun from no lot at all: its
`Content` is the empty list. -/
def ledgerWithEmptyYarn : Ledger :=
  (CreateCottonYarn ⟨[], "Org4MSP", 10⟩ true 5 (some []) "" "cottonyarn_1" false "" "Texas" 0
    30).state

/-- The ledger of `adminLedgerPlanAsFactory` after the retailer invokes
`SetPlanApproval` on `plan_1` once more. -/
def adminLedgerPlanReencoded : Ledger :=
  (SetPlanApproval ⟨adminLedgerPlanAsFactory, "Org1MSP", 43⟩ "plan_1" true).state

/-! # Theorems -/

/-! ## Auxiliary lemmas -/

theorem bind_eq_ok {α β : Type} {x : Except Err α} {f : α → Except Err β} {b : β} :
    (x >>= f) = .ok b ↔ ∃ a, x = .ok a ∧ f a = .ok b := by
  cases x with
  | error e => simp [bind, Except.bind]
  | ok a => simp [bind, Except.bind]

theorem bind_error_left {α β : Type} {x : Except Err α} {f : α → Except Err β} {e : Err}
    (h : x = .error e) : (x >>= f) = .error e := by
  subst h; rfl

theorem finish_state_of_err (ctx : Ctx) (key : String) (r : Except Err Record)
    (h : (finish ctx key r).err ≠ none) : (finish ctx key r).state = ctx.state := by
  cases r with
  | error e => rfl
  | ok v => exact absurd rfl h

theorem finish_of_error (ctx : Ctx) (key : String) {r : Except Err Record} {e : Err}
    (h : r = .error e) : finish ctx key r = ⟨some e, ctx.state⟩ := by
  subst h; rfl

theorem finish_of_ok (ctx : Ctx) (key : String) {r : Except Err Record} {v : Record}
    (h : r = .ok v) : finish ctx key r = ⟨none, PutState ctx.state key v⟩ := by
  subst h; rfl

theorem finish_err_none (ctx : Ctx) (key : String) (r : Except Err Record)
    (h : (finish ctx key r).err = none) : ∃ v, r = .ok v := by
  cases r with
  | error e => simp [finish] at h
  | ok v => exact ⟨v, rfl⟩

theorem string_length_eq_zero (s : String) : s.length = 0 ↔ s = "" := by
  constructor
  · intro h
    have h1 : s.data = [] := List.length_eq_zero.mp h
    exact String.ext h1
  · intro h; subst h; rfl

/-! ## Structural validators -/

/-- C1: `SPEC_IsValidFlag` succeeds exactly when the flag is set with a reason
that is neither empty nor `N/A`, or the flag is unset with a reason that is
empty or `N/A`; the five cases named by the specification are evaluated. -/
theorem SPEC_IsValidFlag_iff :
    (∀ (isFlagged : Bool) (flagReason : String),
      SPEC_IsValidFlag isFlagged flagReason = .ok () ↔
        ((isFlagged = true ∧ flagReason ≠ "" ∧ flagReason ≠ "N/A") ∨
         (isFlagged = false ∧ (flagReason = "" ∨ flagReason = "N/A")))) ∧
    SPEC_IsValidFlag true "" = .error .flagReasonRequired ∧
    SPEC_IsValidFlag true "N/A" = .error .flagReasonRequired ∧
    SPEC_IsValidFlag false "reason" = .error .flagReasonForbidden ∧
    SPEC_IsValidFlag true "contaminated" = .ok () ∧
    SPEC_IsValidFlag false "" = .ok () := by
  refine ⟨?_, by decide, by decide, by decide, by decide, by decide⟩
  intro isFlagged flagReason
  unfold SPEC_IsValidFlag
  cases isFlagged <;> by_cases h1 : flagReason = "" <;> by_cases h2 : flagReason = "N/A" <;>
    simp [h1, h2, string_length_eq_zero]

/-- C5: `SPEC_Chronology` succeeds exactly when every timestamp after the first
is strictly later than its predecessor; for two timestamps it succeeds iff the
second is strictly later (equal timestamps fail), and sequences of length 0 or
1 always succeed. -/
theorem SPEC_Chronology_iff :
    (∀ dates : List Time, SPEC_Chronology dates = .ok () ↔
      ∀ (i : Nat) (h : i + 1 < dates.length),
        dates.get ⟨i, Nat.lt_of_succ_lt h⟩ < dates.get ⟨i + 1, h⟩) ∧
    (∀ t1 t2 : Time, SPEC_Chronology [t1, t2] = .ok () ↔ t1 < t2) ∧
    (∀ t : Time, SPEC_Chronology [t, t] = .error (.chronology t t)) ∧
    (∀ dates : List Time, dates.length ≤ 1 → SPEC_Chronology dates = .ok ()) := by
  have key : ∀ dates : List Time, SPEC_Chronology dates = .ok () ↔
      ∀ (i : Nat) (h : i + 1 < dates.length),
        dates.get ⟨i, Nat.lt_of_succ_lt h⟩ < dates.get ⟨i + 1, h⟩ := by
    intro dates
    induction dates with
    | nil => simp [SPEC_Chronology]
    | cons a rest ih =>
      cases rest with
      | nil => simp [SPEC_Chronology]
      | cons b rest2 =>
        by_cases hab : a < b
        · simp only [SPEC_Chronology, hab, decide_True, Bool.not_true, Bool.false_eq_true,
            if_false]
          rw [ih]
          constructor
          · intro h i hi
            cases i with
            | zero => simpa using hab
            | succ j =>
              have := h j (by simpa using hi)
              simpa using this
          · intro h i hi
            have := h (i + 1) (by simpa using hi)
            simpa using this
        · simp only [SPEC_Chronology, hab, decide_False, Bool.not_false, if_true]
          constructor
          · intro h; cases h
          · intro h
            exact absurd (by simpa using h 0 (by simp)) hab
  refine ⟨key, ?_, ?_, ?_⟩
  · intro t1 t2
    by_cases h : t1 < t2 <;> simp [SPEC_Chronology, h]
  · intro t
    simp [SPEC_Chronology]
  · intro dates h
    match dates, h with
    | [], _ => rfl
    | [_], _ => rfl
    | _ :: _ :: _, h => simp at h

theorem bind_ok_left {α β : Type} {x : Except Err α} {f : α → Except Err β} {a : α}
    (h : x = .ok a) : (x >>= f) = f a := by
  subst h; rfl

theorem SPEC_IDPrefix_of_not (id pre : String) (h : HasPrefix id pre = false) :
    SPEC_IDPrefix id pre = .error (.idPrefix id pre) := by
  simp [SPEC_IDPrefix, h]

theorem SPEC_IDPrefix_of_has (id pre : String) (h : HasPrefix id pre = true) :
    SPEC_IDPrefix id pre = .ok () := by
  simp [SPEC_IDPrefix, h]

theorem SPEC_IsNewAsset_of_some (ctx : Ctx) (id : String) (r : Record)
    (h : GetState ctx.state id = some r) :
    SPEC_IsNewAsset ctx id = .error (.alreadyExists id) := by
  simp [SPEC_IsNewAsset, h]

/-- C8: `GetPercentageDifference` returns 0 whenever `original` is zero, for
every `new` (NaN and the infinities included), and otherwise the float32 value
`((new - original) / original) * 100`; at `(100, 110)` it is `10` and at
`(100, 90)` it is `-10`. -/
theorem GetPercentageDifference_spec :
    (∀ original new : F32, F32.eq original 0 = true →
      GetPercentageDifference original new = 0) ∧
    (∀ new : F32, GetPercentageDifference 0 new = 0) ∧
    (∀ original new : F32, F32.eq original 0 = false →
      GetPercentageDifference original new = ((new - original) / original) * 100) ∧
    GetPercentageDifference 100 110 = 10 ∧
    GetPercentageDifference 100 90 = -10 := by
  refine ⟨?_, ?_, ?_, by decide, by decide⟩
  · intro original new h
    simp [GetPercentageDifference, h]
  · intro new
    have h : F32.eq 0 0 = true := by decide
    simp [GetPercentageDifference, h]
  · intro original new h
    simp [GetPercentageDifference, h]

/-- C2: a mutating invocation of either contract that returns an error leaves
the world state exactly as it was. -/
theorem failed_call_leaves_state (ctx : Ctx) (call : Call)
    (h : (call.invoke ctx).err ≠ none) : (call.invoke ctx).state = ctx.state := by
  cases call with
  | production c => cases c <;> exact finish_state_of_err _ _ _ h
  | admin c => cases c <;> exact finish_state_of_err _ _ _ h

/-- C6: a Create invocation whose ID argument does not start with the prefix
of its asset type returns the invalid-identifier error and writes nothing. -/
theorem create_rejects_wrong_prefix (ctx : Ctx) (call : Call) (id pre : String)
    (hc : call.created = some (id, pre)) (hp : HasPrefix id pre = false) :
    call.invoke ctx = ⟨some (.idPrefix id pre), ctx.state⟩ := by
  have h := SPEC_IDPrefix_of_not id pre hp
  cases call with
  | production c =>
    cases c <;> simp only [Call.created, Option.some.injEq, Prod.mk.injEq] at hc <;>
      first
      | (obtain ⟨rfl, rfl⟩ := hc; exact finish_of_error _ _ (bind_error_left h))
      | cases hc
  | admin c =>
    cases c <;> simp only [Call.created, Option.some.injEq, Prod.mk.injEq] at hc <;>
      first
      | (obtain ⟨rfl, rfl⟩ := hc; exact finish_of_error _ _ (bind_error_left h))
      | cases hc

/-- C7 (amended): a Create invocation whose ID argument is the key of an
existing record fails and leaves the world state as it was; the error is
already-exists when the ID starts with the prefix of the asset type, and
invalid-identifier otherwise, because the prefix check runs first. -/
theorem create_existing_fails (ctx : Ctx) (call : Call) (id pre : String) (r : Record)
    (hc : call.created = some (id, pre)) (hex : GetState ctx.state id = some r) :
    call.invoke ctx =
      ⟨some (if HasPrefix id pre then .alreadyExists id else .idPrefix id pre), ctx.state⟩ := by
  cases hp : HasPrefix id pre with
  | false =>
    have h := SPEC_IDPrefix_of_not id pre hp
    cases call with
    | production c =>
      cases c <;> simp only [Call.created, Option.some.injEq, Prod.mk.injEq] at hc <;>
        first
        | (obtain ⟨rfl, rfl⟩ := hc; exact finish_of_error _ _ (bind_error_left h))
        | cases hc
    | admin c =>
      cases c <;> simp only [Call.created, Option.some.injEq, Prod.mk.injEq] at hc <;>
        first
        | (obtain ⟨rfl, rfl⟩ := hc; exact finish_of_error _ _ (bind_error_left h))
        | cases hc
  | true =>
    have h := SPEC_IDPrefix_of_has id pre hp
    have h2 := SPEC_IsNewAsset_of_some ctx id r hex
    cases call with
    | production c =>
      cases c <;> simp only [Call.created, Option.some.injEq, Prod.mk.injEq] at hc <;>
        first
        | (obtain ⟨rfl, rfl⟩ := hc
           exact finish_of_error _ _ ((bind_ok_left h).trans (bind_error_left h2)))
        | cases hc
    | admin c =>
      cases c <;> simp only [Call.created, Option.some.injEq, Prod.mk.injEq] at hc <;>
        first
        | (obtain ⟨rfl, rfl⟩ := hc
           exact finish_of_error _ _ ((bind_ok_left h).trans (bind_error_left h2)))
        | cases hc

theorem pure_eq_ok {α : Type} {a b : α} : (pure a : Except Err α) = .ok b ↔ a = b := by
  simp [pure, Except.pure]

theorem UnmarshalLot_fields {r : Record} {lot : Lot} (h : UnmarshalLot r = .ok lot) :
    fieldString r "ID" = .ok lot.ID ∧ fieldSlice r "Content" = .ok lot.Content := by
  unfold UnmarshalLot at h
  simp only [bind_eq_ok, pure_eq_ok] at h
  obtain ⟨_, _, _, _, _, _, _, h4, _, _, _, _, _, _, _, _, _, h9, _, _, _, _, _, _, _, _,
    _, _, _, _, _, _, _, _, _, _, rfl⟩ := h
  exact ⟨h9, h4⟩

theorem fieldString_ne {r : Record} {k s v : String} (h : fieldString r k = .ok v)
    (hne : r.get k ≠ some (.str s)) (hs : s ≠ "") : v ≠ s := by
  unfold fieldString at h
  split at h
  · cases h; exact fun h1 => hs h1.symm
  · cases h; exact fun h1 => hs h1.symm
  · rename_i s1 hget
    cases h
    intro h1
    subst h1
    exact hne hget
  · cases h

theorem fieldSlice_strs {r : Record} {k : String} {cs : List String} {v : Slice}
    (h : fieldSlice r k = .ok v) (hc : r.get k = some (.strs cs)) : v = some cs := by
  unfold fieldSlice at h
  rw [hc] at h
  simpa using h.symm

theorem hasPrefix_ne_empty {s pre : String} (h : HasPrefix s pre = true) (hp : pre ≠ "") :
    s ≠ "" := by
  intro hs
  subst hs
  apply hp
  unfold HasPrefix at h
  apply String.ext
  cases hd : pre.data with
  | nil => rfl
  | cons a t => rw [hd] at h; simp at h

theorem scan_error_of_overlap (lotID : String) (content : List String) (hl : lotID ≠ "")
    (key : String) (r : Record) (cs : List String) (c : String)
    (hcontent : r.get "Content" = some (.strs cs))
    (hid : r.get "ID" ≠ some (.str lotID)) (hc : c ∈ cs) (hc2 : c ∈ content) :
    ∀ st : Ledger, (key, r) ∈ st →
      ∃ e, SPEC_NoDuplicateAssetInState.scan lotID content st = .error e := by
  intro st
  induction st with
  | nil => intro h; cases h
  | cons entry rest ih =>
    intro hmem
    obtain ⟨k0, v0⟩ := entry
    unfold SPEC_NoDuplicateAssetInState.scan
    cases hu : UnmarshalLot v0 with
    | error e => exact ⟨_, rfl⟩
    | ok lot =>
      simp only
      rcases List.mem_cons.mp hmem with heq | hrest
      · have h1 : k0 = key ∧ v0 = r := by
          simpa [Prod.mk.injEq, eq_comm] using heq
        obtain ⟨rfl, rfl⟩ := h1
        obtain ⟨hID, hC⟩ := UnmarshalLot_fields hu
        have hne : lot.ID ≠ lotID := fieldString_ne hID hid hl
        have hcs : lot.Content = some cs := fieldSlice_strs hC hcontent
        rw [if_neg hne]
        cases hf : content.find? (fun assetID => lot.Content.elems.contains assetID) with
        | some a => exact ⟨_, rfl⟩
        | none =>
          exfalso
          have := List.find?_eq_none.mp hf c hc2
          simp [hcs, Slice.elems, hc] at this
      · obtain ⟨e, he⟩ := ih hrest
        by_cases hskip : lot.ID = lotID
        · rw [if_pos hskip]; exact ⟨e, he⟩
        · rw [if_neg hskip]
          cases hf : content.find? (fun assetID => lot.Content.elems.contains assetID) with
          | some a => exact ⟨_, rfl⟩
          | none => exact ⟨e, he⟩

theorem Marshal_ok {r v : Record} (h : Marshal r = .ok v) : v = r := by
  unfold Marshal at h
  split at h
  · cases h; rfl
  · cases h

theorem CreateLot_success {ctx : Ctx} {assemblyDate : Time} {assetIDPrefix : String}
    {content : Slice} {destination flagReason lotID : String} {isFlagged : Bool}
    {notes origin owner : String} {totalWeight : F32}
    (h : (CreateLot ctx assemblyDate assetIDPrefix content destination flagReason lotID
      isFlagged notes origin owner totalWeight).err = none) :
    ∃ contentWeight : F32,
      SPEC_IDPrefix lotID "lot_" = .ok () ∧
      SPEC_IsNewAsset ctx lotID = .ok () ∧
      CreateLot.checkOrg ctx assetIDPrefix = .ok () ∧
      SPEC_IsValidFlag isFlagged flagReason = .ok () ∧
      forEach content.elems (SPEC_IsNotFlagged ctx) = .ok () ∧
      SPEC_NoDuplicateAssetInThisLot content = .ok () ∧
      SPEC_LotConsistency ctx content assetIDPrefix = .ok () ∧
      SPEC_NoDuplicateAssetInState ctx lotID content = .ok () ∧
      SPEC_CheckAssetsApproval ctx content = .ok () ∧
      GetContentWeight ctx content = .ok contentWeight ∧
      SPEC_Chronology [assemblyDate, ctx.now] = .ok () ∧
      CreateLot ctx assemblyDate assetIDPrefix content destination flagReason lotID
          isFlagged notes origin owner totalWeight =
        ⟨none, PutState ctx.state lotID (Lot.toJSON
          { AllAssetsApproved := true, AssemblyDate := assemblyDate,
            AssetIDPrefix := assetIDPrefix, Content := content,
            ContentWeight := contentWeight, CreatorID := ctx.mspid,
            Destination := destination, FlagReason := flagReason, ID := lotID,
            IsFlagged := isFlagged, Notes := notes, Origin := origin, Owner := ctx.mspid,
            PreviousOwner := "Updated when ownership changes",
            Quantity := content.elems.length, TotalWeight := totalWeight,
            UpdatedAt := ctx.now,
            WeightDifference := GetPercentageDifference contentWeight totalWeight })⟩ := by
  obtain ⟨v, hv⟩ := finish_err_none _ _ _ h
  have hv2 := hv
  simp only [bind_eq_ok] at hv2
  obtain ⟨⟨⟩, h1, ⟨⟩, h2, ⟨⟩, h3, ⟨⟩, h4, ⟨⟩, h5, ⟨⟩, h6, ⟨⟩, h7, ⟨⟩, h8, ⟨⟩, h9, cw, h10,
    ⟨⟩, h11, h12⟩ := hv2
  have hm := Marshal_ok h12
  subst hm
  exact ⟨cw, h1, h2, h3, h4, h5, h6, h7, h8, h9, h10, h11, finish_of_ok _ _ hv⟩

theorem scan_error_kind (lotID : String) (content : List String) :
    ∀ (st : Ledger) (e : Err), (∀ entry ∈ st, ∃ lot, UnmarshalLot entry.2 = .ok lot) →
      SPEC_NoDuplicateAssetInState.scan lotID content st = .error e →
      ∃ a o, e = .alreadyStored a lotID o := by
  intro st
  induction st with
  | nil => intro e _ h; cases h
  | cons entry rest ih =>
    intro e hdec h
    obtain ⟨k0, v0⟩ := entry
    obtain ⟨lot, hlot⟩ := hdec (k0, v0) (List.mem_cons_self _ _)
    have hrest : ∀ entry ∈ rest, ∃ lot, UnmarshalLot entry.2 = .ok lot :=
      fun entry he => hdec entry (List.mem_cons_of_mem _ he)
    unfold SPEC_NoDuplicateAssetInState.scan at h
    simp only at hlot
    rw [hlot] at h
    simp only at h
    by_cases hskip : lot.ID = lotID
    · rw [if_pos hskip] at h; exact ih e hrest h
    · rw [if_neg hskip] at h
      cases hf : content.find? (fun assetID => lot.Content.elems.contains assetID) with
      | some a => rw [hf] at h; cases h; exact ⟨_, _, rfl⟩
      | none => rw [hf] at h; exact ih e hrest h

set_option maxRecDepth 100000 in
/-- C3: `CreateLot` fails and writes nothing whenever one of the listed assets
is in the `Content` of a ledger record whose `ID` is not the new lot ID; when
the checks that run before the ledger scan pass (on a ledger whose records all
decode) the error is the already-stored one; and in the scenario of the
specification the second lot that lists the bale of `lot_1` is refused with
that error. -/
theorem CreateLot_rejects_contained_asset :
    (∀ (ctx : Ctx) (assemblyDate : Time) (assetIDPrefix : String) (content : Slice)
      (destination flagReason lotID : String) (isFlagged : Bool)
      (notes origin owner : String) (totalWeight : F32)
      (key : String) (r : Record) (cs : List String) (c : String),
      (key, r) ∈ ctx.state → r.get "Content" = some (.strs cs) →
      r.get "ID" ≠ some (.str lotID) → c ∈ cs → c ∈ content.elems →
      (CreateLot ctx assemblyDate assetIDPrefix content destination flagReason lotID
        isFlagged notes origin owner totalWeight).err ≠ none ∧
      (CreateLot ctx assemblyDate assetIDPrefix content destination flagReason lotID
        isFlagged notes origin owner totalWeight).state = ctx.state ∧
      (SPEC_IDPrefix lotID "lot_" = .ok () → SPEC_IsNewAsset ctx lotID = .ok () →
        CreateLot.checkOrg ctx assetIDPrefix = .ok () →
        SPEC_IsValidFlag isFlagged flagReason = .ok () →
        forEach content.elems (SPEC_IsNotFlagged ctx) = .ok () →
        SPEC_NoDuplicateAssetInThisLot content = .ok () →
        SPEC_LotConsistency ctx content assetIDPrefix = .ok () →
        (∀ entry ∈ ctx.state, ∃ lot, UnmarshalLot entry.2 = .ok lot) →
        ∃ asset other,
          (CreateLot ctx assemblyDate assetIDPrefix content destination flagReason lotID
            isFlagged notes origin owner totalWeight).err =
            some (.alreadyStored asset lotID other))) ∧
    CreateLot ⟨ledgerWithLot, "Org4MSP", 30⟩ 5 "cottonbale_" (some ["cottonbale_1"]) "Mill" ""
        "lot_2" false "" "Texas" "Org4MSP" 48 =
      ⟨some (.alreadyStored "cottonbale_1" "lot_2" "lot_1"), ledgerWithLot⟩ := by
  refine ⟨?_, by decide⟩
  intro ctx assemblyDate assetIDPrefix content destination flagReason lotID isFlagged notes
    origin owner totalWeight key r cs c hmem hcontent hid hc hc2
  have hfail : (CreateLot ctx assemblyDate assetIDPrefix content destination flagReason lotID
      isFlagged notes origin owner totalWeight).err ≠ none := by
    intro hnone
    obtain ⟨cw, h1, _, _, _, _, _, _, h8, _⟩ := CreateLot_success hnone
    have hpre : HasPrefix lotID "lot_" = true := by
      unfold SPEC_IDPrefix at h1
      cases hp : HasPrefix lotID "lot_" with
      | true => rfl
      | false => rw [hp] at h1; simp at h1
    have hl : lotID ≠ "" := hasPrefix_ne_empty hpre (by decide)
    obtain ⟨e, he⟩ := scan_error_of_overlap lotID content.elems hl key r cs c hcontent hid hc
      hc2 ctx.state hmem
    unfold SPEC_NoDuplicateAssetInState at h8
    rw [he] at h8
    cases h8
  refine ⟨hfail, finish_state_of_err _ _ _ hfail, ?_⟩
  intro h1 h2 h3 h4 h5 h6 h7 hdec
  have hpre : HasPrefix lotID "lot_" = true := by
    unfold SPEC_IDPrefix at h1
    cases hp : HasPrefix lotID "lot_" with
    | true => rfl
    | false => rw [hp] at h1; simp at h1
  have hl : lotID ≠ "" := hasPrefix_ne_empty hpre (by decide)
  obtain ⟨e, he⟩ := scan_error_of_overlap lotID content.elems hl key r cs c hcontent hid hc
    hc2 ctx.state hmem
  obtain ⟨a, o, hao⟩ := scan_error_kind lotID content.elems ctx.state e hdec he
  subst hao
  have h8 : SPEC_NoDuplicateAssetInState ctx lotID content =
      .error (.alreadyStored a lotID o) := he
  refine ⟨a, o, ?_⟩
  have key : CreateLot ctx assemblyDate assetIDPrefix content destination flagReason lotID
      isFlagged notes origin owner totalWeight =
      ⟨some (.alreadyStored a lotID o), ctx.state⟩ := by
    unfold CreateLot
    apply finish_of_error
    rw [bind_ok_left h1, bind_ok_left h2, bind_ok_left h3, bind_ok_left h4, bind_ok_left h5,
      bind_ok_left h6, bind_ok_left h7, bind_error_left h8]
  exact congrArg Result.err key

theorem lookup_putEntry_self {α : Type} (k : String) (v : α) :
    ∀ l : List (String × α), (putEntry k v l).lookup k = some v := by
  intro l
  induction l with
  | nil => simp [putEntry, List.lookup]
  | cons e t ih =>
    obtain ⟨k1, v1⟩ := e
    unfold putEntry
    split
    · simp [List.lookup]
    · split
      · simp [List.lookup]
      · rename_i h1 h2
        have : (k == k1) = false := by simpa using h2
        simp [List.lookup, this, ih]

theorem lookup_putEntry_other {α : Type} (k : String) (v : α) (k2 : String) (h : k2 ≠ k) :
    ∀ l : List (String × α), (putEntry k v l).lookup k2 = l.lookup k2 := by
  intro l
  induction l with
  | nil =>
    have : (k2 == k) = false := by simpa using h
    simp [putEntry, List.lookup, this]
  | cons e t ih =>
    obtain ⟨k1, v1⟩ := e
    have hk : (k2 == k) = false := by simpa using h
    unfold putEntry
    split
    · simp [List.lookup, hk]
    · split
      · rename_i h1 h2
        subst h2
        simp [List.lookup, hk]
      · simp only [List.lookup]
        rw [ih]

theorem GetState_PutState_self (st : Ledger) (k : String) (v : Record) :
    GetState (PutState st k v) k = some v := lookup_putEntry_self k v st

theorem SPEC_LotConsistency_empty (ctx : Ctx) (l : Slice) (pre : String)
    (h : l.elems = []) : SPEC_LotConsistency ctx l pre = .error .emptyContent := by
  simp [SPEC_LotConsistency, h]

/-- C10 (amended): the composite-creating operations that apply
`SPEC_LotConsistency` (`CreateLot`, `CreateAssembledGarment` on each of its two
lists, `CreateCarton`, `CreateContainer`) reject an empty content list: the call
fails and writes nothing. -/
theorem empty_content_rejected (ctx : Ctx) (call : ProductionCall) (l : Slice)
    (hl : l ∈ call.consistencyChecked) (he : l.elems = []) :
    (call.invoke ctx).err ≠ none ∧ (call.invoke ctx).state = ctx.state := by
  have hfail : (call.invoke ctx).err ≠ none := by
    intro hnone
    cases call <;>
      simp only [ProductionCall.consistencyChecked, List.mem_cons, List.mem_singleton,
        List.not_mem_nil, or_false] at hl
    all_goals
      obtain ⟨v, hv⟩ := finish_err_none _ _ _ hnone
      simp only [bind_eq_ok] at hv
    · subst hl
      simp [SPEC_LotConsistency_empty ctx l _ he] at hv
    · rcases hl with rfl | rfl <;> simp [SPEC_LotConsistency_empty ctx l _ he] at hv
    · subst hl
      simp [SPEC_LotConsistency_empty ctx l _ he] at hv
    · subst hl
      simp [SPEC_LotConsistency_empty ctx l _ he] at hv
  refine ⟨hfail, ?_⟩
  cases call <;> exact finish_state_of_err _ _ _ hfail

set_option maxRecDepth 100000 in
/-- C10 (counterexample): `CreateCottonYarn` with an empty content list,
invoked by `Org4MSP` on the empty ledger, succeeds and writes the record. -/
theorem CreateCottonYarn_accepts_empty_content :
    (CreateCottonYarn ⟨[], "Org4MSP", 10⟩ true 5 (some []) "" "cottonyarn_1" false "" "Texas"
      40 30).err = none ∧
    (CreateCottonYarn ⟨[], "Org4MSP", 10⟩ true 5 (some []) "" "cottonyarn_1" false "" "Texas"
      40 30).state ≠ [] := by
  decide

theorem GetContentWeight_loop_ok (ctx : Ctx) :
    ∀ (ids : List String) (acc cw : F32), GetContentWeight.loop ctx ids acc = .ok cw →
      ∃ ws, StoredWeights ctx.state ids ws ∧ cw = ws.foldl (fun a w => a + w) acc := by
  intro ids
  induction ids with
  | nil =>
    intro acc cw h
    simp only [GetContentWeight.loop, Except.ok.injEq] at h
    exact ⟨[], List.Forall₂.nil, by simp [h]⟩
  | cons id rest ih =>
    intro acc cw h
    unfold GetContentWeight.loop at h
    split at h
    · cases h
    · rename_i assetMap hget
      split at h
      · rename_i x hx
        obtain ⟨ws, hws, hcw⟩ := ih _ _ h
        refine ⟨x :: ws, List.Forall₂.cons ⟨assetMap, hget, ?_⟩ hws, by simpa using hcw⟩
        simp [storedWeight, hx]
      · rename_i n hn
        obtain ⟨ws, hws, hcw⟩ := ih _ _ h
        refine ⟨F32.ofInt n :: ws, List.Forall₂.cons ⟨assetMap, hget, ?_⟩ hws,
          by simpa using hcw⟩
        simp [storedWeight, hn]
      · cases h

theorem GetContentWeight_ok {ctx : Ctx} {content : Slice} {cw : F32}
    (h : GetContentWeight ctx content = .ok cw) :
    ∃ ws, StoredWeights ctx.state content.elems ws ∧ cw = sumWeights ws :=
  GetContentWeight_loop_ok ctx content.elems 0 cw h

theorem weights_single {ctx : Ctx} {content : Slice} {cw totalWeight : F32} {res : Result}
    {id : String} {rec : Record}
    (hcw : GetContentWeight ctx content = .ok cw)
    (hres : res = ⟨none, PutState ctx.state id rec⟩)
    (h1 : rec.get "TotalWeight" = some (.num totalWeight))
    (h2 : rec.get "ContentWeight" = some (.num cw))
    (h3 : rec.get "WeightDifference" = some (.num (GetPercentageDifference cw totalWeight))) :
    ∃ (wss : List (List F32)) (rec : Record),
      List.Forall₂ (fun g ws => StoredWeights ctx.state g.elems ws) [content] wss ∧
      GetState res.state id = some rec ∧
      rec.get "TotalWeight" = some (.num totalWeight) ∧
      rec.get "ContentWeight" = some (.num (combineWeights (wss.map sumWeights))) ∧
      rec.get "WeightDifference" = some (.num
        (if F32.eq (combineWeights (wss.map sumWeights)) 0 then 0
         else ((totalWeight - combineWeights (wss.map sumWeights)) /
           combineWeights (wss.map sumWeights)) * 100)) := by
  obtain ⟨ws, hws, rfl⟩ := GetContentWeight_ok hcw
  subst hres
  exact ⟨[ws], rec, List.Forall₂.cons hws List.Forall₂.nil, GetState_PutState_self _ _ _, h1,
    h2, h3⟩

theorem weights_pair {ctx : Ctx} {buttons cutParts : Slice} {bw cpw totalWeight : F32}
    {res : Result} {id : String} {rec : Record}
    (hbw : GetContentWeight ctx buttons = .ok bw)
    (hcpw : GetContentWeight ctx cutParts = .ok cpw)
    (hres : res = ⟨none, PutState ctx.state id rec⟩)
    (h1 : rec.get "TotalWeight" = some (.num totalWeight))
    (h2 : rec.get "ContentWeight" = some (.num (bw + cpw)))
    (h3 : rec.get "WeightDifference" =
      some (.num (GetPercentageDifference (bw + cpw) totalWeight))) :
    ∃ (wss : List (List F32)) (rec : Record),
      List.Forall₂ (fun g ws => StoredWeights ctx.state g.elems ws) [buttons, cutParts] wss ∧
      GetState res.state id = some rec ∧
      rec.get "TotalWeight" = some (.num totalWeight) ∧
      rec.get "ContentWeight" = some (.num (combineWeights (wss.map sumWeights))) ∧
      rec.get "WeightDifference" = some (.num
        (if F32.eq (combineWeights (wss.map sumWeights)) 0 then 0
         else ((totalWeight - combineWeights (wss.map sumWeights)) /
           combineWeights (wss.map sumWeights)) * 100)) := by
  obtain ⟨ws1, hws1, rfl⟩ := GetContentWeight_ok hbw
  obtain ⟨ws2, hws2, rfl⟩ := GetContentWeight_ok hcpw
  subst hres
  exact ⟨[ws1, ws2], rec,
    List.Forall₂.cons hws1 (List.Forall₂.cons hws2 List.Forall₂.nil),
    GetState_PutState_self _ _ _, h1, h2, h3⟩

set_option maxRecDepth 100000 in
/-- C9: after every successful composite-creating invocation the stored record
has `ContentWeight` equal to the float32 sum of the stored `TotalWeight` of the
listed constituents (for a garment: the sum over the buttons plus the sum over
the cut parts), `TotalWeight` equal to the declared weight, and
`WeightDifference` equal to 0 when `ContentWeight` is zero and to
`((TotalWeight - ContentWeight) / ContentWeight) * 100` otherwise; the lot of
the scenario (one bale of weight 50, declared 48) has `ContentWeight` 50 and
`WeightDifference` -4. -/
theorem composite_weights :
    (∀ (ctx : Ctx) (call : ProductionCall) (id : String) (groups : List Slice)
      (totalWeight : F32),
      call.composite = some (id, groups, totalWeight) → (call.invoke ctx).err = none →
      ∃ (wss : List (List F32)) (rec : Record),
        List.Forall₂ (fun g ws => StoredWeights ctx.state g.elems ws) groups wss ∧
        GetState (call.invoke ctx).state id = some rec ∧
        rec.get "TotalWeight" = some (.num totalWeight) ∧
        rec.get "ContentWeight" = some (.num (combineWeights (wss.map sumWeights))) ∧
        rec.get "WeightDifference" = some (.num
          (if F32.eq (combineWeights (wss.map sumWeights)) 0 then 0
           else ((totalWeight - combineWeights (wss.map sumWeights)) /
             combineWeights (wss.map sumWeights)) * 100))) ∧
    (GetState ledgerWithBale "cottonbale_1").bind storedWeight = some 50 ∧
    (GetState ledgerWithLot "lot_1").bind (fun r => r.get "TotalWeight") = some (.num 48) ∧
    (GetState ledgerWithLot "lot_1").bind (fun r => r.get "ContentWeight") = some (.num 50) ∧
    (GetState ledgerWithLot "lot_1").bind (fun r => r.get "WeightDifference") =
      some (.num (-4)) := by
  refine ⟨?_, by decide, by decide, by decide, by decide⟩
  intro ctx call id groups totalWeight hc hnone
  cases call with
  | createLot a b content d e lotID g h i j tw =>
    simp only [ProductionCall.composite, Option.some.injEq, Prod.mk.injEq] at hc
    obtain ⟨rfl, rfl, rfl⟩ := hc
    obtain ⟨cw, _, _, _, _, _, _, _, _, _, hcw, _, hres⟩ := @CreateLot_success ctx a b content d e lotID g h i j tw hnone
    exact weights_single hcw hres rfl rfl rfl
  | createCottonYarn a b content d cid f g h tw j =>
    simp only [ProductionCall.composite, Option.some.injEq, Prod.mk.injEq] at hc
    obtain ⟨rfl, rfl, rfl⟩ := hc
    obtain ⟨v, hv⟩ := finish_err_none _ _ _ hnone
    have hv2 := hv
    simp only [bind_eq_ok] at hv2
    obtain ⟨_, _, _, _, _, _, _, _, _, _, _, _, cw, hcw, _, _, hm⟩ := hv2
    have := Marshal_ok hm
    subst this
    exact weights_single hcw (finish_of_ok _ _ hv) rfl rfl rfl
  | createUnfinishedFabric a b content d cid f g h i tw k =>
    simp only [ProductionCall.composite, Option.some.injEq, Prod.mk.injEq] at hc
    obtain ⟨rfl, rfl, rfl⟩ := hc
    obtain ⟨v, hv⟩ := finish_err_none _ _ _ hnone
    have hv2 := hv
    simp only [bind_eq_ok] at hv2
    obtain ⟨_, _, _, _, _, _, _, _, _, _, _, _, cw, hcw, _, _, hm⟩ := hv2
    have := Marshal_ok hm
    subst this
    exact weights_single hcw (finish_of_ok _ _ hv) rfl rfl rfl
  | createFinishedFabric a b content cid e f g h i tw k =>
    simp only [ProductionCall.composite, Option.some.injEq, Prod.mk.injEq] at hc
    obtain ⟨rfl, rfl, rfl⟩ := hc
    obtain ⟨v, hv⟩ := finish_err_none _ _ _ hnone
    have hv2 := hv
    simp only [bind_eq_ok] at hv2
    obtain ⟨_, _, _, _, _, _, _, _, _, _, _, _, cw, hcw, _, _, hm⟩ := hv2
    have := Marshal_ok hm
    subst this
    exact weights_single hcw (finish_of_ok _ _ hv) rfl rfl rfl
  | createCutPart a b content d cid f g h i tw =>
    simp only [ProductionCall.composite, Option.some.injEq, Prod.mk.injEq] at hc
    obtain ⟨rfl, rfl, rfl⟩ := hc
    obtain ⟨v, hv⟩ := finish_err_none _ _ _ hnone
    have hv2 := hv
    simp only [bind_eq_ok] at hv2
    obtain ⟨_, _, _, _, _, _, _, _, _, _, _, _, cw, hcw, _, _, hm⟩ := hv2
    have := Marshal_ok hm
    subst this
    exact weights_single hcw (finish_of_ok _ _ hv) rfl rfl rfl
  | createAssembledGarment a b buttons cutParts e gid g h i tw =>
    simp only [ProductionCall.composite, Option.some.injEq, Prod.mk.injEq] at hc
    obtain ⟨rfl, rfl, rfl⟩ := hc
    obtain ⟨v, hv⟩ := finish_err_none _ _ _ hnone
    have hv2 := hv
    simp only [bind_eq_ok] at hv2
    obtain ⟨_, _, _, _, _, _, _, _, _, _, _, _, _, _, _, _, bw, hbw, cpw, hcpw, _, _, hm⟩ :=
      hv2
    have := Marshal_ok hm
    subst this
    exact weights_pair hbw hcpw (finish_of_ok _ _ hv) rfl rfl rfl
  | createCarton a b content d e cid g h i j tw =>
    simp only [ProductionCall.composite, Option.some.injEq, Prod.mk.injEq] at hc
    obtain ⟨rfl, rfl, rfl⟩ := hc
    obtain ⟨v, hv⟩ := finish_err_none _ _ _ hnone
    have hv2 := hv
    simp only [bind_eq_ok] at hv2
    obtain ⟨_, _, _, _, _, _, _, _, _, _, _, _, cw, hcw, _, _, hm⟩ := hv2
    have := Marshal_ok hm
    subst this
    exact weights_single hcw (finish_of_ok _ _ hv) rfl rfl rfl
  | createContainer content b c cid e f g tw i =>
    simp only [ProductionCall.composite, Option.some.injEq, Prod.mk.injEq] at hc
    obtain ⟨rfl, rfl, rfl⟩ := hc
    obtain ⟨v, hv⟩ := finish_err_none _ _ _ hnone
    have hv2 := hv
    simp only [bind_eq_ok] at hv2
    obtain ⟨_, _, _, _, _, _, _, _, _, _, _, _, cw, hcw, _, _, hm⟩ := hv2
    have := Marshal_ok hm
    subst this
    exact weights_single hcw (finish_of_ok _ _ hv) rfl rfl rfl
  | createCottonBale _ _ _ _ _ _ _ _ _ => simp [ProductionCall.composite] at hc
  | createButton _ _ _ _ _ _ _ _ => simp [ProductionCall.composite] at hc
  | updateLotOwner _ _ => simp [ProductionCall.composite] at hc
  | setFlag _ _ _ => simp [ProductionCall.composite] at hc
  | setNotes _ _ => simp [ProductionCall.composite] at hc

set_option maxRecDepth 100000 in
/-- C4 (counterexample): in a state reached by `CreateCottonBale`, `CreateLot`
and two successful `CreateCottonYarn` invocations, `lot_1` is in the content of
two different cotton yarns. -/
theorem two_yarns_share_a_lot :
    ProductionReachable ledgerWithTwoYarns ∧
    (CreateCottonYarn ⟨ledgerWithYarn, "Org4MSP", 40⟩ true 35 (some ["lot_1"]) ""
      "cottonyarn_2" false "" "Texas" 45 30).err = none ∧
    (GetState ledgerWithTwoYarns "cottonyarn_1").map Record.content = some ["lot_1"] ∧
    (GetState ledgerWithTwoYarns "cottonyarn_2").map Record.content = some ["lot_1"] := by
  refine ⟨?_, by decide, by decide, by decide⟩
  exact ProductionReachable.step _ "Org4MSP" 40
    (.createCottonYarn true 35 (some ["lot_1"]) "" "cottonyarn_2" false "" "Texas" 45 30)
    (ProductionReachable.step _ "Org4MSP" 30
      (.createCottonYarn true 25 (some ["lot_1"]) "" "cottonyarn_1" false "" "Texas" 45 30)
      (ProductionReachable.step _ "Org4MSP" 20
        (.createLot 5 "cottonbale_" (some ["cottonbale_1"]) "Mill" "" "lot_1" false ""
          "Texas" "Org4MSP" 48)
        (ProductionReachable.step _ "Org4MSP" 10
          (.createCottonBale true 5 "" "cottonbale_1" false "" "Texas" "A" 50)
          ProductionReachable.empty)))

theorem mem_of_lookup {α : Type} (k : String) (v : α) :
    ∀ l : List (String × α), l.lookup k = some v → (k, v) ∈ l := by
  intro l
  induction l with
  | nil => intro h; cases h
  | cons e t ih =>
    obtain ⟨k1, v1⟩ := e
    intro h
    by_cases hk : k = k1
    · subst hk
      simp [List.lookup] at h
      subst h
      exact List.mem_cons_self _ _
    · have : (k == k1) = false := by simpa using hk
      simp only [List.lookup, this] at h
      exact List.mem_cons_of_mem _ (ih h)

theorem not_mem_of_lookup_none {α : Type} (k : String) :
    ∀ l : List (String × α), l.lookup k = none → ∀ v, (k, v) ∉ l := by
  intro l
  induction l with
  | nil => intro _ v h; cases h
  | cons e t ih =>
    obtain ⟨k1, v1⟩ := e
    intro h v hmem
    by_cases hk : k = k1
    · subst hk
      simp [List.lookup] at h
    · have hb : (k == k1) = false := by simpa using hk
      simp only [List.lookup, hb] at h
      rcases List.mem_cons.mp hmem with heq | hrest
      · exact hk (congrArg Prod.fst heq)
      · exact ih h v hrest

theorem mem_putEntry_cases {α : Type} (k : String) (v : α) (e : String × α) :
    ∀ l : List (String × α), e ∈ putEntry k v l → e = (k, v) ∨ e ∈ l := by
  intro l
  induction l with
  | nil =>
    intro h
    simp only [putEntry, List.mem_singleton] at h
    exact Or.inl h
  | cons e1 t ih =>
    obtain ⟨k1, v1⟩ := e1
    intro h
    unfold putEntry at h
    split at h
    · rcases List.mem_cons.mp h with h1 | h1
      · exact Or.inl h1
      · exact Or.inr h1
    · split at h
      · rcases List.mem_cons.mp h with h1 | h1
        · exact Or.inl h1
        · exact Or.inr (List.mem_cons_of_mem _ h1)
      · rcases List.mem_cons.mp h with h1 | h1
        · exact Or.inr (h1 ▸ List.mem_cons_self _ _)
        · rcases ih h1 with h2 | h2
          · exact Or.inl h2
          · exact Or.inr (List.mem_cons_of_mem _ h2)

theorem get_set_other (r : Record) (k : String) (x : JVal) (k2 : String) (h : k2 ≠ k) :
    (r.set k x).get k2 = r.get k2 :=
  lookup_putEntry_other k x k2 h r

theorem scan_ok (lotID : String) (content : List String) :
    ∀ st : Ledger, SPEC_NoDuplicateAssetInState.scan lotID content st = .ok () →
      ∀ entry ∈ st, ∃ lot, UnmarshalLot entry.2 = .ok lot ∧
        (lot.ID = lotID ∨ ∀ c ∈ content, c ∉ lot.Content.elems) := by
  intro st
  induction st with
  | nil => intro _ entry h; cases h
  | cons e rest ih =>
    obtain ⟨k0, v0⟩ := e
    intro h entry hmem
    unfold SPEC_NoDuplicateAssetInState.scan at h
    cases hu : UnmarshalLot v0 with
    | error err => rw [hu] at h; cases h
    | ok lot =>
      rw [hu] at h
      simp only at h
      by_cases hskip : lot.ID = lotID
      · rw [if_pos hskip] at h
        rcases List.mem_cons.mp hmem with heq | hrest
        · subst heq; exact ⟨lot, hu, Or.inl hskip⟩
        · exact ih h entry hrest
      · rw [if_neg hskip] at h
        cases hf : content.find? (fun assetID => lot.Content.elems.contains assetID) with
        | some a => rw [hf] at h; cases h
        | none =>
          rw [hf] at h
          rcases List.mem_cons.mp hmem with heq | hrest
          · subst heq
            refine ⟨lot, hu, Or.inr ?_⟩
            intro c hc hin
            have := List.find?_eq_none.mp hf c hc
            simp [hin] at this
          · exact ih h entry hrest

theorem fieldSlice_content {r : Record} {v : Slice} (h : fieldSlice r "Content" = .ok v) :
    v.elems = r.content := by
  unfold fieldSlice at h
  unfold Record.content
  split at h
  · rename_i hg; cases h; rw [hg]; rfl
  · rename_i hg; cases h; rw [hg]; rfl
  · rename_i l hg; cases h; rw [hg]; rfl
  · cases h

theorem fieldString_eq {r : Record} {k s v : String} (h : fieldString r k = .ok v)
    (hg : r.get k = some (.str s)) : v = s := by
  unfold fieldString at h
  rw [hg] at h
  simpa using h.symm

theorem hasPrefix_head {s pre : String} {a : Char} {t : List Char}
    (h : HasPrefix s pre = true) (hp : pre.data = a :: t) : s.data.head? = some a := by
  unfold HasPrefix at h
  rw [hp] at h
  cases hs : s.data with
  | nil => rw [hs] at h; simp at h
  | cons b u =>
    rw [hs] at h
    simp only [List.isPrefixOf, Bool.and_eq_true, beq_iff_eq] at h
    simp [h.1]

theorem not_lot_of_prefix {s pre : String} {a : Char} {t : List Char}
    (h : HasPrefix s pre = true) (hp : pre.data = a :: t) (ha : a ≠ 'l') :
    HasPrefix s "lot_" = false := by
  cases hl : HasPrefix s "lot_" with
  | false => rfl
  | true =>
    have h1 := hasPrefix_head h hp
    have h2 : s.data.head? = some 'l' := hasPrefix_head hl rfl
    rw [h1] at h2
    exact absurd (Option.some.inj h2) ha

theorem hasPrefix_of_SPEC_IDPrefix {id pre : String} (h : SPEC_IDPrefix id pre = .ok ()) :
    HasPrefix id pre = true := by
  unfold SPEC_IDPrefix at h
  cases hp : HasPrefix id pre with
  | true => rfl
  | false => rw [hp] at h; simp at h

theorem GetState_none_of_SPEC_IsNewAsset {ctx : Ctx} {id : String}
    (h : SPEC_IsNewAsset ctx id = .ok ()) : GetState ctx.state id = none := by
  unfold SPEC_IsNewAsset at h
  split at h
  · cases h
  · assumption

theorem marshal_wrap_ok {r v : Record} {msg : String}
    (h : (match Marshal r with
      | .error e => Except.error (Err.wrap msg e)
      | .ok u => pure u) = Except.ok v) : v = r := by
  cases hm : Marshal r with
  | error e => rw [hm] at h; cases h
  | ok u =>
    rw [hm] at h
    have := Marshal_ok hm
    subst this
    exact (pure_eq_ok.mp h).symm

theorem production_step {ctx : Ctx} {call : ProductionCall}
    (h : (call.invoke ctx).err = none) :
    ∃ key v, call.invoke ctx = ⟨none, PutState ctx.state key v⟩ ∧
      ((v.get "ID" = some (.str key) ∧ HasPrefix key "lot_" = false) ∨
       (v.get "ID" = some (.str key) ∧ GetState ctx.state key = none ∧
          SPEC_NoDuplicateAssetInState.scan key v.content ctx.state = .ok ()) ∨
       (∃ r0, GetState ctx.state key = some r0 ∧ v.get "ID" = r0.get "ID" ∧
          v.get "Content" = r0.get "Content")) := by
  cases call with
  | createLot a b content d e lotID g nts i j tw =>
    obtain ⟨cw, h1, h2, _, _, _, _, _, h8, _, _, _, hres⟩ :=
      @CreateLot_success ctx a b content d e lotID g nts i j tw h
    refine ⟨lotID, _, hres, Or.inr (Or.inl ⟨rfl, GetState_none_of_SPEC_IsNewAsset h2, ?_⟩)⟩
    have hc : (Lot.toJSON
        { AllAssetsApproved := true, AssemblyDate := a, AssetIDPrefix := b, Content := content,
          ContentWeight := cw, CreatorID := ctx.mspid, Destination := d, FlagReason := e,
          ID := lotID, IsFlagged := g, Notes := nts, Origin := i, Owner := ctx.mspid,
          PreviousOwner := "Updated when ownership changes",
          Quantity := content.elems.length, TotalWeight := tw, UpdatedAt := ctx.now,
          WeightDifference := GetPercentageDifference cw tw }).content = content.elems := by
      cases content <;> rfl
    rw [hc]
    exact h8
  | createCottonBale a b c id e f g h1 i =>
    obtain ⟨v, hv⟩ := finish_err_none _ _ _ h
    have hv2 := hv
    simp only [bind_eq_ok] at hv2
    obtain ⟨_, h1, _, _, _, _, _, _, _, _, hm⟩ := hv2
    have := Marshal_ok hm
    subst this
    exact ⟨id, _, finish_of_ok _ _ hv, Or.inl ⟨rfl,
      not_lot_of_prefix (hasPrefix_of_SPEC_IDPrefix h1) rfl (by decide)⟩⟩
  | createButton a b c id e f g h1 =>
    obtain ⟨v, hv⟩ := finish_err_none _ _ _ h
    have hv2 := hv
    simp only [bind_eq_ok] at hv2
    obtain ⟨_, h1, _, _, _, _, _, _, _, _, hm⟩ := hv2
    have := Marshal_ok hm
    subst this
    exact ⟨id, _, finish_of_ok _ _ hv, Or.inl ⟨rfl,
      not_lot_of_prefix (hasPrefix_of_SPEC_IDPrefix h1) rfl (by decide)⟩⟩
  | createCottonYarn a b content d id f g h1 tw j =>
    obtain ⟨v, hv⟩ := finish_err_none _ _ _ h
    have hv2 := hv
    simp only [bind_eq_ok] at hv2
    obtain ⟨_, h1, _, _, _, _, _, _, _, _, _, _, cw, hcw, _, _, hm⟩ := hv2
    have := Marshal_ok hm
    subst this
    exact ⟨id, _, finish_of_ok _ _ hv, Or.inl ⟨rfl,
      not_lot_of_prefix (hasPrefix_of_SPEC_IDPrefix h1) rfl (by decide)⟩⟩
  | createUnfinishedFabric a b content d id f g h1 i tw k =>
    obtain ⟨v, hv⟩ := finish_err_none _ _ _ h
    have hv2 := hv
    simp only [bind_eq_ok] at hv2
    obtain ⟨_, h1, _, _, _, _, _, _, _, _, _, _, cw, hcw, _, _, hm⟩ := hv2
    have := Marshal_ok hm
    subst this
    exact ⟨id, _, finish_of_ok _ _ hv, Or.inl ⟨rfl,
      not_lot_of_prefix (hasPrefix_of_SPEC_IDPrefix h1) rfl (by decide)⟩⟩
  | createFinishedFabric a b content id e f g h1 i tw k =>
    obtain ⟨v, hv⟩ := finish_err_none _ _ _ h
    have hv2 := hv
    simp only [bind_eq_ok] at hv2
    obtain ⟨_, h1, _, _, _, _, _, _, _, _, _, _, cw, hcw, _, _, hm⟩ := hv2
    have := Marshal_ok hm
    subst this
    exact ⟨id, _, finish_of_ok _ _ hv, Or.inl ⟨rfl,
      not_lot_of_prefix (hasPrefix_of_SPEC_IDPrefix h1) rfl (by decide)⟩⟩
  | createCutPart a b content d id f g h1 i tw =>
    obtain ⟨v, hv⟩ := finish_err_none _ _ _ h
    have hv2 := hv
    simp only [bind_eq_ok] at hv2
    obtain ⟨_, h1, _, _, _, _, _, _, _, _, _, _, cw, hcw, _, _, hm⟩ := hv2
    have := Marshal_ok hm
    subst this
    exact ⟨id, _, finish_of_ok _ _ hv, Or.inl ⟨rfl,
      not_lot_of_prefix (hasPrefix_of_SPEC_IDPrefix h1) rfl (by decide)⟩⟩
  | createAssembledGarment a b buttons cutParts e id g h1 i tw =>
    obtain ⟨v, hv⟩ := finish_err_none _ _ _ h
    have hv2 := hv
    simp only [bind_eq_ok] at hv2
    obtain ⟨_, h1, _, _, _, _, _, _, _, _, _, _, _, _, _, _, bw, hbw, cpw, hcpw, _, _, hm⟩ :=
      hv2
    have := Marshal_ok hm
    subst this
    exact ⟨id, _, finish_of_ok _ _ hv, Or.inl ⟨rfl,
      not_lot_of_prefix (hasPrefix_of_SPEC_IDPrefix h1) rfl (by decide)⟩⟩
  | createCarton a b content d e id g h1 i j tw =>
    obtain ⟨v, hv⟩ := finish_err_none _ _ _ h
    have hv2 := hv
    simp only [bind_eq_ok] at hv2
    obtain ⟨_, h1, _, _, _, _, _, _, _, _, _, _, cw, hcw, _, _, hm⟩ := hv2
    have := Marshal_ok hm
    subst this
    exact ⟨id, _, finish_of_ok _ _ hv, Or.inl ⟨rfl,
      not_lot_of_prefix (hasPrefix_of_SPEC_IDPrefix h1) rfl (by decide)⟩⟩
  | createContainer content b c id e f g tw i =>
    obtain ⟨v, hv⟩ := finish_err_none _ _ _ h
    have hv2 := hv
    simp only [bind_eq_ok] at hv2
    obtain ⟨_, h1, _, _, _, _, _, _, _, _, _, _, cw, hcw, _, _, hm⟩ := hv2
    have := Marshal_ok hm
    subst this
    exact ⟨id, _, finish_of_ok _ _ hv, Or.inl ⟨rfl,
      not_lot_of_prefix (hasPrefix_of_SPEC_IDPrefix h1) rfl (by decide)⟩⟩
  | updateLotOwner lotID newOwner =>
    obtain ⟨v, hv⟩ := finish_err_none _ _ _ h
    have hv2 := hv
    cases hget : GetState ctx.state lotID with
    | none => rw [hget] at hv2; cases hv2
    | some r0 =>
      rw [hget] at hv2
      simp only [bind_eq_ok] at hv2
      obtain ⟨_, _, hm⟩ := hv2
      have := marshal_wrap_ok hm
      subst this
      refine ⟨lotID, _, finish_of_ok _ _ hv, Or.inr (Or.inr ⟨r0, hget, ?_, ?_⟩)⟩
      · rw [get_set_other _ _ _ _ (by decide), get_set_other _ _ _ _ (by decide),
          get_set_other _ _ _ _ (by decide)]
      · rw [get_set_other _ _ _ _ (by decide), get_set_other _ _ _ _ (by decide),
          get_set_other _ _ _ _ (by decide)]
  | setFlag id isFlagged flagReason =>
    obtain ⟨v, hv⟩ := finish_err_none _ _ _ h
    have hv2 := hv
    cases hget : GetState ctx.state id with
    | none => rw [hget] at hv2; cases hv2
    | some r0 =>
      rw [hget] at hv2
      simp only [bind_eq_ok] at hv2
      obtain ⟨_, _, hm⟩ := hv2
      have := marshal_wrap_ok hm
      subst this
      refine ⟨id, _, finish_of_ok _ _ hv, Or.inr (Or.inr ⟨r0, hget, ?_, ?_⟩)⟩
      · rw [get_set_other _ _ _ _ (by decide), get_set_other _ _ _ _ (by decide),
          get_set_other _ _ _ _ (by decide)]
      · rw [get_set_other _ _ _ _ (by decide), get_set_other _ _ _ _ (by decide),
          get_set_other _ _ _ _ (by decide)]
  | setNotes id notes =>
    obtain ⟨v, hv⟩ := finish_err_none _ _ _ h
    have hv2 := hv
    cases hget : GetState ctx.state id with
    | none => rw [hget] at hv2; cases hv2
    | some r0 =>
      rw [hget] at hv2
      have := marshal_wrap_ok hv2
      subst this
      refine ⟨id, _, finish_of_ok _ _ hv, Or.inr (Or.inr ⟨r0, hget, ?_, ?_⟩)⟩
      · rw [get_set_other _ _ _ _ (by decide), get_set_other _ _ _ _ (by decide)]
      · rw [get_set_other _ _ _ _ (by decide), get_set_other _ _ _ _ (by decide)]

theorem production_failed_state {ctx : Ctx} {call : ProductionCall}
    (h : (call.invoke ctx).err ≠ none) : (call.invoke ctx).state = ctx.state := by
  cases call <;> exact finish_state_of_err _ _ _ h

theorem content_congr {v r0 : Record} (h : v.get "Content" = r0.get "Content") :
    v.content = r0.content := by
  unfold Record.content
  rw [h]

theorem new_old_disjoint {st : Ledger} {key : String} {v : Record}
    (hid : ∀ k r, (k, r) ∈ st → r.get "ID" = some (.str k))
    (hlots : ∀ k1 r1 k2 r2, (k1, r1) ∈ st → (k2, r2) ∈ st → k1 ≠ k2 →
      HasPrefix k1 "lot_" = true → HasPrefix k2 "lot_" = true →
      ∀ c ∈ r1.content, c ∉ r2.content)
    (hshape : (v.get "ID" = some (.str key) ∧ HasPrefix key "lot_" = false) ∨
       (v.get "ID" = some (.str key) ∧ GetState st key = none ∧
          SPEC_NoDuplicateAssetInState.scan key v.content st = .ok ()) ∨
       (∃ r0, GetState st key = some r0 ∧ v.get "ID" = r0.get "ID" ∧
          v.get "Content" = r0.get "Content"))
    {k2 : String} {r2 : Record} (h2 : (k2, r2) ∈ st) (hne : key ≠ k2)
    (hp1 : HasPrefix key "lot_" = true) (hp2 : HasPrefix k2 "lot_" = true)
    {c : String} (hc1 : c ∈ v.content) (hc2 : c ∈ r2.content) : False := by
  rcases hshape with ⟨_, hnl⟩ | ⟨_, _, hscan⟩ | ⟨r0, hget, _, hcontent⟩
  · rw [hp1] at hnl; cases hnl
  · obtain ⟨lot, hu, hor⟩ := scan_ok key v.content st hscan (k2, r2) h2
    obtain ⟨hID, hC⟩ := UnmarshalLot_fields hu
    have hlid : lot.ID = k2 := fieldString_eq hID (hid k2 r2 h2)
    rcases hor with hskip | hdis
    · exact hne (hskip.symm.trans hlid)
    · have := hdis c hc1
      rw [fieldSlice_content hC] at this
      exact this hc2
  · have hmem : (key, r0) ∈ st := mem_of_lookup key r0 st hget
    rw [content_congr hcontent] at hc1
    exact hlots key r0 k2 r2 hmem h2 hne hp1 hp2 c hc1 hc2

theorem production_invariant (st : Ledger) (h : ProductionReachable st) :
    (∀ k r, (k, r) ∈ st → r.get "ID" = some (.str k)) ∧
    (∀ k1 r1 k2 r2, (k1, r1) ∈ st → (k2, r2) ∈ st → k1 ≠ k2 →
      HasPrefix k1 "lot_" = true → HasPrefix k2 "lot_" = true →
      ∀ c ∈ r1.content, c ∉ r2.content) := by
  induction h with
  | empty =>
    exact ⟨fun k r h => absurd h (List.not_mem_nil _),
      fun k1 r1 k2 r2 h => absurd h (List.not_mem_nil _)⟩
  | step st mspid now call _ ih =>
    obtain ⟨hid, hlots⟩ := ih
    by_cases herr : (call.invoke ⟨st, mspid, now⟩).err = none
    · obtain ⟨key, v, hres, hshape⟩ := production_step herr
      rw [hres]
      simp only
      have hidv : v.get "ID" = some (.str key) := by
        rcases hshape with ⟨h1, _⟩ | ⟨h1, _, _⟩ | ⟨r0, hget, h1, _⟩
        · exact h1
        · exact h1
        · rw [h1]; exact hid key r0 (mem_of_lookup key r0 st hget)
      constructor
      · intro k r hmem
        rcases mem_putEntry_cases key v (k, r) st hmem with heq | hold
        · obtain ⟨rfl, rfl⟩ := Prod.mk.inj heq
          exact hidv
        · exact hid k r hold
      · intro k1 r1 k2 r2 hm1 hm2 hne hp1 hp2 c hc1 hc2
        rcases mem_putEntry_cases key v (k1, r1) st hm1 with heq1 | hold1
        · obtain ⟨rfl, rfl⟩ := Prod.mk.inj heq1
          rcases mem_putEntry_cases k1 r1 (k2, r2) st hm2 with heq2 | hold2
          · exact hne (Prod.mk.inj heq2).1.symm
          · exact new_old_disjoint hid hlots hshape hold2 hne hp1 hp2 hc1 hc2
        · rcases mem_putEntry_cases key v (k2, r2) st hm2 with heq2 | hold2
          · obtain ⟨rfl, rfl⟩ := Prod.mk.inj heq2
            exact new_old_disjoint hid hlots hshape hold1 (Ne.symm hne) hp2 hp1 hc2 hc1
          · exact hlots k1 r1 k2 r2 hold1 hold2 hne hp1 hp2 c hc1 hc2
    · rw [production_failed_state herr]
      exact ⟨hid, hlots⟩

set_option maxRecDepth 100000 in
/-- C4 (amended): in every world state reachable from the empty ledger by
production-channel invocations, no asset ID is in the `Content` of two
different lot records (records stored under keys that start with `lot_`). -/
theorem lot_contents_disjoint (st : Ledger) (h : ProductionReachable st)
    (k1 k2 : String) (r1 r2 : Record) (c : String)
    (h1 : (k1, r1) ∈ st) (h2 : (k2, r2) ∈ st) (hne : k1 ≠ k2)
    (hp1 : HasPrefix k1 "lot_" = true) (hp2 : HasPrefix k2 "lot_" = true)
    (hc : c ∈ r1.content) : c ∉ r2.content :=
  (production_invariant st h).2 k1 r1 k2 r2 h1 h2 hne hp1 hp2 c hc

/-! ## Instances of the theorems at concrete inputs -/

set_option maxRecDepth 100000 in
/-- C2 at the second `CreateLot` of the scenario: it fails and the state is
unchanged. -/
theorem failed_call_leaves_state_witness :
    (Call.invoke ⟨ledgerWithLot, "Org4MSP", 30⟩
      (.production (.createLot 5 "cottonbale_" (some ["cottonbale_1"]) "Mill" "" "lot_2" false
        "" "Texas" "Org4MSP" 48))).err ≠ none ∧
    (Call.invoke ⟨ledgerWithLot, "Org4MSP", 30⟩
      (.production (.createLot 5 "cottonbale_" (some ["cottonbale_1"]) "Mill" "" "lot_2" false
        "" "Texas" "Org4MSP" 48))).state = ledgerWithLot :=
  ⟨by decide, failed_call_leaves_state _ _ (by decide)⟩

set_option maxRecDepth 100000 in
/-- C3 at a flagged second lot on the scenario ledger: the bale of `lot_1` is
listed again and the call fails without writing. -/
theorem CreateLot_rejects_contained_asset_witness :
    (CreateLot ⟨ledgerWithLot, "Org1MSP", 30⟩ 5 "cottonbale_"
      (some ["cottonbale_1"]) "Mill" "torn" "lot_2" true "" "Texas" "Org1MSP" 48).err ≠ none ∧
    (CreateLot ⟨ledgerWithLot, "Org1MSP", 30⟩ 5 "cottonbale_"
      (some ["cottonbale_1"]) "Mill" "torn" "lot_2" true "" "Texas" "Org1MSP" 48).state =
      ledgerWithLot :=
  have h := CreateLot_rejects_contained_asset.1 ⟨ledgerWithLot, "Org1MSP", 30⟩ 5 "cottonbale_"
    (some ["cottonbale_1"]) "Mill" "torn" "lot_2" true "" "Texas" "Org1MSP" 48
    "lot_1" ((GetState ledgerWithLot "lot_1").getD []) ["cottonbale_1"] "cottonbale_1"
    (by decide) (by decide) (by decide) (by decide) (by decide)
  ⟨h.1, h.2.1⟩

/-- C5 at a single timestamp. -/
theorem SPEC_Chronology_iff_witness :
    [(5 : Time)].length ≤ 1 ∧ SPEC_Chronology [5] = .ok () :=
  ⟨by decide, SPEC_Chronology_iff.2.2.2 [5] (by decide)⟩

set_option maxRecDepth 100000 in
/-- C6 at `CreateOrder` with the ID `plan_9`. -/
theorem create_rejects_wrong_prefix_witness :
    Call.created (.admin (.createOrder 5 100 "" "plan_9" false "" "net30" "shirts" "Org2MSP"
      1000)) = some ("plan_9", "order_") ∧
    HasPrefix "plan_9" "order_" = false ∧
    Call.invoke ⟨adminLedgerWithPlan, "Org1MSP", 40⟩
      (.admin (.createOrder 5 100 "" "plan_9" false "" "net30" "shirts" "Org2MSP" 1000)) =
      ⟨some (.idPrefix "plan_9" "order_"), adminLedgerWithPlan⟩ :=
  ⟨rfl, by decide, create_rejects_wrong_prefix _ _ _ _ rfl (by decide)⟩

set_option maxRecDepth 100000 in
/-- C7 (counterexample): `plan_1` exists in a reachable admin-channel state, and
`CreateOrder` with that ID fails with the invalid-identifier error, not with
the already-exists error. -/
theorem CreateOrder_on_existing_plan_id :
    AdminReachable adminLedgerWithPlan ∧
    (GetState adminLedgerWithPlan "plan_1").isSome = true ∧
    (CreateOrder ⟨adminLedgerWithPlan, "Org1MSP", 40⟩ 35 100 "" "plan_1" false "" "net30"
      "shirts" "Org2MSP" 1000).err = some (.idPrefix "plan_1" "order_") ∧
    (CreateOrder ⟨adminLedgerWithPlan, "Org1MSP", 40⟩ 35 100 "" "plan_1" false "" "net30"
      "shirts" "Org2MSP" 1000).err ≠ some (.alreadyExists "plan_1") := by
  refine ⟨?_, by decide, by decide, by decide⟩
  exact AdminReachable.step _ "Org2MSP" 30
    (.createPlan 25 (some ["factory_1"]) "" "plan_1" false "" "order_1" "cut and sew")
    (AdminReachable.step _ "Org2MSP" 20
      (.createFactory "Org2MSP" "" "factory_1" false "Dhaka" "Mill One" "" true 15)
      (AdminReachable.step _ "Org1MSP" 10
        (.createOrder 5 100 "" "order_1" false "" "net30" "shirts" "Org2MSP" 1000)
        AdminReachable.empty))

set_option maxRecDepth 100000 in
/-- C7 (amended) at `CreateOrder` with the existing ID `order_1`: the
already-exists error, and nothing written. -/
theorem create_existing_fails_witness :
    Call.created (.admin (.createOrder 35 100 "" "order_1" false "" "net30" "shirts" "Org2MSP"
      1000)) = some ("order_1", "order_") ∧
    (GetState adminLedgerWithPlan "order_1").isSome = true ∧
    Call.invoke ⟨adminLedgerWithPlan, "Org1MSP", 40⟩
      (.admin (.createOrder 35 100 "" "order_1" false "" "net30" "shirts" "Org2MSP" 1000)) =
      ⟨some (.alreadyExists "order_1"), adminLedgerWithPlan⟩ :=
  ⟨rfl, by decide,
    create_existing_fails ⟨adminLedgerWithPlan, "Org1MSP", 40⟩ _ "order_1" "order_"
      ((GetState adminLedgerWithPlan "order_1").getD []) rfl (by decide)⟩

/-- C8 at the negative zero: `original == 0` holds and the result is `0`. -/
theorem GetPercentageDifference_spec_witness :
    F32.eq (.fin true 0 (-149)) 0 = true ∧
    GetPercentageDifference (.fin true 0 (-149)) 110 = 0 :=
  ⟨by decide, GetPercentageDifference_spec.1 _ _ (by decide)⟩

set_option maxRecDepth 100000 in
/-- C9 at the `CreateLot` of the scenario. -/
theorem composite_weights_witness :
    (ProductionCall.invoke ⟨ledgerWithBale, "Org4MSP", 20⟩
      (.createLot 5 "cottonbale_" (some ["cottonbale_1"]) "Mill" "" "lot_1" false "" "Texas"
        "Org4MSP" 48)).err = none ∧
    ∃ (wss : List (List F32)) (rec : Record),
      List.Forall₂ (fun (g : Slice) ws => StoredWeights ledgerWithBale g.elems ws)
        [some ["cottonbale_1"]] wss ∧
      GetState ledgerWithLot "lot_1" = some rec ∧
      rec.get "TotalWeight" = some (.num 48) ∧
      rec.get "ContentWeight" = some (.num (combineWeights (wss.map sumWeights))) ∧
      rec.get "WeightDifference" = some (.num
        (if F32.eq (combineWeights (wss.map sumWeights)) 0 then 0
         else ((48 - combineWeights (wss.map sumWeights)) /
           combineWeights (wss.map sumWeights)) * 100)) :=
  ⟨by decide,
    composite_weights.1 ⟨ledgerWithBale, "Org4MSP", 20⟩
      (.createLot 5 "cottonbale_" (some ["cottonbale_1"]) "Mill" "" "lot_1" false "" "Texas"
        "Org4MSP" 48) "lot_1" [some ["cottonbale_1"]] 48 rfl (by decide)⟩

set_option maxRecDepth 100000 in
/-- C10 (amended) at `CreateCarton` with a nil content list. -/
theorem empty_content_rejected_witness :
    (none : Slice) ∈ ProductionCall.consistencyChecked
      (.createCarton true 5 none "shop" "" "carton_1" false "" "Dhaka" "Org6MSP" 12) ∧
    Slice.elems none = [] ∧
    (ProductionCall.invoke ⟨ledgerWithLot, "Org6MSP", 30⟩
      (.createCarton true 5 none "shop" "" "carton_1" false "" "Dhaka" "Org6MSP" 12)).err ≠
      none ∧
    (ProductionCall.invoke ⟨ledgerWithLot, "Org6MSP", 30⟩
      (.createCarton true 5 none "shop" "" "carton_1" false "" "Dhaka" "Org6MSP" 12)).state =
      ledgerWithLot :=
  ⟨by decide, rfl,
    empty_content_rejected ⟨ledgerWithLot, "Org6MSP", 30⟩
      (.createCarton true 5 none "shop" "" "carton_1" false "" "Dhaka" "Org6MSP" 12) none
      (by decide) rfl⟩

theorem ledgerWithTwoLots_reachable : ProductionReachable ledgerWithTwoLots :=
  ProductionReachable.step _ "Org4MSP" 40
    (.createLot 35 "cottonbale_" (some ["cottonbale_2"]) "Mill" "" "lot_2" false "" "Texas"
      "Org4MSP" 60)
    (ProductionReachable.step _ "Org4MSP" 30
      (.createCottonBale true 25 "" "cottonbale_2" false "" "Texas" "B" 60)
      (ProductionReachable.step _ "Org4MSP" 20
        (.createLot 5 "cottonbale_" (some ["cottonbale_1"]) "Mill" "" "lot_1" false ""
          "Texas" "Org4MSP" 48)
        (ProductionReachable.step _ "Org4MSP" 10
          (.createCottonBale true 5 "" "cottonbale_1" false "" "Texas" "A" 50)
          ProductionReachable.empty)))

set_option maxRecDepth 100000 in
/-- C4 (amended) at the two lots of the scenario: the bale of `lot_1` is not in
`lot_2`. -/
theorem lot_contents_disjoint_witness :
    ProductionReachable ledgerWithTwoLots ∧
    ("lot_1", (GetState ledgerWithTwoLots "lot_1").getD []) ∈ ledgerWithTwoLots ∧
    ("lot_2", (GetState ledgerWithTwoLots "lot_2").getD []) ∈ ledgerWithTwoLots ∧
    "cottonbale_1" ∈ Record.content ((GetState ledgerWithTwoLots "lot_1").getD []) ∧
    "cottonbale_1" ∉ Record.content ((GetState ledgerWithTwoLots "lot_2").getD []) :=
  ⟨ledgerWithTwoLots_reachable, by decide, by decide, by decide,
    lot_contents_disjoint ledgerWithTwoLots ledgerWithTwoLots_reachable "lot_1" "lot_2"
      ((GetState ledgerWithTwoLots "lot_1").getD []) ((GetState ledgerWithTwoLots "lot_2").getD [])
      "cottonbale_1" (by decide) (by decide) (by decide) (by decide) (by decide)
      (by decide)⟩

/-! ## Content checks of `CreateLot` -/

/-! ## Composition checks -/

theorem noDuplicate_loop_ok (l : List String) :
    ∀ seen : List String, SPEC_NoDuplicateAssetInThisLot.loop seen l = .ok () ↔
      (l.Nodup ∧ ∀ x ∈ l, x ∉ seen) := by
  induction l with
  | nil => intro seen; simp [SPEC_NoDuplicateAssetInThisLot.loop]
  | cons a rest ih =>
    intro seen
    unfold SPEC_NoDuplicateAssetInThisLot.loop
    by_cases ha : a ∈ seen
    · rw [if_pos ha]
      constructor
      · intro h; cases h
      · intro h; exact absurd ha (h.2 a (List.mem_cons_self _ _))
    · rw [if_neg ha, ih]
      constructor
      · rintro ⟨hnd, hdis⟩
        refine ⟨List.nodup_cons.mpr ⟨?_, hnd⟩, ?_⟩
        · intro har
          exact hdis a har (List.mem_cons_self _ _)
        · intro x hx
          rcases List.mem_cons.mp hx with rfl | hx
          · exact ha
          · intro hxs
            exact hdis x hx (List.mem_cons_of_mem _ hxs)
      · rintro ⟨hnd, hdis⟩
        obtain ⟨har, hnd2⟩ := List.nodup_cons.mp hnd
        refine ⟨hnd2, ?_⟩
        intro x hx hxs
        rcases List.mem_cons.mp hxs with rfl | hxs
        · exact har hx
        · exact hdis x (List.mem_cons_of_mem _ hx) hxs

theorem noDuplicate_loop_error (l : List String) :
    ∀ (seen : List String) (e : Err), SPEC_NoDuplicateAssetInThisLot.loop seen l = .error e →
      ∃ pre x post, l = pre ++ x :: post ∧ pre.Nodup ∧ (∀ y ∈ pre, y ∉ seen) ∧
        (x ∈ seen ∨ x ∈ pre) ∧ e = .duplicate x := by
  induction l with
  | nil => intro seen e h; cases h
  | cons a rest ih =>
    intro seen e h
    unfold SPEC_NoDuplicateAssetInThisLot.loop at h
    by_cases ha : a ∈ seen
    · rw [if_pos ha] at h
      cases h
      exact ⟨[], a, rest, rfl, List.nodup_nil, fun y hy => absurd hy (List.not_mem_nil _),
        Or.inl ha, rfl⟩
    · rw [if_neg ha] at h
      obtain ⟨pre, x, post, hl, hnd, hdis, hx, he⟩ := ih (a :: seen) e h
      refine ⟨a :: pre, x, post, by rw [hl]; rfl, ?_, ?_, ?_, he⟩
      · refine List.nodup_cons.mpr ⟨?_, hnd⟩
        intro hap
        exact hdis a hap (List.mem_cons_self _ _)
      · intro y hy
        rcases List.mem_cons.mp hy with rfl | hy
        · exact ha
        · intro hys
          exact hdis y hy (List.mem_cons_of_mem _ hys)
      · rcases hx with hx | hx
        · rcases List.mem_cons.mp hx with rfl | hx
          · exact Or.inr (List.mem_cons_self _ _)
          · exact Or.inl hx
        · exact Or.inr (List.mem_cons_of_mem _ hx)

/-- C11: `SPEC_NoDuplicateAssetInThisLot` succeeds exactly when no ID occurs
twice in the list; when it fails, the list splits as `pre ++ x :: post` with
`pre` free of duplicates and `x` in `pre`, and the error names `x`: the ID whose
second occurrence comes first.  In `a, b, c, b, a` that is `b`. -/
theorem SPEC_NoDuplicateAssetInThisLot_spec :
    (∀ content : Slice,
      (SPEC_NoDuplicateAssetInThisLot content = .ok () ↔ content.elems.Nodup) ∧
      (∀ e, SPEC_NoDuplicateAssetInThisLot content = .error e →
        ∃ pre x post, content.elems = pre ++ x :: post ∧ pre.Nodup ∧ x ∈ pre ∧
          e = .duplicate x)) ∧
    SPEC_NoDuplicateAssetInThisLot (some ["a", "b", "c", "b", "a"]) = .error (.duplicate "b") := by
  refine ⟨?_, by decide⟩
  intro content
  constructor
  · unfold SPEC_NoDuplicateAssetInThisLot
    rw [noDuplicate_loop_ok]
    simp
  · intro e h
    obtain ⟨pre, x, post, hl, hnd, _, hx, he⟩ := noDuplicate_loop_error content.elems [] e h
    refine ⟨pre, x, post, hl, hnd, ?_, he⟩
    rcases hx with hx | hx
    · exact absurd hx (List.not_mem_nil _)
    · exact hx

theorem lotConsistency_loop_ok (ctx : Ctx) (pre : String) (l : List String) :
    SPEC_LotConsistency.loop ctx pre l = .ok () ↔
      ∀ id ∈ l, HasPrefix id pre = true ∧ (GetState ctx.state id).isSome = true := by
  induction l with
  | nil => simp [SPEC_LotConsistency.loop]
  | cons a rest ih =>
    unfold SPEC_LotConsistency.loop
    cases hp : HasPrefix a pre with
    | false =>
      simp only [Bool.not_false, if_true]
      constructor
      · intro h; cases h
      · intro h
        have := (h a (List.mem_cons_self _ _)).1
        rw [hp] at this
        cases this
    | true =>
      simp only [Bool.not_true, Bool.false_eq_true, if_false]
      unfold SPEC_AssetExists
      cases hg : GetState ctx.state a with
      | none => simp [hg]
      | some r =>
        simp only [ih]
        simp [hp, hg]

theorem lotConsistency_ok_iff (ctx : Ctx) (content : Slice) (pre : String) :
    SPEC_LotConsistency ctx content pre = .ok () ↔
      (content.elems ≠ [] ∧
        ∀ id ∈ content.elems, HasPrefix id pre = true ∧ (GetState ctx.state id).isSome = true) := by
  unfold SPEC_LotConsistency
  cases hc : content.elems with
  | nil => simp
  | cons a rest =>
    have : ((a :: rest).length == 0) = false := by simp
    simp only [this, Bool.false_eq_true, if_false]
    rw [lotConsistency_loop_ok]
    simp

/-- C12: `SPEC_LotConsistency` succeeds exactly when the content list is not
empty and every listed ID starts with the given prefix and is a key of the
ledger. -/
theorem SPEC_LotConsistency_iff (ctx : Ctx) (content : Slice) (pre : String) :
    SPEC_LotConsistency ctx content pre = .ok () ↔
      (content.elems ≠ [] ∧
        ∀ id ∈ content.elems, HasPrefix id pre = true ∧ (GetState ctx.state id).isSome = true) :=
  lotConsistency_ok_iff ctx content pre

theorem forEach_ok {α : Type} (f : α → Except Err Unit) (l : List α) :
    forEach l f = .ok () ↔ ∀ a ∈ l, f a = .ok () := by
  induction l with
  | nil => simp [forEach]
  | cons a rest ih =>
    unfold forEach
    cases h : f a with
    | error e => simp [h]
    | ok u => simp [h, ih]

theorem SPEC_IsNotFlagged_ok (ctx : Ctx) (assetID : String) :
    SPEC_IsNotFlagged ctx assetID = .ok () ↔
      ∃ r, GetState ctx.state assetID = some r ∧ r.get "IsFlagged" = some (.bool false) := by
  unfold SPEC_IsNotFlagged
  cases hg : GetState ctx.state assetID with
  | none => simp
  | some r =>
    simp only [Option.some.injEq, exists_eq_left']
    split
    · rename_i b hb
      cases b <;> simp [hb]
    · rename_i hne
      constructor
      · intro h; cases h
      · intro h; exact absurd h (hne false)

theorem SPEC_CheckAssetsApproval_body_ok (ctx : Ctx) (assetID : String) :
    SPEC_CheckAssetsApproval.body ctx assetID = .ok () ↔
      ∃ r, GetState ctx.state assetID = some r ∧ r.get "Approval" = some (.bool true) := by
  unfold SPEC_CheckAssetsApproval.body
  cases hg : GetState ctx.state assetID with
  | none => simp
  | some r =>
    simp only [Option.some.injEq, exists_eq_left']
    split
    · rename_i b hb
      cases b <;> simp [hb]
    · rename_i hne
      constructor
      · intro h; cases h
      · intro h; exact absurd h (hne true)

set_option maxRecDepth 100000 in
/-- C13: `CreateLot` succeeds only if every listed asset is stored with
`Approval` true and `IsFlagged` false, and then the stored lot has
`AllAssetsApproved` true; a listed asset whose stored `Approval` is not the
boolean true makes it fail and write nothing, as for the unapproved bale
`cottonbale_3`. -/
theorem CreateLot_requires_approval :
    (∀ (ctx : Ctx) (assemblyDate : Time) (assetIDPrefix : String) (content : Slice)
      (destination flagReason lotID : String) (isFlagged : Bool)
      (notes origin owner : String) (totalWeight : F32),
      ((CreateLot ctx assemblyDate assetIDPrefix content destination flagReason lotID
          isFlagged notes origin owner totalWeight).err = none →
        (∀ id ∈ content.elems, ∃ r, GetState ctx.state id = some r ∧
          r.get "Approval" = some (.bool true) ∧ r.get "IsFlagged" = some (.bool false)) ∧
        ∃ lot, GetState (CreateLot ctx assemblyDate assetIDPrefix content destination
            flagReason lotID isFlagged notes origin owner totalWeight).state lotID = some lot ∧
          lot.get "AllAssetsApproved" = some (.bool true)) ∧
      (∀ (id : String) (r : Record), id ∈ content.elems → GetState ctx.state id = some r →
        r.get "Approval" ≠ some (.bool true) →
        (CreateLot ctx assemblyDate assetIDPrefix content destination flagReason lotID
          isFlagged notes origin owner totalWeight).err ≠ none ∧
        (CreateLot ctx assemblyDate assetIDPrefix content destination flagReason lotID
          isFlagged notes origin owner totalWeight).state = ctx.state)) ∧
    CreateLot ⟨ledgerWithUnapprovedBale, "Org4MSP", 20⟩ 5 "cottonbale_" (some ["cottonbale_3"])
        "Mill" "" "lot_3" false "" "Texas" "Org4MSP" 48 =
      ⟨some (.approvalFalse "cottonbale_3"), ledgerWithUnapprovedBale⟩ := by
  refine ⟨?_, by decide⟩
  intro ctx assemblyDate assetIDPrefix content destination flagReason lotID isFlagged notes
    origin owner totalWeight
  have key : (CreateLot ctx assemblyDate assetIDPrefix content destination flagReason lotID
        isFlagged notes origin owner totalWeight).err = none →
      (∀ id ∈ content.elems, ∃ r, GetState ctx.state id = some r ∧
        r.get "Approval" = some (.bool true) ∧ r.get "IsFlagged" = some (.bool false)) ∧
      ∃ lot, GetState (CreateLot ctx assemblyDate assetIDPrefix content destination
          flagReason lotID isFlagged notes origin owner totalWeight).state lotID = some lot ∧
        lot.get "AllAssetsApproved" = some (.bool true) := by
    intro h
    obtain ⟨cw, _, _, _, _, h5, _, _, _, h9, _, _, hres⟩ := CreateLot_success h
    constructor
    · intro id hid
      obtain ⟨r, hr, hfl⟩ := (SPEC_IsNotFlagged_ok ctx id).mp ((forEach_ok _ _).mp h5 id hid)
      obtain ⟨r2, hr2, hap⟩ :=
        (SPEC_CheckAssetsApproval_body_ok ctx id).mp ((forEach_ok _ _).mp h9 id hid)
      rw [hr] at hr2
      cases hr2
      exact ⟨r, hr, hap, hfl⟩
    · rw [hres]
      exact ⟨_, GetState_PutState_self _ _ _, rfl⟩
  refine ⟨key, ?_⟩
  intro id r hid hget hne
  have hfail : (CreateLot ctx assemblyDate assetIDPrefix content destination flagReason lotID
      isFlagged notes origin owner totalWeight).err ≠ none := by
    intro h
    obtain ⟨r2, hr2, hap, _⟩ := (key h).1 id hid
    rw [hget] at hr2
    cases hr2
    exact hne hap
  exact ⟨hfail, finish_state_of_err _ _ _ hfail⟩

theorem checkOrg_ok {ctx : Ctx} {assetIDPrefix : String}
    (hrec : assetIDPrefix ∈ recognisedTypes)
    (h : CreateLot.checkOrg ctx assetIDPrefix = .ok ()) :
    ctx.mspid ∈ lotAllowSet assetIDPrefix := by
  have hin : ∀ l, SPEC_IsInvokedByAllowedOrg ctx l = .ok () → ctx.mspid ∈ l := by
    intro l hl
    unfold SPEC_IsInvokedByAllowedOrg at hl
    by_cases hm : ctx.mspid ∈ l
    · exact hm
    · rw [if_neg hm] at hl; cases hl
  simp only [recognisedTypes, List.mem_cons, List.mem_singleton, List.not_mem_nil,
    or_false] at hrec
  rcases hrec with rfl | rfl | rfl | rfl | rfl | rfl | rfl <;> exact hin _ h

set_option maxRecDepth 100000 in
/-- C14 (the code at the failing input): `Org3MSP`, which is in no allow-set of
`CreateLot`, creates a lot of the cotton bale `cottonbale_1` by passing the
empty string as `assetIDPrefix`: the `switch` has no case for it and every ID
starts with it.  When `assetIDPrefix` is one of the seven recognised types, a
successful `CreateLot` was invoked from the allow-set of that type. -/
theorem CreateLot_unrecognised_prefix_unchecked :
    ((CreateLot ⟨ledgerWithBale, "Org3MSP", 20⟩ 5 "" (some ["cottonbale_1"]) "Mill" ""
        "lot_9" false "" "Texas" "Org3MSP" 48).err = none ∧
      HasPrefix "cottonbale_1" "cottonbale_" = true ∧
      "Org3MSP" ∉ lotAllowSet "cottonbale_" ∧
      (GetState (CreateLot ⟨ledgerWithBale, "Org3MSP", 20⟩ 5 "" (some ["cottonbale_1"])
        "Mill" "" "lot_9" false "" "Texas" "Org3MSP" 48).state "lot_9").map Record.content =
        some ["cottonbale_1"]) ∧
    (∀ (ctx : Ctx) (assemblyDate : Time) (assetIDPrefix : String) (content : Slice)
      (destination flagReason lotID : String) (isFlagged : Bool)
      (notes origin owner : String) (totalWeight : F32),
      assetIDPrefix ∈ recognisedTypes →
      (CreateLot ctx assemblyDate assetIDPrefix content destination flagReason lotID
        isFlagged notes origin owner totalWeight).err = none →
      ctx.mspid ∈ lotAllowSet assetIDPrefix ∧
      ∀ id ∈ content.elems, HasPrefix id assetIDPrefix = true) := by
  refine ⟨by decide, ?_⟩
  intro ctx assemblyDate assetIDPrefix content destination flagReason lotID isFlagged notes
    origin owner totalWeight hrec h
  obtain ⟨cw, _, _, h3, _, _, _, h7, _⟩ := CreateLot_success h
  refine ⟨checkOrg_ok hrec h3, ?_⟩
  intro id hid
  exact (((lotConsistency_ok_iff ctx content assetIDPrefix).mp h7).2 id hid).1

/-! ## Transfer of ownership -/

theorem Marshal_of_isJSON {r : Record} (h : r.isJSON = true) : Marshal r = .ok r := by
  unfold Marshal
  have : (r.all fun kv => match kv.2 with | .num x => x.isFinite | _ => true) = true := by
    unfold Record.isJSON at h
    rw [List.all_eq_true] at h ⊢
    intro kv hkv
    have := h kv hkv
    cases hv : kv.2 <;> simp_all [JVal.isJSON]
  split
  · rfl
  · rename_i hn
    exact absurd this hn

theorem isJSON_putEntry (k : String) (v : JVal) (hv : v.isJSON = true) :
    ∀ r : Record, r.isJSON = true → Record.isJSON (putEntry k v r) = true := by
  intro r h
  unfold Record.isJSON at h ⊢
  rw [List.all_eq_true] at h ⊢
  intro kv hkv
  rcases mem_putEntry_cases k v kv r hkv with rfl | hmem
  · exact hv
  · exact h kv hmem

theorem isJSON_get {r : Record} {k : String} {v : JVal} (h : r.isJSON = true)
    (hg : r.get k = some v) : v.isJSON = true := by
  unfold Record.isJSON at h
  rw [List.all_eq_true] at h
  exact h (k, v) (mem_of_lookup k v r hg)

theorem checkOrgs_recognised (ctx : Ctx) (p newOwner : String) (hp : p ∈ recognisedTypes) :
    UpdateLotOwner.checkOrgs ctx (some (.str p)) newOwner =
      (do SPEC_IsInvokedByAllowedOrg ctx (transferAllowSet p)
          SPEC_IsAllowedToOwn newOwner (transferAllowSet p)) := by
  simp only [recognisedTypes, List.mem_cons, List.mem_singleton, List.not_mem_nil, or_false] at hp
  rcases hp with rfl | rfl | rfl | rfl | rfl | rfl | rfl <;>
    simp [UpdateLotOwner.checkOrgs, transferAllowSet]

theorem checkOrgs_unrecognised (ctx : Ctx) (v : Option JVal) (newOwner : String)
    (hv : ∀ p ∈ recognisedTypes, v ≠ some (.str p)) :
    UpdateLotOwner.checkOrgs ctx v newOwner = .ok () := by
  have h := fun p hp => hv p hp
  simp only [recognisedTypes, List.mem_cons, List.mem_singleton, List.not_mem_nil, or_false,
    forall_eq_or_imp, forall_eq] at h
  obtain ⟨h1, h2, h3, h4, h5, h6, h7⟩ := h
  simp [UpdateLotOwner.checkOrgs, h1, h2, h3, h4, h5, h6, h7]

theorem UpdateLotOwner_marshal (ctx : Ctx) (newOwner : String) (r : Record)
    (hj : r.isJSON = true) :
    Marshal (((r.set "PreviousOwner" ((r.get "Owner").getD .null)).set "Owner"
      (.str newOwner)).set "UpdatedAt" (.time ctx.now)) =
      .ok (((r.set "PreviousOwner" ((r.get "Owner").getD .null)).set "Owner"
        (.str newOwner)).set "UpdatedAt" (.time ctx.now)) := by
  apply Marshal_of_isJSON
  have h0 : JVal.isJSON ((r.get "Owner").getD .null) = true := by
    cases ho : r.get "Owner" with
    | none => rfl
    | some v => exact isJSON_get hj ho
  exact isJSON_putEntry "UpdatedAt" (.time ctx.now) rfl _
    (isJSON_putEntry "Owner" (.str newOwner) rfl _
      (isJSON_putEntry "PreviousOwner" _ h0 r hj))

theorem UpdateLotOwner_of_checks (ctx : Ctx) (lotID newOwner : String) (r : Record)
    (hr : GetState ctx.state lotID = some r) (hj : r.isJSON = true) :
    UpdateLotOwner ctx lotID newOwner =
      match UpdateLotOwner.checkOrgs ctx (r.get "AssetIDPrefix") newOwner with
      | .error e => ⟨some e, ctx.state⟩
      | .ok _ => ⟨none, PutState ctx.state lotID
          (((r.set "PreviousOwner" ((r.get "Owner").getD .null)).set "Owner"
            (.str newOwner)).set "UpdatedAt" (.time ctx.now))⟩ := by
  unfold UpdateLotOwner
  rw [hr]
  cases hc : UpdateLotOwner.checkOrgs ctx (r.get "AssetIDPrefix") newOwner with
  | error e => simp only [hc, bind, Except.bind, finish]
  | ok u =>
    simp only [hc, bind, Except.bind, UpdateLotOwner_marshal ctx newOwner r hj, pure,
      Except.pure, finish]

/-- C15: for an existing record whose `AssetIDPrefix` is one of the seven
recognised types, `UpdateLotOwner` succeeds exactly when the invoker and the new
owner are both in the allow-set of that type; an invoker outside the set gets
the not-allowed-organization error whatever the new owner is, and an allowed
invoker with a new owner outside the set gets the owner-not-allowed error. -/
theorem UpdateLotOwner_recognised_type (ctx : Ctx) (lotID newOwner p : String) (r : Record)
    (hr : GetState ctx.state lotID = some r) (hj : r.isJSON = true)
    (hp : r.get "AssetIDPrefix" = some (.str p)) (hrec : p ∈ recognisedTypes) :
    ((UpdateLotOwner ctx lotID newOwner).err = none ↔
      (ctx.mspid ∈ transferAllowSet p ∧ newOwner ∈ transferAllowSet p)) ∧
    (ctx.mspid ∉ transferAllowSet p →
      UpdateLotOwner ctx lotID newOwner =
        ⟨some (.notAllowedOrg ctx.mspid (transferAllowSet p)), ctx.state⟩) ∧
    (ctx.mspid ∈ transferAllowSet p → newOwner ∉ transferAllowSet p →
      UpdateLotOwner ctx lotID newOwner =
        ⟨some (.ownerNotAllowed newOwner (transferAllowSet p)), ctx.state⟩) := by
  rw [UpdateLotOwner_of_checks ctx lotID newOwner r hr hj, hp,
    checkOrgs_recognised ctx p newOwner hrec]
  by_cases h1 : ctx.mspid ∈ transferAllowSet p
  · by_cases h2 : newOwner ∈ transferAllowSet p
    · simp [SPEC_IsInvokedByAllowedOrg, SPEC_IsAllowedToOwn, h1, h2, bind, Except.bind]
    · simp [SPEC_IsInvokedByAllowedOrg, SPEC_IsAllowedToOwn, h1, h2, bind, Except.bind]
  · simp [SPEC_IsInvokedByAllowedOrg, SPEC_IsAllowedToOwn, h1, bind, Except.bind]

set_option maxRecDepth 100000 in
/-- C16: `UpdateLotOwner` runs no authorization on a record whose
`AssetIDPrefix` member is not one of the seven recognised strings: on such a
record the transfer succeeds for every invoker and every new owner. On the
ledger holding the cotton bale `cottonbale_1`, the invoker `Org3MSP` makes
`Org9MSP` the owner of the bale. -/
theorem UpdateLotOwner_unchecked_without_type :
    (∀ (ctx : Ctx) (lotID newOwner : String) (r : Record),
      GetState ctx.state lotID = some r → r.isJSON = true →
      (∀ p ∈ recognisedTypes, r.get "AssetIDPrefix" ≠ some (.str p)) →
      (UpdateLotOwner ctx lotID newOwner).err = none) ∧
    (UpdateLotOwner ⟨ledgerWithBale, "Org3MSP", 20⟩ "cottonbale_1" "Org9MSP").err = none ∧
    ((GetState (UpdateLotOwner ⟨ledgerWithBale, "Org3MSP", 20⟩ "cottonbale_1" "Org9MSP").state
      "cottonbale_1").bind (fun r => r.get "Owner")) = some (.str "Org9MSP") ∧
    "Org3MSP" ∉ ["Org1MSP", "Org2MSP", "Org4MSP", "Org5MSP", "Org6MSP"] ∧
    "Org9MSP" ∉ ["Org1MSP", "Org2MSP", "Org4MSP", "Org5MSP", "Org6MSP"] := by
  refine ⟨?_, by decide, by decide, by decide, by decide⟩
  intro ctx lotID newOwner r hr hj hv
  rw [UpdateLotOwner_of_checks ctx lotID newOwner r hr hj,
    checkOrgs_unrecognised ctx _ newOwner hv]

/-- C17: a successful `UpdateLotOwner` stores a record whose `PreviousOwner` is
the `Owner` member stored before the call (`null` when there was none), whose
`Owner` is the new owner and whose `UpdatedAt` is the current time; every other
member of the record and every other key of the ledger is as before. -/
theorem UpdateLotOwner_effect (ctx : Ctx) (lotID newOwner : String)
    (h : (UpdateLotOwner ctx lotID newOwner).err = none) :
    (∃ before after,
      GetState ctx.state lotID = some before ∧
      GetState (UpdateLotOwner ctx lotID newOwner).state lotID = some after ∧
      after.get "PreviousOwner" = some ((before.get "Owner").getD .null) ∧
      after.get "Owner" = some (.str newOwner) ∧
      after.get "UpdatedAt" = some (.time ctx.now) ∧
      ∀ k, k ≠ "PreviousOwner" → k ≠ "Owner" → k ≠ "UpdatedAt" →
        after.get k = before.get k) ∧
    ∀ key, key ≠ lotID →
      GetState (UpdateLotOwner ctx lotID newOwner).state key = GetState ctx.state key := by
  unfold UpdateLotOwner at h ⊢
  obtain ⟨v, hv⟩ := finish_err_none _ _ _ h
  rw [finish_of_ok ctx lotID hv]
  cases hr : GetState ctx.state lotID with
  | none => rw [hr] at hv; cases hv
  | some r =>
    rw [hr] at hv
    simp only [bind_eq_ok] at hv
    obtain ⟨_, _, hm⟩ := hv
    have hv2 := marshal_wrap_ok hm
    subst hv2
    refine ⟨⟨r, _, rfl, GetState_PutState_self _ _ _, ?_, ?_, ?_, ?_⟩, ?_⟩
    · rw [get_set_other _ _ _ _ (by decide), get_set_other _ _ _ _ (by decide)]
      exact lookup_putEntry_self _ _ _
    · rw [get_set_other _ _ _ _ (by decide)]
      exact lookup_putEntry_self _ _ _
    · exact lookup_putEntry_self _ _ _
    · intro k h1 h2 h3
      rw [get_set_other _ _ _ _ h3, get_set_other _ _ _ _ h2, get_set_other _ _ _ _ h1]
    · intro key hk
      exact lookup_putEntry_other _ _ _ hk _

/-! ## Approval of factories, plans and orders -/

theorem Plan_marshal (p : Plan) : Marshal p.toJSON = .ok p.toJSON := by
  cases hf : p.Factories <;> simp [Marshal, Plan.toJSON, Slice.toJSON, hf]

theorem Factory_marshal (f : Factory) : Marshal f.toJSON = .ok f.toJSON := by
  simp [Marshal, Factory.toJSON]

theorem Order_marshal (o : Order) (h : o.TotalOrderValue.isFinite = true) :
    Marshal o.toJSON = .ok o.toJSON := by
  simp [Marshal, Order.toJSON, h]

theorem loop_ok_iff : ∀ (conditions : List Bool) (i : Nat),
    SPEC_IsReadyforApproval.loop i conditions = .ok () ↔ ∀ c ∈ conditions, c = true := by
  intro conditions
  induction conditions with
  | nil => intro i; simp [SPEC_IsReadyforApproval.loop]
  | cons c rest ih =>
    intro i
    unfold SPEC_IsReadyforApproval.loop
    cases c
    · simp
    · simp [ih (i + 1)]

theorem loop_error : ∀ (conditions : List Bool) (i : Nat) (e : Err),
    SPEC_IsReadyforApproval.loop i conditions = .error e → ∃ j, e = .notReady j := by
  intro conditions
  induction conditions with
  | nil => intro i e h; simp [SPEC_IsReadyforApproval.loop] at h
  | cons c rest ih =>
    intro i e h
    unfold SPEC_IsReadyforApproval.loop at h
    cases c
    · simp at h; exact ⟨i + 1, h.symm⟩
    · simp at h; exact ih (i + 1) e h

theorem allFactoriesApproved_eq (ctx : Ctx) : ∀ l : List String,
    (∀ id ∈ l, (storedFactoryStatus ctx.state id).isSome = true) →
    SetPlanStatus.allFactoriesApproved ctx l =
      .ok (decide (∀ id ∈ l, storedFactoryStatus ctx.state id = some "approved")) := by
  intro l
  induction l with
  | nil => intro _; simp [SetPlanStatus.allFactoriesApproved]
  | cons a rest ih =>
    intro h
    have ha := h a (List.mem_cons_self _ _)
    have hrest := ih (fun id hid => h id (List.mem_cons_of_mem _ hid))
    cases hg : GetState ctx.state a with
    | none => simp [storedFactoryStatus, hg] at ha
    | some fr =>
      cases hu : UnmarshalFactory fr with
      | error e => simp [storedFactoryStatus, hg, hu] at ha
      | ok f =>
        have hs : storedFactoryStatus ctx.state a = some f.Status := by
          simp [storedFactoryStatus, hg, hu]
        unfold SetPlanStatus.allFactoriesApproved
        simp only [hg, hu]
        by_cases hst : f.Status = "approved"
        · simp [hst, hrest, hs]
        · simp [hst, hs]

/-- C19: when `factoryID` holds a factory, `SetFactoryStatus` succeeds exactly
when the factory is approved by the auditor and by the retailer and is not
flagged; on success the stored factory is the old one with `Status` set to
`approved` and `UpdatedAt` to the current time; on failure the world state is
as before. -/
theorem SetFactoryStatus_iff (ctx : Ctx) (factoryID : String) (fr : Record) (factory : Factory)
    (hg : GetState ctx.state factoryID = some fr) (hd : UnmarshalFactory fr = .ok factory) :
    ((SetFactoryStatus ctx factoryID).err = none ↔
      (factory.IsAuditorApproved = true ∧ factory.IsRetailerApproved = true ∧
        factory.IsFlagged = false)) ∧
    ((SetFactoryStatus ctx factoryID).err = none →
      GetState (SetFactoryStatus ctx factoryID).state factoryID =
        some ({ factory with Status := "approved", UpdatedAt := ctx.now } : Factory).toJSON) ∧
    ((SetFactoryStatus ctx factoryID).err ≠ none →
      (SetFactoryStatus ctx factoryID).state = ctx.state) := by
  unfold SetFactoryStatus
  simp only [hg, hd]
  cases h1 : factory.IsAuditorApproved <;> cases h2 : factory.IsRetailerApproved <;>
    cases h3 : factory.IsFlagged <;>
    simp [SPEC_IsReadyforApproval, SPEC_IsReadyforApproval.loop, Factory_marshal, finish, bind,
      Except.bind, pure, Except.pure, GetState_PutState_self]

/-- C18: when `planID` holds a plan and every entry of its `Factories` holds a
record that reads as a factory, `SetPlanStatus` succeeds exactly when the plan
is approved by the retailer and by the auditor, is not flagged, and every
referenced factory has `Status` equal to `approved`; on success the stored plan
is the old one with `AllFactoriesApproved` true, `Status` `approved` and
`UpdatedAt` the current time; on failure the error is the not-ready one and the
world state is as before. -/
theorem SetPlanStatus_iff (ctx : Ctx) (planID : String) (pr : Record) (plan : Plan)
    (hg : GetState ctx.state planID = some pr) (hd : UnmarshalPlan pr = .ok plan)
    (hf : ∀ id ∈ plan.Factories.elems, (storedFactoryStatus ctx.state id).isSome = true) :
    ((SetPlanStatus ctx planID).err = none ↔
      (plan.IsRetailerApproved = true ∧ plan.IsAuditorApproved = true ∧
        plan.IsFlagged = false ∧
        ∀ id ∈ plan.Factories.elems, storedFactoryStatus ctx.state id = some "approved")) ∧
    ((SetPlanStatus ctx planID).err = none →
      GetState (SetPlanStatus ctx planID).state planID =
        some ({ plan with AllFactoriesApproved := true, Status := "approved",
                          UpdatedAt := ctx.now } : Plan).toJSON) ∧
    ((SetPlanStatus ctx planID).err ≠ none →
      ∃ i, SetPlanStatus ctx planID = ⟨some (.notReady i), ctx.state⟩) := by
  unfold SetPlanStatus
  simp only [hg, hd, allFactoriesApproved_eq ctx _ hf]
  by_cases h0 : ∀ id ∈ plan.Factories.elems, storedFactoryStatus ctx.state id = some "approved"
  · have hdec := decide_eq_true h0
    simp only [bind, Except.bind, hdec]
    cases h1 : plan.IsAuditorApproved <;> cases h2 : plan.IsRetailerApproved <;>
      cases h3 : plan.IsFlagged <;>
      (simp [SPEC_IsReadyforApproval, SPEC_IsReadyforApproval.loop, Plan_marshal, finish,
        pure, Except.pure, GetState_PutState_self] <;> exact h0)
  · have hdec := decide_eq_false h0
    simp only [bind, Except.bind, hdec]
    simp [h0, SPEC_IsReadyforApproval, SPEC_IsReadyforApproval.loop, finish]

theorem fieldFloat32_finite {r : Record} {k : String} {x : F32} (hj : r.isJSON = true)
    (h : fieldFloat32 r k = .ok x) : x.isFinite = true := by
  unfold fieldFloat32 at h
  cases hk : r.get k with
  | none => rw [hk] at h; cases h; rfl
  | some v =>
    rw [hk] at h
    cases v with
    | null => cases h; rfl
    | num y => cases h; exact isJSON_get hj hk
    | int n =>
      simp only at h
      split at h
      · cases h; assumption
      · cases h
    | bool b => cases h
    | str s => cases h
    | time t => cases h
    | strs l => cases h

theorem UnmarshalOrder_value {r : Record} {order : Order} (h : UnmarshalOrder r = .ok order) :
    fieldFloat32 r "TotalOrderValue" = .ok order.TotalOrderValue := by
  unfold UnmarshalOrder at h
  simp only [bind_eq_ok, pure_eq_ok] at h
  obtain ⟨_, _, _, _, _, _, _, _, _, _, _, _, _, _, _, _, _, _, _, _, _, _, _, _, _, _, _, h14,
    _, _, rfl⟩ := h
  exact h14

/-- C20: when `orderID` holds an order, `SetOrderStatus` succeeds exactly when
the invoker is `Org1MSP` or `Org2MSP`, the order is accepted and not flagged,
the record under the order's `PlanID` exists and reads as a plan whose `Status`
is `approved`, and the new status is `accepted`, `cancelled` or `rejected`; on
success the stored order is the old one with `Status` the new status and
`UpdatedAt` the current time. -/
theorem SetOrderStatus_iff (ctx : Ctx) (orderID newStatus : String) (orderJSON : Record)
    (order : Order) (hg : GetState ctx.state orderID = some orderJSON)
    (hj : orderJSON.isJSON = true) (hd : UnmarshalOrder orderJSON = .ok order) :
    ((SetOrderStatus ctx orderID newStatus).err = none ↔
      ((ctx.mspid = "Org1MSP" ∨ ctx.mspid = "Org2MSP") ∧ order.IsAccepted = true ∧
        order.IsFlagged = false ∧
        storedPlanStatus ctx.state order.PlanID = some "approved" ∧
        (newStatus = "accepted" ∨ newStatus = "cancelled" ∨ newStatus = "rejected"))) ∧
    ((SetOrderStatus ctx orderID newStatus).err = none →
      GetState (SetOrderStatus ctx orderID newStatus).state orderID =
        some ({ order with Status := newStatus, UpdatedAt := ctx.now } : Order).toJSON) ∧
    ((SetOrderStatus ctx orderID newStatus).err ≠ none →
      (SetOrderStatus ctx orderID newStatus).state = ctx.state) := by
  have hfin : order.TotalOrderValue.isFinite = true :=
    fieldFloat32_finite hj (UnmarshalOrder_value hd)
  unfold SetOrderStatus
  by_cases horg : ctx.mspid = "Org1MSP" ∨ ctx.mspid = "Org2MSP"
  · have hin : ctx.mspid ∈ ["Org1MSP", "Org2MSP"] := by simpa using horg
    simp only [SPEC_IsInvokedByAllowedOrg, hin, if_true, hg, hd]
    cases hpg : GetState ctx.state order.PlanID with
    | none => simp [storedPlanStatus, hpg, finish, bind, Except.bind]
    | some planJSON =>
      cases hpu : UnmarshalPlan planJSON with
      | error e => simp [storedPlanStatus, hpg, hpu, finish, bind, Except.bind]
      | ok plan =>
        have hs : storedPlanStatus ctx.state order.PlanID = some plan.Status := by
          simp [storedPlanStatus, hpg, hpu]
        by_cases hst : plan.Status = "approved"
        · by_cases hns : newStatus = "accepted" ∨ newStatus = "cancelled" ∨ newStatus = "rejected"
          · have hns2 : ¬ (newStatus ≠ "accepted" ∧ newStatus ≠ "cancelled" ∧
                newStatus ≠ "rejected") := by
              intro ⟨a, b, c⟩; rcases hns with h | h | h <;> contradiction
            cases h1 : order.IsAccepted <;> cases h2 : order.IsFlagged <;>
              simp [hs, hst, hns, hns2, horg, Order_marshal, hfin, h1, h2, hpg, hpu, SPEC_IsReadyforApproval,
                SPEC_IsReadyforApproval.loop, finish, bind, Except.bind, pure, Except.pure,
                GetState_PutState_self]
          · have hns2 : newStatus ≠ "accepted" ∧ newStatus ≠ "cancelled" ∧
                newStatus ≠ "rejected" := by
              refine ⟨fun h => hns (Or.inl h), fun h => hns (Or.inr (Or.inl h)),
                fun h => hns (Or.inr (Or.inr h))⟩
            cases h1 : order.IsAccepted <;> cases h2 : order.IsFlagged <;>
              simp [hs, hst, hns, hns2, horg, h1, h2, hpg, hpu, SPEC_IsReadyforApproval,
                SPEC_IsReadyforApproval.loop, finish, bind, Except.bind, pure, Except.pure]
        · cases h1 : order.IsAccepted <;> cases h2 : order.IsFlagged <;>
            simp [hs, hst, horg, h1, h2, hpg, hpu, SPEC_IsReadyforApproval,
              SPEC_IsReadyforApproval.loop, finish, bind, Except.bind]
  · have hin : ctx.mspid ∉ ["Org1MSP", "Org2MSP"] := by simpa using horg
    simp [SPEC_IsInvokedByAllowedOrg, hin, horg, finish, bind, Except.bind]

/-! ## Further instances at concrete inputs -/

/-- C11 at `a, b, a`: the check fails and names `a`, whose second occurrence
follows the duplicate-free `a, b`. -/
theorem SPEC_NoDuplicateAssetInThisLot_spec_witness :
    SPEC_NoDuplicateAssetInThisLot (some ["a", "b", "a"]) = .error (.duplicate "a") ∧
    ∃ pre x post, Slice.elems (some ["a", "b", "a"]) = pre ++ x :: post ∧ pre.Nodup ∧
      x ∈ pre ∧ Err.duplicate "a" = .duplicate x :=
  ⟨by decide,
   (SPEC_NoDuplicateAssetInThisLot_spec.1 (some ["a", "b", "a"])).2 (.duplicate "a")
     (by decide)⟩

set_option maxRecDepth 100000 in
/-- C13 at the `CreateLot` of the scenario: it succeeds, the listed bale is
stored approved and unflagged, and the stored lot says so. -/
theorem CreateLot_requires_approval_witness :
    (CreateLot ⟨ledgerWithBale, "Org4MSP", 20⟩ 5 "cottonbale_" (some ["cottonbale_1"]) "Mill" ""
      "lot_1" false "" "Texas" "Org4MSP" 48).err = none ∧
    ((∀ id ∈ Slice.elems (some ["cottonbale_1"]), ∃ r, GetState ledgerWithBale id = some r ∧
        r.get "Approval" = some (.bool true) ∧ r.get "IsFlagged" = some (.bool false)) ∧
      ∃ lot, GetState (CreateLot ⟨ledgerWithBale, "Org4MSP", 20⟩ 5 "cottonbale_"
          (some ["cottonbale_1"]) "Mill" "" "lot_1" false "" "Texas" "Org4MSP" 48).state
          "lot_1" = some lot ∧
        lot.get "AllAssetsApproved" = some (.bool true)) :=
  ⟨by decide,
   (CreateLot_requires_approval.1 ⟨ledgerWithBale, "Org4MSP", 20⟩ 5 "cottonbale_"
      (some ["cottonbale_1"]) "Mill" "" "lot_1" false "" "Texas" "Org4MSP" 48).1 (by decide)⟩

set_option maxRecDepth 100000 in
/-- C14 at the `CreateLot` of the scenario, whose prefix is recognised: the
invoker `Org4MSP` is in the allow-set of cotton bales. -/
theorem CreateLot_unrecognised_prefix_unchecked_witness :
    "cottonbale_" ∈ recognisedTypes ∧
    (CreateLot ⟨ledgerWithBale, "Org4MSP", 20⟩ 5 "cottonbale_" (some ["cottonbale_1"]) "Mill" ""
      "lot_1" false "" "Texas" "Org4MSP" 48).err = none ∧
    ("Org4MSP" ∈ lotAllowSet "cottonbale_" ∧
      ∀ id ∈ Slice.elems (some ["cottonbale_1"]), HasPrefix id "cottonbale_" = true) :=
  ⟨by decide, by decide,
   CreateLot_unrecognised_prefix_unchecked.2 ⟨ledgerWithBale, "Org4MSP", 20⟩ 5 "cottonbale_"
      (some ["cottonbale_1"]) "Mill" "" "lot_1" false "" "Texas" "Org4MSP" 48 (by decide)
      (by decide)⟩

set_option maxRecDepth 100000 in
/-- C15 at `lot_1`, a lot of cotton bales: `Org4MSP` hands it to `Org1MSP`. -/
theorem UpdateLotOwner_recognised_type_witness :
    GetState ledgerWithLot "lot_1" = some ((GetState ledgerWithLot "lot_1").getD []) ∧
    Record.get ((GetState ledgerWithLot "lot_1").getD []) "AssetIDPrefix" =
      some (.str "cottonbale_") ∧
    "Org4MSP" ∈ transferAllowSet "cottonbale_" ∧ "Org1MSP" ∈ transferAllowSet "cottonbale_" ∧
    (UpdateLotOwner ⟨ledgerWithLot, "Org4MSP", 30⟩ "lot_1" "Org1MSP").err = none :=
  ⟨by decide, by decide, by decide, by decide,
   (UpdateLotOwner_recognised_type ⟨ledgerWithLot, "Org4MSP", 30⟩ "lot_1" "Org1MSP"
      "cottonbale_" ((GetState ledgerWithLot "lot_1").getD []) (by decide) (by decide)
      (by decide) (by decide)).1.mpr ⟨by decide, by decide⟩⟩

set_option maxRecDepth 100000 in
/-- C16 at the cotton bale `cottonbale_1`, a record without `AssetIDPrefix`. -/
theorem UpdateLotOwner_unchecked_without_type_witness :
    GetState ledgerWithBale "cottonbale_1" =
      some ((GetState ledgerWithBale "cottonbale_1").getD []) ∧
    Record.get ((GetState ledgerWithBale "cottonbale_1").getD []) "AssetIDPrefix" = none ∧
    (UpdateLotOwner ⟨ledgerWithBale, "Org3MSP", 20⟩ "cottonbale_1" "Org9MSP").err = none :=
  ⟨by decide, by decide,
   UpdateLotOwner_unchecked_without_type.1 ⟨ledgerWithBale, "Org3MSP", 20⟩ "cottonbale_1"
      "Org9MSP" ((GetState ledgerWithBale "cottonbale_1").getD []) (by decide) (by decide)
      (by decide)⟩

set_option maxRecDepth 100000 in
/-- C17 at the transfer of `lot_1` from `Org4MSP` to `Org1MSP` at time 30. -/
theorem UpdateLotOwner_effect_witness :
    (UpdateLotOwner ⟨ledgerWithLot, "Org4MSP", 30⟩ "lot_1" "Org1MSP").err = none ∧
    ∃ before after,
      GetState ledgerWithLot "lot_1" = some before ∧
      GetState (UpdateLotOwner ⟨ledgerWithLot, "Org4MSP", 30⟩ "lot_1" "Org1MSP").state "lot_1" =
        some after ∧
      after.get "PreviousOwner" = some ((before.get "Owner").getD .null) ∧
      after.get "Owner" = some (.str "Org1MSP") ∧
      after.get "UpdatedAt" = some (.time 30) ∧
      ∀ k, k ≠ "PreviousOwner" → k ≠ "Owner" → k ≠ "UpdatedAt" → after.get k = before.get k :=
  ⟨by decide,
   (UpdateLotOwner_effect ⟨ledgerWithLot, "Org4MSP", 30⟩ "lot_1" "Org1MSP" (by decide)).1⟩

set_option maxRecDepth 100000 in
/-- C18 at `plan_1` once retailer and auditor have approved it and its factory
is approved. -/
theorem SetPlanStatus_iff_witness :
    GetState adminLedgerPlanEndorsed "plan_1" = some endorsedPlan.toJSON ∧
    UnmarshalPlan endorsedPlan.toJSON = .ok endorsedPlan ∧
    (SetPlanStatus ⟨adminLedgerPlanEndorsed, "Org1MSP", 45⟩ "plan_1").err = none ∧
    GetState (SetPlanStatus ⟨adminLedgerPlanEndorsed, "Org1MSP", 45⟩ "plan_1").state "plan_1" =
      some ({ endorsedPlan with AllFactoriesApproved := true, Status := "approved",
                                UpdatedAt := 45 } : Plan).toJSON :=
  ⟨by decide, by decide,
   (SetPlanStatus_iff ⟨adminLedgerPlanEndorsed, "Org1MSP", 45⟩ "plan_1" endorsedPlan.toJSON
      endorsedPlan (by decide) (by decide) (by decide)).1.mpr
      ⟨by decide, by decide, by decide, by decide⟩,
   (SetPlanStatus_iff ⟨adminLedgerPlanEndorsed, "Org1MSP", 45⟩ "plan_1" endorsedPlan.toJSON
      endorsedPlan (by decide) (by decide) (by decide)).2.1 (by decide)⟩

set_option maxRecDepth 100000 in
/-- C19 at `factory_1` once retailer and auditor have approved it. -/
theorem SetFactoryStatus_iff_witness :
    GetState adminLedgerFactoryEndorsed "factory_1" = some endorsedFactory.toJSON ∧
    UnmarshalFactory endorsedFactory.toJSON = .ok endorsedFactory ∧
    (SetFactoryStatus ⟨adminLedgerFactoryEndorsed, "Org1MSP", 42⟩ "factory_1").err = none ∧
    GetState (SetFactoryStatus ⟨adminLedgerFactoryEndorsed, "Org1MSP", 42⟩ "factory_1").state
      "factory_1" =
      some ({ endorsedFactory with Status := "approved", UpdatedAt := 42 } : Factory).toJSON :=
  ⟨by decide, by decide,
   (SetFactoryStatus_iff ⟨adminLedgerFactoryEndorsed, "Org1MSP", 42⟩ "factory_1"
      endorsedFactory.toJSON endorsedFactory (by decide) (by decide)).1.mpr
      ⟨by decide, by decide, by decide⟩,
   (SetFactoryStatus_iff ⟨adminLedgerFactoryEndorsed, "Org1MSP", 42⟩ "factory_1"
      endorsedFactory.toJSON endorsedFactory (by decide) (by decide)).2.1 (by decide)⟩

set_option maxRecDepth 100000 in
/-- C20 at `order_1` once its receiver has accepted it with the approved
`plan_1`. -/
theorem SetOrderStatus_iff_witness :
    GetState adminLedgerOrderAccepted "order_1" = some acceptedOrder.toJSON ∧
    acceptedOrder.toJSON.isJSON = true ∧
    UnmarshalOrder acceptedOrder.toJSON = .ok acceptedOrder ∧
    (SetOrderStatus ⟨adminLedgerOrderAccepted, "Org1MSP", 47⟩ "order_1" "accepted").err = none ∧
    GetState (SetOrderStatus ⟨adminLedgerOrderAccepted, "Org1MSP", 47⟩ "order_1"
      "accepted").state "order_1" =
      some ({ acceptedOrder with Status := "accepted", UpdatedAt := 47 } : Order).toJSON :=
  ⟨by decide, by decide, by decide,
   (SetOrderStatus_iff ⟨adminLedgerOrderAccepted, "Org1MSP", 47⟩ "order_1" "accepted"
      acceptedOrder.toJSON acceptedOrder (by decide) (by decide) (by decide)).1.mpr
      ⟨by decide, by decide, by decide, by decide, by decide⟩,
   (SetOrderStatus_iff ⟨adminLedgerOrderAccepted, "Org1MSP", 47⟩ "order_1" "accepted"
      acceptedOrder.toJSON acceptedOrder (by decide) (by decide) (by decide)).2.1 (by decide)⟩

/-! ## The shape of every successful write -/

theorem flag_of_valid {isFlagged : Bool} {flagReason : String}
    (h : SPEC_IsValidFlag isFlagged flagReason = .ok ()) :
    (isFlagged == (flagReason != "" && flagReason != "N/A")) = true := by
  unfold SPEC_IsValidFlag at h
  by_cases h1 : flagReason = ""
  · subst h1
    cases isFlagged
    · rfl
    · simp at h
  · by_cases h2 : flagReason = "N/A"
    · subst h2
      cases isFlagged
      · rfl
      · simp at h
    · have hl : flagReason.length ≠ 0 := fun hl => h1 ((string_length_eq_zero _).mp hl)
      cases isFlagged
      · simp [hl, h2] at h
      · simp [h1, h2]

theorem flagConsistent_of_members {r : Record} {b : Bool} {s : String}
    (hb : r.get "IsFlagged" = some (.bool b)) (hs : r.get "FlagReason" = some (.str s))
    (h : (b == (s != "" && s != "N/A")) = true) : r.flagConsistent = true := by
  unfold Record.flagConsistent
  rw [hb, hs]
  exact h

theorem members_of_flagConsistent {r : Record} (h : r.flagConsistent = true) :
    ∃ b s, r.get "IsFlagged" = some (.bool b) ∧ r.get "FlagReason" = some (.str s) ∧
      (b == (s != "" && s != "N/A")) = true := by
  unfold Record.flagConsistent at h
  split at h
  · rename_i b s hb hs
    exact ⟨b, s, hb, hs, h⟩
  · cases h

theorem fieldString_of_get {r : Record} {k s : String} (h : r.get k = some (.str s)) :
    fieldString r k = .ok s := by
  unfold fieldString
  rw [h]

theorem fieldBool_of_get {r : Record} {k : String} {b : Bool} (h : r.get k = some (.bool b)) :
    fieldBool r k = .ok b := by
  unfold fieldBool
  rw [h]

theorem fieldString_congr {r v : Record} {k : String} (h : v.get k = r.get k) :
    fieldString v k = fieldString r k := by
  unfold fieldString
  rw [h]

theorem created_step {ctx : Ctx} {call : Call} {id pre : String}
    (hc : call.created = some (id, pre)) (h : (call.invoke ctx).err = none) :
    ∃ v, call.invoke ctx = ⟨none, PutState ctx.state id v⟩ ∧
      HasPrefix id pre = true ∧ GetState ctx.state id = none ∧
      v.get "ID" = some (.str id) ∧ v.flagConsistent = true ∧
      (v.get "IsFlagged").isSome = true ∧ (v.get "FlagReason").isSome = true ∧
      (v.get "UpdatedAt").isSome = true ∧
      (pre ≠ "container_" → (v.get "Notes").isSome = true) ∧
      v.get "Status" =
        (if pre = "order_" ∨ pre = "plan_" then some (.str "issued")
         else if pre = "factory_" then some (.str "pending") else none) := by
  cases call with
  | production c =>
    cases c with
    | createLot a b content d e lotID g nts i j tw =>
      simp only [Call.created, Option.some.injEq, Prod.mk.injEq] at hc
      obtain ⟨rfl, rfl⟩ := hc
      obtain ⟨cw, h1, h2, _, h4, _, _, _, _, _, _, _, hres⟩ :=
        @CreateLot_success ctx a b content d e lotID g nts i j tw h
      exact ⟨_, hres, hasPrefix_of_SPEC_IDPrefix h1, GetState_none_of_SPEC_IsNewAsset h2, rfl,
        flagConsistent_of_members rfl rfl (flag_of_valid h4), rfl, rfl, rfl, fun _ => rfl, rfl⟩
    | createCottonBale a b c id e f g h1 i =>
      simp only [Call.created, Option.some.injEq, Prod.mk.injEq] at hc
      obtain ⟨rfl, rfl⟩ := hc
      obtain ⟨v, hv⟩ := finish_err_none _ _ _ h
      have hv2 := hv
      simp only [bind_eq_ok] at hv2
      obtain ⟨_, h1, _, h2, _, _, _, h4, _, _, hm⟩ := hv2
      have := Marshal_ok hm
      subst this
      exact ⟨_, finish_of_ok _ _ hv, hasPrefix_of_SPEC_IDPrefix h1,
        GetState_none_of_SPEC_IsNewAsset h2, rfl,
        flagConsistent_of_members rfl rfl (flag_of_valid h4), rfl, rfl, rfl, fun _ => rfl, rfl⟩
    | createButton a b c id e f g h1 =>
      simp only [Call.created, Option.some.injEq, Prod.mk.injEq] at hc
      obtain ⟨rfl, rfl⟩ := hc
      obtain ⟨v, hv⟩ := finish_err_none _ _ _ h
      have hv2 := hv
      simp only [bind_eq_ok] at hv2
      obtain ⟨_, h1, _, h2, _, _, _, h4, _, _, hm⟩ := hv2
      have := Marshal_ok hm
      subst this
      exact ⟨_, finish_of_ok _ _ hv, hasPrefix_of_SPEC_IDPrefix h1,
        GetState_none_of_SPEC_IsNewAsset h2, rfl,
        flagConsistent_of_members rfl rfl (flag_of_valid h4), rfl, rfl, rfl, fun _ => rfl, rfl⟩
    | createCottonYarn a b content d id f g h1 tw j =>
      simp only [Call.created, Option.some.injEq, Prod.mk.injEq] at hc
      obtain ⟨rfl, rfl⟩ := hc
      obtain ⟨v, hv⟩ := finish_err_none _ _ _ h
      have hv2 := hv
      simp only [bind_eq_ok] at hv2
      obtain ⟨_, h1, _, h2, _, _, _, h4, _, _, _, _, cw, hcw, _, _, hm⟩ := hv2
      have := Marshal_ok hm
      subst this
      exact ⟨_, finish_of_ok _ _ hv, hasPrefix_of_SPEC_IDPrefix h1,
        GetState_none_of_SPEC_IsNewAsset h2, rfl,
        flagConsistent_of_members rfl rfl (flag_of_valid h4), rfl, rfl, rfl, fun _ => rfl, rfl⟩
    | createUnfinishedFabric a b content d id f g h1 i tw k =>
      simp only [Call.created, Option.some.injEq, Prod.mk.injEq] at hc
      obtain ⟨rfl, rfl⟩ := hc
      obtain ⟨v, hv⟩ := finish_err_none _ _ _ h
      have hv2 := hv
      simp only [bind_eq_ok] at hv2
      obtain ⟨_, h1, _, h2, _, _, _, h4, _, _, _, _, cw, hcw, _, _, hm⟩ := hv2
      have := Marshal_ok hm
      subst this
      exact ⟨_, finish_of_ok _ _ hv, hasPrefix_of_SPEC_IDPrefix h1,
        GetState_none_of_SPEC_IsNewAsset h2, rfl,
        flagConsistent_of_members rfl rfl (flag_of_valid h4), rfl, rfl, rfl, fun _ => rfl, rfl⟩
    | createFinishedFabric a b content id e f g h1 i tw k =>
      simp only [Call.created, Option.some.injEq, Prod.mk.injEq] at hc
      obtain ⟨rfl, rfl⟩ := hc
      obtain ⟨v, hv⟩ := finish_err_none _ _ _ h
      have hv2 := hv
      simp only [bind_eq_ok] at hv2
      obtain ⟨_, h1, _, h2, _, _, _, h4, _, _, _, _, cw, hcw, _, _, hm⟩ := hv2
      have := Marshal_ok hm
      subst this
      exact ⟨_, finish_of_ok _ _ hv, hasPrefix_of_SPEC_IDPrefix h1,
        GetState_none_of_SPEC_IsNewAsset h2, rfl,
        flagConsistent_of_members rfl rfl (flag_of_valid h4), rfl, rfl, rfl, fun _ => rfl, rfl⟩
    | createCutPart a b content d id f g h1 i tw =>
      simp only [Call.created, Option.some.injEq, Prod.mk.injEq] at hc
      obtain ⟨rfl, rfl⟩ := hc
      obtain ⟨v, hv⟩ := finish_err_none _ _ _ h
      have hv2 := hv
      simp only [bind_eq_ok] at hv2
      obtain ⟨_, h1, _, h2, _, _, _, h4, _, _, _, _, cw, hcw, _, _, hm⟩ := hv2
      have := Marshal_ok hm
      subst this
      exact ⟨_, finish_of_ok _ _ hv, hasPrefix_of_SPEC_IDPrefix h1,
        GetState_none_of_SPEC_IsNewAsset h2, rfl,
        flagConsistent_of_members rfl rfl (flag_of_valid h4), rfl, rfl, rfl, fun _ => rfl, rfl⟩
    | createAssembledGarment a b buttons cutParts e id g h1 i tw =>
      simp only [Call.created, Option.some.injEq, Prod.mk.injEq] at hc
      obtain ⟨rfl, rfl⟩ := hc
      obtain ⟨v, hv⟩ := finish_err_none _ _ _ h
      have hv2 := hv
      simp only [bind_eq_ok] at hv2
      obtain ⟨_, h1, _, h2, _, _, _, h4, _, _, _, _, _, _, _, _, bw, hbw, cpw, hcpw, _, _,
        hm⟩ := hv2
      have := Marshal_ok hm
      subst this
      exact ⟨_, finish_of_ok _ _ hv, hasPrefix_of_SPEC_IDPrefix h1,
        GetState_none_of_SPEC_IsNewAsset h2, rfl,
        flagConsistent_of_members rfl rfl (flag_of_valid h4), rfl, rfl, rfl, fun _ => rfl, rfl⟩
    | createCarton a b content d e id g h1 i j tw =>
      simp only [Call.created, Option.some.injEq, Prod.mk.injEq] at hc
      obtain ⟨rfl, rfl⟩ := hc
      obtain ⟨v, hv⟩ := finish_err_none _ _ _ h
      have hv2 := hv
      simp only [bind_eq_ok] at hv2
      obtain ⟨_, h1, _, h2, _, _, _, h4, _, _, _, _, cw, hcw, _, _, hm⟩ := hv2
      have := Marshal_ok hm
      subst this
      exact ⟨_, finish_of_ok _ _ hv, hasPrefix_of_SPEC_IDPrefix h1,
        GetState_none_of_SPEC_IsNewAsset h2, rfl,
        flagConsistent_of_members rfl rfl (flag_of_valid h4), rfl, rfl, rfl, fun _ => rfl, rfl⟩
    | createContainer content b c id e f g tw i =>
      simp only [Call.created, Option.some.injEq, Prod.mk.injEq] at hc
      obtain ⟨rfl, rfl⟩ := hc
      obtain ⟨v, hv⟩ := finish_err_none _ _ _ h
      have hv2 := hv
      simp only [bind_eq_ok] at hv2
      obtain ⟨_, h1, _, h2, _, _, _, h4, _, _, _, _, cw, hcw, _, _, hm⟩ := hv2
      have := Marshal_ok hm
      subst this
      exact ⟨_, finish_of_ok _ _ hv, hasPrefix_of_SPEC_IDPrefix h1,
        GetState_none_of_SPEC_IsNewAsset h2, rfl,
        flagConsistent_of_members rfl rfl (flag_of_valid h4), rfl, rfl, rfl,
        fun hne => absurd rfl hne, rfl⟩
    | updateLotOwner _ _ => simp [Call.created] at hc
    | setFlag _ _ _ => simp [Call.created] at hc
    | setNotes _ _ => simp [Call.created] at hc
  | admin c =>
    cases c with
    | createOrder a b c id e f g h1 i j =>
      simp only [Call.created, Option.some.injEq, Prod.mk.injEq] at hc
      obtain ⟨rfl, rfl⟩ := hc
      obtain ⟨v, hv⟩ := finish_err_none _ _ _ h
      have hv2 := hv
      simp only [bind_eq_ok] at hv2
      obtain ⟨_, h1, _, h2, _, h3, _, _, hm⟩ := hv2
      have := Marshal_ok hm
      subst this
      exact ⟨_, finish_of_ok _ _ hv, hasPrefix_of_SPEC_IDPrefix h1,
        GetState_none_of_SPEC_IsNewAsset h2, rfl,
        flagConsistent_of_members rfl rfl (flag_of_valid h3), rfl, rfl, rfl, fun _ => rfl, rfl⟩
    | createPlan a b c id e f g h1 =>
      simp only [Call.created, Option.some.injEq, Prod.mk.injEq] at hc
      obtain ⟨rfl, rfl⟩ := hc
      obtain ⟨v, hv⟩ := finish_err_none _ _ _ h
      have hv2 := hv
      simp only [bind_eq_ok] at hv2
      obtain ⟨_, h1, _, h2, _, _, _, h4, _, _, _, _, hm⟩ := hv2
      have := Marshal_ok hm
      subst this
      exact ⟨_, finish_of_ok _ _ hv, hasPrefix_of_SPEC_IDPrefix h1,
        GetState_none_of_SPEC_IsNewAsset h2, rfl,
        flagConsistent_of_members rfl rfl (flag_of_valid h4), rfl, rfl, rfl, fun _ => rfl, rfl⟩
    | createFactory a b id d e f g h1 i =>
      simp only [Call.created, Option.some.injEq, Prod.mk.injEq] at hc
      obtain ⟨rfl, rfl⟩ := hc
      obtain ⟨v, hv⟩ := finish_err_none _ _ _ h
      have hv2 := hv
      simp only [bind_eq_ok] at hv2
      obtain ⟨_, h1, _, h2, _, h3, _, _, hm⟩ := hv2
      have := Marshal_ok hm
      subst this
      exact ⟨_, finish_of_ok _ _ hv, hasPrefix_of_SPEC_IDPrefix h1,
        GetState_none_of_SPEC_IsNewAsset h2, rfl,
        flagConsistent_of_members rfl rfl (flag_of_valid h3), rfl, rfl, rfl, fun _ => rfl, rfl⟩
    | setOrderAcceptance _ _ _ => simp [Call.created] at hc
    | setOrderStatus _ _ => simp [Call.created] at hc
    | setPlanApproval _ _ => simp [Call.created] at hc
    | setPlanStatus _ => simp [Call.created] at hc
    | setFactoryApproval _ _ => simp [Call.created] at hc
    | setFactoryStatus _ => simp [Call.created] at hc
    | setFlag _ _ _ => simp [Call.created] at hc
    | setNotes _ _ => simp [Call.created] at hc

theorem UnmarshalOrder_fields {r : Record} {o : Order} (h : UnmarshalOrder r = .ok o) :
    fieldString r "CreatorID" = .ok o.CreatorID ∧ fieldString r "FlagReason" = .ok o.FlagReason ∧
    fieldString r "ID" = .ok o.ID ∧ fieldBool r "IsFlagged" = .ok o.IsFlagged ∧
    fieldString r "Status" = .ok o.Status := by
  unfold UnmarshalOrder at h
  simp only [bind_eq_ok, pure_eq_ok] at h
  obtain ⟨_, _, _, h2, _, _, _, h4, _, h5, _, _, _, h7, _, _, _, _, _, _, _, _, _, _, _, h13,
    _, _, _, _, rfl⟩ := h
  exact ⟨h2, h4, h5, h7, h13⟩

theorem UnmarshalPlan_fields {r : Record} {p : Plan} (h : UnmarshalPlan r = .ok p) :
    fieldString r "CreatorID" = .ok p.CreatorID ∧ fieldString r "FlagReason" = .ok p.FlagReason ∧
    fieldString r "ID" = .ok p.ID ∧ fieldBool r "IsFlagged" = .ok p.IsFlagged ∧
    fieldString r "Status" = .ok p.Status := by
  unfold UnmarshalPlan at h
  simp only [bind_eq_ok, pure_eq_ok] at h
  obtain ⟨_, _, _, _, _, h3, _, _, _, h5, _, h6, _, _, _, h8, _, _, _, _, _, _, _, _, _, h13,
    _, _, rfl⟩ := h
  exact ⟨h3, h5, h6, h8, h13⟩

theorem UnmarshalFactory_fields {r : Record} {f : Factory} (h : UnmarshalFactory r = .ok f) :
    fieldString r "FlagReason" = .ok f.FlagReason ∧
    fieldString r "ID" = .ok f.ID ∧ fieldBool r "IsFlagged" = .ok f.IsFlagged ∧
    fieldString r "Status" = .ok f.Status := by
  unfold UnmarshalFactory at h
  simp only [bind_eq_ok, pure_eq_ok] at h
  obtain ⟨_, _, _, h2, _, h3, _, _, _, h5, _, _, _, _, _, _, _, _, _, _, _, _, _, h12,
    _, _, rfl⟩ := h
  exact ⟨h2, h3, h5, h12⟩

theorem SetOrderAcceptance_success {ctx : Ctx} {orderID planID : String} {acceptance : Bool}
    (h : (SetOrderAcceptance ctx orderID planID acceptance).err = none) :
    ∃ r0 o, GetState ctx.state orderID = some r0 ∧ UnmarshalOrder r0 = .ok o ∧
      SetOrderAcceptance ctx orderID planID acceptance =
        ⟨none, PutState ctx.state orderID
          ({ o with PlanID := planID, IsAccepted := acceptance, UpdatedAt := ctx.now } :
            Order).toJSON⟩ := by
  unfold SetOrderAcceptance at h ⊢
  obtain ⟨v, hv⟩ := finish_err_none _ _ _ h
  rw [finish_of_ok _ _ hv]
  cases hg : GetState ctx.state orderID with
  | none => rw [hg] at hv; cases hv
  | some r0 =>
    cases hu : UnmarshalOrder r0 with
    | error e => simp only [hg, hu] at hv; cases hv
    | ok o =>
      simp only [hg, hu, bind_eq_ok] at hv
      obtain ⟨_, _, _, _, _, _, hm⟩ := hv
      have := marshal_wrap_ok hm
      subst this
      exact ⟨r0, o, rfl, hu, rfl⟩

theorem SetOrderStatus_success {ctx : Ctx} {orderID newStatus : String}
    (h : (SetOrderStatus ctx orderID newStatus).err = none) :
    ∃ r0 o, GetState ctx.state orderID = some r0 ∧ UnmarshalOrder r0 = .ok o ∧
      newStatus ∈ ["accepted", "cancelled", "rejected"] ∧
      SetOrderStatus ctx orderID newStatus =
        ⟨none, PutState ctx.state orderID
          ({ o with Status := newStatus, UpdatedAt := ctx.now } : Order).toJSON⟩ := by
  unfold SetOrderStatus at h ⊢
  obtain ⟨v, hv⟩ := finish_err_none _ _ _ h
  rw [finish_of_ok _ _ hv]
  simp only [bind_eq_ok] at hv
  obtain ⟨_, _, hv⟩ := hv
  cases hg : GetState ctx.state orderID with
  | none => rw [hg] at hv; cases hv
  | some r0 =>
    cases hu : UnmarshalOrder r0 with
    | error e => simp only [hg, hu] at hv; cases hv
    | ok o =>
      simp only [hg, hu] at hv
      cases hpg : GetState ctx.state o.PlanID with
      | none => simp only [hpg] at hv; cases hv
      | some planJSON =>
        cases hpu : UnmarshalPlan planJSON with
        | error e => simp only [hpg, hpu] at hv; cases hv
        | ok plan =>
          simp only [hpg, hpu, bind_eq_ok] at hv
          obtain ⟨_, _, hrest⟩ := hv
          by_cases hn : newStatus ≠ "accepted" ∧ newStatus ≠ "cancelled" ∧ newStatus ≠ "rejected"
          · rw [if_pos hn] at hrest; cases hrest
          · rw [if_neg hn] at hrest
            have := marshal_wrap_ok (bind_eq_ok.mp hrest).choose_spec.2
            subst this
            refine ⟨r0, o, rfl, hu, ?_, rfl⟩
            simp only [List.mem_cons, List.mem_singleton, List.not_mem_nil, or_false]
            by_contra hc
            exact hn ⟨fun h => hc (Or.inl h), fun h => hc (Or.inr (Or.inl h)),
              fun h => hc (Or.inr (Or.inr h))⟩

theorem SetPlanApproval_success {ctx : Ctx} {planID : String} {approval : Bool}
    (h : (SetPlanApproval ctx planID approval).err = none) :
    ∃ r0 p, GetState ctx.state planID = some r0 ∧ UnmarshalPlan r0 = .ok p ∧
      SetPlanApproval ctx planID approval =
        ⟨none, PutState ctx.state planID
          ({ p with
              IsRetailerApproved :=
                p.IsRetailerApproved || decide (ctx.mspid = "Org1MSP" ∧ approval = true),
              IsAuditorApproved :=
                p.IsAuditorApproved || decide (ctx.mspid = "Org3MSP" ∧ approval = true),
              UpdatedAt := ctx.now } : Plan).toJSON⟩ := by
  unfold SetPlanApproval at h ⊢
  obtain ⟨v, hv⟩ := finish_err_none _ _ _ h
  rw [finish_of_ok _ _ hv]
  simp only [bind_eq_ok] at hv
  obtain ⟨_, _, hv⟩ := hv
  cases hg : GetState ctx.state planID with
  | none => rw [hg] at hv; cases hv
  | some r0 =>
    have hg2 : some r0 = some r0 := rfl
    cases hu : UnmarshalPlan r0 with
    | error e => simp only [hg, hu] at hv; cases hv
    | ok p =>
      simp only [hg, hu, Plan_marshal, pure, Except.pure, Except.ok.injEq] at hv
      subst hv
      refine ⟨r0, p, hg2, hu, ?_⟩
      by_cases h1 : ctx.mspid = "Org1MSP" ∧ approval = true <;>
        by_cases h3 : ctx.mspid = "Org3MSP" ∧ approval = true <;>
        simp [h1, h3]

theorem SetPlanStatus_success {ctx : Ctx} {planID : String}
    (h : (SetPlanStatus ctx planID).err = none) :
    ∃ r0 p all, GetState ctx.state planID = some r0 ∧ UnmarshalPlan r0 = .ok p ∧
      SetPlanStatus ctx planID =
        ⟨none, PutState ctx.state planID
          ({ p with AllFactoriesApproved := all, Status := "approved",
                    UpdatedAt := ctx.now } : Plan).toJSON⟩ := by
  unfold SetPlanStatus at h ⊢
  obtain ⟨v, hv⟩ := finish_err_none _ _ _ h
  rw [finish_of_ok _ _ hv]
  cases hg : GetState ctx.state planID with
  | none => rw [hg] at hv; cases hv
  | some r0 =>
    cases hu : UnmarshalPlan r0 with
    | error e => simp only [hg, hu] at hv; cases hv
    | ok p =>
      simp only [hg, hu, bind_eq_ok] at hv
      obtain ⟨all, _, _, _, hm⟩ := hv
      have := marshal_wrap_ok hm
      subst this
      exact ⟨r0, p, all, rfl, hu, rfl⟩

theorem SetFactoryApproval_success {ctx : Ctx} {factoryID : String} {approval : Bool}
    (h : (SetFactoryApproval ctx factoryID approval).err = none) :
    ∃ r0 f, GetState ctx.state factoryID = some r0 ∧ UnmarshalFactory r0 = .ok f ∧
      SetFactoryApproval ctx factoryID approval =
        ⟨none, PutState ctx.state factoryID
          ({ f with
              IsRetailerApproved :=
                f.IsRetailerApproved || decide (ctx.mspid = "Org1MSP" ∧ approval = true),
              IsAuditorApproved :=
                f.IsAuditorApproved || decide (ctx.mspid = "Org3MSP" ∧ approval = true),
              UpdatedAt := ctx.now } : Factory).toJSON⟩ := by
  unfold SetFactoryApproval at h ⊢
  obtain ⟨v, hv⟩ := finish_err_none _ _ _ h
  rw [finish_of_ok _ _ hv]
  simp only [bind_eq_ok] at hv
  obtain ⟨_, _, hv⟩ := hv
  cases hg : GetState ctx.state factoryID with
  | none => rw [hg] at hv; cases hv
  | some r0 =>
    have hg2 : some r0 = some r0 := rfl
    cases hu : UnmarshalFactory r0 with
    | error e => simp only [hg, hu] at hv; cases hv
    | ok f =>
      simp only [hg, hu, Factory_marshal, pure, Except.pure, Except.ok.injEq] at hv
      subst hv
      refine ⟨r0, f, hg2, hu, ?_⟩
      by_cases h1 : ctx.mspid = "Org1MSP" ∧ approval = true <;>
        by_cases h3 : ctx.mspid = "Org3MSP" ∧ approval = true <;>
        simp [h1, h3]

theorem SetFactoryStatus_success {ctx : Ctx} {factoryID : String}
    (h : (SetFactoryStatus ctx factoryID).err = none) :
    ∃ r0 f, GetState ctx.state factoryID = some r0 ∧ UnmarshalFactory r0 = .ok f ∧
      SetFactoryStatus ctx factoryID =
        ⟨none, PutState ctx.state factoryID
          ({ f with Status := "approved", UpdatedAt := ctx.now } : Factory).toJSON⟩ := by
  unfold SetFactoryStatus at h ⊢
  obtain ⟨v, hv⟩ := finish_err_none _ _ _ h
  rw [finish_of_ok _ _ hv]
  cases hg : GetState ctx.state factoryID with
  | none => rw [hg] at hv; cases hv
  | some r0 =>
    cases hu : UnmarshalFactory r0 with
    | error e => simp only [hg, hu] at hv; cases hv
    | ok f =>
      simp only [hg, hu, bind_eq_ok] at hv
      obtain ⟨_, _, hm⟩ := hv
      simp only [Factory_marshal, pure, Except.pure, Except.ok.injEq] at hm
      subst hm
      exact ⟨r0, f, rfl, hu, rfl⟩

theorem UpdateLotOwner_success {ctx : Ctx} {lotID newOwner : String}
    (h : (UpdateLotOwner ctx lotID newOwner).err = none) :
    ∃ r0, GetState ctx.state lotID = some r0 ∧
      UpdateLotOwner ctx lotID newOwner =
        ⟨none, PutState ctx.state lotID
          (((r0.set "PreviousOwner" ((r0.get "Owner").getD .null)).set "Owner"
            (.str newOwner)).set "UpdatedAt" (.time ctx.now))⟩ := by
  unfold UpdateLotOwner at h ⊢
  obtain ⟨v, hv⟩ := finish_err_none _ _ _ h
  rw [finish_of_ok _ _ hv]
  cases hg : GetState ctx.state lotID with
  | none => rw [hg] at hv; cases hv
  | some r0 =>
    rw [hg] at hv
    simp only [bind_eq_ok] at hv
    obtain ⟨_, _, hm⟩ := hv
    have := marshal_wrap_ok hm
    subst this
    exact ⟨r0, rfl, rfl⟩

theorem SetFlag_success {ctx : Ctx} {id : String} {isFlagged : Bool} {flagReason : String}
    (h : (SetFlag ctx id isFlagged flagReason).err = none) :
    ∃ r0, GetState ctx.state id = some r0 ∧ SPEC_IsValidFlag isFlagged flagReason = .ok () ∧
      SetFlag ctx id isFlagged flagReason =
        ⟨none, PutState ctx.state id
          (((r0.set "IsFlagged" (.bool isFlagged)).set "FlagReason" (.str flagReason)).set
            "UpdatedAt" (.time ctx.now))⟩ := by
  unfold SetFlag at h ⊢
  obtain ⟨v, hv⟩ := finish_err_none _ _ _ h
  rw [finish_of_ok _ _ hv]
  cases hg : GetState ctx.state id with
  | none => rw [hg] at hv; cases hv
  | some r0 =>
    rw [hg] at hv
    simp only [bind_eq_ok] at hv
    obtain ⟨_, hvalid, hm⟩ := hv
    have := marshal_wrap_ok hm
    subst this
    exact ⟨r0, rfl, hvalid, rfl⟩

theorem SetNotes_success {ctx : Ctx} {id notes : String}
    (h : (SetNotes ctx id notes).err = none) :
    ∃ r0, GetState ctx.state id = some r0 ∧
      SetNotes ctx id notes =
        ⟨none, PutState ctx.state id
          ((r0.set "Notes" (.str notes)).set "UpdatedAt" (.time ctx.now))⟩ := by
  unfold SetNotes at h ⊢
  obtain ⟨v, hv⟩ := finish_err_none _ _ _ h
  rw [finish_of_ok _ _ hv]
  cases hg : GetState ctx.state id with
  | none => rw [hg] at hv; cases hv
  | some r0 =>
    rw [hg] at hv
    have := marshal_wrap_ok hv
    subst this
    exact ⟨r0, rfl, rfl⟩

theorem get_set_self (r : Record) (k : String) (x : JVal) : (r.set k x).get k = some x :=
  lookup_putEntry_self k x r

theorem updated_step {ctx : Ctx} {call : Call} (hc : call.created = none)
    (h : (call.invoke ctx).err = none) :
    ∃ key r0 v, call.invoke ctx = ⟨none, PutState ctx.state key v⟩ ∧
      GetState ctx.state key = some r0 ∧
      ((call.rewritesAsFactory = false ∧
          v.get "ID" = r0.get "ID" ∧ v.get "CreatorID" = r0.get "CreatorID" ∧
          v.get "Status" = r0.get "Status" ∧
          ((v.get "IsFlagged" = r0.get "IsFlagged" ∧ v.get "FlagReason" = r0.get "FlagReason") ∨
            v.flagConsistent = true)) ∨
       (∃ id b s st0 st1,
          fieldString r0 "ID" = .ok id ∧ v.get "ID" = some (.str id) ∧
          fieldBool r0 "IsFlagged" = .ok b ∧ v.get "IsFlagged" = some (.bool b) ∧
          fieldString r0 "FlagReason" = .ok s ∧ v.get "FlagReason" = some (.str s) ∧
          fieldString r0 "Status" = .ok st0 ∧ v.get "Status" = some (.str st1) ∧
          (st1 = st0 ∨
            (st1 ∈ ["accepted", "cancelled", "rejected"] ∧
              ∃ x, call = .admin (.setOrderStatus key x)) ∨
            (st1 = "approved" ∧
              (call = .admin (.setPlanStatus key) ∨ call = .admin (.setFactoryStatus key)))) ∧
          ((call.rewritesAsFactory = true ∧ v.get "CreatorID" = none) ∨
            (call.rewritesAsFactory = false ∧
              ∃ c, fieldString r0 "CreatorID" = .ok c ∧ v.get "CreatorID" = some (.str c))))) := by
  have hmapU : ∀ lotID newOwner, (UpdateLotOwner ctx lotID newOwner).err = none →
      ∃ key r0 v, UpdateLotOwner ctx lotID newOwner = ⟨none, PutState ctx.state key v⟩ ∧
        GetState ctx.state key = some r0 ∧
        v.get "ID" = r0.get "ID" ∧ v.get "CreatorID" = r0.get "CreatorID" ∧
        v.get "Status" = r0.get "Status" ∧
        ((v.get "IsFlagged" = r0.get "IsFlagged" ∧ v.get "FlagReason" = r0.get "FlagReason") ∨
          v.flagConsistent = true) := by
    intro lotID newOwner h
    obtain ⟨r0, hg, hres⟩ := UpdateLotOwner_success h
    refine ⟨lotID, r0, _, hres, hg, ?_, ?_, ?_, Or.inl ⟨?_, ?_⟩⟩ <;>
      rw [get_set_other _ _ _ _ (by decide), get_set_other _ _ _ _ (by decide),
        get_set_other _ _ _ _ (by decide)]
  have hmapF : ∀ id b s, (SetFlag ctx id b s).err = none →
      ∃ key r0 v, SetFlag ctx id b s = ⟨none, PutState ctx.state key v⟩ ∧
        GetState ctx.state key = some r0 ∧
        v.get "ID" = r0.get "ID" ∧ v.get "CreatorID" = r0.get "CreatorID" ∧
        v.get "Status" = r0.get "Status" ∧
        ((v.get "IsFlagged" = r0.get "IsFlagged" ∧ v.get "FlagReason" = r0.get "FlagReason") ∨
          v.flagConsistent = true) := by
    intro id b s h
    obtain ⟨r0, hg, hvalid, hres⟩ := SetFlag_success h
    refine ⟨id, r0, _, hres, hg, ?_, ?_, ?_, Or.inr ?_⟩
    · rw [get_set_other _ _ _ _ (by decide), get_set_other _ _ _ _ (by decide),
        get_set_other _ _ _ _ (by decide)]
    · rw [get_set_other _ _ _ _ (by decide), get_set_other _ _ _ _ (by decide),
        get_set_other _ _ _ _ (by decide)]
    · rw [get_set_other _ _ _ _ (by decide), get_set_other _ _ _ _ (by decide),
        get_set_other _ _ _ _ (by decide)]
    · refine flagConsistent_of_members ?_ ?_ (flag_of_valid hvalid)
      · rw [get_set_other _ _ _ _ (by decide), get_set_other _ _ _ _ (by decide)]
        exact get_set_self _ _ _
      · rw [get_set_other _ _ _ _ (by decide)]
        exact get_set_self _ _ _
  have hmapN : ∀ id notes, (SetNotes ctx id notes).err = none →
      ∃ key r0 v, SetNotes ctx id notes = ⟨none, PutState ctx.state key v⟩ ∧
        GetState ctx.state key = some r0 ∧
        v.get "ID" = r0.get "ID" ∧ v.get "CreatorID" = r0.get "CreatorID" ∧
        v.get "Status" = r0.get "Status" ∧
        ((v.get "IsFlagged" = r0.get "IsFlagged" ∧ v.get "FlagReason" = r0.get "FlagReason") ∨
          v.flagConsistent = true) := by
    intro id notes h
    obtain ⟨r0, hg, hres⟩ := SetNotes_success h
    refine ⟨id, r0, _, hres, hg, ?_, ?_, ?_, Or.inl ⟨?_, ?_⟩⟩ <;>
      rw [get_set_other _ _ _ _ (by decide), get_set_other _ _ _ _ (by decide)]
  cases call with
  | production c =>
    cases c with
    | updateLotOwner lotID newOwner =>
      obtain ⟨key, r0, v, hres, hg, h1, h2, h3, h4⟩ := hmapU lotID newOwner h
      exact ⟨key, r0, v, hres, hg, Or.inl ⟨rfl, h1, h2, h3, h4⟩⟩
    | setFlag id b s =>
      obtain ⟨key, r0, v, hres, hg, h1, h2, h3, h4⟩ := hmapF id b s h
      exact ⟨key, r0, v, hres, hg, Or.inl ⟨rfl, h1, h2, h3, h4⟩⟩
    | setNotes id notes =>
      obtain ⟨key, r0, v, hres, hg, h1, h2, h3, h4⟩ := hmapN id notes h
      exact ⟨key, r0, v, hres, hg, Or.inl ⟨rfl, h1, h2, h3, h4⟩⟩
    | createCottonBale _ _ _ _ _ _ _ _ _ => simp [Call.created] at hc
    | createLot _ _ _ _ _ _ _ _ _ _ _ => simp [Call.created] at hc
    | createCottonYarn _ _ _ _ _ _ _ _ _ _ => simp [Call.created] at hc
    | createUnfinishedFabric _ _ _ _ _ _ _ _ _ _ _ => simp [Call.created] at hc
    | createFinishedFabric _ _ _ _ _ _ _ _ _ _ _ => simp [Call.created] at hc
    | createCutPart _ _ _ _ _ _ _ _ _ _ => simp [Call.created] at hc
    | createButton _ _ _ _ _ _ _ _ => simp [Call.created] at hc
    | createAssembledGarment _ _ _ _ _ _ _ _ _ _ => simp [Call.created] at hc
    | createCarton _ _ _ _ _ _ _ _ _ _ _ => simp [Call.created] at hc
    | createContainer _ _ _ _ _ _ _ _ _ => simp [Call.created] at hc
  | admin c =>
    cases c with
    | setFlag id b s =>
      obtain ⟨key, r0, v, hres, hg, h1, h2, h3, h4⟩ := hmapF id b s h
      exact ⟨key, r0, v, hres, hg, Or.inl ⟨rfl, h1, h2, h3, h4⟩⟩
    | setNotes id notes =>
      obtain ⟨key, r0, v, hres, hg, h1, h2, h3, h4⟩ := hmapN id notes h
      exact ⟨key, r0, v, hres, hg, Or.inl ⟨rfl, h1, h2, h3, h4⟩⟩
    | setOrderAcceptance orderID planID acceptance =>
      obtain ⟨r0, o, hg, hu, hres⟩ := SetOrderAcceptance_success h
      obtain ⟨f1, f2, f3, f4, f5⟩ := UnmarshalOrder_fields hu
      exact ⟨orderID, r0, _, hres, hg, Or.inr ⟨o.ID, o.IsFlagged, o.FlagReason, o.Status,
        o.Status, f3, rfl, f4, rfl, f2, rfl, f5, rfl, Or.inl rfl,
        Or.inr ⟨rfl, o.CreatorID, f1, rfl⟩⟩⟩
    | setOrderStatus orderID newStatus =>
      obtain ⟨r0, o, hg, hu, hns, hres⟩ := SetOrderStatus_success h
      obtain ⟨f1, f2, f3, f4, f5⟩ := UnmarshalOrder_fields hu
      exact ⟨orderID, r0, _, hres, hg, Or.inr ⟨o.ID, o.IsFlagged, o.FlagReason, o.Status,
        newStatus, f3, rfl, f4, rfl, f2, rfl, f5, rfl, Or.inr (Or.inl ⟨hns, newStatus, rfl⟩),
        Or.inr ⟨rfl, o.CreatorID, f1, rfl⟩⟩⟩
    | setPlanApproval planID approval =>
      obtain ⟨r0, p, hg, hu, hres⟩ := SetPlanApproval_success h
      obtain ⟨f1, f2, f3, f4, f5⟩ := UnmarshalPlan_fields hu
      exact ⟨planID, r0, _, hres, hg, Or.inr ⟨p.ID, p.IsFlagged, p.FlagReason, p.Status,
        p.Status, f3, rfl, f4, rfl, f2, rfl, f5, rfl, Or.inl rfl,
        Or.inr ⟨rfl, p.CreatorID, f1, rfl⟩⟩⟩
    | setPlanStatus planID =>
      obtain ⟨r0, p, all, hg, hu, hres⟩ := SetPlanStatus_success h
      obtain ⟨f1, f2, f3, f4, f5⟩ := UnmarshalPlan_fields hu
      exact ⟨planID, r0, _, hres, hg, Or.inr ⟨p.ID, p.IsFlagged, p.FlagReason, p.Status,
        "approved", f3, rfl, f4, rfl, f2, rfl, f5, rfl, Or.inr (Or.inr ⟨rfl, Or.inl rfl⟩),
        Or.inr ⟨rfl, p.CreatorID, f1, rfl⟩⟩⟩
    | setFactoryApproval factoryID approval =>
      obtain ⟨r0, f, hg, hu, hres⟩ := SetFactoryApproval_success h
      obtain ⟨f2, f3, f4, f5⟩ := UnmarshalFactory_fields hu
      exact ⟨factoryID, r0, _, hres, hg, Or.inr ⟨f.ID, f.IsFlagged, f.FlagReason, f.Status,
        f.Status, f3, rfl, f4, rfl, f2, rfl, f5, rfl, Or.inl rfl, Or.inl ⟨rfl, rfl⟩⟩⟩
    | setFactoryStatus factoryID =>
      obtain ⟨r0, f, hg, hu, hres⟩ := SetFactoryStatus_success h
      obtain ⟨f2, f3, f4, f5⟩ := UnmarshalFactory_fields hu
      exact ⟨factoryID, r0, _, hres, hg, Or.inr ⟨f.ID, f.IsFlagged, f.FlagReason, f.Status,
        "approved", f3, rfl, f4, rfl, f2, rfl, f5, rfl, Or.inr (Or.inr ⟨rfl, Or.inr rfl⟩),
        Or.inl ⟨rfl, rfl⟩⟩⟩
    | createOrder _ _ _ _ _ _ _ _ _ _ => simp [Call.created] at hc
    | createPlan _ _ _ _ _ _ _ _ => simp [Call.created] at hc
    | createFactory _ _ _ _ _ _ _ _ _ => simp [Call.created] at hc

/-! ## Invariants of the reachable world states -/

theorem call_failed_state {ctx : Ctx} {call : Call} (h : (call.invoke ctx).err ≠ none) :
    (call.invoke ctx).state = ctx.state := by
  cases call with
  | production c => cases c <;> exact finish_state_of_err _ _ _ h
  | admin c => cases c <;> exact finish_state_of_err _ _ _ h

theorem created_prefix_production {c : ProductionCall} {id pre : String}
    (hc : (Call.production c).created = some (id, pre)) : pre ∈ productionPrefixes := by
  cases c <;> simp only [Call.created, Option.some.injEq, Prod.mk.injEq] at hc <;>
    first
    | (obtain ⟨_, rfl⟩ := hc; decide)
    | cases hc

theorem created_prefix_admin {c : AdminCall} {id pre : String}
    (hc : (Call.admin c).created = some (id, pre)) : pre ∈ adminPrefixes := by
  cases c <;> simp only [Call.created, Option.some.injEq, Prod.mk.injEq] at hc <;>
    first
    | (obtain ⟨_, rfl⟩ := hc; decide)
    | cases hc

theorem isPrefixOf_comparable : ∀ (p q s : List Char),
    p.isPrefixOf s = true → q.isPrefixOf s = true →
    p.isPrefixOf q = true ∨ q.isPrefixOf p = true := by
  intro p
  induction p with
  | nil => intro q s _ _; exact Or.inl (by simp)
  | cons a p ih =>
    intro q s hp hq
    cases q with
    | nil => exact Or.inr (by simp)
    | cons b q =>
      cases s with
      | nil => simp at hp
      | cons c s =>
        simp only [List.isPrefixOf, Bool.and_eq_true, beq_iff_eq] at hp hq ⊢
        obtain ⟨rfl, hp⟩ := hp
        obtain ⟨rfl, hq⟩ := hq
        rcases ih q s hp hq with h | h
        · exact Or.inl ⟨rfl, h⟩
        · exact Or.inr ⟨rfl, h⟩

theorem reserved_prefix_unique {id p q : String} (hp : p ∈ reservedPrefixes)
    (hq : q ∈ reservedPrefixes) (h1 : HasPrefix id p = true) (h2 : HasPrefix id q = true) :
    p = q := by
  have key : ∀ p ∈ reservedPrefixes, ∀ q ∈ reservedPrefixes,
      p.data.isPrefixOf q.data = true → p = q := by decide
  rcases isPrefixOf_comparable p.data q.data id.data h1 h2 with h | h
  · exact key p hp q hq h
  · exact (key q hq p hp h).symm

theorem flag_step (call : Call) (ctx : Ctx)
    (ih : ∀ k r, (k, r) ∈ ctx.state → r.flagConsistent = true) :
    ∀ k r, (k, r) ∈ (call.invoke ctx).state → r.flagConsistent = true := by
  intro k r hmem
  by_cases herr : (call.invoke ctx).err = none
  · cases hcr : call.created with
    | some created =>
      obtain ⟨id, pre⟩ := created
      obtain ⟨v, hres, _, _, _, hflag, _⟩ := created_step hcr herr
      rw [hres] at hmem
      rcases mem_putEntry_cases _ _ _ _ hmem with heq | hold
      · cases heq; exact hflag
      · exact ih k r hold
    | none =>
      obtain ⟨key, r0, v, hres, hg, hshape⟩ := updated_step hcr herr
      rw [hres] at hmem
      rcases mem_putEntry_cases _ _ _ _ hmem with heq | hold
      · cases heq
        obtain ⟨b0, s0, hb0, hs0, hok⟩ :=
          members_of_flagConsistent (ih _ _ (mem_of_lookup _ _ _ hg))
        rcases hshape with ⟨_, _, _, _, hfl⟩ | ⟨id, b, s, st0, st1, _, _, hb, hvb, hs, hvs, _⟩
        · rcases hfl with ⟨hvb, hvs⟩ | hcons
          · exact flagConsistent_of_members (hvb.trans hb0) (hvs.trans hs0) hok
          · exact hcons
        · rw [fieldBool_of_get hb0] at hb
          rw [fieldString_of_get hs0] at hs
          cases hb
          cases hs
          exact flagConsistent_of_members hvb hvs hok
      · exact ih k r hold
  · rw [call_failed_state herr] at hmem
    exact ih k r hmem

/-- C24: every stored record of every world state reachable in either contract
is flag-consistent (`IsFlagged` is true exactly when `FlagReason` is neither
empty nor `N/A`); every invocation preserves flag consistency of the whole
state, and a successful Create or `SetFlag` stores a flag-consistent record
whatever the state was. -/
theorem flag_consistency_invariant :
    (∀ st, ProductionReachable st → ∀ k r, (k, r) ∈ st → r.flagConsistent = true) ∧
    (∀ st, AdminReachable st → ∀ k r, (k, r) ∈ st → r.flagConsistent = true) ∧
    (∀ (call : Call) (ctx : Ctx), (∀ k r, (k, r) ∈ ctx.state → r.flagConsistent = true) →
      ∀ k r, (k, r) ∈ (call.invoke ctx).state → r.flagConsistent = true) ∧
    (∀ (call : Call) (ctx : Ctx) (id pre : String), call.created = some (id, pre) →
      (call.invoke ctx).err = none →
      ∃ v, GetState (call.invoke ctx).state id = some v ∧ v.flagConsistent = true) ∧
    (∀ (ctx : Ctx) (id : String) (isFlagged : Bool) (flagReason : String),
      (SetFlag ctx id isFlagged flagReason).err = none →
      ∃ v, GetState (SetFlag ctx id isFlagged flagReason).state id = some v ∧
        v.flagConsistent = true) := by
  refine ⟨?_, ?_, flag_step, ?_, ?_⟩
  · intro st h
    induction h with
    | empty => exact fun k r h => absurd h (List.not_mem_nil _)
    | step st mspid now call _ ih => exact flag_step (.production call) ⟨st, mspid, now⟩ ih
  · intro st h
    induction h with
    | empty => exact fun k r h => absurd h (List.not_mem_nil _)
    | step st mspid now call _ ih => exact flag_step (.admin call) ⟨st, mspid, now⟩ ih
  · intro call ctx id pre hc herr
    obtain ⟨v, hres, _, _, _, hflag, _⟩ := created_step hc herr
    rw [hres]
    exact ⟨v, GetState_PutState_self _ _ _, hflag⟩
  · intro ctx id isFlagged flagReason herr
    obtain ⟨r0, _, hvalid, hres⟩ := SetFlag_success herr
    rw [hres]
    refine ⟨_, GetState_PutState_self _ _ _, flagConsistent_of_members ?_ ?_ (flag_of_valid hvalid)⟩
    · rw [get_set_other _ _ _ _ (by decide), get_set_other _ _ _ _ (by decide)]
      exact get_set_self _ _ _
    · rw [get_set_other _ _ _ _ (by decide)]
      exact get_set_self _ _ _

theorem id_step (call : Call) (ctx : Ctx) (prefixes : List String)
    (hpre : ∀ id pre, call.created = some (id, pre) → pre ∈ prefixes)
    (ih : ∀ k r, (k, r) ∈ ctx.state →
      r.get "ID" = some (.str k) ∧ ∃ pre ∈ prefixes, HasPrefix k pre = true) :
    ∀ k r, (k, r) ∈ (call.invoke ctx).state →
      r.get "ID" = some (.str k) ∧ ∃ pre ∈ prefixes, HasPrefix k pre = true := by
  intro k r hmem
  by_cases herr : (call.invoke ctx).err = none
  · cases hcr : call.created with
    | some created =>
      obtain ⟨id, pre⟩ := created
      obtain ⟨v, hres, hp, _, hid, _⟩ := created_step hcr herr
      rw [hres] at hmem
      rcases mem_putEntry_cases _ _ _ _ hmem with heq | hold
      · cases heq; exact ⟨hid, pre, hpre _ _ hcr, hp⟩
      · exact ih k r hold
    | none =>
      obtain ⟨key, r0, v, hres, hg, hshape⟩ := updated_step hcr herr
      rw [hres] at hmem
      rcases mem_putEntry_cases _ _ _ _ hmem with heq | hold
      · cases heq
        obtain ⟨hid0, hpre0⟩ := ih _ _ (mem_of_lookup _ _ _ hg)
        refine ⟨?_, hpre0⟩
        rcases hshape with ⟨_, hvid, _⟩ | ⟨id, b, s, st0, st1, hfid, hvid, _⟩
        · exact hvid.trans hid0
        · rw [fieldString_of_get hid0] at hfid
          cases hfid
          exact hvid
      · exact ih k r hold
  · rw [call_failed_state herr] at hmem
    exact ih k r hmem

theorem new_key_created (call : Call) (ctx : Ctx) (k : String)
    (hnone : GetState ctx.state k = none)
    (hsome : (GetState (call.invoke ctx).state k).isSome = true) :
    ∃ pre, call.created = some (k, pre) ∧ HasPrefix k pre = true := by
  by_cases herr : (call.invoke ctx).err = none
  · cases hcr : call.created with
    | some created =>
      obtain ⟨id, pre⟩ := created
      obtain ⟨v, hres, hp, _⟩ := created_step hcr herr
      by_cases hk : k = id
      · subst hk; exact ⟨pre, rfl, hp⟩
      · rw [hres] at hsome
        have : GetState (PutState ctx.state id v) k = GetState ctx.state k :=
          lookup_putEntry_other _ _ _ hk _
        simp only at hsome
        rw [this, hnone] at hsome
        cases hsome
    | none =>
      obtain ⟨key, r0, v, hres, hg, _⟩ := updated_step hcr herr
      have hk : k ≠ key := by
        intro hk
        subst hk
        rw [hnone] at hg
        cases hg
      rw [hres] at hsome
      have : GetState (PutState ctx.state key v) k = GetState ctx.state k :=
        lookup_putEntry_other _ _ _ hk _
      simp only at hsome
      rw [this, hnone] at hsome
      cases hsome
  · rw [call_failed_state herr, hnone] at hsome
    cases hsome

/-- C25: in every world state reachable in either contract every record is
stored under the key that is its own `ID` member, and that key starts with one
of the prefixes reserved in its contract; a key comes into existence only
through the Create invocation that names it and whose prefix it has; and no ID
starts with two of the thirteen reserved prefixes. -/
theorem key_is_prefixed_id :
    (∀ st, ProductionReachable st → ∀ k r, (k, r) ∈ st →
      r.get "ID" = some (.str k) ∧ ∃ pre ∈ productionPrefixes, HasPrefix k pre = true) ∧
    (∀ st, AdminReachable st → ∀ k r, (k, r) ∈ st →
      r.get "ID" = some (.str k) ∧ ∃ pre ∈ adminPrefixes, HasPrefix k pre = true) ∧
    (∀ (call : Call) (ctx : Ctx) (k : String), GetState ctx.state k = none →
      (GetState (call.invoke ctx).state k).isSome = true →
      ∃ pre, call.created = some (k, pre) ∧ HasPrefix k pre = true) ∧
    (∀ id p q : String, p ∈ reservedPrefixes → q ∈ reservedPrefixes →
      HasPrefix id p = true → HasPrefix id q = true → p = q) := by
  refine ⟨?_, ?_, new_key_created, fun id p q hp hq => reserved_prefix_unique hp hq⟩
  · intro st h
    induction h with
    | empty => exact fun k r h => absurd h (List.not_mem_nil _)
    | step st mspid now call _ ih =>
      exact id_step (.production call) ⟨st, mspid, now⟩ productionPrefixes
        (fun id pre hc => created_prefix_production hc) ih
  · intro st h
    induction h with
    | empty => exact fun k r h => absurd h (List.not_mem_nil _)
    | step st mspid now call _ ih =>
      exact id_step (.admin call) ⟨st, mspid, now⟩ adminPrefixes
        (fun id pre hc => created_prefix_admin hc) ih

/-- C26 (amended): whatever the invocation, a record that exists before it
exists after it and reads with the same `ID`; it also reads with the same
`CreatorID`, unless the invocation is `SetFactoryApproval` or `SetFactoryStatus`,
which rewrite their record as a `Factory` and leave it without a `CreatorID`
member. -/
theorem id_and_creator_preserved (call : Call) (ctx : Ctx) (k : String) (r : Record)
    (hr : GetState ctx.state k = some r) :
    ∃ r', GetState (call.invoke ctx).state k = some r' ∧
      fieldString r' "ID" = fieldString r "ID" ∧
      (fieldString r' "CreatorID" = fieldString r "CreatorID" ∨
        (call.rewritesAsFactory = true ∧ r'.get "CreatorID" = none)) := by
  by_cases herr : (call.invoke ctx).err = none
  · cases hcr : call.created with
    | some created =>
      obtain ⟨id, pre⟩ := created
      obtain ⟨v, hres, _, hnone, _⟩ := created_step hcr herr
      have hk : k ≠ id := by
        intro hk
        subst hk
        rw [hnone] at hr
        cases hr
      rw [hres]
      refine ⟨r, ?_, rfl, Or.inl rfl⟩
      exact (lookup_putEntry_other _ _ _ hk _).trans hr
    | none =>
      obtain ⟨key, r0, v, hres, hg, hshape⟩ := updated_step hcr herr
      rw [hres]
      by_cases hk : k = key
      · subst hk
        rw [hr] at hg
        cases hg
        refine ⟨v, GetState_PutState_self _ _ _, ?_⟩
        rcases hshape with ⟨_, hvid, hvc, _⟩ |
          ⟨id, b, s, st0, st1, hfid, hvid, _, _, _, _, _, _, _, hcre⟩
        · exact ⟨fieldString_congr hvid, Or.inl (fieldString_congr hvc)⟩
        · refine ⟨(fieldString_of_get hvid).trans hfid.symm, ?_⟩
          rcases hcre with ⟨hfac, hvnone⟩ | ⟨_, c, hfc, hvc⟩
          · exact Or.inr ⟨hfac, hvnone⟩
          · exact Or.inl ((fieldString_of_get hvc).trans hfc.symm)
      · exact ⟨r, (lookup_putEntry_other _ _ _ hk _).trans hr, rfl, Or.inl rfl⟩
  · rw [call_failed_state herr]
    exact ⟨r, hr, rfl, Or.inl rfl⟩

theorem statusIn_of_get {r : Record} {s : String} {l : List String}
    (h : r.get "Status" = some (.str s)) (hs : s ∈ l) : r.statusIn l = true := by
  unfold Record.statusIn
  rw [h]
  simpa using hs

theorem get_of_statusIn {r : Record} {l : List String} (h : r.statusIn l = true) :
    ∃ s, r.get "Status" = some (.str s) ∧ s ∈ l := by
  unfold Record.statusIn at h
  split at h
  · rename_i s hs
    exact ⟨s, hs, by simpa using h⟩
  · cases h

theorem statusIn_congr {v r : Record} {l : List String}
    (h : v.get "Status" = r.get "Status") : v.statusIn l = r.statusIn l := by
  unfold Record.statusIn
  rw [h]

theorem admin_prefix_eq {k p q : String} (hp : p ∈ adminPrefixes) (hq : q ∈ adminPrefixes)
    (h1 : HasPrefix k p = true) (h2 : HasPrefix k q = true) : p = q := by
  have sub : ∀ x ∈ adminPrefixes, x ∈ reservedPrefixes := by decide
  exact reserved_prefix_unique (sub p hp) (sub q hq) h1 h2

theorem typed_status_step (c : AdminCall) (ctx : Ctx) (hown : c.onOwnType = true)
    (pre : String) (l : List String)
    (hcase : (pre = "order_" ∧ l = orderStatuses) ∨ (pre = "plan_" ∧ l = planStatuses) ∨
      (pre = "factory_" ∧ l = factoryStatuses))
    (ih : ∀ k r, (k, r) ∈ ctx.state → HasPrefix k pre = true → r.statusIn l = true) :
    ∀ k r, (k, r) ∈ (c.invoke ctx).state → HasPrefix k pre = true → r.statusIn l = true := by
  intro k r hmem hk
  have hpre : pre ∈ adminPrefixes := by
    rcases hcase with ⟨rfl, _⟩ | ⟨rfl, _⟩ | ⟨rfl, _⟩ <;> decide
  by_cases herr : ((Call.admin c).invoke ctx).err = none
  · cases hcr : (Call.admin c).created with
    | some created =>
      obtain ⟨id, q⟩ := created
      obtain ⟨v, hres, hp, _, _, _, _, _, _, _, hstatus⟩ := created_step hcr herr
      have hres2 : c.invoke ctx = ⟨none, PutState ctx.state id v⟩ := hres
      rw [hres2] at hmem
      rcases mem_putEntry_cases _ _ _ _ hmem with heq | hold
      · cases heq
        have hq : q = pre := admin_prefix_eq (created_prefix_admin hcr) hpre hp hk
        subst hq
        rcases hcase with ⟨rfl, rfl⟩ | ⟨rfl, rfl⟩ | ⟨rfl, rfl⟩
        · exact statusIn_of_get (hstatus.trans rfl) (by decide)
        · exact statusIn_of_get (hstatus.trans rfl) (by decide)
        · exact statusIn_of_get (hstatus.trans rfl) (by decide)
      · exact ih k r hold hk
    | none =>
      obtain ⟨key, r0, v, hres, hg, hshape⟩ := updated_step hcr herr
      have hres2 : c.invoke ctx = ⟨none, PutState ctx.state key v⟩ := hres
      rw [hres2] at hmem
      rcases mem_putEntry_cases _ _ _ _ hmem with heq | hold
      · cases heq
        have hold := ih _ _ (mem_of_lookup _ _ _ hg) hk
        rcases hshape with ⟨_, _, _, hvst, _⟩ |
          ⟨id, b, s, st0, st1, _, _, _, _, _, _, hfst, hvst, hrel, _⟩
        · rw [statusIn_congr hvst]; exact hold
        · obtain ⟨s0, hs0, hs0l⟩ := get_of_statusIn hold
          rw [fieldString_of_get hs0] at hfst
          cases hfst
          rcases hrel with rfl | ⟨hin, x, hcall⟩ | ⟨rfl, hcall | hcall⟩
          · exact statusIn_of_get hvst hs0l
          · cases hcall
            have hq : "order_" = pre :=
              admin_prefix_eq (by decide) hpre hown hk
            subst hq
            rcases hcase with ⟨_, rfl⟩ | ⟨h, _⟩ | ⟨h, _⟩
            · refine statusIn_of_get hvst ?_
              simp only [List.mem_cons, List.mem_singleton, List.not_mem_nil, or_false] at hin
              rcases hin with rfl | rfl | rfl <;> decide
            · exact absurd h (by decide)
            · exact absurd h (by decide)
          · cases hcall
            have hq : "plan_" = pre := admin_prefix_eq (by decide) hpre hown hk
            subst hq
            rcases hcase with ⟨h, _⟩ | ⟨_, rfl⟩ | ⟨h, _⟩
            · exact absurd h (by decide)
            · exact statusIn_of_get hvst (by decide)
            · exact absurd h (by decide)
          · cases hcall
            have hq : "factory_" = pre := admin_prefix_eq (by decide) hpre hown hk
            subst hq
            rcases hcase with ⟨h, _⟩ | ⟨h, _⟩ | ⟨_, rfl⟩
            · exact absurd h (by decide)
            · exact absurd h (by decide)
            · exact statusIn_of_get hvst (by decide)
      · exact ih k r hold hk
  · have hst : (c.invoke ctx).state = ctx.state := call_failed_state herr
    rw [hst] at hmem
    exact ih k r hmem hk

theorem any_status_step (c : AdminCall) (ctx : Ctx)
    (ih : ∀ k r, (k, r) ∈ ctx.state → r.statusIn adminStatuses = true) :
    ∀ k r, (k, r) ∈ (c.invoke ctx).state → r.statusIn adminStatuses = true := by
  intro k r hmem
  by_cases herr : ((Call.admin c).invoke ctx).err = none
  · cases hcr : (Call.admin c).created with
    | some created =>
      obtain ⟨id, q⟩ := created
      obtain ⟨v, hres, hp, _, _, _, _, _, _, _, hstatus⟩ := created_step hcr herr
      have hres2 : c.invoke ctx = ⟨none, PutState ctx.state id v⟩ := hres
      rw [hres2] at hmem
      rcases mem_putEntry_cases _ _ _ _ hmem with heq | hold
      · cases heq
        have hq := created_prefix_admin hcr
        simp only [adminPrefixes, List.mem_cons, List.mem_singleton, List.not_mem_nil,
          or_false] at hq
        rcases hq with rfl | rfl | rfl
        · exact statusIn_of_get (hstatus.trans rfl) (by decide)
        · exact statusIn_of_get (hstatus.trans rfl) (by decide)
        · exact statusIn_of_get (hstatus.trans rfl) (by decide)
      · exact ih k r hold
    | none =>
      obtain ⟨key, r0, v, hres, hg, hshape⟩ := updated_step hcr herr
      have hres2 : c.invoke ctx = ⟨none, PutState ctx.state key v⟩ := hres
      rw [hres2] at hmem
      rcases mem_putEntry_cases _ _ _ _ hmem with heq | hold
      · cases heq
        have hold := ih _ _ (mem_of_lookup _ _ _ hg)
        rcases hshape with ⟨_, _, _, hvst, _⟩ |
          ⟨id, b, s, st0, st1, _, _, _, _, _, _, hfst, hvst, hrel, _⟩
        · rw [statusIn_congr hvst]; exact hold
        · obtain ⟨s0, hs0, hs0l⟩ := get_of_statusIn hold
          rw [fieldString_of_get hs0] at hfst
          cases hfst
          rcases hrel with rfl | ⟨hin, _⟩ | ⟨rfl, _⟩
          · exact statusIn_of_get hvst hs0l
          · refine statusIn_of_get hvst ?_
            simp only [List.mem_cons, List.mem_singleton, List.not_mem_nil, or_false] at hin
            rcases hin with rfl | rfl | rfl <;> decide
          · exact statusIn_of_get hvst (by decide)
      · exact ih k r hold
  · have hst : (c.invoke ctx).state = ctx.state := call_failed_state herr
    rw [hst] at hmem
    exact ih k r hmem

/-- C23 (amended): in every admin-channel state reached with each type-specific
update invoked on a key of its own type, a record under an `order_` key has
`Status` in issued, accepted, cancelled, rejected, one under a `plan_` key in
issued, approved, and one under a `factory_` key in pending, approved; without
that restriction on the invocations every stored `Status` is still one of the
six values. -/
theorem admin_status_invariant :
    (∀ st, AdminReachableOnOwnType st → ∀ k r, (k, r) ∈ st →
      (HasPrefix k "order_" = true → r.statusIn orderStatuses = true) ∧
      (HasPrefix k "plan_" = true → r.statusIn planStatuses = true) ∧
      (HasPrefix k "factory_" = true → r.statusIn factoryStatuses = true)) ∧
    (∀ st, AdminReachable st → ∀ k r, (k, r) ∈ st → r.statusIn adminStatuses = true) := by
  constructor
  · intro st h
    induction h with
    | empty => exact fun k r h => absurd h (List.not_mem_nil _)
    | step st mspid now call hown _ ih =>
      intro k r hmem
      exact ⟨typed_status_step call ⟨st, mspid, now⟩ hown "order_" orderStatuses
          (Or.inl ⟨rfl, rfl⟩) (fun k r h => (ih k r h).1) k r hmem,
        typed_status_step call ⟨st, mspid, now⟩ hown "plan_" planStatuses
          (Or.inr (Or.inl ⟨rfl, rfl⟩)) (fun k r h => (ih k r h).2.1) k r hmem,
        typed_status_step call ⟨st, mspid, now⟩ hown "factory_" factoryStatuses
          (Or.inr (Or.inr ⟨rfl, rfl⟩)) (fun k r h => (ih k r h).2.2) k r hmem⟩
  · intro st h
    induction h with
    | empty => exact fun k r h => absurd h (List.not_mem_nil _)
    | step st mspid now call _ ih => exact any_status_step call ⟨st, mspid, now⟩ ih

/-! ## Status transitions and approvals revisited -/

set_option maxRecDepth 100000 in
/-- C21 (counterexample): `factory_1` is stored with `Status` approved, and
`SetFactoryStatus` on it succeeds again and rewrites the record; the same for
`SetPlanStatus` on the approved `plan_1`. -/
theorem SetFactoryStatus_again_succeeds :
    storedFactoryStatus adminLedgerFactoryApproved "factory_1" = some "approved" ∧
    (SetFactoryStatus ⟨adminLedgerFactoryApproved, "Org1MSP", 50⟩ "factory_1").err = none ∧
    (SetFactoryStatus ⟨adminLedgerFactoryApproved, "Org1MSP", 50⟩ "factory_1").state ≠
      adminLedgerFactoryApproved ∧
    storedPlanStatus adminLedgerPlanApproved "plan_1" = some "approved" ∧
    (SetPlanStatus ⟨adminLedgerPlanApproved, "Org1MSP", 50⟩ "plan_1").err = none ∧
    (SetPlanStatus ⟨adminLedgerPlanApproved, "Org1MSP", 50⟩ "plan_1").state ≠
      adminLedgerPlanApproved := by
  decide

/-- C21 (amended): on a factory (or plan) whose `Status` is already approved,
`SetFactoryStatus` (`SetPlanStatus`) is decided by the same conditions as the
first time: while they hold it succeeds again, storing the same record with a
new `UpdatedAt` (and, for a plan, `AllFactoriesApproved` true); when one of them
fails the error is the not-ready one and nothing is written. -/
theorem status_reinvocation :
    (∀ (ctx : Ctx) (factoryID : String) (fr : Record) (factory : Factory),
      GetState ctx.state factoryID = some fr → UnmarshalFactory fr = .ok factory →
      factory.Status = "approved" →
      ((factory.IsAuditorApproved = true ∧ factory.IsRetailerApproved = true ∧
          factory.IsFlagged = false) →
        SetFactoryStatus ctx factoryID =
          ⟨none, PutState ctx.state factoryID
            ({ factory with UpdatedAt := ctx.now } : Factory).toJSON⟩) ∧
      (¬ (factory.IsAuditorApproved = true ∧ factory.IsRetailerApproved = true ∧
          factory.IsFlagged = false) →
        ∃ i, SetFactoryStatus ctx factoryID = ⟨some (.notReady i), ctx.state⟩)) ∧
    (∀ (ctx : Ctx) (planID : String) (pr : Record) (plan : Plan),
      GetState ctx.state planID = some pr → UnmarshalPlan pr = .ok plan →
      (∀ id ∈ plan.Factories.elems, (storedFactoryStatus ctx.state id).isSome = true) →
      plan.Status = "approved" →
      ((plan.IsRetailerApproved = true ∧ plan.IsAuditorApproved = true ∧
          plan.IsFlagged = false ∧
          ∀ id ∈ plan.Factories.elems, storedFactoryStatus ctx.state id = some "approved") →
        SetPlanStatus ctx planID =
          ⟨none, PutState ctx.state planID
            ({ plan with AllFactoriesApproved := true, UpdatedAt := ctx.now } : Plan).toJSON⟩) ∧
      (¬ (plan.IsRetailerApproved = true ∧ plan.IsAuditorApproved = true ∧
          plan.IsFlagged = false ∧
          ∀ id ∈ plan.Factories.elems, storedFactoryStatus ctx.state id = some "approved") →
        ∃ i, SetPlanStatus ctx planID = ⟨some (.notReady i), ctx.state⟩)) := by
  constructor
  · intro ctx factoryID fr factory hg hd hst
    unfold SetFactoryStatus
    simp only [hg, hd]
    cases h1 : factory.IsAuditorApproved <;> cases h2 : factory.IsRetailerApproved <;>
      cases h3 : factory.IsFlagged <;>
      simp [SPEC_IsReadyforApproval, SPEC_IsReadyforApproval.loop, Factory_marshal, finish, bind,
        Except.bind, pure, Except.pure, hst]
  · intro ctx planID pr plan hg hd hf hst
    unfold SetPlanStatus
    simp only [hg, hd, allFactoriesApproved_eq ctx _ hf]
    by_cases h0 :
        ∀ id ∈ plan.Factories.elems, storedFactoryStatus ctx.state id = some "approved"
    · have hdec := decide_eq_true h0
      simp only [bind, Except.bind, hdec]
      cases h1 : plan.IsAuditorApproved <;> cases h2 : plan.IsRetailerApproved <;>
        cases h3 : plan.IsFlagged <;>
        (simp [SPEC_IsReadyforApproval, SPEC_IsReadyforApproval.loop, Plan_marshal, finish,
          pure, Except.pure, hst] <;> exact h0)
    · have hdec := decide_eq_false h0
      simp only [bind, Except.bind, hdec]
      simp [h0, SPEC_IsReadyforApproval, SPEC_IsReadyforApproval.loop, finish]

set_option maxRecDepth 100000 in
/-- C22 (counterexample): `order_1` is stored with `Status` accepted, and
`SetOrderStatus` moves it to cancelled. -/
theorem SetOrderStatus_leaves_accepted :
    (GetState adminLedgerOrderDecided "order_1").bind (fun r => r.get "Status") =
      some (.str "accepted") ∧
    (SetOrderStatus ⟨adminLedgerOrderDecided, "Org2MSP", 48⟩ "order_1" "cancelled").err = none ∧
    (GetState (SetOrderStatus ⟨adminLedgerOrderDecided, "Org2MSP", 48⟩ "order_1"
      "cancelled").state "order_1").bind (fun r => r.get "Status") =
      some (.str "cancelled") := by
  decide

/-- C22 (amended): `SetOrderStatus` does not read the current `Status` of the
order: whatever it is, when the invoker is `Org1MSP` or `Org2MSP`, the order is
accepted and not flagged, its plan is approved and the new status is accepted,
cancelled or rejected, the call succeeds and stores the new status; and every
successful call stores one of these three, never issued. -/
theorem SetOrderStatus_from_any_status (ctx : Ctx) (orderID newStatus : String)
    (orderJSON : Record) (order : Order) (hg : GetState ctx.state orderID = some orderJSON)
    (hj : orderJSON.isJSON = true) (hd : UnmarshalOrder orderJSON = .ok order) :
    ((ctx.mspid = "Org1MSP" ∨ ctx.mspid = "Org2MSP") → order.IsAccepted = true →
      order.IsFlagged = false → storedPlanStatus ctx.state order.PlanID = some "approved" →
      (newStatus = "accepted" ∨ newStatus = "cancelled" ∨ newStatus = "rejected") →
      SetOrderStatus ctx orderID newStatus =
        ⟨none, PutState ctx.state orderID
          ({ order with Status := newStatus, UpdatedAt := ctx.now } : Order).toJSON⟩) ∧
    ((SetOrderStatus ctx orderID newStatus).err = none →
      (newStatus = "accepted" ∨ newStatus = "cancelled" ∨ newStatus = "rejected") ∧
      (GetState (SetOrderStatus ctx orderID newStatus).state orderID).bind
        (fun r => r.get "Status") = some (.str newStatus)) := by
  have hfin : order.TotalOrderValue.isFinite = true :=
    fieldFloat32_finite hj (UnmarshalOrder_value hd)
  constructor
  · intro horg h1 h2 hplan hns
    have hin : ctx.mspid ∈ ["Org1MSP", "Org2MSP"] := by simpa using horg
    have hns2 : ¬ (newStatus ≠ "accepted" ∧ newStatus ≠ "cancelled" ∧
        newStatus ≠ "rejected") := by
      intro ⟨a, b, c⟩; rcases hns with h | h | h <;> contradiction
    unfold storedPlanStatus at hplan
    unfold SetOrderStatus
    simp only [SPEC_IsInvokedByAllowedOrg, hin, if_true, hg, hd]
    cases hpg : GetState ctx.state order.PlanID with
    | none => simp [hpg] at hplan
    | some planJSON =>
      cases hpu : UnmarshalPlan planJSON with
      | error e => simp [hpg, hpu] at hplan
      | ok plan =>
        have hst : plan.Status = "approved" := by simpa [hpg, hpu] using hplan
        simp [hst, hns2, Order_marshal, hfin, h1, h2, hpg, hpu, SPEC_IsReadyforApproval,
          SPEC_IsReadyforApproval.loop, finish, bind, Except.bind, pure, Except.pure]
  · intro herr
    obtain ⟨r0, o, _, _, hns, hres⟩ := SetOrderStatus_success herr
    rw [hres]
    refine ⟨by simpa using hns, ?_⟩
    simp only
    rw [GetState_PutState_self]
    rfl

set_option maxRecDepth 100000 in
/-- C23 (counterexample): the plan approvals and `SetPlanStatus`, invoked by
`Org1MSP` and `Org3MSP` on the key `order_1`, leave a record with `Status`
approved under a key prefixed `order_`. -/
theorem order_key_gets_approved :
    AdminReachable adminLedgerOrderAsPlan ∧
    HasPrefix "order_1" "order_" = true ∧
    (GetState adminLedgerOrderAsPlan "order_1").bind (fun r => r.get "Status") =
      some (.str "approved") ∧
    "approved" ∉ orderStatuses := by
  refine ⟨?_, by decide, by decide, by decide⟩
  exact AdminReachable.step _ "Org1MSP" 42 (.setPlanStatus "order_1")
    (AdminReachable.step _ "Org3MSP" 41 (.setPlanApproval "order_1" true)
      (AdminReachable.step _ "Org1MSP" 40 (.setPlanApproval "order_1" true)
        (AdminReachable.step _ "Org2MSP" 30
          (.createPlan 25 (some ["factory_1"]) "" "plan_1" false "" "order_1" "cut and sew")
          (AdminReachable.step _ "Org2MSP" 20
            (.createFactory "Org2MSP" "" "factory_1" false "Dhaka" "Mill One" "" true 15)
            (AdminReachable.step _ "Org1MSP" 10
              (.createOrder 5 100 "" "order_1" false "" "net30" "shirts" "Org2MSP" 1000)
              AdminReachable.empty)))))

set_option maxRecDepth 100000 in
/-- C26 (counterexample): `SetFactoryApproval` invoked by `Org1MSP` on the key
`order_1` succeeds and the record it stores has no `CreatorID`, which was
`Org1MSP` before. -/
theorem SetFactoryApproval_drops_creator :
    (GetState adminLedgerWithPlan "order_1").bind (fun r => r.get "CreatorID") =
      some (.str "Org1MSP") ∧
    (SetFactoryApproval ⟨adminLedgerWithPlan, "Org1MSP", 40⟩ "order_1" true).err = none ∧
    (GetState (SetFactoryApproval ⟨adminLedgerWithPlan, "Org1MSP", 40⟩ "order_1" true).state
      "order_1").map (fun r => r.get "CreatorID") = some none := by
  decide

/-- C27: `SetPlanApproval` and `SetFactoryApproval` fail with the
not-allowed-organization error for every invoker other than `Org1MSP` and
`Org3MSP`; invoked by `Org1MSP` they store the record with `IsRetailerApproved`
or-ed with the argument and `IsAuditorApproved` as it was, invoked by `Org3MSP`
with `IsAuditorApproved` or-ed with the argument and `IsRetailerApproved` as it
was, so that `approval = false` changes neither flag. -/
theorem approval_flags_independent :
    (∀ (ctx : Ctx) (id : String) (approval : Bool),
      ctx.mspid ≠ "Org1MSP" → ctx.mspid ≠ "Org3MSP" →
      SetPlanApproval ctx id approval =
        ⟨some (.notAllowedOrg ctx.mspid ["Org1MSP", "Org3MSP"]), ctx.state⟩ ∧
      SetFactoryApproval ctx id approval =
        ⟨some (.notAllowedOrg ctx.mspid ["Org1MSP", "Org3MSP"]), ctx.state⟩) ∧
    (∀ (ctx : Ctx) (planID : String) (approval : Bool) (pr : Record) (plan : Plan),
      GetState ctx.state planID = some pr → UnmarshalPlan pr = .ok plan →
      (ctx.mspid = "Org1MSP" →
        SetPlanApproval ctx planID approval =
          ⟨none, PutState ctx.state planID
            ({ plan with IsRetailerApproved := plan.IsRetailerApproved || approval,
                         UpdatedAt := ctx.now } : Plan).toJSON⟩) ∧
      (ctx.mspid = "Org3MSP" →
        SetPlanApproval ctx planID approval =
          ⟨none, PutState ctx.state planID
            ({ plan with IsAuditorApproved := plan.IsAuditorApproved || approval,
                         UpdatedAt := ctx.now } : Plan).toJSON⟩)) ∧
    (∀ (ctx : Ctx) (factoryID : String) (approval : Bool) (fr : Record) (factory : Factory),
      GetState ctx.state factoryID = some fr → UnmarshalFactory fr = .ok factory →
      (ctx.mspid = "Org1MSP" →
        SetFactoryApproval ctx factoryID approval =
          ⟨none, PutState ctx.state factoryID
            ({ factory with IsRetailerApproved := factory.IsRetailerApproved || approval,
                            UpdatedAt := ctx.now } : Factory).toJSON⟩) ∧
      (ctx.mspid = "Org3MSP" →
        SetFactoryApproval ctx factoryID approval =
          ⟨none, PutState ctx.state factoryID
            ({ factory with IsAuditorApproved := factory.IsAuditorApproved || approval,
                            UpdatedAt := ctx.now } : Factory).toJSON⟩)) := by
  refine ⟨?_, ?_, ?_⟩
  · intro ctx id approval h1 h3
    have hin : ctx.mspid ∉ ["Org1MSP", "Org3MSP"] := by simp [h1, h3]
    constructor
    · unfold SetPlanApproval
      simp [SPEC_IsInvokedByAllowedOrg, hin, finish, bind, Except.bind]
    · unfold SetFactoryApproval
      simp [SPEC_IsInvokedByAllowedOrg, hin, finish, bind, Except.bind]
  · intro ctx planID approval pr plan hg hd
    constructor
    · intro h1
      unfold SetPlanApproval
      cases approval <;> cases hr : plan.IsRetailerApproved <;>
        simp [SPEC_IsInvokedByAllowedOrg, h1, hg, hd, hr, Plan_marshal, finish, bind,
          Except.bind, pure, Except.pure]
    · intro h3
      unfold SetPlanApproval
      cases approval <;> cases hr : plan.IsAuditorApproved <;>
        simp [SPEC_IsInvokedByAllowedOrg, h3, hg, hd, hr, Plan_marshal, finish, bind,
          Except.bind, pure, Except.pure]
  · intro ctx factoryID approval fr factory hg hd
    constructor
    · intro h1
      unfold SetFactoryApproval
      cases approval <;> cases hr : factory.IsRetailerApproved <;>
        simp [SPEC_IsInvokedByAllowedOrg, h1, hg, hd, hr, Factory_marshal, finish, bind,
          Except.bind, pure, Except.pure]
    · intro h3
      unfold SetFactoryApproval
      cases approval <;> cases hr : factory.IsAuditorApproved <;>
        simp [SPEC_IsInvokedByAllowedOrg, h3, hg, hd, hr, Factory_marshal, finish, bind,
          Except.bind, pure, Except.pure]

/-- C28: `SetFlag` succeeds exactly when a record with the ID exists and
`SPEC_IsValidFlag` accepts the arguments; then the stored record has `IsFlagged`
and `FlagReason` equal to the arguments, `UpdatedAt` equal to the current time
and every other member (`Status` among them) as before; a failed call leaves the
world state as it was. -/
theorem SetFlag_iff (ctx : Ctx) (id : String) (isFlagged : Bool) (flagReason : String)
    (hj : ∀ r, GetState ctx.state id = some r → r.isJSON = true) :
    ((SetFlag ctx id isFlagged flagReason).err = none ↔
      ((GetState ctx.state id).isSome = true ∧
        SPEC_IsValidFlag isFlagged flagReason = .ok ())) ∧
    ((SetFlag ctx id isFlagged flagReason).err = none →
      ∃ before after, GetState ctx.state id = some before ∧
        GetState (SetFlag ctx id isFlagged flagReason).state id = some after ∧
        after.get "IsFlagged" = some (.bool isFlagged) ∧
        after.get "FlagReason" = some (.str flagReason) ∧
        after.get "UpdatedAt" = some (.time ctx.now) ∧
        after.get "Status" = before.get "Status" ∧
        ∀ k, k ≠ "IsFlagged" → k ≠ "FlagReason" → k ≠ "UpdatedAt" →
          after.get k = before.get k) ∧
    ((SetFlag ctx id isFlagged flagReason).err ≠ none →
      (SetFlag ctx id isFlagged flagReason).state = ctx.state) := by
  refine ⟨⟨?_, ?_⟩, ?_, ?_⟩
  · intro h
    obtain ⟨r0, hg, hvalid, _⟩ := SetFlag_success h
    exact ⟨by rw [hg]; rfl, hvalid⟩
  · intro ⟨hsome, hvalid⟩
    cases hg : GetState ctx.state id with
    | none => rw [hg] at hsome; cases hsome
    | some r0 =>
      have hm : Marshal (((r0.set "IsFlagged" (.bool isFlagged)).set "FlagReason"
          (.str flagReason)).set "UpdatedAt" (.time ctx.now)) = .ok _ :=
        Marshal_of_isJSON (isJSON_putEntry "UpdatedAt" (.time ctx.now) rfl _
          (isJSON_putEntry "FlagReason" (.str flagReason) rfl _
            (isJSON_putEntry "IsFlagged" (.bool isFlagged) rfl _ (hj r0 hg))))
      unfold SetFlag
      simp only [hg, hvalid, hm, bind, Except.bind, pure, Except.pure, finish]
  · intro h
    obtain ⟨r0, hg, _, hres⟩ := SetFlag_success h
    rw [hres]
    refine ⟨r0, _, hg, GetState_PutState_self _ _ _, ?_, ?_, ?_, ?_, ?_⟩
    · rw [get_set_other _ _ _ _ (by decide), get_set_other _ _ _ _ (by decide)]
      exact get_set_self _ _ _
    · rw [get_set_other _ _ _ _ (by decide)]
      exact get_set_self _ _ _
    · exact get_set_self _ _ _
    · rw [get_set_other _ _ _ _ (by decide), get_set_other _ _ _ _ (by decide),
        get_set_other _ _ _ _ (by decide)]
    · intro k h1 h2 h3
      rw [get_set_other _ _ _ _ h3, get_set_other _ _ _ _ h2, get_set_other _ _ _ _ h1]
  · exact finish_state_of_err _ _ _

theorem isSome_get_set {r : Record} {k : String} (x : JVal) (hk : (r.get k).isSome = true)
    (n : String) : ((r.set k x).get n).isSome = (r.get n).isSome := by
  by_cases hn : n = k
  · subst hn
    rw [get_set_self, hk]
    rfl
  · rw [get_set_other _ _ _ _ hn]

set_option maxRecDepth 100000 in
/-- C29 (counterexample): the container `container_1`, written by
`CreateContainer`, has no `Notes` member; a successful `SetNotes` on it stores a
record that has one. -/
theorem SetNotes_adds_field_to_container :
    (CreateContainer ⟨ledgerWithCarton, "Org6MSP", 50⟩ (some ["carton_1"]) "Rotterdam" ""
      "container_1" false 45 "Chittagong" 3 "Ever Given").err = none ∧
    (GetState ledgerWithContainer "container_1").map (fun r => r.get "Notes") = some none ∧
    (SetNotes ⟨ledgerWithContainer, "Org6MSP", 60⟩ "container_1" "checked").err = none ∧
    (GetState (SetNotes ⟨ledgerWithContainer, "Org6MSP", 60⟩ "container_1" "checked").state
      "container_1").map (fun r => r.get "Notes") = some (some (.str "checked")) := by
  decide

/-- C29 (amended): on a record written by a Create invocation, a successful
`SetFlag` stores a record with exactly the same member names, and so does a
successful `SetNotes` unless the record is a container, the one asset type
without a `Notes` member. -/
theorem audit_updates_keep_fields (call : Call) (ctx : Ctx) (id pre : String)
    (hc : call.created = some (id, pre)) (herr : (call.invoke ctx).err = none) :
    ∃ r, GetState (call.invoke ctx).state id = some r ∧
      (∀ (ctx2 : Ctx) (isFlagged : Bool) (flagReason : String),
        GetState ctx2.state id = some r →
        (SetFlag ctx2 id isFlagged flagReason).err = none →
        ∃ r2, GetState (SetFlag ctx2 id isFlagged flagReason).state id = some r2 ∧
          ∀ n, (r2.get n).isSome = (r.get n).isSome) ∧
      (pre ≠ "container_" → ∀ (ctx2 : Ctx) (notes : String),
        GetState ctx2.state id = some r →
        (SetNotes ctx2 id notes).err = none →
        ∃ r2, GetState (SetNotes ctx2 id notes).state id = some r2 ∧
          ∀ n, (r2.get n).isSome = (r.get n).isSome) := by
  obtain ⟨v, hres, _, _, _, _, hfl, hfr, hup, hnotes, _⟩ := created_step hc herr
  rw [hres]
  refine ⟨v, GetState_PutState_self _ _ _, ?_, ?_⟩
  · intro ctx2 isFlagged flagReason hg h
    obtain ⟨r0, hg0, _, hres2⟩ := SetFlag_success h
    rw [hg] at hg0
    cases hg0
    rw [hres2]
    refine ⟨_, GetState_PutState_self _ _ _, ?_⟩
    intro n
    have e1 := isSome_get_set (.bool isFlagged) hfl
    have e2 := isSome_get_set (r := v.set "IsFlagged" (.bool isFlagged)) (.str flagReason)
      (by rw [e1]; exact hfr)
    have e3 := isSome_get_set
      (r := (v.set "IsFlagged" (.bool isFlagged)).set "FlagReason" (.str flagReason))
      (.time ctx2.now) (by rw [e2, e1]; exact hup)
    rw [e3, e2, e1]
  · intro hne ctx2 notes hg h
    obtain ⟨r0, hg0, hres2⟩ := SetNotes_success h
    rw [hg] at hg0
    cases hg0
    rw [hres2]
    refine ⟨_, GetState_PutState_self _ _ _, ?_⟩
    intro n
    have e1 := isSome_get_set (.str notes) (hnotes hne)
    have e2 := isSome_get_set (r := v.set "Notes" (.str notes)) (.time ctx2.now)
      (by rw [e1]; exact hup)
    rw [e2, e1]

set_option maxRecDepth 100000 in
/-- C30 (the code at the failing input): `UpdateLotOwner` on the cotton bale
`cottonbale_1`, whose ID does not start with `lot_`, succeeds and adds `Owner`
and `PreviousOwner` to the bale. -/
theorem UpdateLotOwner_accepts_non_lot :
    HasPrefix "cottonbale_1" "lot_" = false ∧
    (GetState ledgerWithBale "cottonbale_1").map (fun r => (r.get "Owner", r.get "PreviousOwner")) =
      some (none, none) ∧
    (UpdateLotOwner ⟨ledgerWithBale, "Org4MSP", 20⟩ "cottonbale_1" "Org1MSP").err = none ∧
    (GetState (UpdateLotOwner ⟨ledgerWithBale, "Org4MSP", 20⟩ "cottonbale_1" "Org1MSP").state
      "cottonbale_1").map (fun r => (r.get "Owner", r.get "PreviousOwner")) =
      some (some (.str "Org1MSP"), some .null) := by
  decide

/-! ## Further instances at concrete inputs (invariants and audit updates) -/

theorem adminLedgerOrderDecided_reachable : AdminReachableOnOwnType adminLedgerOrderDecided :=
  AdminReachableOnOwnType.step _ "Org1MSP" 47 (.setOrderStatus "order_1" "accepted") (by decide)
    (AdminReachableOnOwnType.step _ "Org2MSP" 46 (.setOrderAcceptance "order_1" "plan_1" true)
      (by decide)
      (AdminReachableOnOwnType.step _ "Org1MSP" 45 (.setPlanStatus "plan_1") (by decide)
        (AdminReachableOnOwnType.step _ "Org3MSP" 44 (.setPlanApproval "plan_1" true)
          (by decide)
          (AdminReachableOnOwnType.step _ "Org1MSP" 43 (.setPlanApproval "plan_1" true)
            (by decide)
            (AdminReachableOnOwnType.step _ "Org1MSP" 42 (.setFactoryStatus "factory_1")
              (by decide)
              (AdminReachableOnOwnType.step _ "Org3MSP" 41
                (.setFactoryApproval "factory_1" true) (by decide)
                (AdminReachableOnOwnType.step _ "Org1MSP" 40
                  (.setFactoryApproval "factory_1" true) (by decide)
                  (AdminReachableOnOwnType.step _ "Org2MSP" 30
                    (.createPlan 25 (some ["factory_1"]) "" "plan_1" false "" "order_1"
                      "cut and sew") (by decide)
                    (AdminReachableOnOwnType.step _ "Org2MSP" 20
                      (.createFactory "Org2MSP" "" "factory_1" false "Dhaka" "Mill One" ""
                        true 15) (by decide)
                      (AdminReachableOnOwnType.step _ "Org1MSP" 10
                        (.createOrder 5 100 "" "order_1" false "" "net30" "shirts" "Org2MSP"
                          1000) (by decide)
                        AdminReachableOnOwnType.empty))))))))))

set_option maxRecDepth 100000 in
/-- C21 (amended) at the approved `factory_1`: the second `SetFactoryStatus`
succeeds and stores the same factory with `UpdatedAt` 50. -/
theorem status_reinvocation_witness :
    GetState adminLedgerFactoryApproved "factory_1" = some approvedFactory.toJSON ∧
    UnmarshalFactory approvedFactory.toJSON = .ok approvedFactory ∧
    approvedFactory.Status = "approved" ∧
    SetFactoryStatus ⟨adminLedgerFactoryApproved, "Org1MSP", 50⟩ "factory_1" =
      ⟨none, PutState adminLedgerFactoryApproved "factory_1"
        ({ approvedFactory with UpdatedAt := 50 } : Factory).toJSON⟩ :=
  ⟨by decide, by decide, by decide,
   (status_reinvocation.1 ⟨adminLedgerFactoryApproved, "Org1MSP", 50⟩ "factory_1"
      approvedFactory.toJSON approvedFactory (by decide) (by decide) (by decide)).1
      ⟨by decide, by decide, by decide⟩⟩

set_option maxRecDepth 100000 in
/-- C22 (amended) at the accepted `order_1`: `SetOrderStatus` moves it to
cancelled. -/
theorem SetOrderStatus_from_any_status_witness :
    GetState adminLedgerOrderDecided "order_1" = some decidedOrder.toJSON ∧
    decidedOrder.toJSON.isJSON = true ∧
    UnmarshalOrder decidedOrder.toJSON = .ok decidedOrder ∧
    decidedOrder.Status = "accepted" ∧
    SetOrderStatus ⟨adminLedgerOrderDecided, "Org2MSP", 48⟩ "order_1" "cancelled" =
      ⟨none, PutState adminLedgerOrderDecided "order_1"
        ({ decidedOrder with Status := "cancelled", UpdatedAt := 48 } : Order).toJSON⟩ :=
  ⟨by decide, by decide, by decide, by decide,
   (SetOrderStatus_from_any_status ⟨adminLedgerOrderDecided, "Org2MSP", 48⟩ "order_1"
      "cancelled" decidedOrder.toJSON decidedOrder (by decide) (by decide) (by decide)).1
      (Or.inr rfl) (by decide) (by decide) (by decide) (Or.inr (Or.inl rfl))⟩

set_option maxRecDepth 100000 in
/-- C23 (amended) at the end of the order life cycle: the order, the plan and
the factory carry a status of their own type. -/
theorem admin_status_invariant_witness :
    AdminReachableOnOwnType adminLedgerOrderDecided ∧
    Record.statusIn ((GetState adminLedgerOrderDecided "order_1").getD []) orderStatuses = true ∧
    Record.statusIn ((GetState adminLedgerOrderDecided "plan_1").getD []) planStatuses = true ∧
    Record.statusIn ((GetState adminLedgerOrderDecided "factory_1").getD []) factoryStatuses =
      true :=
  ⟨adminLedgerOrderDecided_reachable,
   (admin_status_invariant.1 adminLedgerOrderDecided adminLedgerOrderDecided_reachable "order_1"
      ((GetState adminLedgerOrderDecided "order_1").getD [])
      (mem_of_lookup _ _ _ (by decide))).1 (by decide),
   (admin_status_invariant.1 adminLedgerOrderDecided adminLedgerOrderDecided_reachable "plan_1"
      ((GetState adminLedgerOrderDecided "plan_1").getD [])
      (mem_of_lookup _ _ _ (by decide))).2.1 (by decide),
   (admin_status_invariant.1 adminLedgerOrderDecided adminLedgerOrderDecided_reachable
      "factory_1" ((GetState adminLedgerOrderDecided "factory_1").getD [])
      (mem_of_lookup _ _ _ (by decide))).2.2 (by decide)⟩

set_option maxRecDepth 100000 in
/-- C24 at the two lots of the scenario: `lot_1` is flag-consistent. -/
theorem flag_consistency_invariant_witness :
    ProductionReachable ledgerWithTwoLots ∧
    Record.flagConsistent ((GetState ledgerWithTwoLots "lot_1").getD []) = true :=
  ⟨ledgerWithTwoLots_reachable,
   flag_consistency_invariant.1 ledgerWithTwoLots ledgerWithTwoLots_reachable "lot_1"
      ((GetState ledgerWithTwoLots "lot_1").getD []) (mem_of_lookup _ _ _ (by decide))⟩

set_option maxRecDepth 100000 in
/-- C25 at the two lots of the scenario: `lot_2` is stored under its own ID,
which has a reserved prefix. -/
theorem key_is_prefixed_id_witness :
    ProductionReachable ledgerWithTwoLots ∧
    (Record.get ((GetState ledgerWithTwoLots "lot_2").getD []) "ID" = some (.str "lot_2") ∧
      ∃ pre ∈ productionPrefixes, HasPrefix "lot_2" pre = true) :=
  ⟨ledgerWithTwoLots_reachable,
   key_is_prefixed_id.1 ledgerWithTwoLots ledgerWithTwoLots_reachable "lot_2"
      ((GetState ledgerWithTwoLots "lot_2").getD []) (mem_of_lookup _ _ _ (by decide))⟩

set_option maxRecDepth 100000 in
/-- C26 (amended) at `SetPlanApproval` on `plan_1`: the plan keeps its `ID` and
its `CreatorID`. -/
theorem id_and_creator_preserved_witness :
    GetState adminLedgerWithPlan "plan_1" = some issuedPlan.toJSON ∧
    ∃ r2, GetState ((Call.admin (.setPlanApproval "plan_1" true)).invoke
        ⟨adminLedgerWithPlan, "Org1MSP", 40⟩).state "plan_1" = some r2 ∧
      fieldString r2 "ID" = fieldString issuedPlan.toJSON "ID" ∧
      (fieldString r2 "CreatorID" = fieldString issuedPlan.toJSON "CreatorID" ∨
        (Call.rewritesAsFactory (.admin (.setPlanApproval "plan_1" true)) = true ∧
          r2.get "CreatorID" = none)) :=
  ⟨by decide,
   id_and_creator_preserved (.admin (.setPlanApproval "plan_1" true))
     ⟨adminLedgerWithPlan, "Org1MSP", 40⟩ "plan_1" issuedPlan.toJSON (by decide)⟩

set_option maxRecDepth 100000 in
/-- C27 at the retailer's approval of `plan_1`: `IsRetailerApproved` becomes
true and `IsAuditorApproved` stays false. -/
theorem approval_flags_independent_witness :
    GetState adminLedgerWithPlan "plan_1" = some issuedPlan.toJSON ∧
    UnmarshalPlan issuedPlan.toJSON = .ok issuedPlan ∧
    SetPlanApproval ⟨adminLedgerWithPlan, "Org1MSP", 40⟩ "plan_1" true =
      ⟨none, PutState adminLedgerWithPlan "plan_1"
        ({ issuedPlan with IsRetailerApproved := issuedPlan.IsRetailerApproved || true,
                           UpdatedAt := 40 } : Plan).toJSON⟩ :=
  ⟨by decide, by decide,
   (approval_flags_independent.2.1 ⟨adminLedgerWithPlan, "Org1MSP", 40⟩ "plan_1" true
      issuedPlan.toJSON issuedPlan (by decide) (by decide)).1 rfl⟩

set_option maxRecDepth 100000 in
/-- C28 at the cotton bale of the scenario: flagging it with a reason
succeeds. -/
theorem SetFlag_iff_witness :
    (GetState ledgerWithBale "cottonbale_1").isSome = true ∧
    SPEC_IsValidFlag true "damaged" = .ok () ∧
    (SetFlag ⟨ledgerWithBale, "Org4MSP", 20⟩ "cottonbale_1" true "damaged").err = none :=
  ⟨by decide, by decide,
   (SetFlag_iff ⟨ledgerWithBale, "Org4MSP", 20⟩ "cottonbale_1" true "damaged"
      (by
        intro r h
        have h2 : GetState ledgerWithBale "cottonbale_1" =
            some ((GetState ledgerWithBale "cottonbale_1").getD []) := by decide
        have h3 := h.symm.trans h2
        cases h3
        decide)).1.mpr ⟨by decide, by decide⟩⟩

set_option maxRecDepth 100000 in
/-- C29 (amended) at the cotton bale of the scenario, written by
`CreateCottonBale`. -/
theorem audit_updates_keep_fields_witness :
    (CreateCottonBale ⟨[], "Org4MSP", 10⟩ true 5 "" "cottonbale_1" false "" "Texas" "A"
      50).err = none ∧
    ∃ r, GetState ledgerWithBale "cottonbale_1" = some r ∧
      (∀ (ctx2 : Ctx) (isFlagged : Bool) (flagReason : String),
        GetState ctx2.state "cottonbale_1" = some r →
        (SetFlag ctx2 "cottonbale_1" isFlagged flagReason).err = none →
        ∃ r2, GetState (SetFlag ctx2 "cottonbale_1" isFlagged flagReason).state
            "cottonbale_1" = some r2 ∧
          ∀ n, (r2.get n).isSome = (r.get n).isSome) ∧
      ("cottonbale_" ≠ "container_" → ∀ (ctx2 : Ctx) (notes : String),
        GetState ctx2.state "cottonbale_1" = some r →
        (SetNotes ctx2 "cottonbale_1" notes).err = none →
        ∃ r2, GetState (SetNotes ctx2 "cottonbale_1" notes).state "cottonbale_1" = some r2 ∧
          ∀ n, (r2.get n).isSome = (r.get n).isSome) :=
  ⟨by decide,
   audit_updates_keep_fields
     (.production (.createCottonBale true 5 "" "cottonbale_1" false "" "Texas" "A" 50))
     ⟨[], "Org4MSP", 10⟩ "cottonbale_1" "cottonbale_" rfl (by decide)⟩

/-! ## Ownership, acceptance and the frame of a write -/

set_option maxRecDepth 100000 in
/-- C31 (the code at the failing input): `lot_1` is owned by `Org4MSP`, and
`UpdateLotOwner` invoked by `Org1MSP` hands it to `Org2MSP`. -/
theorem UpdateLotOwner_by_non_owner :
    (GetState ledgerWithLot "lot_1").bind (fun r => r.get "Owner") = some (.str "Org4MSP") ∧
    "Org1MSP" ≠ "Org4MSP" ∧
    (UpdateLotOwner ⟨ledgerWithLot, "Org1MSP", 30⟩ "lot_1" "Org2MSP").err = none ∧
    (GetState (UpdateLotOwner ⟨ledgerWithLot, "Org1MSP", 30⟩ "lot_1" "Org2MSP").state
      "lot_1").map (fun r => (r.get "Owner", r.get "PreviousOwner")) =
      some (some (.str "Org2MSP"), some (.str "Org4MSP")) := by
  decide

/-- C32: when `orderID` holds an order, `SetOrderAcceptance` succeeds exactly
when the invoker is the order's `ReceiverID`, a record with key `planID` exists
and `CreatedAt < now < DeliveryDate`; on success the stored order is the old one
with `PlanID`, `IsAccepted` and `UpdatedAt` set; a failed call writes nothing. -/
theorem SetOrderAcceptance_iff (ctx : Ctx) (orderID planID : String) (acceptance : Bool)
    (orderJSON : Record) (order : Order) (hg : GetState ctx.state orderID = some orderJSON)
    (hj : orderJSON.isJSON = true) (hd : UnmarshalOrder orderJSON = .ok order) :
    ((SetOrderAcceptance ctx orderID planID acceptance).err = none ↔
      (ctx.mspid = order.ReceiverID ∧ (GetState ctx.state planID).isSome = true ∧
        order.CreatedAt < ctx.now ∧ ctx.now < order.DeliveryDate)) ∧
    ((SetOrderAcceptance ctx orderID planID acceptance).err = none →
      GetState (SetOrderAcceptance ctx orderID planID acceptance).state orderID =
        some ({ order with PlanID := planID, IsAccepted := acceptance,
                           UpdatedAt := ctx.now } : Order).toJSON) ∧
    ((SetOrderAcceptance ctx orderID planID acceptance).err ≠ none →
      (SetOrderAcceptance ctx orderID planID acceptance).state = ctx.state) := by
  have hfin : order.TotalOrderValue.isFinite = true :=
    fieldFloat32_finite hj (UnmarshalOrder_value hd)
  refine ⟨?_, ?_, finish_state_of_err _ _ _⟩
  · unfold SetOrderAcceptance
    simp only [hg, hd]
    by_cases horg : ctx.mspid = order.ReceiverID
    · cases hp : GetState ctx.state planID with
      | none =>
        simp [SPEC_IsInvokedByAllowedOrg, horg, SPEC_AssetExists, hp, finish, bind, Except.bind]
      | some pr =>
        by_cases h1 : order.CreatedAt < ctx.now
        · by_cases h2 : ctx.now < order.DeliveryDate
          · simp [SPEC_IsInvokedByAllowedOrg, horg, SPEC_AssetExists, hp, SPEC_Chronology, h1,
              h2, Order_marshal, hfin, finish, bind, Except.bind, pure, Except.pure]
          · simp [SPEC_IsInvokedByAllowedOrg, horg, SPEC_AssetExists, hp, SPEC_Chronology, h1,
              h2, finish, bind, Except.bind]
        · simp [SPEC_IsInvokedByAllowedOrg, horg, SPEC_AssetExists, hp, SPEC_Chronology, h1,
            finish, bind, Except.bind]
    · simp [SPEC_IsInvokedByAllowedOrg, horg, finish, bind, Except.bind]
  · intro h
    obtain ⟨r0, o, hg0, hu0, hres⟩ := SetOrderAcceptance_success h
    rw [hg] at hg0
    cases hg0
    rw [hd] at hu0
    cases hu0
    rw [hres]
    exact GetState_PutState_self _ _ _

theorem call_success_target {ctx : Ctx} {call : Call} (h : (call.invoke ctx).err = none) :
    ∃ v, call.invoke ctx = ⟨none, PutState ctx.state call.target v⟩ := by
  cases call with
  | production c =>
    cases c <;>
      (obtain ⟨v, hv⟩ := finish_err_none _ _ _ h
       exact ⟨v, finish_of_ok _ _ hv⟩)
  | admin c =>
    cases c <;>
      (obtain ⟨v, hv⟩ := finish_err_none _ _ _ h
       exact ⟨v, finish_of_ok _ _ hv⟩)

/-- C33: a successful invocation of either contract stores a record under the
ID of the asset it targets and leaves the value under every other key as it
was; and whether it succeeds or not, every key of the ledger is still a key
afterwards. -/
theorem write_frame (call : Call) (ctx : Ctx) :
    ((call.invoke ctx).err = none →
      (∃ v, (call.invoke ctx).state = PutState ctx.state call.target v ∧
        GetState (call.invoke ctx).state call.target = some v) ∧
      ∀ k, k ≠ call.target → GetState (call.invoke ctx).state k = GetState ctx.state k) ∧
    (∀ k, (GetState ctx.state k).isSome = true →
      (GetState (call.invoke ctx).state k).isSome = true) := by
  constructor
  · intro h
    obtain ⟨v, hres⟩ := call_success_target h
    rw [hres]
    exact ⟨⟨v, rfl, GetState_PutState_self _ _ _⟩,
      fun k hk => lookup_putEntry_other _ _ _ hk _⟩
  · intro k hk
    by_cases h : (call.invoke ctx).err = none
    · obtain ⟨v, hres⟩ := call_success_target h
      rw [hres]
      by_cases hkt : k = call.target
      · subst hkt
        simp only
        rw [GetState_PutState_self]
        rfl
      · have : GetState (PutState ctx.state call.target v) k = GetState ctx.state k :=
          lookup_putEntry_other _ _ _ hkt _
        simp only
        rw [this]
        exact hk
    · rw [call_failed_state h]
      exact hk

/-- C39: a successful `CreateLot` stores a lot whose `Owner` and `CreatorID` are
the invoker's MSP ID (the `owner` argument is not used), whose `Quantity` is the
length of the content list, whose `AssetIDPrefix` is the argument and whose
`AllAssetsApproved` is true. -/
theorem CreateLot_stored_fields (ctx : Ctx) (assemblyDate : Time) (assetIDPrefix : String)
    (content : Slice) (destination flagReason lotID : String) (isFlagged : Bool)
    (notes origin owner : String) (totalWeight : F32)
    (h : (CreateLot ctx assemblyDate assetIDPrefix content destination flagReason lotID
      isFlagged notes origin owner totalWeight).err = none) :
    ∃ lot, GetState (CreateLot ctx assemblyDate assetIDPrefix content destination flagReason
        lotID isFlagged notes origin owner totalWeight).state lotID = some lot ∧
      lot.get "Owner" = some (.str ctx.mspid) ∧
      lot.get "CreatorID" = some (.str ctx.mspid) ∧
      lot.get "Quantity" = some (.int content.elems.length) ∧
      lot.get "AssetIDPrefix" = some (.str assetIDPrefix) ∧
      lot.get "AllAssetsApproved" = some (.bool true) := by
  obtain ⟨cw, _, _, _, _, _, _, _, _, _, _, _, hres⟩ := CreateLot_success h
  rw [hres]
  exact ⟨_, GetState_PutState_self _ _ _, rfl, rfl, rfl, rfl, rfl⟩

/-! ## Listing, authorization order and lot consumers -/

theorem listing_loop_fails (p : String) (hp : p ∈ listedTypes) :
    ∀ (st : Ledger) (lists : AssetLists), (∃ e ∈ st, Contains e.1 p = true) →
      GetAllAssetsOfType.loop p st lists = .error (.invalidRecordType p) := by
  intro st
  induction st with
  | nil => intro lists ⟨e, he, _⟩; exact absurd he (List.not_mem_nil _)
  | cons entry rest ih =>
    intro lists hex
    obtain ⟨key, value⟩ := entry
    unfold GetAllAssetsOfType.loop
    by_cases hc : Contains key p = true
    · simp only [listedTypes, List.mem_cons, List.mem_singleton, List.not_mem_nil,
        or_false] at hp
      rcases hp with rfl | rfl | rfl | rfl | rfl | rfl <;> simp [hc]
    · have hrest : ∃ e ∈ rest, Contains e.1 p = true := by
        obtain ⟨e, he, hce⟩ := hex
        rcases List.mem_cons.mp he with rfl | hmem
        · exact absurd hce hc
        · exact ⟨e, hmem, hce⟩
      simp only [hc, Bool.not_false, if_true, Bool.false_eq_true, Bool.not_eq_true]
      simpa [hc] using ih lists hrest

set_option maxRecDepth 100000 in
/-- C34 (the code at the failing input): for each of the six prefixes, as soon
as one key of the ledger contains the prefix `GetAllAssetsOfType` returns the
invalid-record-type error, because the cases of its first `switch` are spelled
`cottonBale_`, `cottonYarn_`, ...; `GetAllCottonBales` fails on the ledger that
holds `cottonbale_1`, while `GetAllLots`, whose case is spelled as its caller
spells it, lists the lot of the scenario. -/
theorem typed_listing_fails :
    (∀ (ctx : Ctx) (p : String), p ∈ listedTypes →
      (∃ e ∈ ctx.state, Contains e.1 p = true) →
      GetAllAssetsOfType ctx p = .error (.invalidRecordType p)) ∧
    (GetState ledgerWithBale "cottonbale_1").isSome = true ∧
    GetAllCottonBales ⟨ledgerWithBale, "Org4MSP", 20⟩ =
      .error (.invalidRecordType "cottonbale_") ∧
    (GetAllLots ⟨ledgerWithLot, "Org4MSP", 30⟩).map (fun l => l.map (fun lot => lot.ID)) =
      .ok ["lot_1"] := by
  refine ⟨?_, by decide, by decide, by decide⟩
  intro ctx p hp hex
  unfold GetAllAssetsOfType
  rw [listing_loop_fails p hp ctx.state {} hex]
  rfl

set_option maxRecDepth 100000 in
/-- C35 (counterexample): `CreateCottonBale` invoked by `Org1MSP`, which is not
allowed, returns the invalid-identifier error for an ID with a wrong prefix and
the already-exists error for an existing ID; `SetOrderAcceptance` on a missing
order returns the not-exist error whoever invokes it. -/
theorem CreateCottonBale_checks_prefix_first :
    "Org1MSP" ∉ ["Org4MSP"] ∧
    CreateCottonBale ⟨[], "Org1MSP", 10⟩ true 5 "" "bale_1" false "" "Texas" "A" 50 =
      ⟨some (.idPrefix "bale_1" "cottonbale_"), []⟩ ∧
    CreateCottonBale ⟨ledgerWithBale, "Org1MSP", 20⟩ true 5 "" "cottonbale_1" false ""
      "Texas" "A" 50 = ⟨some (.alreadyExists "cottonbale_1"), ledgerWithBale⟩ ∧
    SetOrderAcceptance ⟨adminLedgerWithPlan, "Org9MSP", 40⟩ "order_9" "plan_1" true =
      ⟨some (.orderNotExist "order_9"), adminLedgerWithPlan⟩ := by
  decide

theorem SPEC_IsNewAsset_of_none (ctx : Ctx) (id : String) (h : GetState ctx.state id = none) :
    SPEC_IsNewAsset ctx id = .ok () := by
  simp [SPEC_IsNewAsset, h]

theorem gate_error (ctx : Ctx) (orgs : List String) (hout : ctx.mspid ∉ orgs) :
    SPEC_IsInvokedByAllowedOrg ctx orgs = .error (.notAllowedOrg ctx.mspid orgs) := by
  simp [SPEC_IsInvokedByAllowedOrg, hout]

theorem gate_third (ctx : Ctx) (id pre : String) (orgs : List String)
    (gate : Except Err Unit) (f : Unit → Except Err Record)
    (hgate : gate = .error (.notAllowedOrg ctx.mspid orgs)) :
    (finish ctx id (SPEC_IDPrefix id pre >>= fun _ => SPEC_IsNewAsset ctx id >>= fun _ =>
      gate >>= f)).err ≠ none ∧
    (finish ctx id (SPEC_IDPrefix id pre >>= fun _ => SPEC_IsNewAsset ctx id >>= fun _ =>
      gate >>= f)).state = ctx.state ∧
    (HasPrefix id pre = true → GetState ctx.state id = none →
      finish ctx id (SPEC_IDPrefix id pre >>= fun _ => SPEC_IsNewAsset ctx id >>= fun _ =>
        gate >>= f) = ⟨some (.notAllowedOrg ctx.mspid orgs), ctx.state⟩) := by
  have key : ∃ e, finish ctx id (SPEC_IDPrefix id pre >>= fun _ =>
      SPEC_IsNewAsset ctx id >>= fun _ => gate >>= f) = ⟨some e, ctx.state⟩ ∧
      (HasPrefix id pre = true → GetState ctx.state id = none →
        e = .notAllowedOrg ctx.mspid orgs) := by
    cases hp : HasPrefix id pre with
    | false =>
      exact ⟨_, finish_of_error _ _ (bind_error_left (SPEC_IDPrefix_of_not id pre hp)),
        fun h => by cases h⟩
    | true =>
      cases hg : GetState ctx.state id with
      | some r =>
        exact ⟨_, finish_of_error _ _ ((bind_ok_left (SPEC_IDPrefix_of_has id pre hp)).trans
          (bind_error_left (SPEC_IsNewAsset_of_some ctx id r hg))), fun _ h => by cases h⟩
      | none =>
        exact ⟨_, finish_of_error _ _ ((bind_ok_left (SPEC_IDPrefix_of_has id pre hp)).trans
          ((bind_ok_left (SPEC_IsNewAsset_of_none ctx id hg)).trans (bind_error_left hgate))),
          fun _ _ => rfl⟩
  obtain ⟨e, hres, he⟩ := key
  rw [hres]
  refine ⟨by simp, rfl, fun h1 h2 => ?_⟩
  rw [he h1 h2]

theorem checkOrg_recognised (ctx : Ctx) (p : String) (hp : p ∈ recognisedTypes) :
    CreateLot.checkOrg ctx p = SPEC_IsInvokedByAllowedOrg ctx (lotAllowSet p) := by
  simp only [recognisedTypes, List.mem_cons, List.mem_singleton, List.not_mem_nil,
    or_false] at hp
  rcases hp with rfl | rfl | rfl | rfl | rfl | rfl | rfl <;>
    simp [CreateLot.checkOrg, lotAllowSet]

theorem unauthorized_fixed_gate (call : Call) (ctx : Ctx) (orgs : List String)
    (hset : call.allowSet = some orgs) (hout : ctx.mspid ∉ orgs) :
    (call.invoke ctx).err ≠ none ∧ (call.invoke ctx).state = ctx.state ∧
    (∀ id pre, call.created = some (id, pre) → HasPrefix id pre = true →
      GetState ctx.state id = none →
      call.invoke ctx = ⟨some (.notAllowedOrg ctx.mspid orgs), ctx.state⟩) ∧
    (call.created = none →
      call.invoke ctx = ⟨some (.notAllowedOrg ctx.mspid orgs), ctx.state⟩) := by
  have hgate := gate_error ctx orgs hout
  cases call with
  | production c =>
    cases c with
    | createLot a p content d e lotID g nts i j tw =>
      simp only [Call.allowSet] at hset
      by_cases hp : p ∈ recognisedTypes
      · rw [if_pos hp] at hset
        cases hset
        have hg2 : CreateLot.checkOrg ctx p =
            .error (.notAllowedOrg ctx.mspid (lotAllowSet p)) :=
          (checkOrg_recognised ctx p hp).trans hgate
        obtain ⟨h1, h2, h3⟩ := gate_third ctx lotID "lot_" (lotAllowSet p)
          (CreateLot.checkOrg ctx p) _ hg2
        refine ⟨h1, h2, ?_, fun hc => by simp [Call.created] at hc⟩
        intro id pre hc
        simp only [Call.created, Option.some.injEq, Prod.mk.injEq] at hc
        obtain ⟨rfl, rfl⟩ := hc
        exact h3
      · rw [if_neg hp] at hset
        cases hset
    | updateLotOwner _ _ => simp [Call.allowSet] at hset
    | setFlag _ _ _ => simp [Call.allowSet] at hset
    | setNotes _ _ => simp [Call.allowSet] at hset
    | createCottonBale a b c id e f g h1 i =>
      simp only [Call.allowSet, Option.some.injEq] at hset
      subst hset
      obtain ⟨h1, h2, h3⟩ := gate_third ctx id "cottonbale_" _ _ _ hgate
      refine ⟨h1, h2, ?_, fun hc => by simp [Call.created] at hc⟩
      intro id2 pre hc
      simp only [Call.created, Option.some.injEq, Prod.mk.injEq] at hc
      obtain ⟨rfl, rfl⟩ := hc
      exact h3
    | createCottonYarn a b content d id f g h1 tw j =>
      simp only [Call.allowSet, Option.some.injEq] at hset
      subst hset
      obtain ⟨h1, h2, h3⟩ := gate_third ctx id "cottonyarn_" _ _ _ hgate
      refine ⟨h1, h2, ?_, fun hc => by simp [Call.created] at hc⟩
      intro id2 pre hc
      simp only [Call.created, Option.some.injEq, Prod.mk.injEq] at hc
      obtain ⟨rfl, rfl⟩ := hc
      exact h3
    | createUnfinishedFabric a b content d id f g h1 i tw k =>
      simp only [Call.allowSet, Option.some.injEq] at hset
      subst hset
      obtain ⟨h1, h2, h3⟩ := gate_third ctx id "unfinishedfabric_" _ _ _ hgate
      refine ⟨h1, h2, ?_, fun hc => by simp [Call.created] at hc⟩
      intro id2 pre hc
      simp only [Call.created, Option.some.injEq, Prod.mk.injEq] at hc
      obtain ⟨rfl, rfl⟩ := hc
      exact h3
    | createFinishedFabric a b content id e f g h1 i tw k =>
      simp only [Call.allowSet, Option.some.injEq] at hset
      subst hset
      obtain ⟨h1, h2, h3⟩ := gate_third ctx id "finishedfabric_" _ _ _ hgate
      refine ⟨h1, h2, ?_, fun hc => by simp [Call.created] at hc⟩
      intro id2 pre hc
      simp only [Call.created, Option.some.injEq, Prod.mk.injEq] at hc
      obtain ⟨rfl, rfl⟩ := hc
      exact h3
    | createCutPart a b content d id f g h1 i tw =>
      simp only [Call.allowSet, Option.some.injEq] at hset
      subst hset
      obtain ⟨h1, h2, h3⟩ := gate_third ctx id "cutpart_" _ _ _ hgate
      refine ⟨h1, h2, ?_, fun hc => by simp [Call.created] at hc⟩
      intro id2 pre hc
      simp only [Call.created, Option.some.injEq, Prod.mk.injEq] at hc
      obtain ⟨rfl, rfl⟩ := hc
      exact h3
    | createButton a b c id e f g h1 =>
      simp only [Call.allowSet, Option.some.injEq] at hset
      subst hset
      obtain ⟨h1, h2, h3⟩ := gate_third ctx id "button_" _ _ _ hgate
      refine ⟨h1, h2, ?_, fun hc => by simp [Call.created] at hc⟩
      intro id2 pre hc
      simp only [Call.created, Option.some.injEq, Prod.mk.injEq] at hc
      obtain ⟨rfl, rfl⟩ := hc
      exact h3
    | createAssembledGarment a b buttons cutParts e id g h1 i tw =>
      simp only [Call.allowSet, Option.some.injEq] at hset
      subst hset
      obtain ⟨h1, h2, h3⟩ := gate_third ctx id "assembledgarment_" _ _ _ hgate
      refine ⟨h1, h2, ?_, fun hc => by simp [Call.created] at hc⟩
      intro id2 pre hc
      simp only [Call.created, Option.some.injEq, Prod.mk.injEq] at hc
      obtain ⟨rfl, rfl⟩ := hc
      exact h3
    | createCarton a b content d e id g h1 i j tw =>
      simp only [Call.allowSet, Option.some.injEq] at hset
      subst hset
      obtain ⟨h1, h2, h3⟩ := gate_third ctx id "carton_" _ _ _ hgate
      refine ⟨h1, h2, ?_, fun hc => by simp [Call.created] at hc⟩
      intro id2 pre hc
      simp only [Call.created, Option.some.injEq, Prod.mk.injEq] at hc
      obtain ⟨rfl, rfl⟩ := hc
      exact h3
    | createContainer content b c id e f g tw i =>
      simp only [Call.allowSet, Option.some.injEq] at hset
      subst hset
      obtain ⟨h1, h2, h3⟩ := gate_third ctx id "container_" _ _ _ hgate
      refine ⟨h1, h2, ?_, fun hc => by simp [Call.created] at hc⟩
      intro id2 pre hc
      simp only [Call.created, Option.some.injEq, Prod.mk.injEq] at hc
      obtain ⟨rfl, rfl⟩ := hc
      exact h3
  | admin c =>
    cases c with
    | setOrderStatus orderID newStatus =>
      simp only [Call.allowSet, Option.some.injEq] at hset
      subst hset
      have hres : SetOrderStatus ctx orderID newStatus =
          ⟨some (.notAllowedOrg ctx.mspid ["Org1MSP", "Org2MSP"]), ctx.state⟩ :=
        finish_of_error _ _ (bind_error_left hgate)
      exact ⟨by rw [show (Call.admin (.setOrderStatus orderID newStatus)).invoke ctx =
          SetOrderStatus ctx orderID newStatus from rfl, hres]; simp,
        by rw [show (Call.admin (.setOrderStatus orderID newStatus)).invoke ctx =
          SetOrderStatus ctx orderID newStatus from rfl, hres],
        fun id pre hc => by simp [Call.created] at hc, fun _ => hres⟩
    | setPlanApproval planID approval =>
      simp only [Call.allowSet, Option.some.injEq] at hset
      subst hset
      have hres : SetPlanApproval ctx planID approval =
          ⟨some (.notAllowedOrg ctx.mspid ["Org1MSP", "Org3MSP"]), ctx.state⟩ :=
        finish_of_error _ _ (bind_error_left hgate)
      exact ⟨by rw [show (Call.admin (.setPlanApproval planID approval)).invoke ctx =
          SetPlanApproval ctx planID approval from rfl, hres]; simp,
        by rw [show (Call.admin (.setPlanApproval planID approval)).invoke ctx =
          SetPlanApproval ctx planID approval from rfl, hres],
        fun id pre hc => by simp [Call.created] at hc, fun _ => hres⟩
    | setFactoryApproval factoryID approval =>
      simp only [Call.allowSet, Option.some.injEq] at hset
      subst hset
      have hres : SetFactoryApproval ctx factoryID approval =
          ⟨some (.notAllowedOrg ctx.mspid ["Org1MSP", "Org3MSP"]), ctx.state⟩ :=
        finish_of_error _ _ (bind_error_left hgate)
      exact ⟨by rw [show (Call.admin (.setFactoryApproval factoryID approval)).invoke ctx =
          SetFactoryApproval ctx factoryID approval from rfl, hres]; simp,
        by rw [show (Call.admin (.setFactoryApproval factoryID approval)).invoke ctx =
          SetFactoryApproval ctx factoryID approval from rfl, hres],
        fun id pre hc => by simp [Call.created] at hc, fun _ => hres⟩
    | createOrder _ _ _ _ _ _ _ _ _ _ => simp [Call.allowSet] at hset
    | createPlan _ _ _ _ _ _ _ _ => simp [Call.allowSet] at hset
    | createFactory _ _ _ _ _ _ _ _ _ => simp [Call.allowSet] at hset
    | setOrderAcceptance _ _ _ => simp [Call.allowSet] at hset
    | setPlanStatus _ => simp [Call.allowSet] at hset
    | setFactoryStatus _ => simp [Call.allowSet] at hset
    | setFlag _ _ _ => simp [Call.allowSet] at hset
    | setNotes _ _ => simp [Call.allowSet] at hset

/-- C35 (amended): an invocation gated by an allow-set fails and writes nothing
for every invoker outside the set, whatever the other arguments and the ledger
are; the error is the not-allowed-organization one when the invocation is not a
Create, and for a Create when the ID has the prefix of its type and is not yet a
key (the prefix and the existence checks run first); `SetOrderAcceptance` on a
stored order returns it for every invoker other than the order's receiver. -/
theorem unauthorized_invoker_fails :
    (∀ (call : Call) (ctx : Ctx) (orgs : List String), call.allowSet = some orgs →
      ctx.mspid ∉ orgs →
      (call.invoke ctx).err ≠ none ∧ (call.invoke ctx).state = ctx.state ∧
      (∀ id pre, call.created = some (id, pre) → HasPrefix id pre = true →
        GetState ctx.state id = none →
        call.invoke ctx = ⟨some (.notAllowedOrg ctx.mspid orgs), ctx.state⟩) ∧
      (call.created = none →
        call.invoke ctx = ⟨some (.notAllowedOrg ctx.mspid orgs), ctx.state⟩)) ∧
    (∀ (ctx : Ctx) (orderID planID : String) (acceptance : Bool) (orderJSON : Record)
      (order : Order), GetState ctx.state orderID = some orderJSON →
      UnmarshalOrder orderJSON = .ok order → ctx.mspid ≠ order.ReceiverID →
      SetOrderAcceptance ctx orderID planID acceptance =
        ⟨some (.notAllowedOrg ctx.mspid [order.ReceiverID]), ctx.state⟩) := by
  refine ⟨unauthorized_fixed_gate, ?_⟩
  intro ctx orderID planID acceptance orderJSON order hg hd hne
  unfold SetOrderAcceptance
  simp [hg, hd, SPEC_IsInvokedByAllowedOrg, hne, finish, bind, Except.bind]

theorem checkLotAssetType_loop_ok (lotID pre : String) : ∀ l : List String,
    SPEC_CheckLotAssetType.loop lotID pre l = .ok () → ∀ c ∈ l, HasPrefix c pre = true := by
  intro l
  induction l with
  | nil => intro _ c hc; exact absurd hc (List.not_mem_nil _)
  | cons a rest ih =>
    intro h c hc
    unfold SPEC_CheckLotAssetType.loop at h
    cases ha : HasPrefix a pre with
    | false => simp [ha] at h
    | true =>
      simp only [ha, Bool.not_true, Bool.false_eq_true, if_false] at h
      rcases List.mem_cons.mp hc with rfl | hmem
      · exact ha
      · exact ih h c hmem

theorem SPEC_CheckLotAssetType_ok {ctx : Ctx} {lotID pre : String}
    (h : SPEC_CheckLotAssetType ctx lotID pre = .ok ()) :
    ∃ r l, GetState ctx.state lotID = some r ∧ r.get "Content" = some (.strs l) ∧
      ∀ c ∈ l, HasPrefix c pre = true := by
  unfold SPEC_CheckLotAssetType at h
  cases hg : GetState ctx.state lotID with
  | none => simp [hg] at h
  | some r =>
    simp only [hg] at h
    split at h
    · rename_i l hl
      exact ⟨r, l, rfl, hl, checkLotAssetType_loop_ok lotID pre l h⟩
    · cases h

set_option maxRecDepth 100000 in
/-- C36 (the code at the failing input): in a reachable state `cottonyarn_1`
is a cotton yarn, not a lot, and its own `Content` is empty; `CreateCottonYarn`
with the content `cottonyarn_1` succeeds and stores a yarn whose `Content` is
`cottonyarn_1`, while `CreateLot`, which passes its content to
`SPEC_LotConsistency`, rejects the same ID for its prefix. -/
theorem CreateCottonYarn_accepts_non_lot :
    ProductionReachable ledgerWithEmptyYarn ∧
    HasPrefix "cottonyarn_1" "lot_" = false ∧
    (GetState ledgerWithEmptyYarn "cottonyarn_1").map Record.content = some [] ∧
    (CreateCottonYarn ⟨ledgerWithEmptyYarn, "Org4MSP", 20⟩ true 15 (some ["cottonyarn_1"]) ""
      "cottonyarn_2" false "" "Texas" 0 30).err = none ∧
    (GetState (CreateCottonYarn ⟨ledgerWithEmptyYarn, "Org4MSP", 20⟩ true 15
      (some ["cottonyarn_1"]) "" "cottonyarn_2" false "" "Texas" 0 30).state
      "cottonyarn_2").map Record.content = some ["cottonyarn_1"] ∧
    (CreateLot ⟨ledgerWithEmptyYarn, "Org4MSP", 20⟩ 15 "cottonbale_" (some ["cottonyarn_1"])
      "Mill" "" "lot_1" false "" "Texas" "Org4MSP" 0).err =
      some (.wrongPrefix "cottonyarn_1" "cottonbale_") := by
  refine ⟨?_, by decide, by decide, by decide, by decide, by decide⟩
  exact ProductionReachable.step _ "Org4MSP" 10
    (.createCottonYarn true 5 (some []) "" "cottonyarn_1" false "" "Texas" 0 30)
    ProductionReachable.empty

/-- The check the lot consumers do make (`SPEC_CheckLotAssetType`): in every
ledger state, `CreateCottonYarn` succeeds only if
every element of its content list is the key of a record whose `Content` member
is an array of IDs that all start with `cottonbale_`; likewise
`CreateUnfinishedFabric`, `CreateFinishedFabric` and `CreateCutPart` with
`cottonyarn_`, `unfinishedfabric_` and `finishedfabric_`. -/
theorem lot_consumers_check_content :
    (∀ (ctx : Ctx) (approval : Bool) (assemblyDate : Time) (content : Slice)
      (flagReason cottonYarnID : String) (isFlagged : Bool) (notes origin : String)
      (totalWeight : F32) (yarnCount : Int),
      (CreateCottonYarn ctx approval assemblyDate content flagReason cottonYarnID isFlagged
        notes origin totalWeight yarnCount).err = none →
      ∀ id ∈ content.elems, ∃ r l, GetState ctx.state id = some r ∧
        r.get "Content" = some (.strs l) ∧ ∀ c ∈ l, HasPrefix c "cottonbale_" = true) ∧
    (∀ (ctx : Ctx) (approval : Bool) (assemblyDate : Time) (content : Slice)
      (flagReason unfinishedFabricID : String) (isFlagged : Bool) (notes origin : String)
      (length totalWeight width : F32),
      (CreateUnfinishedFabric ctx approval assemblyDate content flagReason unfinishedFabricID
        isFlagged notes origin length totalWeight width).err = none →
      ∀ id ∈ content.elems, ∃ r l, GetState ctx.state id = some r ∧
        r.get "Content" = some (.strs l) ∧ ∀ c ∈ l, HasPrefix c "cottonyarn_" = true) ∧
    (∀ (ctx : Ctx) (approval : Bool) (assemblyDate : Time) (content : Slice)
      (finishedFabricID flagReason : String) (isFlagged : Bool) (length : F32)
      (notes origin : String) (totalWeight width : F32),
      (CreateFinishedFabric ctx approval assemblyDate content finishedFabricID flagReason
        isFlagged length notes origin totalWeight width).err = none →
      ∀ id ∈ content.elems, ∃ r l, GetState ctx.state id = some r ∧
        r.get "Content" = some (.strs l) ∧ ∀ c ∈ l, HasPrefix c "unfinishedfabric_" = true) ∧
    (∀ (ctx : Ctx) (approval : Bool) (assemblyDate : Time) (content : Slice)
      (flagReason cutPartID : String) (isFlagged : Bool) (notes origin patternPiece : String)
      (totalWeight : F32),
      (CreateCutPart ctx approval assemblyDate content flagReason cutPartID isFlagged notes
        origin patternPiece totalWeight).err = none →
      ∀ id ∈ content.elems, ∃ r l, GetState ctx.state id = some r ∧
        r.get "Content" = some (.strs l) ∧ ∀ c ∈ l, HasPrefix c "finishedfabric_" = true) := by
  refine ⟨?_, ?_, ?_, ?_⟩
  · intro ctx approval assemblyDate content flagReason cottonYarnID isFlagged notes origin
      totalWeight yarnCount h id hid
    obtain ⟨v, hv⟩ := finish_err_none _ _ _ h
    simp only [bind_eq_ok] at hv
    obtain ⟨_, _, _, _, _, _, _, _, _, _, _, h6, _⟩ := hv
    exact SPEC_CheckLotAssetType_ok ((forEach_ok _ _).mp h6 id hid)
  · intro ctx approval assemblyDate content flagReason unfinishedFabricID isFlagged notes
      origin length totalWeight width h id hid
    obtain ⟨v, hv⟩ := finish_err_none _ _ _ h
    simp only [bind_eq_ok] at hv
    obtain ⟨_, _, _, _, _, _, _, _, _, _, _, h6, _⟩ := hv
    exact SPEC_CheckLotAssetType_ok ((forEach_ok _ _).mp h6 id hid)
  · intro ctx approval assemblyDate content finishedFabricID flagReason isFlagged length
      notes origin totalWeight width h id hid
    obtain ⟨v, hv⟩ := finish_err_none _ _ _ h
    simp only [bind_eq_ok] at hv
    obtain ⟨_, _, _, _, _, _, _, _, _, _, _, h6, _⟩ := hv
    exact SPEC_CheckLotAssetType_ok ((forEach_ok _ _).mp h6 id hid)
  · intro ctx approval assemblyDate content flagReason cutPartID isFlagged notes origin
      patternPiece totalWeight h id hid
    obtain ⟨v, hv⟩ := finish_err_none _ _ _ h
    simp only [bind_eq_ok] at hv
    obtain ⟨_, _, _, _, _, _, _, _, _, _, _, h6, _⟩ := hv
    exact SPEC_CheckLotAssetType_ok ((forEach_ok _ _).mp h6 id hid)

/-! ## Lot contents in reachable production states -/

theorem nodup_of_SPEC_NoDuplicateAssetInThisLot {content : Slice}
    (h : SPEC_NoDuplicateAssetInThisLot content = .ok ()) : content.elems.Nodup :=
  ((noDuplicate_loop_ok content.elems []).mp h).1

theorem lot_content_step {ctx : Ctx} {call : ProductionCall}
    (h : (call.invoke ctx).err = none) :
    ∃ key v, call.invoke ctx = ⟨none, PutState ctx.state key v⟩ ∧
      (HasPrefix key "lot_" = false ∨ v.content.Nodup ∨
       ∃ r0, GetState ctx.state key = some r0 ∧ v.get "Content" = r0.get "Content") := by
  cases hcr : (Call.production call).created with
  | some created =>
    obtain ⟨id, pre⟩ := created
    cases call with
    | createLot a b content d e lotID g nts i j tw =>
      obtain ⟨cw, _, _, _, _, _, h6, _, _, _, _, _, hres⟩ :=
        @CreateLot_success ctx a b content d e lotID g nts i j tw h
      refine ⟨lotID, _, hres, Or.inr (Or.inl ?_)⟩
      have hc : (Lot.toJSON
          { AllAssetsApproved := true, AssemblyDate := a, AssetIDPrefix := b, Content := content,
            ContentWeight := cw, CreatorID := ctx.mspid, Destination := d, FlagReason := e,
            ID := lotID, IsFlagged := g, Notes := nts, Origin := i, Owner := ctx.mspid,
            PreviousOwner := "Updated when ownership changes",
            Quantity := content.elems.length, TotalWeight := tw, UpdatedAt := ctx.now,
            WeightDifference := GetPercentageDifference cw tw }).content = content.elems := by
        cases content <;> rfl
      rw [hc]
      exact nodup_of_SPEC_NoDuplicateAssetInThisLot h6
    | updateLotOwner _ _ => cases hcr
    | setFlag _ _ _ => cases hcr
    | setNotes _ _ => cases hcr
    | _ =>
      all_goals
        obtain ⟨v, hres, hpre, _⟩ := @created_step ctx (.production _) id pre hcr h
        simp only [Call.created, Option.some.injEq, Prod.mk.injEq] at hcr
        obtain ⟨rfl, rfl⟩ := hcr
        exact ⟨_, v, hres, Or.inl <| not_lot_of_prefix hpre rfl (by decide)⟩
  | none =>
    cases call with
    | updateLotOwner lotID newOwner =>
      obtain ⟨r0, hg, hres⟩ := UpdateLotOwner_success h
      refine ⟨lotID, _, hres, Or.inr (Or.inr ⟨r0, hg, ?_⟩)⟩
      rw [get_set_other _ _ _ _ (by decide), get_set_other _ _ _ _ (by decide),
        get_set_other _ _ _ _ (by decide)]
    | setFlag id isFlagged flagReason =>
      obtain ⟨r0, hg, _, hres⟩ := SetFlag_success h
      refine ⟨id, _, hres, Or.inr (Or.inr ⟨r0, hg, ?_⟩)⟩
      rw [get_set_other _ _ _ _ (by decide), get_set_other _ _ _ _ (by decide),
        get_set_other _ _ _ _ (by decide)]
    | setNotes id notes =>
      obtain ⟨r0, hg, hres⟩ := SetNotes_success h
      refine ⟨id, _, hres, Or.inr (Or.inr ⟨r0, hg, ?_⟩)⟩
      rw [get_set_other _ _ _ _ (by decide), get_set_other _ _ _ _ (by decide)]
    | _ => all_goals cases hcr

theorem lot_content_nodup (st : Ledger) (h : ProductionReachable st) :
    ∀ k r, (k, r) ∈ st → HasPrefix k "lot_" = true → r.content.Nodup := by
  induction h with
  | empty => exact fun k r h => absurd h (List.not_mem_nil _)
  | step st mspid now call _ ih =>
    by_cases herr : (call.invoke ⟨st, mspid, now⟩).err = none
    · obtain ⟨key, v, hres, hshape⟩ := lot_content_step herr
      rw [hres]
      intro k r hmem hp
      rcases mem_putEntry_cases key v (k, r) st hmem with heq | hold
      · obtain ⟨rfl, rfl⟩ := Prod.mk.inj heq
        rcases hshape with hnl | hnd | ⟨r0, hget, hcontent⟩
        · rw [hp] at hnl; cases hnl
        · exact hnd
        · rw [content_congr hcontent]
          exact ih k r0 (mem_of_lookup k r0 st hget) hp
      · exact ih k r hold hp
    · rw [production_failed_state herr]
      exact ih

/-- C37: in every world state reachable from the empty ledger by
production-channel invocations, every record carries its key as `ID`, any two
records stored under different keys that start with `lot_` have disjoint
`Content` lists, and no record stored under a key that starts with `lot_` has
the same ID twice in its `Content` list. -/
theorem lots_disjoint_and_duplicate_free (st : Ledger) (h : ProductionReachable st) :
    (∀ k r, (k, r) ∈ st → r.get "ID" = some (.str k)) ∧
    (∀ k1 r1 k2 r2, (k1, r1) ∈ st → (k2, r2) ∈ st → k1 ≠ k2 →
      HasPrefix k1 "lot_" = true → HasPrefix k2 "lot_" = true →
      ∀ c ∈ r1.content, c ∉ r2.content) ∧
    (∀ k r, (k, r) ∈ st → HasPrefix k "lot_" = true → r.content.Nodup) :=
  ⟨(production_invariant st h).1, (production_invariant st h).2, lot_content_nodup st h⟩

/-! ## Approved records in reachable admin states -/

theorem get_of_fieldString {r : Record} {k s : String} (h : fieldString r k = .ok s)
    (hs : s ≠ "") : r.get k = some (.str s) := by
  unfold fieldString at h
  split at h
  · cases h; exact absurd rfl hs
  · cases h; exact absurd rfl hs
  · rename_i t ht; cases h; exact ht
  · cases h

theorem get_of_fieldBool {r : Record} {k : String} (h : fieldBool r k = .ok true) :
    r.get k = some (.bool true) := by
  unfold fieldBool at h
  split at h
  · cases h
  · cases h
  · rename_i b hb; cases h; exact hb
  · cases h

theorem invoker_allowed {ctx : Ctx} {l : List String}
    (h : SPEC_IsInvokedByAllowedOrg ctx l = .ok ()) : ctx.mspid ∈ l := by
  unfold SPEC_IsInvokedByAllowedOrg at h
  by_cases hm : ctx.mspid ∈ l
  · exact hm
  · rw [if_neg hm] at h; cases h

theorem UnmarshalOrder_receiver {r : Record} {o : Order} (h : UnmarshalOrder r = .ok o) :
    fieldString r "ReceiverID" = .ok o.ReceiverID := by
  unfold UnmarshalOrder at h
  simp only [bind_eq_ok, pure_eq_ok] at h
  obtain ⟨_, _, _, _, _, _, _, _, _, _, _, _, _, _, _, _, _, _, _, _, _, _, _, h12, _, _,
    _, _, _, _, rfl⟩ := h
  exact h12

theorem UnmarshalPlan_approvals {r : Record} {p : Plan} (h : UnmarshalPlan r = .ok p) :
    fieldBool r "AllFactoriesApproved" = .ok p.AllFactoriesApproved ∧
    fieldBool r "IsAuditorApproved" = .ok p.IsAuditorApproved ∧
    fieldBool r "IsRetailerApproved" = .ok p.IsRetailerApproved := by
  unfold UnmarshalPlan at h
  simp only [bind_eq_ok, pure_eq_ok] at h
  obtain ⟨_, h1, _, _, _, _, _, _, _, _, _, _, _, h7, _, _, _, h9, _, _, _, _, _, _, _, _,
    _, _, rfl⟩ := h
  exact ⟨h1, h7, h9⟩

theorem UnmarshalFactory_approvals {r : Record} {f : Factory}
    (h : UnmarshalFactory r = .ok f) :
    fieldBool r "IsAuditorApproved" = .ok f.IsAuditorApproved ∧
    fieldBool r "IsRetailerApproved" = .ok f.IsRetailerApproved := by
  unfold UnmarshalFactory at h
  simp only [bind_eq_ok, pure_eq_ok] at h
  obtain ⟨_, _, _, _, _, _, _, h4, _, _, _, h6, _, _, _, _, _, _, _, _, _, _, _, _,
    _, _, rfl⟩ := h
  exact ⟨h4, h6⟩

theorem SetOrderAcceptance_invoker {ctx : Ctx} {orderID planID : String} {acceptance : Bool}
    (h : (SetOrderAcceptance ctx orderID planID acceptance).err = none) :
    ∃ r0 o, GetState ctx.state orderID = some r0 ∧ UnmarshalOrder r0 = .ok o ∧
      ctx.mspid = o.ReceiverID ∧
      SetOrderAcceptance ctx orderID planID acceptance =
        ⟨none, PutState ctx.state orderID
          ({ o with PlanID := planID, IsAccepted := acceptance, UpdatedAt := ctx.now } :
            Order).toJSON⟩ := by
  unfold SetOrderAcceptance at h ⊢
  obtain ⟨v, hv⟩ := finish_err_none _ _ _ h
  rw [finish_of_ok _ _ hv]
  cases hg : GetState ctx.state orderID with
  | none => rw [hg] at hv; cases hv
  | some r0 =>
    cases hu : UnmarshalOrder r0 with
    | error e => simp only [hg, hu] at hv; cases hv
    | ok o =>
      simp only [hg, hu, bind_eq_ok] at hv
      obtain ⟨_, hauth, _, _, _, _, hm⟩ := hv
      have := marshal_wrap_ok hm
      subst this
      have hin := invoker_allowed hauth
      exact ⟨r0, o, rfl, hu, List.mem_singleton.mp hin, rfl⟩

theorem SetPlanStatus_ready {ctx : Ctx} {planID : String}
    (h : (SetPlanStatus ctx planID).err = none) :
    ∃ r0 p, GetState ctx.state planID = some r0 ∧ UnmarshalPlan r0 = .ok p ∧
      p.IsAuditorApproved = true ∧ p.IsRetailerApproved = true ∧
      SetPlanStatus ctx planID =
        ⟨none, PutState ctx.state planID
          ({ p with AllFactoriesApproved := true, Status := "approved",
                    UpdatedAt := ctx.now } : Plan).toJSON⟩ := by
  unfold SetPlanStatus at h ⊢
  obtain ⟨v, hv⟩ := finish_err_none _ _ _ h
  rw [finish_of_ok _ _ hv]
  cases hg : GetState ctx.state planID with
  | none => rw [hg] at hv; cases hv
  | some r0 =>
    cases hu : UnmarshalPlan r0 with
    | error e => simp only [hg, hu] at hv; cases hv
    | ok p =>
      simp only [hg, hu, bind_eq_ok] at hv
      obtain ⟨all, _, _, hready, hm⟩ := hv
      have := marshal_wrap_ok hm
      subst this
      have hr := (loop_ok_iff _ 0).mp hready
      have h1 : all = true := hr _ (List.mem_cons_self _ _)
      have h2 : p.IsAuditorApproved = true :=
        hr _ (List.mem_cons_of_mem _ (List.mem_cons_self _ _))
      have h3 : p.IsRetailerApproved = true :=
        hr _ (List.mem_cons_of_mem _ (List.mem_cons_of_mem _ (List.mem_cons_self _ _)))
      subst h1
      exact ⟨r0, p, rfl, hu, h2, h3, rfl⟩

theorem SetFactoryStatus_ready {ctx : Ctx} {factoryID : String}
    (h : (SetFactoryStatus ctx factoryID).err = none) :
    ∃ r0 f, GetState ctx.state factoryID = some r0 ∧ UnmarshalFactory r0 = .ok f ∧
      f.IsAuditorApproved = true ∧ f.IsRetailerApproved = true ∧
      SetFactoryStatus ctx factoryID =
        ⟨none, PutState ctx.state factoryID
          ({ f with Status := "approved", UpdatedAt := ctx.now } : Factory).toJSON⟩ := by
  unfold SetFactoryStatus at h ⊢
  obtain ⟨v, hv⟩ := finish_err_none _ _ _ h
  rw [finish_of_ok _ _ hv]
  cases hg : GetState ctx.state factoryID with
  | none => rw [hg] at hv; cases hv
  | some r0 =>
    cases hu : UnmarshalFactory r0 with
    | error e => simp only [hg, hu] at hv; cases hv
    | ok f =>
      simp only [hg, hu, bind_eq_ok] at hv
      obtain ⟨_, hready, hm⟩ := hv
      simp only [Factory_marshal, pure, Except.pure, Except.ok.injEq] at hm
      subst hm
      have hr := (loop_ok_iff _ 0).mp hready
      have h2 : f.IsAuditorApproved = true := hr _ (List.mem_cons_self _ _)
      have h3 : f.IsRetailerApproved = true :=
        hr _ (List.mem_cons_of_mem _ (List.mem_cons_self _ _))
      exact ⟨r0, f, rfl, hu, h2, h3, rfl⟩

theorem not_plan_of_reserved {id p : String} (hp : p ∈ reservedPrefixes) (hne : p ≠ "plan_")
    (h : HasPrefix id p = true) : HasPrefix id "plan_" = false := by
  cases hl : HasPrefix id "plan_" with
  | false => rfl
  | true => exact absurd (reserved_prefix_unique hp (by decide) h hl) hne

theorem approved_of_field {r : Record} {s : String} (h : fieldString r "Status" = .ok s)
    (hs : (some (JVal.str s) : Option JVal) = some (.str "approved")) :
    r.get "Status" = some (.str "approved") := by
  have : s = "approved" := by injection hs with h1; injection h1
  subst this
  exact get_of_fieldString h (by decide)

theorem true_of_field {r : Record} {k : String} {b : Bool} (h : fieldBool r k = .ok b)
    (hr : r.get k = some (.bool true)) : b = true := by
  rw [fieldBool_of_get hr] at h
  injection h with h1
  exact h1.symm

theorem approval_step (c : AdminCall) (ctx : Ctx) (h : (c.invoke ctx).err = none) :
    ∃ key v, c.invoke ctx = ⟨none, PutState ctx.state key v⟩ ∧
      (v.get "Status" ≠ some (.str "approved") ∨
       (v.get "ReceiverID" = none ∧ v.get "IsRetailerApproved" = some (.bool true) ∧
         v.get "IsAuditorApproved" = some (.bool true) ∧
         (c.onOwnType = true → HasPrefix key "plan_" = true →
           v.get "AllFactoriesApproved" = some (.bool true))) ∨
       (∃ r0, GetState ctx.state key = some r0 ∧
         (v.get "Status" = some (.str "approved") →
           r0.get "Status" = some (.str "approved")) ∧
         ((v.get "ReceiverID").isSome = true → (r0.get "ReceiverID").isSome = true) ∧
         (r0.get "IsRetailerApproved" = some (.bool true) →
           v.get "IsRetailerApproved" = some (.bool true)) ∧
         (r0.get "IsAuditorApproved" = some (.bool true) →
           v.get "IsAuditorApproved" = some (.bool true)) ∧
         (c.onOwnType = true → HasPrefix key "plan_" = true →
           r0.get "AllFactoriesApproved" = some (.bool true) →
           v.get "AllFactoriesApproved" = some (.bool true))) ∨
       (∃ r0, GetState ctx.state key = some r0 ∧
         (ctx.mspid ≠ "" → (r0.get "ReceiverID").isSome = true) ∧
         (v.get "Status" = some (.str "approved") →
           r0.get "Status" = some (.str "approved")) ∧
         (c.onOwnType = true → HasPrefix key "plan_" = false))) := by
  cases c with
  | createOrder a b c1 id e f g h1 i j =>
    obtain ⟨v, hres, _, _, _, _, _, _, _, _, hst⟩ :=
      @created_step ctx (.admin (.createOrder a b c1 id e f g h1 i j)) id "order_" rfl h
    exact ⟨id, v, hres, Or.inl (by simp [hst])⟩
  | createPlan a b c1 id e f g h1 =>
    obtain ⟨v, hres, _, _, _, _, _, _, _, _, hst⟩ :=
      @created_step ctx (.admin (.createPlan a b c1 id e f g h1)) id "plan_" rfl h
    exact ⟨id, v, hres, Or.inl (by simp [hst])⟩
  | createFactory a b id d e f g h1 i =>
    obtain ⟨v, hres, _, _, _, _, _, _, _, _, hst⟩ :=
      @created_step ctx (.admin (.createFactory a b id d e f g h1 i)) id "factory_" rfl h
    exact ⟨id, v, hres, Or.inl (by simp [hst])⟩
  | setOrderAcceptance orderID planID acceptance =>
    obtain ⟨r0, o, hg, hu, hinv, hres⟩ := SetOrderAcceptance_invoker h
    refine ⟨orderID, _, hres, Or.inr (Or.inr (Or.inr ⟨r0, hg, ?_, ?_, ?_⟩))⟩
    · intro hne
      have hrec := UnmarshalOrder_receiver hu
      rw [← hinv] at hrec
      rw [get_of_fieldString hrec hne]
      rfl
    · intro hv
      exact approved_of_field (UnmarshalOrder_fields hu).2.2.2.2 hv
    · intro hown
      exact not_plan_of_reserved (by decide) (by decide) hown
  | setOrderStatus orderID newStatus =>
    obtain ⟨r0, o, hg, hu, hmem, hres⟩ := SetOrderStatus_success h
    refine ⟨orderID, _, hres, Or.inl ?_⟩
    intro hv
    have hs : newStatus = "approved" := by injection hv with h1; injection h1
    subst hs
    revert hmem
    decide
  | setPlanApproval planID approval =>
    obtain ⟨r0, p, hg, hu, hres⟩ := SetPlanApproval_success h
    obtain ⟨ha, hb, hc⟩ := UnmarshalPlan_approvals hu
    refine ⟨planID, _, hres, Or.inr (Or.inr (Or.inl ⟨r0, hg, ?_, ?_, ?_, ?_, ?_⟩))⟩
    · intro hv
      exact approved_of_field (UnmarshalPlan_fields hu).2.2.2.2 hv
    · intro hv; cases hv
    · intro hr
      have := true_of_field hc hr
      show some (JVal.bool (p.IsRetailerApproved || _)) = _
      rw [this]; rfl
    · intro hr
      have := true_of_field hb hr
      show some (JVal.bool (p.IsAuditorApproved || _)) = _
      rw [this]; rfl
    · intro _ _ hr
      have := true_of_field ha hr
      show some (JVal.bool p.AllFactoriesApproved) = _
      rw [this]
  | setPlanStatus planID =>
    obtain ⟨r0, p, hg, hu, h2, h3, hres⟩ := SetPlanStatus_ready h
    refine ⟨planID, _, hres, Or.inr (Or.inl ⟨rfl, ?_, ?_, fun _ _ => rfl⟩)⟩
    · show some (JVal.bool p.IsRetailerApproved) = _
      rw [h3]
    · show some (JVal.bool p.IsAuditorApproved) = _
      rw [h2]
  | setFactoryApproval factoryID approval =>
    obtain ⟨r0, f, hg, hu, hres⟩ := SetFactoryApproval_success h
    obtain ⟨hb, hc⟩ := UnmarshalFactory_approvals hu
    refine ⟨factoryID, _, hres, Or.inr (Or.inr (Or.inl ⟨r0, hg, ?_, ?_, ?_, ?_, ?_⟩))⟩
    · intro hv
      exact approved_of_field (UnmarshalFactory_fields hu).2.2.2 hv
    · intro hv; cases hv
    · intro hr
      have := true_of_field hc hr
      show some (JVal.bool (f.IsRetailerApproved || _)) = _
      rw [this]; rfl
    · intro hr
      have := true_of_field hb hr
      show some (JVal.bool (f.IsAuditorApproved || _)) = _
      rw [this]; rfl
    · intro hown hp
      have hnp : HasPrefix factoryID "plan_" = false :=
        not_plan_of_reserved (by decide) (by decide) hown
      rw [hp] at hnp; cases hnp
  | setFactoryStatus factoryID =>
    obtain ⟨r0, f, hg, hu, h2, h3, hres⟩ := SetFactoryStatus_ready h
    refine ⟨factoryID, _, hres, Or.inr (Or.inl ⟨rfl, ?_, ?_, ?_⟩)⟩
    · show some (JVal.bool f.IsRetailerApproved) = _
      rw [h3]
    · show some (JVal.bool f.IsAuditorApproved) = _
      rw [h2]
    · intro hown hp
      have hnp : HasPrefix factoryID "plan_" = false :=
        not_plan_of_reserved (by decide) (by decide) hown
      rw [hp] at hnp; cases hnp
  | setFlag id isFlagged flagReason =>
    obtain ⟨r0, hg, _, hres⟩ := SetFlag_success h
    have hk : ∀ k : String, k ≠ "IsFlagged" → k ≠ "FlagReason" → k ≠ "UpdatedAt" →
        ((((r0.set "IsFlagged" (.bool isFlagged)).set "FlagReason" (.str flagReason)).set
          "UpdatedAt" (.time ctx.now)).get k) = r0.get k := by
      intro k h1 h2 h3
      rw [get_set_other _ _ _ _ h3, get_set_other _ _ _ _ h2, get_set_other _ _ _ _ h1]
    refine ⟨id, _, hres, Or.inr (Or.inr (Or.inl ⟨r0, hg, ?_, ?_, ?_, ?_, ?_⟩))⟩
    · rw [hk _ (by decide) (by decide) (by decide)]; exact fun hx => hx
    · rw [hk _ (by decide) (by decide) (by decide)]; exact fun hx => hx
    · rw [hk _ (by decide) (by decide) (by decide)]; exact fun hx => hx
    · rw [hk _ (by decide) (by decide) (by decide)]; exact fun hx => hx
    · rw [hk _ (by decide) (by decide) (by decide)]; exact fun _ _ hr => hr
  | setNotes id notes =>
    obtain ⟨r0, hg, hres⟩ := SetNotes_success h
    have hk : ∀ k : String, k ≠ "Notes" → k ≠ "UpdatedAt" →
        (((r0.set "Notes" (.str notes)).set "UpdatedAt" (.time ctx.now)).get k) =
          r0.get k := by
      intro k h1 h2
      rw [get_set_other _ _ _ _ h2, get_set_other _ _ _ _ h1]
    refine ⟨id, _, hres, Or.inr (Or.inr (Or.inl ⟨r0, hg, ?_, ?_, ?_, ?_, ?_⟩))⟩
    · rw [hk _ (by decide) (by decide)]; exact fun hx => hx
    · rw [hk _ (by decide) (by decide)]; exact fun hx => hx
    · rw [hk _ (by decide) (by decide)]; exact fun hx => hx
    · rw [hk _ (by decide) (by decide)]; exact fun hx => hx
    · rw [hk _ (by decide) (by decide)]; exact fun _ _ hr => hr

theorem admin_failed_state {ctx : Ctx} {c : AdminCall} (h : (c.invoke ctx).err ≠ none) :
    (c.invoke ctx).state = ctx.state :=
  @call_failed_state ctx (.admin c) h

theorem approvals_invariant (st : Ledger) (h : AdminReachableByMembers st) :
    (∀ k r, (k, r) ∈ st → r.get "Status" = some (.str "approved") →
      r.get "IsRetailerApproved" = some (.bool true) ∧
      r.get "IsAuditorApproved" = some (.bool true)) ∧
    (∀ k r, (k, r) ∈ st → (r.get "ReceiverID").isSome = true →
      r.get "Status" ≠ some (.str "approved")) := by
  induction h with
  | empty =>
    exact ⟨fun k r h => absurd h (List.not_mem_nil _),
      fun k r h => absurd h (List.not_mem_nil _)⟩
  | step st mspid now call hm _ ih =>
    obtain ⟨hI, hK⟩ := ih
    by_cases herr : (call.invoke ⟨st, mspid, now⟩).err = none
    · obtain ⟨key, v, hres, hshape⟩ := approval_step call ⟨st, mspid, now⟩ herr
      rw [hres]
      simp only
      have hv : (v.get "Status" = some (.str "approved") →
            v.get "IsRetailerApproved" = some (.bool true) ∧
            v.get "IsAuditorApproved" = some (.bool true)) ∧
          ((v.get "ReceiverID").isSome = true →
            v.get "Status" ≠ some (.str "approved")) := by
        rcases hshape with hne | ⟨hrec, hr, ha, _⟩ | ⟨r0, hg, hst, hrc, hr, ha, _⟩ |
          ⟨r0, hg, hrc, hst, _⟩
        · exact ⟨fun h => absurd h hne, fun _ => hne⟩
        · refine ⟨fun _ => ⟨hr, ha⟩, fun h => ?_⟩
          rw [hrec] at h; cases h
        · have hmem := mem_of_lookup key r0 st hg
          refine ⟨fun h => ?_, fun h hs => ?_⟩
          · obtain ⟨h1, h2⟩ := hI key r0 hmem (hst h)
            exact ⟨hr h1, ha h2⟩
          · exact hK key r0 hmem (hrc h) (hst hs)
        · have hmem := mem_of_lookup key r0 st hg
          have hne : v.get "Status" ≠ some (.str "approved") :=
            fun hs => hK key r0 hmem (hrc hm) (hst hs)
          exact ⟨fun h => absurd h hne, fun _ => hne⟩
      constructor
      · intro k r hmem
        rcases mem_putEntry_cases key v (k, r) st hmem with heq | hold
        · obtain ⟨rfl, rfl⟩ := Prod.mk.inj heq
          exact hv.1
        · exact hI k r hold
      · intro k r hmem
        rcases mem_putEntry_cases key v (k, r) st hmem with heq | hold
        · obtain ⟨rfl, rfl⟩ := Prod.mk.inj heq
          exact hv.2
        · exact hK k r hold
    · rw [admin_failed_state herr]
      exact ⟨hI, hK⟩

theorem plan_factories_invariant (st : Ledger) (h : AdminReachableOnOwnType st) :
    ∀ k r, (k, r) ∈ st → HasPrefix k "plan_" = true →
      r.get "Status" = some (.str "approved") →
      r.get "AllFactoriesApproved" = some (.bool true) := by
  induction h with
  | empty => exact fun k r h => absurd h (List.not_mem_nil _)
  | step st mspid now call hown _ ih =>
    by_cases herr : (call.invoke ⟨st, mspid, now⟩).err = none
    · obtain ⟨key, v, hres, hshape⟩ := approval_step call ⟨st, mspid, now⟩ herr
      rw [hres]
      intro k r hmem hp hs
      rcases mem_putEntry_cases key v (k, r) st hmem with heq | hold
      · obtain ⟨rfl, rfl⟩ := Prod.mk.inj heq
        rcases hshape with hne | ⟨_, _, _, hall⟩ | ⟨r0, hg, hst, _, _, _, hall⟩ |
          ⟨r0, hg, _, _, hnp⟩
        · exact absurd hs hne
        · exact hall hown hp
        · exact hall hown hp (ih k r0 (mem_of_lookup k r0 st hg) hp (hst hs))
        · rw [hnp hown] at hp; cases hp
      · exact ih k r hold hp hs
    · rw [admin_failed_state herr]
      exact ih

theorem isApproved_iff (r : Record) :
    r.isApproved = true ↔ r.get "Status" = some (.str "approved") := by
  unfold Record.isApproved
  exact beq_iff_eq

theorem isTrue_iff (r : Record) (k : String) :
    r.isTrue k = true ↔ r.get k = some (.bool true) := by
  unfold Record.isTrue
  exact beq_iff_eq

theorem members_reachable (st : Ledger) (h : AdminReachableByMembers st) : AdminReachable st := by
  induction h with
  | empty => exact AdminReachable.empty
  | step st mspid now call _ _ ih => exact AdminReachable.step st mspid now call ih

theorem adminLedgerPlanAsFactory_reachable :
    AdminReachableByMembers adminLedgerPlanAsFactory :=
  AdminReachableByMembers.step _ "Org1MSP" 42 (.setFactoryStatus "plan_1") (by decide)
    (AdminReachableByMembers.step _ "Org3MSP" 41 (.setPlanApproval "plan_1" true) (by decide)
      (AdminReachableByMembers.step _ "Org1MSP" 40 (.setPlanApproval "plan_1" true)
        (by decide)
        (AdminReachableByMembers.step _ "Org2MSP" 30
          (.createPlan 25 (some ["factory_1"]) "" "plan_1" false "" "order_1"
            "cut and sew") (by decide)
          (AdminReachableByMembers.step _ "Org2MSP" 20
            (.createFactory "Org2MSP" "" "factory_1" false "Dhaka" "Mill One" "" true 15)
            (by decide)
            (AdminReachableByMembers.step _ "Org1MSP" 10
              (.createOrder 5 100 "" "order_1" false "" "net30" "shirts" "Org2MSP" 1000)
              (by decide) AdminReachableByMembers.empty)))))

theorem adminLedgerPlanReencoded_reachable : AdminReachableByMembers adminLedgerPlanReencoded :=
  AdminReachableByMembers.step _ "Org1MSP" 43 (.setPlanApproval "plan_1" true) (by decide)
    adminLedgerPlanAsFactory_reachable

set_option maxRecDepth 100000 in
/-- C38 (counterexample): `plan_1` is approved by the retailer and the auditor
while its only factory `factory_1` is still pending, and `SetFactoryStatus` is
then invoked on the key `plan_1`. The state is reachable, the record under
`plan_1` has `Status` approved and no `AllFactoriesApproved` member; after one
more `SetPlanApproval` on `plan_1` the record is a plan with `Status` approved
and `AllFactoriesApproved` false. -/
theorem plan_key_approved_without_factories :
    AdminReachable adminLedgerPlanAsFactory ∧ AdminReachable adminLedgerPlanReencoded ∧
    storedFactoryStatus adminLedgerPlanAsFactory "factory_1" = some "pending" ∧
    (∃ r, GetState adminLedgerPlanAsFactory "plan_1" = some r ∧ r.isApproved = true ∧
      r.get "AllFactoriesApproved" = none ∧ r.isTrue "AllFactoriesApproved" = false) ∧
    (∃ r, GetState adminLedgerPlanReencoded "plan_1" = some r ∧ r.isApproved = true ∧
      r.get "AllFactoriesApproved" = some (.bool false) ∧
      r.isTrue "AllFactoriesApproved" = false) :=
  ⟨members_reachable _ adminLedgerPlanAsFactory_reachable,
    members_reachable _ adminLedgerPlanReencoded_reachable, by decide,
    ⟨_, rfl, by decide, by decide, by decide⟩, ⟨_, rfl, by decide, by decide, by decide⟩⟩

/-- C38 (amended): in every state the admin-channel contract reaches from the
empty ledger when every invoker has a non-empty MSP ID, every record whose
`Status` is approved has `IsRetailerApproved` and `IsAuditorApproved` true; and
in every state it reaches when each type-specific update is invoked on a key of
its own type, every such record stored under a key that starts with `plan_`
also has `AllFactoriesApproved` true. -/
theorem approved_records_have_approvals :
    (∀ st, AdminReachableByMembers st → ∀ k r, (k, r) ∈ st → r.isApproved = true →
      r.isTrue "IsRetailerApproved" = true ∧ r.isTrue "IsAuditorApproved" = true) ∧
    (∀ st, AdminReachableOnOwnType st → ∀ k r, (k, r) ∈ st →
      HasPrefix k "plan_" = true → r.isApproved = true →
      r.isTrue "AllFactoriesApproved" = true) := by
  constructor
  · intro st h k r hmem ha
    obtain ⟨h1, h2⟩ := (approvals_invariant st h).1 k r hmem ((isApproved_iff r).mp ha)
    exact ⟨(isTrue_iff r _).mpr h1, (isTrue_iff r _).mpr h2⟩
  · intro st h k r hmem hp ha
    exact (isTrue_iff r _).mpr
      (plan_factories_invariant st h k r hmem hp ((isApproved_iff r).mp ha))

/-! ## Instances at concrete inputs (ownership, listing, authorization, approvals) -/

set_option maxRecDepth 100000 in
/-- C32 at the accepted `order_1`: its receiver `Org2MSP` withdraws the
acceptance at time 48, and the stored order changes in `IsAccepted` and
`UpdatedAt` only. -/
theorem SetOrderAcceptance_iff_witness :
    GetState adminLedgerOrderAccepted "order_1" = some acceptedOrder.toJSON ∧
    acceptedOrder.toJSON.isJSON = true ∧
    UnmarshalOrder acceptedOrder.toJSON = .ok acceptedOrder ∧
    (SetOrderAcceptance ⟨adminLedgerOrderAccepted, "Org2MSP", 48⟩ "order_1" "plan_1"
      false).err = none ∧
    GetState (SetOrderAcceptance ⟨adminLedgerOrderAccepted, "Org2MSP", 48⟩ "order_1" "plan_1"
      false).state "order_1" =
      some ({ acceptedOrder with PlanID := "plan_1", IsAccepted := false,
                                 UpdatedAt := 48 } : Order).toJSON :=
  ⟨by decide, by decide, by decide,
   (SetOrderAcceptance_iff ⟨adminLedgerOrderAccepted, "Org2MSP", 48⟩ "order_1" "plan_1" false
      acceptedOrder.toJSON acceptedOrder (by decide) (by decide) (by decide)).1.mpr
      ⟨by decide, by decide, by decide, by decide⟩,
   (SetOrderAcceptance_iff ⟨adminLedgerOrderAccepted, "Org2MSP", 48⟩ "order_1" "plan_1" false
      acceptedOrder.toJSON acceptedOrder (by decide) (by decide) (by decide)).2.1 (by decide)⟩

set_option maxRecDepth 100000 in
/-- C33 at the `CreateLot` of the scenario: the lot is stored under `lot_1`, the
value under every other key is as it was, and `cottonbale_1` is still a key. -/
theorem write_frame_witness :
    (∀ k, k ≠ "lot_1" → GetState ledgerWithLot k = GetState ledgerWithBale k) ∧
    (GetState ledgerWithLot "cottonbale_1").isSome = true :=
  ⟨((write_frame
      (.production (.createLot 5 "cottonbale_" (some ["cottonbale_1"]) "Mill" "" "lot_1" false
        "" "Texas" "Org4MSP" 48)) ⟨ledgerWithBale, "Org4MSP", 20⟩).1 (by decide)).2,
   (write_frame
      (.production (.createLot 5 "cottonbale_" (some ["cottonbale_1"]) "Mill" "" "lot_1" false
        "" "Texas" "Org4MSP" 48)) ⟨ledgerWithBale, "Org4MSP", 20⟩).2 "cottonbale_1"
      (by decide)⟩

set_option maxRecDepth 100000 in
/-- C34 on the ledger that holds `cottonyarn_1`: the listing of the cotton yarns
returns the invalid-record-type error. -/
theorem typed_listing_fails_witness :
    "cottonyarn_" ∈ listedTypes ∧
    (GetState ledgerWithYarn "cottonyarn_1").isSome = true ∧
    GetAllAssetsOfType ⟨ledgerWithYarn, "Org4MSP", 50⟩ "cottonyarn_" =
      .error (.invalidRecordType "cottonyarn_") :=
  ⟨by decide, by decide,
   typed_listing_fails.1 ⟨ledgerWithYarn, "Org4MSP", 50⟩ "cottonyarn_" (by decide)
     ⟨("cottonyarn_1", (GetState ledgerWithYarn "cottonyarn_1").getD []), by decide,
       by decide⟩⟩

set_option maxRecDepth 100000 in
/-- C35 (amended) at `CreateCottonBale` of the new ID `cottonbale_2` by
`Org1MSP`, and at `SetOrderAcceptance` of `order_1` by `Org1MSP`, which is not
its receiver: both return the not-allowed-organization error. -/
theorem unauthorized_invoker_fails_witness :
    "Org1MSP" ∉ ["Org4MSP"] ∧
    CreateCottonBale ⟨ledgerWithBale, "Org1MSP", 20⟩ true 5 "" "cottonbale_2" false "" "Texas"
      "A" 50 = ⟨some (.notAllowedOrg "Org1MSP" ["Org4MSP"]), ledgerWithBale⟩ ∧
    SetOrderAcceptance ⟨adminLedgerOrderAccepted, "Org1MSP", 48⟩ "order_1" "plan_1" false =
      ⟨some (.notAllowedOrg "Org1MSP" ["Org2MSP"]), adminLedgerOrderAccepted⟩ :=
  ⟨by decide,
   (unauthorized_invoker_fails.1
      (.production (.createCottonBale true 5 "" "cottonbale_2" false "" "Texas" "A" 50))
      ⟨ledgerWithBale, "Org1MSP", 20⟩ ["Org4MSP"] rfl (by decide)).2.2.1
      "cottonbale_2" "cottonbale_" rfl (by decide) (by decide),
   unauthorized_invoker_fails.2 ⟨adminLedgerOrderAccepted, "Org1MSP", 48⟩ "order_1" "plan_1"
     false acceptedOrder.toJSON acceptedOrder (by decide) (by decide) (by decide)⟩

set_option maxRecDepth 100000 in
/-- The check of the lot consumers at the `CreateCottonYarn` of the scenario:
it succeeds, and the record under `lot_1` has a `Content` of cotton bale IDs. -/
theorem lot_consumers_check_content_witness :
    (CreateCottonYarn ⟨ledgerWithLot, "Org4MSP", 30⟩ true 25 (some ["lot_1"]) ""
      "cottonyarn_1" false "" "Texas" 45 30).err = none ∧
    ∃ r l, GetState ledgerWithLot "lot_1" = some r ∧ r.get "Content" = some (.strs l) ∧
      ∀ c ∈ l, HasPrefix c "cottonbale_" = true :=
  ⟨by decide,
   lot_consumers_check_content.1 ⟨ledgerWithLot, "Org4MSP", 30⟩ true 25 (some ["lot_1"]) ""
     "cottonyarn_1" false "" "Texas" 45 30 (by decide) "lot_1" (by decide)⟩

set_option maxRecDepth 100000 in
/-- C37 at the two lots of the scenario: the content of `lot_1` has no
duplicate, and its bale is not in `lot_2`. -/
theorem lots_disjoint_and_duplicate_free_witness :
    ProductionReachable ledgerWithTwoLots ∧
    (Record.content ((GetState ledgerWithTwoLots "lot_1").getD [])).Nodup ∧
    "cottonbale_1" ∈ Record.content ((GetState ledgerWithTwoLots "lot_1").getD []) ∧
    "cottonbale_1" ∉ Record.content ((GetState ledgerWithTwoLots "lot_2").getD []) :=
  ⟨ledgerWithTwoLots_reachable,
   (lots_disjoint_and_duplicate_free ledgerWithTwoLots ledgerWithTwoLots_reachable).2.2 "lot_1"
     ((GetState ledgerWithTwoLots "lot_1").getD []) (by decide) (by decide),
   by decide,
   (lots_disjoint_and_duplicate_free ledgerWithTwoLots ledgerWithTwoLots_reachable).2.1 "lot_1"
     ((GetState ledgerWithTwoLots "lot_1").getD []) "lot_2"
     ((GetState ledgerWithTwoLots "lot_2").getD []) (by decide) (by decide) (by decide)
     (by decide) (by decide) "cottonbale_1" (by decide)⟩

set_option maxRecDepth 100000 in
/-- C38 (amended) at the approved `plan_1` of the scenario, and at the record
that `SetFactoryStatus` wrote under `plan_1`: both approvals are true, and the
plan approved by `SetPlanStatus` has `AllFactoriesApproved` true. -/
theorem approved_records_have_approvals_witness :
    Record.isApproved ((GetState adminLedgerPlanAsFactory "plan_1").getD []) = true ∧
    (Record.isTrue ((GetState adminLedgerPlanAsFactory "plan_1").getD [])
        "IsRetailerApproved" = true ∧
      Record.isTrue ((GetState adminLedgerPlanAsFactory "plan_1").getD [])
        "IsAuditorApproved" = true) ∧
    Record.isApproved ((GetState adminLedgerOrderDecided "plan_1").getD []) = true ∧
    Record.isTrue ((GetState adminLedgerOrderDecided "plan_1").getD [])
      "AllFactoriesApproved" = true :=
  ⟨by decide,
   approved_records_have_approvals.1 adminLedgerPlanAsFactory
     adminLedgerPlanAsFactory_reachable "plan_1"
     ((GetState adminLedgerPlanAsFactory "plan_1").getD []) (by decide) (by decide),
   by decide,
   approved_records_have_approvals.2 adminLedgerOrderDecided adminLedgerOrderDecided_reachable
     "plan_1" ((GetState adminLedgerOrderDecided "plan_1").getD []) (by decide) (by decide)
     (by decide)⟩

set_option maxRecDepth 100000 in
/-- C39 at the `CreateLot` of the scenario, invoked by `Org4MSP` with the
`owner` argument `Org1MSP`: the stored lot is owned by `Org4MSP`. -/
theorem CreateLot_stored_fields_witness :
    (CreateLot ⟨ledgerWithBale, "Org4MSP", 20⟩ 5 "cottonbale_" (some ["cottonbale_1"]) "Mill" ""
      "lot_1" false "" "Texas" "Org1MSP" 48).err = none ∧
    ∃ lot, GetState (CreateLot ⟨ledgerWithBale, "Org4MSP", 20⟩ 5 "cottonbale_"
        (some ["cottonbale_1"]) "Mill" "" "lot_1" false "" "Texas" "Org1MSP" 48).state
        "lot_1" = some lot ∧
      lot.get "Owner" = some (.str "Org4MSP") ∧
      lot.get "CreatorID" = some (.str "Org4MSP") ∧
      lot.get "Quantity" = some (.int 1) ∧
      lot.get "AssetIDPrefix" = some (.str "cottonbale_") ∧
      lot.get "AllAssetsApproved" = some (.bool true) :=
  ⟨by decide,
   CreateLot_stored_fields ⟨ledgerWithBale, "Org4MSP", 20⟩ 5 "cottonbale_"
     (some ["cottonbale_1"]) "Mill" "" "lot_1" false "" "Texas" "Org1MSP" 48 (by decide)⟩

end Weave
